import Mathlib

/-!
NFC_reader: record layout, address translation and tag synchronisation

A shallow embedding of `src/NFC_reader.c` / `src/NFC_reader.h`.

* Machine integers are natural numbers; wrap-around is written out with an
  explicit modulus (`% 256` for `uint8_t`, `% 65536` for `uint16_t`,
  `% SIZE_T` for `size_t`, 32 bits on the ESP32 target of the library).
* The packed structure `TRecipeInfo` is its 16 bytes of storage (the code reads
  and writes it through `uint8_t *`); its fields are read at the offsets the
  packed declaration fixes, little-endian as on the target.
* `sRecipeStep` is `none` for `NULL` and otherwise the bytes of the allocated
  array.  A read outside the allocation (undefined in C) gives `0` here and a
  write outside it is dropped; every theorem that depends on array contents
  assumes an array of `3 * RecipeSteps` bytes.
* In `TCardInfo` the 7 bytes of `sUid` are followed by `sUidLength` and the three
  flags, one byte each.  `NFC_saveUID` stores without a bound, and its stores
  past `sUid` are kept: they land on those fields (`storeUidByte`).
* The PN532 driver (`pn532.h`), `malloc` and the contents of uninitialised
  automatic storage are not part of the library: they are the fields of `Env`,
  acting on an arbitrary world state.  Both read primitives fill the 16-byte
  buffer `iData` the code hands them; the tags below store a 16-byte block per
  Mifare Classic block number and a 4-byte page per Mifare Ultralight page
  number, a page read handing back the four pages from the addressed one on
  (the code reads page `i * 4 + 8` and uses `iData[0..15]`).
* `NFC_WriteStructRange` and `NFC_WriteStruct` call each other; the embedding
  bounds the depth of these calls by a number and yields `none` when it is
  exhausted.  Depth 2 is never exhausted (`NFC_WriteStructRange_valid_code`).
-/

/-! ## Constants -/

abbrev OFFSETDATA_ULTRALIGHT : Nat := 8
abbrev OFFSETDATA_CLASSIC : Nat := 1
abbrev PAGESIZE_ULTRALIGHT : Nat := 4
abbrev PAGESIZE_CLASSIC : Nat := 16
abbrev MAXERRORREADING : Nat := 5

/-- `sizeof(TRecipeInfo)` for the packed layout 1 + 2 + 4 + 1 + 1 + 4 + 1 + 2. -/
abbrev TRecipeInfo_Size : Nat := 16
/-- `sizeof(TRecipeStep)` for the packed layout 1 + 1 + 1. -/
abbrev TRecipeStep_Size : Nat := 3
/-- Number of values of `size_t` (32 bits). -/
abbrev SIZE_T : Nat := 4294967296

/-! ## Data model -/

/-- The record `TCardInfo`. -/
structure TCardInfo where
  /-- the 16 bytes of the packed `TRecipeInfo` -/
  sRecipeInfo : List Nat
  /-- `NULL`, or the bytes of the allocated `TRecipeStep` array -/
  sRecipeStep : Option (List Nat)
  sUid : List Nat
  sUidLength : Nat
  TRecipeInfoLoaded : Bool
  TRecipeStepArrayCreated : Bool
  TRecipeStepLoaded : Bool
deriving DecidableEq

/-- Byte `j` of the header: `*(((uint8_t *)&aCardInfo->sRecipeInfo) + j)`. -/
def infoByte (c : TCardInfo) (j : Nat) : Nat := c.sRecipeInfo.getD j 0

/-- Byte `j` of the step array: `*(((uint8_t *)aCardInfo->sRecipeStep) + j)`. -/
def stepByte (c : TCardInfo) (j : Nat) : Nat :=
  match c.sRecipeStep with
  | some a => a.getD j 0
  | none => 0

/-- Store to byte `j` of the header. -/
def setInfoByte (c : TCardInfo) (j v : Nat) : TCardInfo :=
  { c with sRecipeInfo := c.sRecipeInfo.set j v }

/-- Store to byte `j` of the step array. -/
def setStepByte (c : TCardInfo) (j v : Nat) : TCardInfo :=
  { c with sRecipeStep := c.sRecipeStep.map (fun a => a.set j v) }

/-- Field `NumOfDrinks` (`uint32_t` at offset 3). -/
def NumOfDrinks (c : TCardInfo) : Nat :=
  infoByte c 3 + 256 * infoByte c 4 + 65536 * infoByte c 5 + 16777216 * infoByte c 6

/-- Field `RecipeSteps` (`uint8_t` at offset 7). -/
def RecipeSteps (c : TCardInfo) : Nat := infoByte c 7

/-- Field `CheckSum` (`uint16_t` at offset 14). -/
def CheckSum (c : TCardInfo) : Nat := infoByte c 14 + 256 * infoByte c 15

/-- Assignment `aCardInfo->sRecipeInfo.CheckSum = v`. -/
def setCheckSum (c : TCardInfo) (v : Nat) : TCardInfo :=
  setInfoByte (setInfoByte c 14 (v % 256)) 15 (v / 256 % 256)

/-- Assignment `aCardInfo->sRecipeInfo.RecipeSteps = v`. -/
def setRecipeSteps (c : TCardInfo) (v : Nat) : TCardInfo :=
  setInfoByte c 7 (v % 256)

/-! ## Address translator -/

/-- The loop of `NFC_GetMifareClassicIndex`: `n` remaining iterations on the
running `size_t number`. -/
def mifareClassicLoop : Nat → Nat → Nat
  | 0, number => number
  | n + 1, number =>
    let number := (number + 1) % SIZE_T
    let number := if number % 4 = 0 then (number + 1) % SIZE_T else number
    mifareClassicLoop n number

/-- `uint8_t NFC_GetMifareClassicIndex(size_t i)`. -/
def NFC_GetMifareClassicIndex (i : Nat) : Nat :=
  ((mifareClassicLoop i (1 + OFFSETDATA_CLASSIC) + SIZE_T - 1) % SIZE_T) % 256

/-! ## Checksum engine -/

/-- One iteration of the loop of `NFC_GetCheckSum`:
`CheckSum += byte * (i % 4 + 1)` on a `uint16_t`. -/
def checkSumStep (c : TCardInfo) (CheckSum i : Nat) : Nat :=
  (CheckSum + stepByte c i * (i % 4 + 1)) % 65536

/-- `uint16_t NFC_GetCheckSum(TCardInfo aCardInfo)`. -/
def NFC_GetCheckSum (c : TCardInfo) : Nat :=
  if NumOfDrinks c = 0 then 0
  else (List.range (TRecipeStep_Size * RecipeSteps c)).foldl (checkSumStep c) 0

/-! ## Environment -/

/-- What the library calls but does not define, acting on a world state `σ`:
the PN532 driver primitives, `malloc`, and the indeterminate contents of
uninitialised automatic storage. -/
structure Env (σ : Type) where
  /-- `pn532_readPassiveTargetID(aNFC, PN532_MIFARE_ISO14443A, iuid, &iuidLength, MAXTIMEOUT)`:
  `none` when the result is not 1, otherwise the UID buffer and the UID length. -/
  pn532_readPassiveTargetID : σ → Option (List Nat × Nat) × σ
  /-- `pn532_mifareclassic_AuthenticateBlock(aNFC, iuid, iuidLength, index, 1, keyuniversal)`:
  whether the result is non-zero. -/
  pn532_mifareclassic_AuthenticateBlock : List Nat → Nat → Nat → σ → Bool × σ
  /-- `pn532_mifareclassic_ReadDataBlock(aNFC, index, iData)`: `none` when the
  result is 0, otherwise the 16-byte buffer `iData`. -/
  pn532_mifareclassic_ReadDataBlock : Nat → σ → Option (List Nat) × σ
  /-- `pn532_mifareclassic_WriteDataBlock(aNFC, index, iData)`: whether the result is non-zero. -/
  pn532_mifareclassic_WriteDataBlock : Nat → List Nat → σ → Bool × σ
  /-- `pn532_mifareultralight_ReadPage(aNFC, page, iData)`: `none` when the
  result is 0, otherwise the 16-byte buffer `iData`. -/
  pn532_mifareultralight_ReadPage : Nat → σ → Option (List Nat) × σ
  /-- `pn532_mifareultralight_WritePage(aNFC, page, iData)`: whether the result is non-zero. -/
  pn532_mifareultralight_WritePage : Nat → List Nat → σ → Bool × σ
  /-- `malloc(size)`: `none` for `NULL`, otherwise the indeterminate initial
  contents of the block, by offset. -/
  malloc : Nat → σ → Option (Nat → Nat) × σ
  /-- The indeterminate bytes of an uninitialised local `TCardInfo`, by offset. -/
  uninit : σ → Nat → Nat

/-! ## Loops -/

/-- The loop `for (k = k0; k < k0 + n; ++k) body`, whose body yields the new
state and `false` when it ended in `break`. -/
def forBreak {α : Type} (body : Nat → α → α × Bool) : Nat → Nat → α → α
  | 0, _, s => s
  | n + 1, k, s =>
    match body k s with
    | (s1, true) => forBreak body n (k + 1) s1
    | (s1, false) => s1

/-- The retry loop `for (i = 0; i < n; ++i) { Error = f(...); if (stop Error) break; after }`
with the current value `Error`; it yields the last `Error`. -/
def retry {σ : Type} (stop : Nat → Bool) (f : TCardInfo → σ → Nat × TCardInfo × σ)
    (after : TCardInfo → TCardInfo) : Nat → Nat → TCardInfo → σ → Nat × TCardInfo × σ
  | 0, Error, c, w => (Error, c, w)
  | n + 1, _, c, w =>
    match f c w with
    | (Error, c1, w1) =>
      if stop Error then (Error, c1, w1) else retry stop f after n Error (after c1) w1

/-- The retry loop around a call that is itself bounded by a recursion depth
(`none`: depth exhausted). -/
def retryOpt {σ : Type} (stop : Nat → Bool)
    (f : TCardInfo → σ → Option (Nat × TCardInfo × σ)) :
    Nat → Nat → TCardInfo → σ → Option (Nat × TCardInfo × σ)
  | 0, Error, c, w => some (Error, c, w)
  | n + 1, _, c, w =>
    match f c w with
    | none => none
    | some (Error, c1, w1) =>
      if stop Error then some (Error, c1, w1) else retryOpt stop f n Error c1 w1

/-! ## Step array store -/

/-- `void NFC_InitTCardInfo(TCardInfo *aCardInfo)`. -/
def NFC_InitTCardInfo (c : TCardInfo) : TCardInfo :=
  { c with
    sRecipeStep := none
    TRecipeInfoLoaded := false
    TRecipeStepArrayCreated := false
    TRecipeStepLoaded := false
    sUidLength := 7
    sUid := (List.range 7).foldl (fun u i => u.set i 0) c.sUid }

/-- `uint8_t NFC_AllocTRecipeStepArray(TCardInfo *aCardInfo)`. -/
def NFC_AllocTRecipeStepArray {σ : Type} (d : Env σ) (c : TCardInfo) (w : σ) :
    Nat × TCardInfo × σ :=
  if !c.TRecipeInfoLoaded then (2, c, w)
  else if c.TRecipeStepArrayCreated then (1, c, w)
  else
    match d.malloc (TRecipeStep_Size * RecipeSteps c) w with
    | (none, w1) => (3, { c with sRecipeStep := none }, w1)
    | (some g, w1) =>
      (0, { c with
            sRecipeStep := some ((List.range (TRecipeStep_Size * RecipeSteps c)).map g)
            TRecipeStepArrayCreated := true }, w1)

/-- `uint8_t NFC_DeAllocTRecipeStepArray(TCardInfo *aCardInfo)`. -/
def NFC_DeAllocTRecipeStepArray (c : TCardInfo) : Nat × TCardInfo :=
  match c.sRecipeStep with
  | none => (1, c)
  | some _ =>
    (0, { c with sRecipeStep := none, TRecipeStepArrayCreated := false,
                 TRecipeStepLoaded := false })

/-- The inner loop of `NFC_ChangeRecipeStepsSize` (over `j`), filling entry `i`
of the new block. -/
def fillEntry (c : TCardInfo) (i : Nat) (NoveRecepty : List Nat) : List Nat :=
  (List.range TRecipeStep_Size).foldl (fun a j =>
    if i < RecipeSteps c then
      a.set (i * TRecipeStep_Size + j) (stepByte c (i * TRecipeStep_Size + j))
    else a.set (i * TRecipeStep_Size + j) 0) NoveRecepty

/-- The outer loop of `NFC_ChangeRecipeStepsSize` (over `i`), filling the new
block `NoveRecepty` of `NewSize` entries. -/
def fillNoveRecepty (c : TCardInfo) (NewSize : Nat) (NoveRecepty : List Nat) : List Nat :=
  (List.range NewSize).foldl (fun a i => fillEntry c i a) NoveRecepty

/-- The loop `for (i = 0; i < n; ++i) *((uint8_t *)aCardInfo->sRecipeStep + i) = 0`. -/
def zeroSteps (c : TCardInfo) (n : Nat) : TCardInfo :=
  (List.range n).foldl (fun c i => setStepByte c i 0) c

/-- `uint8_t NFC_ChangeRecipeStepsSize(TCardInfo *aCardInfo, uint8_t NewSize)`. -/
def NFC_ChangeRecipeStepsSize {σ : Type} (d : Env σ) (c : TCardInfo) (NewSize : Nat) (w : σ) :
    Nat × TCardInfo × σ :=
  if c.TRecipeInfoLoaded = false then (1, c, w)
  else if NewSize = RecipeSteps c then (0, c, w)
  else if c.TRecipeStepArrayCreated then
    match d.malloc (TRecipeStep_Size * NewSize) w with
    | (none, w1) => (2, c, w1)
    | (some g, w1) =>
      let NoveRecepty :=
        fillNoveRecepty c NewSize ((List.range (TRecipeStep_Size * NewSize)).map g)
      let c1 := (NFC_DeAllocTRecipeStepArray c).2
      let c2 := { c1 with sRecipeStep := some NoveRecepty, TRecipeStepArrayCreated := true,
                          TRecipeStepLoaded := true }
      (0, setRecipeSteps c2 NewSize, w1)
  else
    let c1 := setRecipeSteps c NewSize
    match retry (fun Error => Error == 0) (NFC_AllocTRecipeStepArray d)
        (fun c => (NFC_DeAllocTRecipeStepArray c).2) MAXERRORREADING 0 c1 w with
    | (0, c2, w2) => (0, zeroSteps c2 (TRecipeStep_Size * RecipeSteps c2), w2)
    | (2, c2, w2) => (1, c2, w2)
    | (3, c2, w2) => (2, c2, w2)
    | (_, c2, w2) => (20, c2, w2)

/-- A sample record: usage counter 10, three steps, stale checksum field. -/
def sampleCard : TCardInfo :=
  { sRecipeInfo := [1, 2, 0, 10, 0, 0, 0, 3, 0, 5, 0, 0, 0, 0, 0, 0]
    sRecipeStep := some [1, 2, 3, 4, 5, 6, 7, 8, 9]
    sUid := [0, 0, 0, 0, 0, 0, 0]
    sUidLength := 7
    TRecipeInfoLoaded := true
    TRecipeStepArrayCreated := true
    TRecipeStepLoaded := true }

/-- The sample record with usage counter 0. -/
def sampleCardUnused : TCardInfo :=
  { sampleCard with sRecipeInfo := [1, 2, 0, 0, 0, 0, 0, 3, 0, 5, 0, 0, 0, 0, 0, 0] }

/-! ## Sync engine: read path -/

/-- The copy loop of `NFC_LoadTRecipeInfoStructure` for unit `i`:
`for (k = 0; k < 16; ++k) if (k + i * 16 < TRecipeInfo_Size) info[k + i * 16] = iData[k]; else break;` -/
def loadInfoBytes (iData : List Nat) (i : Nat) (c : TCardInfo) : TCardInfo :=
  forBreak (fun k c =>
    if k + i * PAGESIZE_CLASSIC < TRecipeInfo_Size then
      (setInfoByte c (k + i * PAGESIZE_CLASSIC) (iData.getD k 0), true)
    else (c, false)) PAGESIZE_CLASSIC 0 c

/-- The unit loop of `NFC_LoadTRecipeInfoStructure` on a Mifare Classic tag:
`n` remaining units from unit `i`; `some code` is an early `return code`. -/
def loadInfoClassic {σ : Type} (d : Env σ) (iuid : List Nat) (iuidLength : Nat) :
    Nat → Nat → TCardInfo → σ → Option Nat × TCardInfo × σ
  | 0, _, c, w => (none, c, w)
  | n + 1, i, c, w =>
    let index := NFC_GetMifareClassicIndex i
    match d.pn532_mifareclassic_AuthenticateBlock iuid iuidLength index w with
    | (true, w1) =>
      match d.pn532_mifareclassic_ReadDataBlock index w1 with
      | (some iData, w2) => loadInfoClassic d iuid iuidLength n (i + 1) (loadInfoBytes iData i c) w2
      | (none, w2) => (some 2, c, w2)
    | (false, w1) => (some 3, c, w1)

/-- The unit loop of `NFC_LoadTRecipeInfoStructure` on a Mifare Ultralight tag. -/
def loadInfoUltralight {σ : Type} (d : Env σ) :
    Nat → Nat → TCardInfo → σ → Option Nat × TCardInfo × σ
  | 0, _, c, w => (none, c, w)
  | n + 1, i, c, w =>
    match d.pn532_mifareultralight_ReadPage (i * 4 + OFFSETDATA_ULTRALIGHT) w with
    | (some iData, w1) => loadInfoUltralight d n (i + 1) (loadInfoBytes iData i c) w1
    | (none, w1) => (some 2, c, w1)

/-- `uint8_t NFC_LoadTRecipeInfoStructure(pn532_t *aNFC, TCardInfo *aCardInfo)`. -/
def NFC_LoadTRecipeInfoStructure {σ : Type} (d : Env σ) (c : TCardInfo) (w : σ) :
    Nat × TCardInfo × σ :=
  match d.pn532_readPassiveTargetID w with
  | (some (iuid, iuidLength), w1) =>
    if iuidLength = 4 then
      let PosledniBunka := (TRecipeInfo_Size - 1) / PAGESIZE_CLASSIC
      match loadInfoClassic d iuid iuidLength (PosledniBunka + 1) 0 c w1 with
      | (some code, c2, w2) => (code, c2, w2)
      | (none, c2, w2) => (0, { c2 with TRecipeInfoLoaded := true }, w2)
    else if iuidLength = 7 then
      let PosledniBunka := (TRecipeInfo_Size - 1) / 16
      match loadInfoUltralight d (PosledniBunka + 1) 0 c w1 with
      | (some code, c2, w2) => (code, c2, w2)
      | (none, c2, w2) => (0, { c2 with TRecipeInfoLoaded := true }, w2)
    else (0, { c with TRecipeInfoLoaded := true }, w1)
  | (none, w1) => (2, c, w1)

/-- The copy loop of `NFC_LoadTRecipeSteps` for unit `i` (the same text in both
geometry branches). -/
def loadStepsBytes (iData : List Nat) (i PrvniBunka Posun : Nat) (c : TCardInfo) : TCardInfo :=
  forBreak (fun k c =>
    if k + i * PAGESIZE_CLASSIC < TRecipeInfo_Size + RecipeSteps c * TRecipeStep_Size then
      if i = PrvniBunka then
        if k + Posun = PAGESIZE_CLASSIC then (c, false)
        else
          (setStepByte c (k + (i - PrvniBunka) * PAGESIZE_CLASSIC) (iData.getD (k + Posun) 0),
            true)
      else
        (setStepByte c (k + (i - PrvniBunka) * PAGESIZE_CLASSIC - Posun) (iData.getD k 0), true)
    else (c, false)) PAGESIZE_CLASSIC 0 c

/-- The unit loop of `NFC_LoadTRecipeSteps` on a Mifare Classic tag. -/
def loadStepsClassic {σ : Type} (d : Env σ) (iuid : List Nat) (iuidLength : Nat)
    (PrvniBunka Posun : Nat) : Nat → Nat → TCardInfo → σ → Option Nat × TCardInfo × σ
  | 0, _, c, w => (none, c, w)
  | n + 1, i, c, w =>
    let index := NFC_GetMifareClassicIndex i
    match d.pn532_mifareclassic_AuthenticateBlock iuid iuidLength index w with
    | (true, w1) =>
      match d.pn532_mifareclassic_ReadDataBlock index w1 with
      | (some iData, w2) =>
        loadStepsClassic d iuid iuidLength PrvniBunka Posun n (i + 1)
          (loadStepsBytes iData i PrvniBunka Posun c) w2
      | (none, w2) => (some 2, c, w2)
    | (false, w1) => (some 3, c, w1)

/-- The unit loop of `NFC_LoadTRecipeSteps` on a Mifare Ultralight tag. -/
def loadStepsUltralight {σ : Type} (d : Env σ) (PrvniBunka Posun : Nat) :
    Nat → Nat → TCardInfo → σ → Option Nat × TCardInfo × σ
  | 0, _, c, w => (none, c, w)
  | n + 1, i, c, w =>
    match d.pn532_mifareultralight_ReadPage (i * 4 + OFFSETDATA_ULTRALIGHT) w with
    | (some iData, w1) =>
      loadStepsUltralight d PrvniBunka Posun n (i + 1)
        (loadStepsBytes iData i PrvniBunka Posun c) w1
    | (none, w1) => (some 2, c, w1)

/-- `uint8_t NFC_LoadTRecipeSteps(pn532_t *aNFC, TCardInfo *aCardInfo)`. -/
def NFC_LoadTRecipeSteps {σ : Type} (d : Env σ) (c : TCardInfo) (w : σ) :
    Nat × TCardInfo × σ :=
  if !c.TRecipeStepArrayCreated then (4, c, w)
  else
    match d.pn532_readPassiveTargetID w with
    | (some (iuid, iuidLength), w1) =>
      let zacatek := TRecipeInfo_Size
      let konec := TRecipeInfo_Size + RecipeSteps c * TRecipeStep_Size - 1
      let PrvniBunka := zacatek / PAGESIZE_CLASSIC
      let PosledniBunka := konec / PAGESIZE_CLASSIC
      let Posun := zacatek % PAGESIZE_CLASSIC
      if iuidLength = 4 then
        match loadStepsClassic d iuid iuidLength PrvniBunka Posun
            (PosledniBunka + 1 - PrvniBunka) PrvniBunka c w1 with
        | (some code, c2, w2) => (code, c2, w2)
        | (none, c2, w2) => (0, { c2 with TRecipeStepLoaded := true }, w2)
      else if iuidLength = 7 then
        match loadStepsUltralight d PrvniBunka Posun
            (PosledniBunka + 1 - PrvniBunka) PrvniBunka c w1 with
        | (some code, c2, w2) => (code, c2, w2)
        | (none, c2, w2) => (0, { c2 with TRecipeStepLoaded := true }, w2)
      else (0, { c with TRecipeStepLoaded := true }, w1)
    | (none, w1) => (2, c, w1)

/-- The copy loop of `NFC_LoadTRecipeStep` for unit `i` (the same text in both
geometry branches), on the record and the running `DataCounter`. -/
def loadStepBytes (iData : List Nat) (i PrvniBunka Posun konec NumOfStructure : Nat)
    (s : TCardInfo × Nat) : TCardInfo × Nat :=
  forBreak (fun k (s : TCardInfo × Nat) =>
    if k + i * PAGESIZE_CLASSIC < konec + 1 then
      if i = PrvniBunka then
        if k + Posun = PAGESIZE_CLASSIC then (s, false)
        else
          let c := setStepByte s.1
            (k + (i - PrvniBunka) * PAGESIZE_CLASSIC + NumOfStructure * TRecipeStep_Size)
            (iData.getD (k + Posun) 0)
          ((c, s.2 + 1), !(s.2 + 1 == TRecipeStep_Size))
      else
        let c := setStepByte s.1
          (k + (i - PrvniBunka) * PAGESIZE_CLASSIC + NumOfStructure * TRecipeStep_Size - Posun)
          (iData.getD k 0)
        ((c, s.2 + 1), !(s.2 + 1 == TRecipeStep_Size))
    else (s, false)) PAGESIZE_CLASSIC 0 s

/-- The unit loop of `NFC_LoadTRecipeStep` on a Mifare Classic tag. -/
def loadStepClassic {σ : Type} (d : Env σ) (iuid : List Nat) (iuidLength : Nat)
    (PrvniBunka Posun konec NumOfStructure : Nat) :
    Nat → Nat → TCardInfo × Nat → σ → Option Nat × (TCardInfo × Nat) × σ
  | 0, _, s, w => (none, s, w)
  | n + 1, i, s, w =>
    let index := NFC_GetMifareClassicIndex i
    match d.pn532_mifareclassic_AuthenticateBlock iuid iuidLength index w with
    | (true, w1) =>
      match d.pn532_mifareclassic_ReadDataBlock index w1 with
      | (some iData, w2) =>
        loadStepClassic d iuid iuidLength PrvniBunka Posun konec NumOfStructure n (i + 1)
          (loadStepBytes iData i PrvniBunka Posun konec NumOfStructure s) w2
      | (none, w2) => (some 2, s, w2)
    | (false, w1) => (some 3, s, w1)

/-- The unit loop of `NFC_LoadTRecipeStep` on a Mifare Ultralight tag. -/
def loadStepUltralight {σ : Type} (d : Env σ) (PrvniBunka Posun konec NumOfStructure : Nat) :
    Nat → Nat → TCardInfo × Nat → σ → Option Nat × (TCardInfo × Nat) × σ
  | 0, _, s, w => (none, s, w)
  | n + 1, i, s, w =>
    match d.pn532_mifareultralight_ReadPage (i * 4 + OFFSETDATA_ULTRALIGHT) w with
    | (some iData, w1) =>
      loadStepUltralight d PrvniBunka Posun konec NumOfStructure n (i + 1)
        (loadStepBytes iData i PrvniBunka Posun konec NumOfStructure s) w1
    | (none, w1) => (some 2, s, w1)

/-- `uint8_t NFC_LoadTRecipeStep(pn532_t *aNFC, TCardInfo *aCardInfo, size_t NumOfStructure)`. -/
def NFC_LoadTRecipeStep {σ : Type} (d : Env σ) (c : TCardInfo) (NumOfStructure : Nat) (w : σ) :
    Nat × TCardInfo × σ :=
  if !c.TRecipeStepArrayCreated then (4, c, w)
  else if NumOfStructure ≥ RecipeSteps c then (5, c, w)
  else
    match d.pn532_readPassiveTargetID w with
    | (some (iuid, iuidLength), w1) =>
      let zacatek := TRecipeInfo_Size + NumOfStructure * TRecipeStep_Size
      let konec := zacatek + TRecipeStep_Size - 1
      let PrvniBunka := zacatek / PAGESIZE_CLASSIC
      let PosledniBunka := konec / PAGESIZE_CLASSIC
      let Posun := zacatek % PAGESIZE_CLASSIC
      if iuidLength = 4 then
        match loadStepClassic d iuid iuidLength PrvniBunka Posun konec NumOfStructure
            (PosledniBunka + 1 - PrvniBunka) PrvniBunka (c, 0) w1 with
        | (some code, s2, w2) => (code, s2.1, w2)
        | (none, s2, w2) => (0, { s2.1 with TRecipeStepLoaded := true }, w2)
      else if iuidLength = 7 then
        match loadStepUltralight d PrvniBunka Posun konec NumOfStructure
            (PosledniBunka + 1 - PrvniBunka) PrvniBunka (c, 0) w1 with
        | (some code, s2, w2) => (code, s2.1, w2)
        | (none, s2, w2) => (0, { s2.1 with TRecipeStepLoaded := true }, w2)
      else (0, { c with TRecipeStepLoaded := true }, w1)
    | (none, w1) => (2, c, w1)

/-- `uint8_t NFC_LoadAllData(pn532_t *aNFC, TCardInfo *aCardInfo)`. -/
def NFC_LoadAllData {σ : Type} (d : Env σ) (c : TCardInfo) (w : σ) : Nat × TCardInfo × σ :=
  let c0 := if c.TRecipeStepArrayCreated then (NFC_DeAllocTRecipeStepArray c).2 else c
  match retry (fun Error => Error == 0)
      (fun c w => NFC_LoadTRecipeInfoStructure d (NFC_InitTCardInfo c) w) id
      MAXERRORREADING 0 c0 w with
  | (2, c1, w1) => (1, c1, w1)
  | (3, c1, w1) => (2, c1, w1)
  | (0, c1, w1) =>
    match retry (fun Error => Error == 0) (NFC_AllocTRecipeStepArray d)
        (fun c => (NFC_DeAllocTRecipeStepArray c).2) MAXERRORREADING 0 c1 w1 with
    | (2, c2, w2) => (3, c2, w2)
    | (3, c2, w2) => (4, c2, w2)
    | (0, c2, w2) =>
      match retry (fun Error => Error == 0) (NFC_LoadTRecipeSteps d) id
          MAXERRORREADING 0 c2 w2 with
      | (0, c3, w3) => (0, c3, w3)
      | (2, c3, w3) => (1, c3, w3)
      | (3, c3, w3) => (2, c3, w3)
      | (4, c3, w3) => (5, c3, w3)
      | (_, c3, w3) => (20, c3, w3)
    | (_, c2, w2) => (20, c2, w2)
  | (_, c1, w1) => (20, c1, w1)

/-! ## Sync engine: write path -/

/-- The byte the write loops put at logical position `p` of the record:
a header byte, a step-array byte, or the padding 0. -/
def payloadByte (c : TCardInfo) (p : Nat) : Nat :=
  if p < TRecipeInfo_Size then infoByte c p
  else if p < TRecipeInfo_Size + RecipeSteps c * TRecipeStep_Size then
    stepByte c (p - TRecipeInfo_Size)
  else 0

/-- The buffer `iData` assembled for unit `i` of size `U`:
`for (k = 0; k < U; k++) iData[k] = ...` at position `i * U + k`. -/
def unitPayload (c : TCardInfo) (U i : Nat) : List Nat :=
  (List.range U).map (fun k => payloadByte c (i * U + k))

/-- The unit loop of `NFC_WriteStructRange` on a Mifare Classic tag: `n`
remaining units from unit `i`; `some 3` is the early `return 3`.  The result
`Zapsano` of the write primitive is not looked at. -/
def writeUnitsClassic {σ : Type} (d : Env σ) (c : TCardInfo) (iuid : List Nat)
    (iuidLength : Nat) : Nat → Nat → σ → Option Nat × σ
  | 0, _, w => (none, w)
  | n + 1, i, w =>
    let iData := unitPayload c PAGESIZE_CLASSIC i
    let index := NFC_GetMifareClassicIndex i
    match d.pn532_mifareclassic_AuthenticateBlock iuid iuidLength index w with
    | (true, w1) =>
      writeUnitsClassic d c iuid iuidLength n (i + 1)
        (d.pn532_mifareclassic_WriteDataBlock index iData w1).2
    | (false, w1) => (some 3, w1)

/-- The unit loop of `NFC_WriteStructRange` on a Mifare Ultralight tag.  The
result `Zapsano` of the write primitive is not looked at. -/
def writeUnitsUltralight {σ : Type} (d : Env σ) (c : TCardInfo) : Nat → Nat → σ → σ
  | 0, _, w => w
  | n + 1, i, w =>
    writeUnitsUltralight d c n (i + 1)
      (d.pn532_mifareultralight_WritePage (i + OFFSETDATA_ULTRALIGHT)
        (unitPayload c PAGESIZE_ULTRALIGHT i) w).2

/-- The part of `NFC_WriteStructRange` from `pn532_readPassiveTargetID` on:
the transfer of the bytes `zacatek .. konec` and the result code. -/
def writeRangeUnits {σ : Type} (d : Env σ) (c : TCardInfo) (zacatek konec : Nat) (w : σ) :
    Nat × σ :=
  match d.pn532_readPassiveTargetID w with
  | (some (iuid, iuidLength), w1) =>
    if iuidLength = 4 then
      let PrvniBunka := zacatek / PAGESIZE_CLASSIC
      let PosledniBunka := konec / PAGESIZE_CLASSIC
      match writeUnitsClassic d c iuid iuidLength (PosledniBunka + 1 - PrvniBunka)
          PrvniBunka w1 with
      | (some code, w2) => (code, w2)
      | (none, w2) => (0, w2)
    else if iuidLength = 7 then
      let PrvniBunka := zacatek / PAGESIZE_ULTRALIGHT
      let PosledniBunka := konec / PAGESIZE_ULTRALIGHT
      (0, writeUnitsUltralight d c (PosledniBunka + 1 - PrvniBunka) PrvniBunka w1)
    else (0, w1)
  | (none, w1) => (2, w1)

/-- `zacatek` of `NFC_WriteStructRange`. -/
def writeZacatek (NumOfStructureStart : Nat) : Nat :=
  if NumOfStructureStart > 0 then
    TRecipeInfo_Size + (NumOfStructureStart - 1) * TRecipeStep_Size
  else 0

/-- `konec` of `NFC_WriteStructRange`; `(NumOfStructureStart - 1) * TRecipeStep_Size`
is evaluated in `size_t`, also for `NumOfStructureStart = 0`. -/
def writeKonec (NumOfStructureStart NumOfStructureEnd : Nat) : Nat :=
  if NumOfStructureEnd > 0 then
    (TRecipeInfo_Size + ((NumOfStructureStart + SIZE_T - 1) % SIZE_T) * TRecipeStep_Size
      + TRecipeStep_Size * (NumOfStructureEnd - NumOfStructureStart + 1) + SIZE_T - 1) % SIZE_T
  else TRecipeInfo_Size - 1

/-- `uint8_t NFC_WriteStructRange(aNFC, aCardInfo, NumOfStructureStart, NumOfStructureEnd)`,
with the depth of calls of `NFC_WriteStructRange` bounded by the first
argument (`none`: bound exhausted).  The nested call is
`NFC_WriteStruct(aNFC, aCardInfo, 0)`, i.e. its retry loop around
`NFC_WriteStructRange(aNFC, aCardInfo, 0, 0)`, whose result is discarded. -/
def NFC_WriteStructRange {σ : Type} (d : Env σ) :
    Nat → TCardInfo → Nat → Nat → σ → Option (Nat × TCardInfo × σ)
  | 0, _, _, _, _ => none
  | depth + 1, c, NumOfStructureStart, NumOfStructureEnd, w =>
    if NumOfStructureStart > NumOfStructureEnd then some (4, c, w)
    else if NumOfStructureStart > RecipeSteps c ∨ NumOfStructureEnd > RecipeSteps c then
      some (1, c, w)
    else
      let zacatek := writeZacatek NumOfStructureStart
      let konec := writeKonec NumOfStructureStart NumOfStructureEnd
      let CheckSumNew := NFC_GetCheckSum c
      let afterCheckSum : Option (TCardInfo × σ) :=
        if CheckSumNew ≠ CheckSum c then
          if NumOfStructureStart ≠ 0 then
            (retryOpt (fun Error => Error == 0 || Error == 1)
              (fun c w => NFC_WriteStructRange d depth c 0 0 w)
              MAXERRORREADING 0 (setCheckSum c CheckSumNew) w).map (fun r => r.2)
          else some (setCheckSum c CheckSumNew, w)
        else some (c, w)
      match afterCheckSum with
      | none => none
      | some (c2, w2) =>
        some ((writeRangeUnits d c2 zacatek konec w2).1, c2,
          (writeRangeUnits d c2 zacatek konec w2).2)

/-- `uint8_t NFC_WriteStruct(aNFC, aCardInfo, NumOfStructure)`. -/
def NFC_WriteStruct {σ : Type} (d : Env σ) (depth : Nat) (c : TCardInfo)
    (NumOfStructure : Nat) (w : σ) : Option (Nat × TCardInfo × σ) :=
  match retryOpt (fun Error => Error == 0 || Error == 1)
      (fun c w => NFC_WriteStructRange d depth c NumOfStructure NumOfStructure w)
      MAXERRORREADING 0 c w with
  | none => none
  | some (0, c1, w1) => some (0, c1, w1)
  | some (1, c1, w1) => some (1, c1, w1)
  | some (2, c1, w1) => some (2, c1, w1)
  | some (3, c1, w1) => some (3, c1, w1)
  | some (_, c1, w1) => some (4, c1, w1)

/-- `uint8_t NFC_WriteAllData(pn532_t *aNFC, TCardInfo *aCardInfo)`. -/
def NFC_WriteAllData {σ : Type} (d : Env σ) (depth : Nat) (c : TCardInfo) (w : σ) :
    Option (Nat × TCardInfo × σ) :=
  match retryOpt (fun Error => Error == 0)
      (fun c w => NFC_WriteStructRange d depth c 0 (RecipeSteps c) w)
      MAXERRORREADING 0 c w with
  | none => none
  | some (0, c1, w1) => some (0, c1, w1)
  | some (2, c1, w1) => some (2, c1, w1)
  | some (3, c1, w1) => some (3, c1, w1)
  | some (_, c1, w1) => some (4, c1, w1)

/-! ## Sync engine: write and verify -/

/-- The local `idataNFC1` of `NFC_CheckStructArrayIsSame` before it is
initialised: indeterminate bytes. -/
def uninitCard {σ : Type} (d : Env σ) (w : σ) : TCardInfo :=
  { sRecipeInfo := (List.range TRecipeInfo_Size).map (d.uninit w)
    sRecipeStep := none
    sUid := (List.range 7).map (fun i => d.uninit w (TRecipeInfo_Size + i))
    sUidLength := d.uninit w (TRecipeInfo_Size + 7)
    TRecipeInfoLoaded := false
    TRecipeStepArrayCreated := false
    TRecipeStepLoaded := false }

/-- The loop of `NFC_CheckStructArrayIsSame` over the structures: `n`
remaining structures from structure `i`, comparing the record `c` with the
scratch record `idataNFC1`; `some code` is an early `return code`. The scratch
record is local, so releasing its array leaves nothing to return. -/
def checkStructs {σ : Type} (d : Env σ) (c : TCardInfo) :
    Nat → Nat → TCardInfo → σ → Option Nat × σ
  | 0, _, _, w => (none, w)
  | n + 1, i, idataNFC1, w =>
    if i = 0 then
      match retry (fun Error => Error == 0) (NFC_LoadTRecipeInfoStructure d) id
          MAXERRORREADING 0 idataNFC1 w with
      | (0, x, w1) =>
        if (List.range TRecipeInfo_Size).any (fun j => infoByte c j != infoByte x j) then
          (some 1, w1)
        else checkStructs d c n (i + 1) x w1
      | (_, _, w1) => (some 3, w1)
    else
      match retry (fun Error => Error == 0) (fun x w => NFC_LoadTRecipeStep d x (i - 1) w) id
          MAXERRORREADING 0 idataNFC1 w with
      | (0, x, w1) =>
        if (List.range TRecipeStep_Size).any (fun j =>
            stepByte c (j + (i - 1) * TRecipeStep_Size)
              != stepByte x (j + (i - 1) * TRecipeStep_Size)) then
          (some 1, w1)
        else checkStructs d c n (i + 1) x w1
      | (_, _, w1) => (some 3, w1)

/-- `uint8_t NFC_CheckStructArrayIsSame(aNFC, aCardInfo, NumOfStructureStart, NumOfStructureEnd)`;
the record `aCardInfo` is only read. -/
def NFC_CheckStructArrayIsSame {σ : Type} (d : Env σ) (c : TCardInfo)
    (NumOfStructureStart NumOfStructureEnd : Nat) (w : σ) : Nat × σ :=
  if NumOfStructureStart > NumOfStructureEnd then (5, w)
  else if NumOfStructureStart > RecipeSteps c ∨ NumOfStructureEnd > RecipeSteps c then (2, w)
  else
    let idataNFC1 := NFC_InitTCardInfo (uninitCard d w)
    if c.TRecipeInfoLoaded != true then (6, w)
    else
      let idataNFC1 := setRecipeSteps { idataNFC1 with TRecipeInfoLoaded := true }
        NumOfStructureEnd
      let alloc :=
        if NumOfStructureEnd > 0 then NFC_AllocTRecipeStepArray d idataNFC1 w
        else (0, idataNFC1, w)
      if alloc.1 ≠ 0 then (4, alloc.2.2)
      else
        match checkStructs d c (NumOfStructureEnd + 1 - NumOfStructureStart)
            NumOfStructureStart alloc.2.1 alloc.2.2 with
        | (some code, w1) => (code, w1)
        | (none, w1) => (0, w1)

/-- The outer loop of `NFC_WriteCheck`: `n` remaining rounds of write and
verify. -/
def writeCheckRounds {σ : Type} (d : Env σ) (depth : Nat)
    (NumOfStructureStart NumOfStructureEnd : Nat) :
    Nat → TCardInfo → σ → Option (Nat × TCardInfo × σ)
  | 0, c, w => some (1, c, w)
  | n + 1, c, w =>
    match retryOpt (fun Error => Error == 0)
        (fun c w => NFC_WriteStructRange d depth c NumOfStructureStart NumOfStructureEnd w)
        MAXERRORREADING 0 c w with
    | none => none
    | some (0, c1, w1) =>
      match retry (fun Error => Error ≤ 1)
          (fun c w =>
            ((NFC_CheckStructArrayIsSame d c NumOfStructureStart NumOfStructureEnd w).1, c,
              (NFC_CheckStructArrayIsSame d c NumOfStructureStart NumOfStructureEnd w).2))
          id MAXERRORREADING 0 c1 w1 with
      | (0, c2, w2) => some (0, c2, w2)
      | (1, c2, w2) => writeCheckRounds d depth NumOfStructureStart NumOfStructureEnd n c2 w2
      | (2, c2, w2) => some (2, c2, w2)
      | (3, c2, w2) => some (4, c2, w2)
      | (4, c2, w2) => some (6, c2, w2)
      | (5, c2, w2) => some (7, c2, w2)
      | (6, c2, w2) => some (8, c2, w2)
      | (_, c2, w2) => some (5, c2, w2)
    | some (1, c1, w1) => some (2, c1, w1)
    | some (2, c1, w1) => some (3, c1, w1)
    | some (3, c1, w1) => some (4, c1, w1)
    | some (4, c1, w1) => some (7, c1, w1)
    | some (_, c1, w1) => some (5, c1, w1)

/-- `uint8_t NFC_WriteCheck(aNFC, aCardInfo, NumOfStructureStart, NumOfStructureEnd)`. -/
def NFC_WriteCheck {σ : Type} (d : Env σ) (depth : Nat) (c : TCardInfo)
    (NumOfStructureStart NumOfStructureEnd : Nat) (w : σ) : Option (Nat × TCardInfo × σ) :=
  writeCheckRounds d depth NumOfStructureStart NumOfStructureEnd MAXERRORREADING c w

/-! ## Tags -/

/-- A tag memory holding `data` in the unit of size `U` with number `idx`;
memory is a map from physical byte address to byte, unit `idx` occupying the
addresses `U * idx .. U * idx + U - 1`. -/
def storeUnit (mem : Nat → Nat) (U idx : Nat) (data : List Nat) : Nat → Nat :=
  fun a => if U * idx ≤ a ∧ a < U * idx + U then data.getD (a - U * idx) 0 else mem a

/-- The `n` bytes of a tag memory from physical address `a` on. -/
def fetchBytes (mem : Nat → Nat) (a n : Nat) : List Nat :=
  (List.range n).map (fun k => mem (a + k))

/-- A tag that is always present with the given UID, on which every
authentication, read and write succeeds, reads hand back what is stored (16
bytes from the addressed block, or from the addressed page on), writes store
their buffer (a 16-byte block, a 4-byte page); every allocation succeeds and
uninitialised storage holds `garbage`.  The world state is the tag memory. -/
def idealTag (uid : List Nat) (uidLength : Nat) (garbage : Nat → Nat) : Env (Nat → Nat) where
  pn532_readPassiveTargetID := fun m => (some (uid, uidLength), m)
  pn532_mifareclassic_AuthenticateBlock := fun _ _ _ m => (true, m)
  pn532_mifareclassic_ReadDataBlock := fun idx m =>
    (some (fetchBytes m (PAGESIZE_CLASSIC * idx) 16), m)
  pn532_mifareclassic_WriteDataBlock := fun idx data m =>
    (true, storeUnit m PAGESIZE_CLASSIC idx data)
  pn532_mifareultralight_ReadPage := fun page m =>
    (some (fetchBytes m (PAGESIZE_ULTRALIGHT * page) 16), m)
  pn532_mifareultralight_WritePage := fun page data m =>
    (true, storeUnit m PAGESIZE_ULTRALIGHT page data)
  malloc := fun _ m => (some garbage, m)
  uninit := fun _ => garbage

/-- The ideal tag, except that every write reports failure and stores nothing. -/
def writeProtectedTag (uid : List Nat) (uidLength : Nat) (garbage : Nat → Nat) :
    Env (Nat → Nat) :=
  { idealTag uid uidLength garbage with
    pn532_mifareclassic_WriteDataBlock := fun _ _ m => (false, m)
    pn532_mifareultralight_WritePage := fun _ _ m => (false, m) }

/-- Physical byte address of the logical byte `p` of the record on a tag of the
geometry given by the UID length: block `NFC_GetMifareClassicIndex (p / 16)` for
length 4, page `p / 4 + OFFSETDATA_ULTRALIGHT` otherwise. -/
def physAddr (uidLength p : Nat) : Nat :=
  if uidLength = 4 then
    PAGESIZE_CLASSIC * NFC_GetMifareClassicIndex (p / PAGESIZE_CLASSIC) + p % PAGESIZE_CLASSIC
  else
    PAGESIZE_ULTRALIGHT * (p / PAGESIZE_ULTRALIGHT + OFFSETDATA_ULTRALIGHT)
      + p % PAGESIZE_ULTRALIGHT

/-- The byte a tag memory holds at the logical position `p` of the record. -/
def tagByte (uidLength : Nat) (mem : Nat → Nat) (p : Nat) : Nat := mem (physAddr uidLength p)

/-- The 16 header bytes a tag memory holds. -/
def tagInfo (uidLength : Nat) (mem : Nat → Nat) : List Nat :=
  (List.range TRecipeInfo_Size).map (tagByte uidLength mem)

/-- The bytes a tag memory holds for a step array of `n` entries. -/
def tagSteps (uidLength : Nat) (mem : Nat → Nat) (n : Nat) : List Nat :=
  (List.range (TRecipeStep_Size * n)).map (fun j => tagByte uidLength mem (TRecipeInfo_Size + j))

/-- A call of one of the primitives of `Env`, with its arguments. -/
inductive Primitive where
  | readPassiveTargetID
  | AuthenticateBlock (index : Nat)
  | ReadDataBlock (index : Nat)
  | WriteDataBlock (index : Nat) (data : List Nat)
  | ReadPage (page : Nat)
  | WritePage (page : Nat) (data : List Nat)
  | malloc (size : Nat)
deriving DecidableEq

/-- The environment `d` with a log of the primitive calls made. -/
def traced {σ : Type} (d : Env σ) : Env (σ × List Primitive) where
  pn532_readPassiveTargetID := fun w =>
    ((d.pn532_readPassiveTargetID w.1).1,
      (d.pn532_readPassiveTargetID w.1).2, w.2 ++ [Primitive.readPassiveTargetID])
  pn532_mifareclassic_AuthenticateBlock := fun uid len index w =>
    ((d.pn532_mifareclassic_AuthenticateBlock uid len index w.1).1,
      (d.pn532_mifareclassic_AuthenticateBlock uid len index w.1).2,
      w.2 ++ [Primitive.AuthenticateBlock index])
  pn532_mifareclassic_ReadDataBlock := fun index w =>
    ((d.pn532_mifareclassic_ReadDataBlock index w.1).1,
      (d.pn532_mifareclassic_ReadDataBlock index w.1).2, w.2 ++ [Primitive.ReadDataBlock index])
  pn532_mifareclassic_WriteDataBlock := fun index data w =>
    ((d.pn532_mifareclassic_WriteDataBlock index data w.1).1,
      (d.pn532_mifareclassic_WriteDataBlock index data w.1).2,
      w.2 ++ [Primitive.WriteDataBlock index data])
  pn532_mifareultralight_ReadPage := fun page w =>
    ((d.pn532_mifareultralight_ReadPage page w.1).1,
      (d.pn532_mifareultralight_ReadPage page w.1).2, w.2 ++ [Primitive.ReadPage page])
  pn532_mifareultralight_WritePage := fun page data w =>
    ((d.pn532_mifareultralight_WritePage page data w.1).1,
      (d.pn532_mifareultralight_WritePage page data w.1).2,
      w.2 ++ [Primitive.WritePage page data])
  malloc := fun size w =>
    ((d.malloc size w.1).1, (d.malloc size w.1).2, w.2 ++ [Primitive.malloc size])
  uninit := fun w => d.uninit w.1

/-! ## The read loops in one shape

The six unit loops of the read path differ in how a unit is read (authenticate
and read a block, or read pages) and in the copy loop applied to the buffer.
`unitLoop` is that common shape; the theorems below show each loop equal to
its instance. -/

/-- Reading the 16-byte unit `i` on a Mifare Classic tag: the error code of
the early `return`, or the buffer. -/
def readUnitClassic {σ : Type} (d : Env σ) (iuid : List Nat) (iuidLength : Nat) (i : Nat)
    (w : σ) : Except Nat (List Nat) × σ :=
  match d.pn532_mifareclassic_AuthenticateBlock iuid iuidLength (NFC_GetMifareClassicIndex i) w with
  | (true, w1) =>
    match d.pn532_mifareclassic_ReadDataBlock (NFC_GetMifareClassicIndex i) w1 with
    | (some iData, w2) => (Except.ok iData, w2)
    | (none, w2) => (Except.error 2, w2)
  | (false, w1) => (Except.error 3, w1)

/-- Reading the 16-byte unit `i` on a Mifare Ultralight tag. -/
def readUnitUltralight {σ : Type} (d : Env σ) (i : Nat) (w : σ) :
    Except Nat (List Nat) × σ :=
  match d.pn532_mifareultralight_ReadPage (i * 4 + OFFSETDATA_ULTRALIGHT) w with
  | (some iData, w1) => (Except.ok iData, w1)
  | (none, w1) => (Except.error 2, w1)

/-- The common shape of the unit loops of the read path. -/
def unitLoop {σ α : Type} (read : Nat → σ → Except Nat (List Nat) × σ)
    (copy : List Nat → Nat → α → α) : Nat → Nat → α → σ → Option Nat × α × σ
  | 0, _, s, w => (none, s, w)
  | n + 1, i, s, w =>
    match read i w with
    | (Except.ok iData, w1) => unitLoop read copy n (i + 1) (copy iData i s) w1
    | (Except.error code, w1) => (some code, s, w1)

/-- The environment `d` is a tag of UID length `uidLength` with memory `store`:
a present tag reports that UID length, only writes change the memory, and a
successful read hands back the 16 bytes stored from the addressed block or
page on. Whether a primitive succeeds, and what a write stores, is left open. -/
structure ReadsStored {σ : Type} (d : Env σ) (store : σ → Nat → Nat) (uidLength : Nat) :
    Prop where
  probe_len : ∀ w iuid iuidLength,
    (d.pn532_readPassiveTargetID w).1 = some (iuid, iuidLength) → iuidLength = uidLength
  probe_store : ∀ w, store (d.pn532_readPassiveTargetID w).2 = store w
  auth_store : ∀ iuid iuidLength index w,
    store (d.pn532_mifareclassic_AuthenticateBlock iuid iuidLength index w).2 = store w
  malloc_store : ∀ size w, store (d.malloc size w).2 = store w
  readBlock_store : ∀ index w, store (d.pn532_mifareclassic_ReadDataBlock index w).2 = store w
  readPage_store : ∀ page w, store (d.pn532_mifareultralight_ReadPage page w).2 = store w
  readBlock_data : ∀ index w iData,
    (d.pn532_mifareclassic_ReadDataBlock index w).1 = some iData →
      ∀ k, k < 16 → iData.getD k 0 = store w (PAGESIZE_CLASSIC * index + k)
  readPage_data : ∀ page w iData,
    (d.pn532_mifareultralight_ReadPage page w).1 = some iData →
      ∀ k, k < 16 → iData.getD k 0 = store w (PAGESIZE_ULTRALIGHT * page + k)

/-- A unit read that hands back the bytes a tag of UID length `uidLength` with
memory `store` holds at the logical positions `16 * i ..`, does not change
the memory, and fails with a non-zero code only. -/
def UnitReadOK {σ : Type} (read : Nat → σ → Except Nat (List Nat) × σ)
    (store : σ → Nat → Nat) (uidLength : Nat) : Prop :=
  ∀ i w, store (read i w).2 = store w ∧
    (∀ code, (read i w).1 = Except.error code → code ≠ 0) ∧
    ∀ iData, (read i w).1 = Except.ok iData →
      ∀ k, k < 16 → iData.getD k 0 = tagByte uidLength (store w) (16 * i + k)

/-- The record `c2` is the record `c` except possibly for the two bytes of the
header's `CheckSum` field. -/
def SameButCheckSum (c c2 : TCardInfo) : Prop :=
  c2.sRecipeStep = c.sRecipeStep ∧ c2.sUid = c.sUid ∧ c2.sUidLength = c.sUidLength ∧
  c2.TRecipeInfoLoaded = c.TRecipeInfoLoaded ∧
  c2.TRecipeStepArrayCreated = c.TRecipeStepArrayCreated ∧
  c2.TRecipeStepLoaded = c.TRecipeStepLoaded ∧
  c2.sRecipeInfo.length = c.sRecipeInfo.length ∧
  ∀ j, j ≠ 14 → j ≠ 15 → infoByte c2 j = infoByte c j

/-- The tag memory `mem` of a tag with UID length `uidLength` holds structure
`k` of the record `c` (0: the header, `k ≥ 1`: step `k - 1`) at that
structure's logical location. -/
def structOnTag (uidLength : Nat) (mem : Nat → Nat) (c : TCardInfo) (k : Nat) : Prop :=
  if k = 0 then ∀ j, j < TRecipeInfo_Size → tagByte uidLength mem j = infoByte c j
  else ∀ j, j < TRecipeStep_Size →
    tagByte uidLength mem (TRecipeInfo_Size + (TRecipeStep_Size * (k - 1) + j))
      = stepByte c (TRecipeStep_Size * (k - 1) + j)

/-- An empty tag memory. -/
def blankTag : Nat → Nat := fun _ => 0

/-- What `NFC_WriteCheck` over the structures 0..3 of the sample record returns
on an ideal Mifare Ultralight tag that starts out blank. -/
def sampleWriteCheck : Nat × TCardInfo × (Nat → Nat) :=
  (NFC_WriteCheck (idealTag [4, 1, 2, 3, 4, 5, 6] 7 (fun _ => 170)) 2 sampleCard 0 3
    blankTag).getD (1, sampleCard, blankTag)

/-- The record after the checksum step of `NFC_WriteStructRange`: the checksum
field is replaced by `NFC_GetCheckSum` when the two differ. -/
def checkSumUpdated (c : TCardInfo) : TCardInfo :=
  if NFC_GetCheckSum c ≠ CheckSum c then setCheckSum c (NFC_GetCheckSum c) else c

/-- A record in its initial state, before anything is loaded. -/
def emptyCard : TCardInfo :=
  { sRecipeInfo := [0, 0, 0, 0, 0, 0, 0, 0, 0, 0, 0, 0, 0, 0, 0, 0]
    sRecipeStep := none
    sUid := [0, 0, 0, 0, 0, 0, 0]
    sUidLength := 7
    TRecipeInfoLoaded := false
    TRecipeStepArrayCreated := false
    TRecipeStepLoaded := false }

/-- The record a tag memory holds: the 16 header bytes at the header's
location and, after them, the step array of as many entries as that header's
`RecipeSteps` says. -/
def tagRecord (uidLength : Nat) (mem : Nat → Nat) : TCardInfo :=
  { sRecipeInfo := tagInfo uidLength mem
    sRecipeStep := some (tagSteps uidLength mem ((tagInfo uidLength mem).getD 7 0))
    sUid := []
    sUidLength := uidLength
    TRecipeInfoLoaded := true
    TRecipeStepArrayCreated := true
    TRecipeStepLoaded := true }

/-- The sample record with its checksum field current (109). -/
def sampleCardCurrent : TCardInfo :=
  { sampleCard with sRecipeInfo := [1, 2, 0, 10, 0, 0, 0, 3, 0, 5, 0, 0, 0, 0, 109, 0] }

/-- A Mifare Ultralight tag memory holding the sample header with checksum
field 0 and three all-zero steps (so the checksum on the tag fits the steps on
the tag). -/
def zeroStepsTag : Nat → Nat :=
  fun a => if 32 ≤ a then [1, 2, 0, 10, 0, 0, 0, 3, 0, 5, 0, 0, 0, 0, 0, 0].getD (a - 32) 0 else 0

/-- What `NFC_WriteStructRange` over the structures 1..3 of the sample record
with current checksum returns on the ideal Mifare Ultralight tag holding
`zeroStepsTag`. -/
def sampleStepsWrite : Nat × TCardInfo × (Nat → Nat) :=
  (NFC_WriteStructRange (idealTag [4, 1, 2, 3, 4, 5, 6] 7 (fun _ => 170)) 2 sampleCardCurrent
    1 3 zeroStepsTag).getD (1, sampleCardCurrent, zeroStepsTag)

/-- Entry `i` of a step array: the three bytes of `sRecipeStep[i]`. -/
def stepEntry (a : List Nat) (i : Nat) : List Nat :=
  [a.getD (TRecipeStep_Size * i) 0, a.getD (TRecipeStep_Size * i + 1) 0,
    a.getD (TRecipeStep_Size * i + 2) 0]

/-- An environment without a tag in which every allocation succeeds and
hands out a block filled with the byte `0xAA`. -/
def heapOnly : Env Unit where
  pn532_readPassiveTargetID := fun w => (none, w)
  pn532_mifareclassic_AuthenticateBlock := fun _ _ _ w => (false, w)
  pn532_mifareclassic_ReadDataBlock := fun _ w => (none, w)
  pn532_mifareclassic_WriteDataBlock := fun _ _ w => (false, w)
  pn532_mifareultralight_ReadPage := fun _ w => (none, w)
  pn532_mifareultralight_WritePage := fun _ _ w => (false, w)
  malloc := fun _ w => (some (fun _ => 170), w)
  uninit := fun _ _ => 170

/-! ## Record construction and copy -/

/-- The store `aCardInfo->sUid[i] = v` of `NFC_saveUID`. The array `sUid` has 7
bytes and is followed in `TCardInfo` by `sUidLength`, `TRecipeInfoLoaded`,
`TRecipeStepArrayCreated` and `TRecipeStepLoaded`, one byte each: a store with
`7 ≤ i ≤ 10` lands on those fields (a flag reads as true when its byte is not
0); a store with `i ≥ 11` is past the fields of the record. -/
def storeUidByte (c : TCardInfo) (i v : Nat) : TCardInfo :=
  if i < 7 then { c with sUid := c.sUid.set i v }
  else if i = 7 then { c with sUidLength := v }
  else if i = 8 then { c with TRecipeInfoLoaded := v != 0 }
  else if i = 9 then { c with TRecipeStepArrayCreated := v != 0 }
  else if i = 10 then { c with TRecipeStepLoaded := v != 0 }
  else c

/-- `bool NFC_saveUID(TCardInfo *aCardInfo, uint8_t *aUid, uint8_t aUidLength)`: the
loop `for (i = 0; i < aUidLength; i++) aCardInfo->sUid[i] = aUid[i]` has no bound
on `aUidLength`, then `sUidLength = aUidLength`. -/
def NFC_saveUID (c : TCardInfo) (aUid : List Nat) (aUidLength : Nat) : Bool × TCardInfo :=
  (true, { (List.range aUidLength).foldl (fun c i => storeUidByte c i (aUid.getD i 0)) c with
    sUidLength := aUidLength })

/-- The loop `for (i = 0; i < n; ++i) *((uint8_t *)aCardInfo->sRecipeStep + i) = src[i]`. -/
def copySteps (src : Nat → Nat) (c : TCardInfo) (n : Nat) : TCardInfo :=
  (List.range n).foldl (fun c i => setStepByte c i (src i)) c

/-- `uint8_t NFC_CreateCardInfoFromRecipeInfo(TCardInfo *aCardInfo, TRecipeInfo aRecipeInfo)`,
the header passed by value as its 16 bytes. -/
def NFC_CreateCardInfoFromRecipeInfo {σ : Type} (d : Env σ) (c : TCardInfo)
    (aRecipeInfo : List Nat) (w : σ) : Nat × TCardInfo × σ :=
  let c1 := NFC_InitTCardInfo c
  let c2 := (List.range TRecipeInfo_Size).foldl
    (fun c i => setInfoByte c i (aRecipeInfo.getD i 0)) c1
  let c3 := { c2 with TRecipeInfoLoaded := true }
  if aRecipeInfo.getD 7 0 > 0 then
    match retry (fun Error => Error == 0) (NFC_AllocTRecipeStepArray d) id
        MAXERRORREADING 0 c3 w with
    | (0, c4, w4) =>
      let c5 := zeroSteps c4 (TRecipeStep_Size * RecipeSteps c4)
      (0, { setCheckSum c5 0 with TRecipeStepArrayCreated := true }, w4)
    | (_, c4, w4) => (1, c4, w4)
  else (0, c3, w)

/-- `uint8_t NFC_AddRecipeStepsToCardInfo(aCardInfo, aRecipeStep, SizeOfRecipeSteps, DeAlloc)`,
the source array passed as its bytes; `DeAlloc` frees the source array only
and has no effect on the record. -/
def NFC_AddRecipeStepsToCardInfo {σ : Type} (d : Env σ) (c : TCardInfo)
    (aRecipeStep : List Nat) (SizeOfRecipeSteps : Nat) (w : σ) : Nat × TCardInfo × σ :=
  if c.TRecipeInfoLoaded != true then (1, c, w)
  else if SizeOfRecipeSteps = 0 then (2, c, w)
  else
    let c1 :=
      if RecipeSteps c ≠ SizeOfRecipeSteps ∧ c.TRecipeStepArrayCreated = true then
        { (NFC_DeAllocTRecipeStepArray c).2 with TRecipeStepArrayCreated := false }
      else c
    if c1.TRecipeStepArrayCreated = false then
      match retry (fun Error => Error == 0) (NFC_AllocTRecipeStepArray d) id
          MAXERRORREADING 0 (setRecipeSteps c1 SizeOfRecipeSteps) w with
      | (0, c2, w2) =>
        let c3 := setRecipeSteps { c2 with TRecipeStepArrayCreated := true } SizeOfRecipeSteps
        let c4 := copySteps (fun i => aRecipeStep.getD i 0) c3 (TRecipeStep_Size * RecipeSteps c3)
        (0, setCheckSum c4 (NFC_GetCheckSum c4), w2)
      | (_, c2, w2) => (3, c2, w2)
    else
      let c4 := copySteps (fun i => aRecipeStep.getD i 0) c1 (TRecipeStep_Size * RecipeSteps c1)
      (0, setCheckSum c4 (NFC_GetCheckSum c4), w)

/-- `uint8_t NFC_CopyTCardInfo(TCardInfo *aCardInfoOrigin, TCardInfo *aCardInfoNew)` on two
distinct records; the result carries the record `aCardInfoNew` (the record
`aCardInfoOrigin` is only read). -/
def NFC_CopyTCardInfo {σ : Type} (d : Env σ) (aCardInfoOrigin aCardInfoNew : TCardInfo)
    (w : σ) : Nat × TCardInfo × σ :=
  if !aCardInfoOrigin.TRecipeInfoLoaded then (1, aCardInfoNew, w)
  else
    let n1 := { aCardInfoNew with
      sRecipeInfo := aCardInfoOrigin.sRecipeInfo
      sUidLength := aCardInfoOrigin.sUidLength
      sUid := (List.range aCardInfoOrigin.sUidLength).foldl
        (fun u i => u.set i (aCardInfoOrigin.sUid.getD i 0)) aCardInfoNew.sUid
      TRecipeInfoLoaded := aCardInfoOrigin.TRecipeInfoLoaded }
    let n2 :=
      if n1.TRecipeStepArrayCreated || n1.sRecipeStep.isSome then
        (NFC_DeAllocTRecipeStepArray n1).2
      else n1
    if aCardInfoOrigin.TRecipeStepArrayCreated then
      match retry (fun Error => Error == 0) (NFC_AllocTRecipeStepArray d)
          (fun c => (NFC_DeAllocTRecipeStepArray c).2) MAXERRORREADING 0 n2 w with
      | (0, n3, w3) =>
        let n4 := copySteps (stepByte aCardInfoOrigin) n3 (TRecipeStep_Size * RecipeSteps n3)
        (0, { n4 with
              TRecipeStepArrayCreated := aCardInfoOrigin.TRecipeStepArrayCreated
              TRecipeStepLoaded := aCardInfoOrigin.TRecipeStepLoaded }, w3)
      | (2, n3, w3) => (3, n3, w3)
      | (3, n3, w3) => (2, n3, w3)
      | (_, n3, w3) => (20, n3, w3)
    else
      (0, { n2 with sRecipeStep := none
                    TRecipeStepLoaded := aCardInfoOrigin.TRecipeStepLoaded }, w)

/-- `NFC_CopyTCardInfo(p, p)`: both arguments are the same record, so each read
of `aCardInfoOrigin` sees what was stored through `aCardInfoNew` before. -/
def NFC_CopyTCardInfo_same {σ : Type} (d : Env σ) (c : TCardInfo) (w : σ) :
    Nat × TCardInfo × σ :=
  if !c.TRecipeInfoLoaded then (1, c, w)
  else
    let n1 := { c with
      sUid := (List.range c.sUidLength).foldl (fun u i => u.set i (u.getD i 0)) c.sUid }
    let n2 :=
      if n1.TRecipeStepArrayCreated || n1.sRecipeStep.isSome then
        (NFC_DeAllocTRecipeStepArray n1).2
      else n1
    if n2.TRecipeStepArrayCreated then
      match retry (fun Error => Error == 0) (NFC_AllocTRecipeStepArray d)
          (fun c => (NFC_DeAllocTRecipeStepArray c).2) MAXERRORREADING 0 n2 w with
      | (0, n3, w3) =>
        (0, (List.range (TRecipeStep_Size * RecipeSteps n3)).foldl
          (fun c i => setStepByte c i (stepByte c i)) n3, w3)
      | (2, n3, w3) => (3, n3, w3)
      | (3, n3, w3) => (2, n3, w3)
      | (_, n3, w3) => (20, n3, w3)
    else (0, { n2 with sRecipeStep := none }, w)

/-! ## Lifecycle of a record -/

/-- The lifecycle invariant of a record: the header has its 16 bytes, a
created array implies a loaded header, loaded steps imply a created array, and
the array is present exactly when it is flagged as created. -/
def Lifecycle (c : TCardInfo) : Prop :=
  c.sRecipeInfo.length = TRecipeInfo_Size ∧
  (c.TRecipeStepArrayCreated = true → c.TRecipeInfoLoaded = true) ∧
  (c.TRecipeStepLoaded = true → c.TRecipeStepArrayCreated = true) ∧
  (c.TRecipeStepArrayCreated = true ↔ c.sRecipeStep.map List.length ≠ none)

/-- The step array, when present, has `RecipeSteps` entries. -/
def ArraySized (c : TCardInfo) : Prop :=
  ∀ n, c.sRecipeStep.map List.length = some n → n = TRecipeStep_Size * RecipeSteps c

/-- What the lifecycle of a record depends on: the size of the header, the
field `RecipeSteps`, the three flags, and the length of the step array when
there is one. -/
def shape (c : TCardInfo) : Nat × Nat × Bool × Bool × Bool × Option Nat :=
  (c.sRecipeInfo.length, RecipeSteps c, c.TRecipeInfoLoaded, c.TRecipeStepArrayCreated,
    c.TRecipeStepLoaded, c.sRecipeStep.map List.length)

/-- The records that sequences of the library's operations produce from a
record set up by `NFC_InitTCardInfo`, in any environment and from any world
state, where `NFC_LoadTRecipeInfoStructure` is applied only to records that
satisfy `guard` and `NFC_saveUID` is given at most 7 UID bytes, the size of
`sUid`. -/
inductive Reachable (guard : TCardInfo → Prop) : TCardInfo → Prop
  | init (c : TCardInfo) (h : c.sRecipeInfo.length = TRecipeInfo_Size) :
    Reachable guard (NFC_InitTCardInfo c)
  | create {σ : Type} (d : Env σ) (w : σ) (c : TCardInfo) (aRecipeInfo : List Nat)
    (h : c.sRecipeInfo.length = TRecipeInfo_Size) :
    Reachable guard (NFC_CreateCardInfoFromRecipeInfo d c aRecipeInfo w).2.1
  | saveUID (c : TCardInfo) (aUid : List Nat) (aUidLength : Nat) (h : aUidLength ≤ 7) :
    Reachable guard c → Reachable guard (NFC_saveUID c aUid aUidLength).2
  | loadInfo {σ : Type} (d : Env σ) (w : σ) (c : TCardInfo) :
    Reachable guard c → guard c → Reachable guard (NFC_LoadTRecipeInfoStructure d c w).2.1
  | alloc {σ : Type} (d : Env σ) (w : σ) (c : TCardInfo) :
    Reachable guard c → Reachable guard (NFC_AllocTRecipeStepArray d c w).2.1
  | dealloc (c : TCardInfo) :
    Reachable guard c → Reachable guard (NFC_DeAllocTRecipeStepArray c).2
  | loadSteps {σ : Type} (d : Env σ) (w : σ) (c : TCardInfo) :
    Reachable guard c → Reachable guard (NFC_LoadTRecipeSteps d c w).2.1
  | loadStep {σ : Type} (d : Env σ) (w : σ) (c : TCardInfo) (NumOfStructure : Nat) :
    Reachable guard c → Reachable guard (NFC_LoadTRecipeStep d c NumOfStructure w).2.1
  | loadAll {σ : Type} (d : Env σ) (w : σ) (c : TCardInfo) :
    Reachable guard c → Reachable guard (NFC_LoadAllData d c w).2.1
  | changeSize {σ : Type} (d : Env σ) (w : σ) (c : TCardInfo) (NewSize : Nat)
    (h : NewSize < 256) :
    Reachable guard c → Reachable guard (NFC_ChangeRecipeStepsSize d c NewSize w).2.1
  | addSteps {σ : Type} (d : Env σ) (w : σ) (c : TCardInfo) (aRecipeStep : List Nat)
    (SizeOfRecipeSteps : Nat) :
    Reachable guard c →
      Reachable guard (NFC_AddRecipeStepsToCardInfo d c aRecipeStep SizeOfRecipeSteps w).2.1
  | copy {σ : Type} (d : Env σ) (w : σ) (aCardInfoOrigin aCardInfoNew : TCardInfo) :
    Reachable guard aCardInfoOrigin → Reachable guard aCardInfoNew →
      Reachable guard (NFC_CopyTCardInfo d aCardInfoOrigin aCardInfoNew w).2.1
  | copySame {σ : Type} (d : Env σ) (w : σ) (c : TCardInfo) :
    Reachable guard c → Reachable guard (NFC_CopyTCardInfo_same d c w).2.1
  | writeStructRange {σ : Type} (d : Env σ) (w : σ) (c : TCardInfo) (depth s e : Nat)
    (r : Nat × TCardInfo × σ) :
    Reachable guard c → NFC_WriteStructRange d depth c s e w = some r → Reachable guard r.2.1
  | writeStruct {σ : Type} (d : Env σ) (w : σ) (c : TCardInfo) (depth s : Nat)
    (r : Nat × TCardInfo × σ) :
    Reachable guard c → NFC_WriteStruct d depth c s w = some r → Reachable guard r.2.1
  | writeAllData {σ : Type} (d : Env σ) (w : σ) (c : TCardInfo) (depth : Nat)
    (r : Nat × TCardInfo × σ) :
    Reachable guard c → NFC_WriteAllData d depth c w = some r → Reachable guard r.2.1
  | writeCheck {σ : Type} (d : Env σ) (w : σ) (c : TCardInfo) (depth s e : Nat)
    (r : Nat × TCardInfo × σ) :
    Reachable guard c → NFC_WriteCheck d depth c s e w = some r → Reachable guard r.2.1

/-- The record after `NFC_InitTCardInfo` and `NFC_saveUID` with the 10-byte UID
`1, 2, 3, 4, 5, 6, 7, 8, 0, 1`. -/
def longUidCard : TCardInfo :=
  (NFC_saveUID (NFC_InitTCardInfo emptyCard) [1, 2, 3, 4, 5, 6, 7, 8, 0, 1] 10).2

/-- The record `NFC_CreateCardInfoFromRecipeInfo` makes of the sample header,
resized to two steps. -/
def resizedCard : TCardInfo :=
  (NFC_ChangeRecipeStepsSize heapOnly
    (NFC_CreateCardInfoFromRecipeInfo heapOnly emptyCard sampleCard.sRecipeInfo ()).2.1 2 ()).2.1

/-- A tag that is always present and reports a UID of length 5, a length the
library supports on no path; nothing else succeeds. -/
def unsupportedTag : Env Unit where
  pn532_readPassiveTargetID := fun w => (some ([1, 2, 3, 4, 5, 0, 0], 5), w)
  pn532_mifareclassic_AuthenticateBlock := fun _ _ _ w => (false, w)
  pn532_mifareclassic_ReadDataBlock := fun _ w => (none, w)
  pn532_mifareclassic_WriteDataBlock := fun _ _ w => (false, w)
  pn532_mifareultralight_ReadPage := fun _ w => (none, w)
  pn532_mifareultralight_WritePage := fun _ _ w => (false, w)
  malloc := fun _ w => (none, w)
  uninit := fun _ _ => 0

/-- The first stage of `NFC_LoadAllData`: the release of a created array and the
retry loop around `NFC_InitTCardInfo` and `NFC_LoadTRecipeInfoStructure`. Its code
is non-zero exactly when each of the `MAXERRORREADING` attempts failed. -/
def loadAllHeaderStage {σ : Type} (d : Env σ) (c : TCardInfo) (w : σ) : Nat × TCardInfo × σ :=
  retry (fun Error => Error == 0)
    (fun c w => NFC_LoadTRecipeInfoStructure d (NFC_InitTCardInfo c) w) id
    MAXERRORREADING 0
    (if c.TRecipeStepArrayCreated then (NFC_DeAllocTRecipeStepArray c).2 else c) w

/-- The primitive calls a header load makes: the probe, and authentication and
read of the header's unit (block 1, or the pages from page 8 on). -/
def isHeaderLoadCall : Primitive → Bool
  | Primitive.readPassiveTargetID => true
  | Primitive.AuthenticateBlock index => index == 1
  | Primitive.ReadDataBlock index => index == 1
  | Primitive.ReadPage page => page == 8
  | _ => false

/-- The calls `NFC_WriteStructRange` makes for the `n` units from unit `i` on a
Mifare Classic tag whose authentications succeed: per unit, authentication and
write of block `NFC_GetMifareClassicIndex i` with the unit's payload. -/
def classicWriteCalls (c : TCardInfo) : Nat → Nat → List Primitive
  | 0, _ => []
  | n + 1, i =>
    Primitive.AuthenticateBlock (NFC_GetMifareClassicIndex i) ::
      Primitive.WriteDataBlock (NFC_GetMifareClassicIndex i) (unitPayload c PAGESIZE_CLASSIC i) ::
      classicWriteCalls c n (i + 1)

/-- The calls `NFC_WriteStructRange` makes for the `n` units from unit `i` on a
Mifare Ultralight tag: per unit, the write of page `i + 8` with the unit's
payload. -/
def ultralightWriteCalls (c : TCardInfo) : Nat → Nat → List Primitive
  | 0, _ => []
  | n + 1, i =>
    Primitive.WritePage (i + OFFSETDATA_ULTRALIGHT) (unitPayload c PAGESIZE_ULTRALIGHT i) ::
      ultralightWriteCalls c n (i + 1)

/-- The write calls among the calls of a log. -/
def writeCalls (t : List Primitive) : List Primitive :=
  t.filter (fun p =>
    match p with
    | Primitive.WriteDataBlock _ _ => true
    | Primitive.WritePage _ _ => true
    | _ => false)

/-- The tag is always present and every authentication and every read
succeeds. -/
structure ReadsSucceed {σ : Type} (d : Env σ) : Prop where
  probe : ∀ w, (d.pn532_readPassiveTargetID w).1 ≠ none
  auth : ∀ iuid iuidLength index w,
    (d.pn532_mifareclassic_AuthenticateBlock iuid iuidLength index w).1 = true
  readBlock : ∀ index w, (d.pn532_mifareclassic_ReadDataBlock index w).1 ≠ none
  readPage : ∀ page w, (d.pn532_mifareultralight_ReadPage page w).1 ≠ none

/-- The sample header with a created three-entry array of arbitrary contents:
an independent record to load the steps into. -/
def sampleCardFresh : TCardInfo :=
  { sampleCard with
    sRecipeStep := some [170, 170, 170, 170, 170, 170, 170, 170, 170]
    TRecipeStepLoaded := false }

/-- What `NFC_WriteCheck` over the structures 0..2 of the sample record returns
on an ideal Mifare Ultralight tag that starts out blank. -/
def sampleWriteCheckTwo : Nat × TCardInfo × (Nat → Nat) :=
  (NFC_WriteCheck (idealTag [4, 1, 2, 3, 4, 5, 6] 7 (fun _ => 170)) 2 sampleCard 0 2
    blankTag).getD (1, sampleCard, blankTag)

/-- On the tag `d` with memory `store`, the write of page `badPage` always
reports failure and stores nothing, and the write of another page leaves the
four bytes of page `badPage` alone. -/
structure PageStuck {σ : Type} (d : Env σ) (store : σ → Nat → Nat) (badPage : Nat) : Prop where
  fails : ∀ data w, (d.pn532_mifareultralight_WritePage badPage data w).1 = false
  stores_nothing : ∀ data w,
    store (d.pn532_mifareultralight_WritePage badPage data w).2 = store w
  others : ∀ page data w j, page ≠ badPage → j < PAGESIZE_ULTRALIGHT →
    store (d.pn532_mifareultralight_WritePage page data w).2 (PAGESIZE_ULTRALIGHT * badPage + j)
      = store w (PAGESIZE_ULTRALIGHT * badPage + j)

/-- The ideal tag, except that the write of page `badPage` reports failure and
stores nothing. -/
def stuckPageTag (uid : List Nat) (uidLength : Nat) (garbage : Nat → Nat) (badPage : Nat) :
    Env (Nat → Nat) :=
  { idealTag uid uidLength garbage with
    pn532_mifareultralight_WritePage := fun page data m =>
      if page = badPage then (false, m) else (true, storeUnit m PAGESIZE_ULTRALIGHT page data) }

/-- The call `f` bounded by a recursion depth, with a log of the calls made:
every call that returns appends `mk` of its result code to the log kept next
to the world state. -/
def loggedOpt {σ ε : Type} (mk : Nat → ε) (f : TCardInfo → σ → Option (Nat × TCardInfo × σ))
    (c : TCardInfo) (w : σ × List ε) : Option (Nat × TCardInfo × σ × List ε) :=
  match f c w.1 with
  | none => none
  | some (Error, c1, w1) => some (Error, c1, w1, w.2 ++ [mk Error])

/-- A call made by `NFC_WriteCheck` itself, with its result code: of
`NFC_WriteStructRange` or of `NFC_CheckStructArrayIsSame`. -/
inductive WriteCheckCall where
  | write (code : Nat)
  | check (code : Nat)
deriving DecidableEq

/-- Whether a call is one of `NFC_WriteStructRange`. -/
def isWriteCall : WriteCheckCall → Bool
  | WriteCheckCall.write _ => true
  | WriteCheckCall.check _ => false

/-- Whether a call is one of `NFC_CheckStructArrayIsSame`. -/
def isCheckCall : WriteCheckCall → Bool
  | WriteCheckCall.write _ => false
  | WriteCheckCall.check _ => true

/-- The call `f` (a result code and the world) with a log of the calls made:
every call appends `mk` of its result code to the log kept next to the world
state. -/
def loggedCheck {σ ε : Type} (mk : Nat → ε) (f : TCardInfo → σ → Nat × σ)
    (c : TCardInfo) (w : σ × List ε) : Nat × σ × List ε :=
  ((f c w.1).1, (f c w.1).2, w.2 ++ [mk (f c w.1).1])

/-- The outer loop of `NFC_WriteCheck` (see `writeCheckRounds`) around a given
`write` in the place of `NFC_WriteStructRange(aNFC, aCardInfo, start, end)` and a
given `check` in the place of `NFC_CheckStructArrayIsSame(aNFC, aCardInfo, start, end)`. -/
def writeCheckLoop {σ : Type} (write : TCardInfo → σ → Option (Nat × TCardInfo × σ))
    (check : TCardInfo → σ → Nat × σ) : Nat → TCardInfo → σ → Option (Nat × TCardInfo × σ)
  | 0, c, w => some (1, c, w)
  | n + 1, c, w =>
    match retryOpt (fun Error => Error == 0) write MAXERRORREADING 0 c w with
    | none => none
    | some (0, c1, w1) =>
      match retry (fun Error => Error ≤ 1) (fun c w => ((check c w).1, c, (check c w).2))
          id MAXERRORREADING 0 c1 w1 with
      | (0, c2, w2) => some (0, c2, w2)
      | (1, c2, w2) => writeCheckLoop write check n c2 w2
      | (2, c2, w2) => some (2, c2, w2)
      | (3, c2, w2) => some (4, c2, w2)
      | (4, c2, w2) => some (6, c2, w2)
      | (5, c2, w2) => some (7, c2, w2)
      | (6, c2, w2) => some (8, c2, w2)
      | (_, c2, w2) => some (5, c2, w2)
    | some (1, c1, w1) => some (2, c1, w1)
    | some (2, c1, w1) => some (3, c1, w1)
    | some (3, c1, w1) => some (4, c1, w1)
    | some (4, c1, w1) => some (7, c1, w1)
    | some (_, c1, w1) => some (5, c1, w1)

/-- A page-oriented tag that answers only every fifth probe (the world state
counts the probes), stores nothing on a write, and whose pages all read as
170. -/
def flakyTag : Env Nat where
  pn532_readPassiveTargetID := fun n =>
    (if n % 5 = 4 then some ([4, 1, 2, 3, 4, 5, 6], 7) else none, n + 1)
  pn532_mifareclassic_AuthenticateBlock := fun _ _ _ n => (false, n)
  pn532_mifareclassic_ReadDataBlock := fun _ n => (none, n)
  pn532_mifareclassic_WriteDataBlock := fun _ _ n => (false, n)
  pn532_mifareultralight_ReadPage := fun _ n => (some (List.replicate 16 170), n)
  pn532_mifareultralight_WritePage := fun _ _ n => (false, n)
  malloc := fun _ n => (some (fun _ => 0), n)
  uninit := fun _ _ => 0

/-- A record with usage counter 1 and 35 steps whose bytes are all 0xFF. -/
def maxedCard : TCardInfo :=
  { sRecipeInfo := [1, 2, 0, 1, 0, 0, 0, 35, 0, 5, 0, 0, 0, 0, 0, 0]
    sRecipeStep := some (List.replicate 105 255)
    sUid := [0, 0, 0, 0, 0, 0, 0]
    sUidLength := 7
    TRecipeInfoLoaded := true
    TRecipeStepArrayCreated := true
    TRecipeStepLoaded := true }

/-- Whether `index` is the block that `NFC_GetMifareClassicIndex` gives for one
of the logical units 0..48. -/
def isUnitBlock (index : Nat) : Bool :=
  (List.range 49).any (fun i => NFC_GetMifareClassicIndex i == index)

/-- Whether the physical index of a primitive call is within the bounds: a
block that is the translation of a logical unit of at most 48 and is at most
65, a page of at most 203. -/
def callInBounds : Primitive → Bool
  | Primitive.AuthenticateBlock index => isUnitBlock index && decide (index ≤ 65)
  | Primitive.ReadDataBlock index => isUnitBlock index && decide (index ≤ 65)
  | Primitive.WriteDataBlock index _ => isUnitBlock index && decide (index ≤ 65)
  | Primitive.ReadPage page => decide (page ≤ 203)
  | Primitive.WritePage page _ => decide (page ≤ 203)
  | _ => true

/-- The property `I` of the world state is kept by every primitive call of the
environment `d` that addresses the block of a logical unit of at most 48 or a
page of at most 203, and by every probe. -/
structure KeepsInBounds {σ : Type} (d : Env σ) (I : σ → Prop) : Prop where
  probe : ∀ w, I w → I (d.pn532_readPassiveTargetID w).2
  auth : ∀ iuid iuidLength i w, i ≤ 48 → I w →
    I (d.pn532_mifareclassic_AuthenticateBlock iuid iuidLength (NFC_GetMifareClassicIndex i) w).2
  readBlock : ∀ i w, i ≤ 48 → I w →
    I (d.pn532_mifareclassic_ReadDataBlock (NFC_GetMifareClassicIndex i) w).2
  writeBlock : ∀ i data w, i ≤ 48 → I w →
    I (d.pn532_mifareclassic_WriteDataBlock (NFC_GetMifareClassicIndex i) data w).2
  readPage : ∀ page w, page ≤ 203 → I w → I (d.pn532_mifareultralight_ReadPage page w).2
  writePage : ∀ page data w, page ≤ 203 → I w →
    I (d.pn532_mifareultralight_WritePage page data w).2

/-! ## Theorems -/

theorem mifareClassicLoop_mod4 (n : Nat) :
    ∀ number, number % 4 ≠ 0 → number < 4294967296 →
      mifareClassicLoop n number % 4 ≠ 0 ∧ mifareClassicLoop n number < 4294967296 := by
  induction n with
  | zero => intro number h hlt; exact ⟨h, hlt⟩
  | succ n ih =>
    intro number h hlt
    simp only [mifareClassicLoop, SIZE_T]
    apply ih
    · split <;> omega
    · split <;> omega

/-- C1: for every index `i` the block index returned by
`NFC_GetMifareClassicIndex` is not a sector trailer, i.e. it is never
congruent to 3 modulo 4. -/
theorem C1_index_never_trailer (i : Nat) : NFC_GetMifareClassicIndex i % 4 ≠ 3 := by
  have h := mifareClassicLoop_mod4 i (1 + OFFSETDATA_CLASSIC) (by decide) (by decide)
  unfold NFC_GetMifareClassicIndex
  simp only [SIZE_T] at h ⊢
  omega

theorem foldl_add_mod_eq_sum (f : Nat → Nat) (m n : Nat) :
    (List.range n).foldl (fun acc i => (acc + f i) % m) 0 =
      (∑ i ∈ Finset.range n, f i) % m := by
  induction n with
  | zero => simp
  | succ n ih =>
    rw [List.range_succ, List.foldl_append, ih, Finset.sum_range_succ]
    simp [Nat.add_mod]

theorem NFC_GetCheckSum_of_pos (c : TCardInfo) (hn : NumOfDrinks c ≠ 0) :
    NFC_GetCheckSum c =
      (∑ i ∈ Finset.range (TRecipeStep_Size * RecipeSteps c), stepByte c i * (i % 4 + 1))
        % 65536 := by
  unfold NFC_GetCheckSum
  rw [if_neg hn]
  exact foldl_add_mod_eq_sum (fun i => stepByte c i * (i % 4 + 1)) 65536 _

/-- C4: for a record with non-zero `NumOfDrinks` whose step array holds the
`3 * RecipeSteps` bytes `b`, `NFC_GetCheckSum` is the sum of
`b[i] * (i mod 4 + 1)` over the positions `i` of the step array, modulo 2^16;
and any record with the same step array, `NumOfDrinks` and `RecipeSteps` has
the same checksum, whatever its other header bytes are. -/
theorem C4_checksum_weighted_sum (c : TCardInfo) (b : List Nat)
    (hn : NumOfDrinks c ≠ 0) (hs : c.sRecipeStep = some b)
    (hlen : b.length = TRecipeStep_Size * RecipeSteps c) :
    NFC_GetCheckSum c = (∑ i ∈ Finset.range b.length, b.getD i 0 * (i % 4 + 1)) % 65536 ∧
    ∀ c2 : TCardInfo, c2.sRecipeStep = c.sRecipeStep → NumOfDrinks c2 = NumOfDrinks c →
      RecipeSteps c2 = RecipeSteps c → NFC_GetCheckSum c2 = NFC_GetCheckSum c := by
  constructor
  · rw [NFC_GetCheckSum_of_pos c hn, hlen]
    simp only [stepByte, hs]
  · intro c2 h1 h2 h3
    have hn2 : NumOfDrinks c2 ≠ 0 := by rw [h2]; exact hn
    rw [NFC_GetCheckSum_of_pos c hn, NFC_GetCheckSum_of_pos c2 hn2, h3]
    simp only [stepByte, h1]

theorem C4_checksum_weighted_sum_witness :
    NFC_GetCheckSum sampleCard
      = (∑ i ∈ Finset.range 9, [1, 2, 3, 4, 5, 6, 7, 8, 9].getD i 0 * (i % 4 + 1)) % 65536 :=
  (C4_checksum_weighted_sum sampleCard [1, 2, 3, 4, 5, 6, 7, 8, 9]
    (by decide) rfl (by decide)).1

/-- C5: for a record whose `NumOfDrinks` is 0, `NFC_GetCheckSum` returns 0,
whatever its step count and step array are. -/
theorem C5_checksum_zero_when_unused (c : TCardInfo) (h : NumOfDrinks c = 0) :
    NFC_GetCheckSum c = 0 := by
  unfold NFC_GetCheckSum
  rw [if_pos h]

theorem C5_checksum_zero_when_unused_witness :
    NumOfDrinks sampleCardUnused = 0 ∧ RecipeSteps sampleCardUnused = 3 ∧
      NFC_GetCheckSum sampleCardUnused = 0 :=
  ⟨by decide, by decide, C5_checksum_zero_when_unused sampleCardUnused (by decide)⟩

/-! ### Lists as byte buffers -/

theorem getD_set_nat (a : List Nat) (i j v : Nat) :
    (a.set i v).getD j 0 = if i = j ∧ i < a.length then v else a.getD j 0 := by
  simp only [List.getD_eq_getElem?_getD, List.getElem?_set]
  by_cases h : i = j
  · subst h
    by_cases h2 : i < a.length
    · simp [h2]
    · have h3 : a[i]? = none := by simp; omega
      simp [h2, h3]
  · simp [h]

theorem getD_range_map (f : Nat → Nat) (n k : Nat) (h : k < n) :
    ((List.range n).map f).getD k 0 = f k := by
  simp [List.getD_eq_getElem?_getD, List.getElem?_map, List.getElem?_range h]

theorem list_ext_getD (a b : List Nat) (hl : a.length = b.length)
    (h : ∀ k, k < a.length → a.getD k 0 = b.getD k 0) : a = b := by
  apply List.ext_getElem hl
  intro k h1 h2
  have := h k h1
  simpa [List.getD_eq_getElem?_getD, List.getElem?_eq_getElem h1,
    List.getElem?_eq_getElem h2] using this

/-! ### Resizing the step array -/

theorem fillEntry_length (c : TCardInfo) (i : Nat) (a : List Nat) :
    (fillEntry c i a).length = a.length := by
  have h3 : List.range TRecipeStep_Size = [0, 1, 2] := rfl
  simp only [fillEntry, h3, List.foldl_cons, List.foldl_nil]
  split <;> simp

theorem fillEntry_getD (c : TCardInfo) (i : Nat) (a : List Nat)
    (h : 3 * i + 3 ≤ a.length) (p : Nat) :
    (fillEntry c i a).getD p 0 =
      if 3 * i ≤ p ∧ p < 3 * i + 3 then (if i < RecipeSteps c then stepByte c p else 0)
      else a.getD p 0 := by
  have h3 : List.range TRecipeStep_Size = [0, 1, 2] := rfl
  simp only [fillEntry, h3, List.foldl_cons, List.foldl_nil, TRecipeStep_Size]
  by_cases hi : i < RecipeSteps c <;>
    simp only [hi, ↓reduceIte, getD_set_nat, List.length_set] <;>
    split_ifs <;> first | rfl | omega | (congr 1; omega)

theorem fillNoveRecepty_length (c : TCardInfo) (N : Nat) (a : List Nat) :
    (fillNoveRecepty c N a).length = a.length := by
  induction N with
  | zero => simp [fillNoveRecepty]
  | succ N ih =>
    unfold fillNoveRecepty at ih ⊢
    rw [List.range_succ, List.foldl_append]
    simp [fillEntry_length, ih]

theorem fillNoveRecepty_getD (c : TCardInfo) (N : Nat) (a : List Nat)
    (h : 3 * N ≤ a.length) (p : Nat) :
    (fillNoveRecepty c N a).getD p 0 =
      if p < 3 * N then (if p / 3 < RecipeSteps c then stepByte c p else 0)
      else a.getD p 0 := by
  induction N with
  | zero => simp [fillNoveRecepty]
  | succ N ih =>
    have hl := fillNoveRecepty_length c N a
    have ih := ih (by omega)
    unfold fillNoveRecepty at ih hl ⊢
    rw [List.range_succ, List.foldl_append]
    simp only [List.foldl_cons, List.foldl_nil]
    rw [fillEntry_getD c N _ (by omega) p, ih]
    by_cases hp : 3 * N ≤ p ∧ p < 3 * N + 3
    · have e1 : p / 3 = N := by omega
      have e2 : p < 3 * (N + 1) := by omega
      simp [hp, e1, e2]
    · by_cases hq : p < 3 * N
      · have e2 : p < 3 * (N + 1) := by omega
        simp [hp, hq, e2]
      · have e2 : ¬ p < 3 * (N + 1) := by omega
        simp only [hp, hq, e2, if_false]

theorem RecipeSteps_setRecipeSteps (c : TCardInfo) (n : Nat) (hn : n < 256)
    (hlen : c.sRecipeInfo.length = 16) : RecipeSteps (setRecipeSteps c n) = n := by
  simp only [RecipeSteps, setRecipeSteps, setInfoByte, infoByte, getD_set_nat, hlen]
  simp
  omega

/-- C6: for a record with header loaded and an allocated step array of
`m = RecipeSteps` entries, and a new size `n ≠ m` (a `uint8_t`) for which
`malloc` succeeds, `NFC_ChangeRecipeStepsSize` returns 0 and leaves an allocated
step array of exactly `n` entries with `RecipeSteps = n`, whose entry `i` is the
original entry `i` for `i < min m n` and is all zero for `m ≤ i < n`. -/
theorem C6_resize_preserves_prefix_zero_fills {σ : Type} (d : Env σ) (c : TCardInfo)
    (b : List Nat) (n : Nat) (w w1 : σ) (g : Nat → Nat)
    (hloaded : c.TRecipeInfoLoaded = true) (hcreated : c.TRecipeStepArrayCreated = true)
    (hinfo : c.sRecipeInfo.length = 16)
    (hs : c.sRecipeStep = some b) (_hb : b.length = 3 * RecipeSteps c)
    (hn : n ≠ RecipeSteps c) (hn8 : n < 256)
    (hmalloc : d.malloc (TRecipeStep_Size * n) w = (some g, w1)) :
    (NFC_ChangeRecipeStepsSize d c n w).1 = 0 ∧
    ∃ b2, (NFC_ChangeRecipeStepsSize d c n w).2.1.sRecipeStep = some b2 ∧
      (NFC_ChangeRecipeStepsSize d c n w).2.1.TRecipeStepArrayCreated = true ∧
      b2.length = 3 * n ∧
      RecipeSteps (NFC_ChangeRecipeStepsSize d c n w).2.1 = n ∧
      (∀ i, i < min (RecipeSteps c) n → stepEntry b2 i = stepEntry b i) ∧
      (∀ i, RecipeSteps c ≤ i → i < n → stepEntry b2 i = [0, 0, 0]) := by
  have hr : NFC_ChangeRecipeStepsSize d c n w =
      (0, setRecipeSteps
        { (NFC_DeAllocTRecipeStepArray c).2 with
          sRecipeStep := some (fillNoveRecepty c n ((List.range (TRecipeStep_Size * n)).map g))
          TRecipeStepArrayCreated := true
          TRecipeStepLoaded := true } n, w1) := by
    unfold NFC_ChangeRecipeStepsSize
    simp [hloaded, hcreated, hn, hmalloc]
  have hlen0 : ((List.range (TRecipeStep_Size * n)).map g).length = 3 * n := by simp
  have hget := fillNoveRecepty_getD c n ((List.range (TRecipeStep_Size * n)).map g)
    (by omega)
  have hsb : ∀ p, stepByte c p = b.getD p 0 := by intro p; simp [stepByte, hs]
  refine ⟨by rw [hr], fillNoveRecepty c n ((List.range (TRecipeStep_Size * n)).map g),
    by rw [hr]; rfl, by rw [hr]; rfl, ?_, ?_, ?_, ?_⟩
  · rw [fillNoveRecepty_length, hlen0]
  · rw [hr]
    apply RecipeSteps_setRecipeSteps _ _ hn8
    simp only [NFC_DeAllocTRecipeStepArray, hs]
    exact hinfo
  · intro i hi
    have h1 : i < RecipeSteps c := by omega
    have h2 : i < n := by omega
    simp only [stepEntry, hget, TRecipeStep_Size, hsb]
    have e0 : 3 * i < 3 * n := by omega
    have e1 : 3 * i + 1 < 3 * n := by omega
    have e2 : 3 * i + 2 < 3 * n := by omega
    have f0 : 3 * i / 3 < RecipeSteps c := by omega
    have f1 : (3 * i + 1) / 3 < RecipeSteps c := by omega
    have f2 : (3 * i + 2) / 3 < RecipeSteps c := by omega
    simp only [e0, e1, e2, f0, f1, f2, if_true]
  · intro i hi hin
    simp only [stepEntry, hget, TRecipeStep_Size]
    have e0 : 3 * i < 3 * n := by omega
    have e1 : 3 * i + 1 < 3 * n := by omega
    have e2 : 3 * i + 2 < 3 * n := by omega
    have f0 : ¬ 3 * i / 3 < RecipeSteps c := by omega
    have f1 : ¬ (3 * i + 1) / 3 < RecipeSteps c := by omega
    have f2 : ¬ (3 * i + 2) / 3 < RecipeSteps c := by omega
    simp only [e0, e1, e2, f0, f1, f2, if_true, if_false]

theorem C6_resize_preserves_prefix_zero_fills_witness :
    (NFC_ChangeRecipeStepsSize heapOnly sampleCard 5 ()).1 = 0 ∧
    ∃ b2, (NFC_ChangeRecipeStepsSize heapOnly sampleCard 5 ()).2.1.sRecipeStep = some b2 ∧
      (NFC_ChangeRecipeStepsSize heapOnly sampleCard 5 ()).2.1.TRecipeStepArrayCreated = true ∧
      b2.length = 3 * 5 ∧
      RecipeSteps (NFC_ChangeRecipeStepsSize heapOnly sampleCard 5 ()).2.1 = 5 ∧
      (∀ i, i < min (RecipeSteps sampleCard) 5 →
        stepEntry b2 i = stepEntry [1, 2, 3, 4, 5, 6, 7, 8, 9] i) ∧
      (∀ i, RecipeSteps sampleCard ≤ i → i < 5 → stepEntry b2 i = [0, 0, 0]) :=
  C6_resize_preserves_prefix_zero_fills heapOnly sampleCard [1, 2, 3, 4, 5, 6, 7, 8, 9] 5 () ()
    (fun _ => 170) rfl rfl rfl rfl (by decide) (by decide) (by decide) rfl

/-! ### Range checks of the write path -/

theorem NFC_WriteStructRange_inverted {σ : Type} (d : Env σ) (depth : Nat) (c : TCardInfo)
    (s e : Nat) (w : σ) (h : s > e) :
    NFC_WriteStructRange d (depth + 1) c s e w = some (4, c, w) := by
  simp [NFC_WriteStructRange, h]

theorem NFC_WriteStructRange_out_of_range {σ : Type} (d : Env σ) (depth : Nat) (c : TCardInfo)
    (s e : Nat) (w : σ) (hse : s ≤ e) (he : e > RecipeSteps c) :
    NFC_WriteStructRange d (depth + 1) c s e w = some (1, c, w) := by
  have h1 : ¬ s > e := by omega
  simp [NFC_WriteStructRange, h1, he]

/-- C7: for every record and every `start > end`, `NFC_WriteStructRange`
returns 4 and hands back the record (checksum field included) and the world
unchanged, for every environment; in particular, run on the logging
environment, it leaves the log of primitive calls as it was. -/
theorem C7_inverted_range_rejected_before_io {σ : Type} (d : Env σ) (depth : Nat)
    (c : TCardInfo) (s e : Nat) (w : σ) (t : List Primitive) (h : s > e) :
    NFC_WriteStructRange d (depth + 1) c s e w = some (4, c, w) ∧
    NFC_WriteStructRange (traced d) (depth + 1) c s e (w, t) = some (4, c, (w, t)) :=
  ⟨NFC_WriteStructRange_inverted d depth c s e w h,
    NFC_WriteStructRange_inverted (traced d) depth c s e (w, t) h⟩

theorem C7_inverted_range_rejected_before_io_witness :
    NFC_WriteStructRange heapOnly 2 sampleCard 2 1 () = some (4, sampleCard, ()) ∧
    NFC_WriteStructRange (traced heapOnly) 2 sampleCard 2 1 ((), []) =
      some (4, sampleCard, ((), [])) :=
  C7_inverted_range_rejected_before_io heapOnly 1 sampleCard 2 1 () [] (by decide)

theorem writeUnitsClassic_code {σ : Type} (d : Env σ) (c : TCardInfo) (iuid : List Nat)
    (iuidLength : Nat) (n : Nat) :
    ∀ i w, (writeUnitsClassic d c iuid iuidLength n i w).1 = none ∨
      (writeUnitsClassic d c iuid iuidLength n i w).1 = some 3 := by
  induction n with
  | zero => intro i w; left; rfl
  | succ n ih =>
    intro i w
    simp only [writeUnitsClassic]
    split
    · exact ih _ _
    · right; rfl

theorem writeRangeUnits_code {σ : Type} (d : Env σ) (c : TCardInfo) (zacatek konec : Nat)
    (w : σ) :
    (writeRangeUnits d c zacatek konec w).1 = 0 ∨ (writeRangeUnits d c zacatek konec w).1 = 2 ∨
      (writeRangeUnits d c zacatek konec w).1 = 3 := by
  unfold writeRangeUnits
  rcases d.pn532_readPassiveTargetID w with ⟨_ | ⟨iuid, iuidLength⟩, w1⟩
  · right; left; rfl
  · by_cases h4 : iuidLength = 4
    · have h := writeUnitsClassic_code d c iuid iuidLength
        (konec / PAGESIZE_CLASSIC + 1 - zacatek / PAGESIZE_CLASSIC)
        (zacatek / PAGESIZE_CLASSIC) w1
      simp only [h4, if_true] at h ⊢
      generalize writeUnitsClassic d c iuid 4 _ _ w1 = x at h ⊢
      rcases x with ⟨_ | code, w2⟩
      · left; rfl
      · rcases h with h | h
        · simp at h
        · simp at h; right; right; exact h
    · by_cases h7 : iuidLength = 7
      · simp only [h4, h7, if_true, if_false]; left; trivial
      · simp only [h4, h7, if_false]; left; trivial

theorem retryOpt_isSome {σ : Type} (stop : Nat → Bool)
    (f : TCardInfo → σ → Option (Nat × TCardInfo × σ))
    (hf : ∀ c w, ∃ r, f c w = some r) (n : Nat) :
    ∀ Error c w, ∃ r, retryOpt stop f n Error c w = some r := by
  induction n with
  | zero => intro Error c w; exact ⟨_, rfl⟩
  | succ n ih =>
    intro Error c w
    obtain ⟨⟨e1, c1, w1⟩, hr⟩ := hf c w
    simp only [retryOpt, hr]
    split
    · exact ⟨_, rfl⟩
    · exact ih _ _ _

theorem NFC_WriteStructRange_start_zero {σ : Type} (d : Env σ) (depth : Nat) (c : TCardInfo)
    (e : Nat) (w : σ) : ∃ r, NFC_WriteStructRange d (depth + 1) c 0 e w = some r := by
  simp only [NFC_WriteStructRange, ne_eq, not_true_eq_false, if_false]
  split_ifs <;> exact ⟨_, rfl⟩

theorem NFC_WriteStructRange_valid_code {σ : Type} (d : Env σ) (depth : Nat) (c : TCardInfo)
    (s e : Nat) (w : σ) (hse : s ≤ e) (he : e ≤ RecipeSteps c) :
    ∃ r, NFC_WriteStructRange d (depth + 2) c s e w = some r ∧
      (r.1 = 0 ∨ r.1 = 2 ∨ r.1 = 3) := by
  have h1 : ¬ s > e := by omega
  have h2 : ¬ (s > RecipeSteps c ∨ e > RecipeSteps c) := by omega
  rw [NFC_WriteStructRange]
  simp only [h1, h2, if_false]
  by_cases hcs : NFC_GetCheckSum c ≠ CheckSum c
  · by_cases hs0 : s ≠ 0
    · obtain ⟨r, hr⟩ := retryOpt_isSome (fun Error => Error == 0 || Error == 1)
        (fun c w => NFC_WriteStructRange d (depth + 1) c 0 0 w)
        (fun c w => NFC_WriteStructRange_start_zero d depth c 0 w)
        MAXERRORREADING 0 (setCheckSum c (NFC_GetCheckSum c)) w
      simp only [hcs, hs0, if_true, ne_eq, not_false_eq_true, hr, Option.map_some']
      exact ⟨_, rfl, writeRangeUnits_code d _ _ _ _⟩
    · simp only [hcs, hs0, if_true, if_false, ne_eq, not_false_eq_true]
      exact ⟨_, rfl, writeRangeUnits_code d _ _ _ _⟩
  · simp only [hcs, if_false]
    exact ⟨_, rfl, writeRangeUnits_code d _ _ _ _⟩

/-- C8: for every record and every `start ≤ end` with `end > RecipeSteps`,
`NFC_WriteStructRange` returns 1 and hands back the record (checksum field
included) and the world unchanged, for every environment, and run on the
logging environment it leaves the log of primitive calls as it was; for
`start ≤ end ≤ RecipeSteps` it returns a code that is neither 1 nor 4. -/
theorem C8_out_of_range_rejected_before_io {σ : Type} (d : Env σ) (depth : Nat)
    (c : TCardInfo) (s e : Nat) (w : σ) (t : List Primitive) (hse : s ≤ e) :
    (e > RecipeSteps c →
      NFC_WriteStructRange d (depth + 2) c s e w = some (1, c, w) ∧
      NFC_WriteStructRange (traced d) (depth + 2) c s e (w, t) = some (1, c, (w, t))) ∧
    (e ≤ RecipeSteps c →
      ∃ r, NFC_WriteStructRange d (depth + 2) c s e w = some r ∧ r.1 ≠ 1 ∧ r.1 ≠ 4) := by
  constructor
  · intro he
    exact ⟨NFC_WriteStructRange_out_of_range d (depth + 1) c s e w hse he,
      NFC_WriteStructRange_out_of_range (traced d) (depth + 1) c s e (w, t) hse he⟩
  · intro he
    obtain ⟨r, hr, hc⟩ := NFC_WriteStructRange_valid_code d depth c s e w hse he
    exact ⟨r, hr, by omega, by omega⟩

theorem C8_out_of_range_rejected_before_io_witness :
    (NFC_WriteStructRange heapOnly 2 sampleCard 1 4 () = some (1, sampleCard, ()) ∧
      NFC_WriteStructRange (traced heapOnly) 2 sampleCard 1 4 ((), []) =
        some (1, sampleCard, ((), []))) ∧
    (∃ r, NFC_WriteStructRange heapOnly 2 sampleCard 1 3 () = some r ∧ r.1 ≠ 1 ∧ r.1 ≠ 4) :=
  ⟨(C8_out_of_range_rejected_before_io heapOnly 0 sampleCard 1 4 () [] (by decide)).1
      (by decide),
    (C8_out_of_range_rejected_before_io heapOnly 0 sampleCard 1 3 () [] (by decide)).2
      (by decide)⟩

/-- C9 (the code does not do this): on a present Mifare Classic tag, and on a
present Mifare Ultralight tag, whose write primitive reports failure for every
unit and stores nothing, `NFC_WriteStructRange` over the valid range 0..3 of the
sample record returns 0. -/
theorem C9_write_failure_reported_as_success :
    (∀ index data mem,
      (writeProtectedTag [1, 2, 3, 4] 4 (fun _ => 0)).pn532_mifareclassic_WriteDataBlock
        index data mem = (false, mem)) ∧
    (∀ page data mem,
      (writeProtectedTag [1, 2, 3, 4, 5, 6, 7] 7 (fun _ => 0)).pn532_mifareultralight_WritePage
        page data mem = (false, mem)) ∧
    (NFC_WriteStructRange (writeProtectedTag [1, 2, 3, 4] 4 (fun _ => 0)) 2 sampleCard 0 3
      (fun _ => 0)).map (fun r => r.1) = some 0 ∧
    (NFC_WriteStructRange (writeProtectedTag [1, 2, 3, 4, 5, 6, 7] 7 (fun _ => 0)) 2 sampleCard
      0 3 (fun _ => 0)).map (fun r => r.1) = some 0 := by
  refine ⟨fun _ _ _ => rfl, fun _ _ _ => rfl, ?_, ?_⟩
  · decide
  · decide

/-! ### Closed form of the address translation -/

theorem mifareClassicLoop_succ_right (n : Nat) :
    ∀ x, mifareClassicLoop (n + 1) x =
      (if ((mifareClassicLoop n x + 1) % SIZE_T) % 4 = 0
        then ((mifareClassicLoop n x + 1) % SIZE_T + 1) % SIZE_T
        else (mifareClassicLoop n x + 1) % SIZE_T) := by
  induction n with
  | zero => intro x; simp [mifareClassicLoop]
  | succ n ih =>
    intro x
    rw [mifareClassicLoop, ih]
    rfl

theorem mifareClassicLoop_closed (n : Nat) (h : n < 1000000) :
    mifareClassicLoop n 2 = n + 2 + (n + 1) / 3 := by
  induction n with
  | zero => rfl
  | succ n ih =>
    rw [mifareClassicLoop_succ_right, ih (by omega)]
    simp only [SIZE_T]
    split <;> omega

theorem NFC_GetMifareClassicIndex_closed (i : Nat) (h : i ≤ 190) :
    NFC_GetMifareClassicIndex i = i + 1 + (i + 1) / 3 := by
  unfold NFC_GetMifareClassicIndex
  rw [show 1 + OFFSETDATA_CLASSIC = 2 from rfl, mifareClassicLoop_closed i (by omega)]
  simp only [SIZE_T]
  omega

theorem NFC_GetMifareClassicIndex_inj (i j : Nat) (hi : i ≤ 190) (hj : j ≤ 190)
    (h : NFC_GetMifareClassicIndex i = NFC_GetMifareClassicIndex j) : i = j := by
  rw [NFC_GetMifareClassicIndex_closed i hi, NFC_GetMifareClassicIndex_closed j hj] at h
  omega

/-! ### The read loops as instances of `unitLoop` -/

theorem loadInfoClassic_eq {σ : Type} (d : Env σ) (iuid : List Nat) (iuidLength : Nat)
    (n : Nat) : ∀ i c w, loadInfoClassic d iuid iuidLength n i c w =
      unitLoop (readUnitClassic d iuid iuidLength) loadInfoBytes n i c w := by
  induction n with
  | zero => intro i c w; rfl
  | succ n ih =>
    intro i c w
    simp only [loadInfoClassic, unitLoop, readUnitClassic]
    rcases d.pn532_mifareclassic_AuthenticateBlock iuid iuidLength
      (NFC_GetMifareClassicIndex i) w with ⟨_ | _, w1⟩
    · rfl
    · dsimp only
      rcases d.pn532_mifareclassic_ReadDataBlock (NFC_GetMifareClassicIndex i) w1
        with ⟨_ | iData, w2⟩
      · rfl
      · exact ih _ _ _

theorem loadInfoUltralight_eq {σ : Type} (d : Env σ) (n : Nat) :
    ∀ i c w, loadInfoUltralight d n i c w =
      unitLoop (readUnitUltralight d) loadInfoBytes n i c w := by
  induction n with
  | zero => intro i c w; rfl
  | succ n ih =>
    intro i c w
    simp only [loadInfoUltralight, unitLoop, readUnitUltralight]
    rcases d.pn532_mifareultralight_ReadPage (i * 4 + OFFSETDATA_ULTRALIGHT) w
      with ⟨_ | iData, w1⟩
    · rfl
    · exact ih _ _ _

theorem loadStepsClassic_eq {σ : Type} (d : Env σ) (iuid : List Nat) (iuidLength : Nat)
    (PrvniBunka Posun : Nat) (n : Nat) :
    ∀ i c w, loadStepsClassic d iuid iuidLength PrvniBunka Posun n i c w =
      unitLoop (readUnitClassic d iuid iuidLength)
        (fun iData i c => loadStepsBytes iData i PrvniBunka Posun c) n i c w := by
  induction n with
  | zero => intro i c w; rfl
  | succ n ih =>
    intro i c w
    simp only [loadStepsClassic, unitLoop, readUnitClassic]
    rcases d.pn532_mifareclassic_AuthenticateBlock iuid iuidLength
      (NFC_GetMifareClassicIndex i) w with ⟨_ | _, w1⟩
    · rfl
    · dsimp only
      rcases d.pn532_mifareclassic_ReadDataBlock (NFC_GetMifareClassicIndex i) w1
        with ⟨_ | iData, w2⟩
      · rfl
      · exact ih _ _ _

theorem loadStepsUltralight_eq {σ : Type} (d : Env σ) (PrvniBunka Posun : Nat) (n : Nat) :
    ∀ i c w, loadStepsUltralight d PrvniBunka Posun n i c w =
      unitLoop (readUnitUltralight d)
        (fun iData i c => loadStepsBytes iData i PrvniBunka Posun c) n i c w := by
  induction n with
  | zero => intro i c w; rfl
  | succ n ih =>
    intro i c w
    simp only [loadStepsUltralight, unitLoop, readUnitUltralight]
    rcases d.pn532_mifareultralight_ReadPage (i * 4 + OFFSETDATA_ULTRALIGHT) w
      with ⟨_ | iData, w1⟩
    · rfl
    · exact ih _ _ _

theorem loadStepClassic_eq {σ : Type} (d : Env σ) (iuid : List Nat) (iuidLength : Nat)
    (PrvniBunka Posun konec NumOfStructure : Nat) (n : Nat) :
    ∀ i s w, loadStepClassic d iuid iuidLength PrvniBunka Posun konec NumOfStructure n i s w =
      unitLoop (readUnitClassic d iuid iuidLength)
        (fun iData i s => loadStepBytes iData i PrvniBunka Posun konec NumOfStructure s)
        n i s w := by
  induction n with
  | zero => intro i s w; rfl
  | succ n ih =>
    intro i s w
    simp only [loadStepClassic, unitLoop, readUnitClassic]
    rcases d.pn532_mifareclassic_AuthenticateBlock iuid iuidLength
      (NFC_GetMifareClassicIndex i) w with ⟨_ | _, w1⟩
    · rfl
    · dsimp only
      rcases d.pn532_mifareclassic_ReadDataBlock (NFC_GetMifareClassicIndex i) w1
        with ⟨_ | iData, w2⟩
      · rfl
      · exact ih _ _ _

theorem loadStepUltralight_eq {σ : Type} (d : Env σ)
    (PrvniBunka Posun konec NumOfStructure : Nat) (n : Nat) :
    ∀ i s w, loadStepUltralight d PrvniBunka Posun konec NumOfStructure n i s w =
      unitLoop (readUnitUltralight d)
        (fun iData i s => loadStepBytes iData i PrvniBunka Posun konec NumOfStructure s)
        n i s w := by
  induction n with
  | zero => intro i s w; rfl
  | succ n ih =>
    intro i s w
    simp only [loadStepUltralight, unitLoop, readUnitUltralight]
    rcases d.pn532_mifareultralight_ReadPage (i * 4 + OFFSETDATA_ULTRALIGHT) w
      with ⟨_ | iData, w1⟩
    · rfl
    · exact ih _ _ _

/-! ### Unit reads on a tag whose reads return the stored contents -/

theorem physAddr_classic (i k : Nat) (hk : k < 16) :
    physAddr 4 (16 * i + k) = PAGESIZE_CLASSIC * NFC_GetMifareClassicIndex i + k := by
  have h1 : (16 * i + k) / 16 = i := by omega
  have h2 : (16 * i + k) % 16 = k := by omega
  simp [physAddr, h1, h2]

theorem physAddr_ultralight (p : Nat) : physAddr 7 p = p + 32 := by
  simp only [physAddr, show (7 : Nat) ≠ 4 by decide, if_false, PAGESIZE_ULTRALIGHT,
    OFFSETDATA_ULTRALIGHT]
  omega

theorem readUnitClassic_ok {σ : Type} (d : Env σ) (store : σ → Nat → Nat)
    (h : ReadsStored d store 4) (iuid : List Nat) (iuidLength : Nat) :
    UnitReadOK (readUnitClassic d iuid iuidLength) store 4 := by
  intro i w
  unfold readUnitClassic
  have hA := h.auth_store iuid iuidLength (NFC_GetMifareClassicIndex i) w
  rcases hAe : d.pn532_mifareclassic_AuthenticateBlock iuid iuidLength
    (NFC_GetMifareClassicIndex i) w with ⟨_ | _, w1⟩
  · rw [hAe] at hA
    exact ⟨hA, fun code hd => by simp at hd; omega, fun iData hd => by simp at hd⟩
  · rw [hAe] at hA
    dsimp only at hA ⊢
    have hR := h.readBlock_store (NFC_GetMifareClassicIndex i) w1
    have hD := h.readBlock_data (NFC_GetMifareClassicIndex i) w1
    rcases hRe : d.pn532_mifareclassic_ReadDataBlock (NFC_GetMifareClassicIndex i) w1
      with ⟨_ | iData, w2⟩
    · rw [hRe] at hR
      exact ⟨hR.trans hA, fun code hd => by simp at hd; omega, fun iData hd => by simp at hd⟩
    · rw [hRe] at hR hD
      refine ⟨hR.trans hA, fun code hd => by simp at hd, fun iData2 hd k hk => ?_⟩
      simp only [Except.ok.injEq] at hd
      subst hd
      rw [hD iData rfl k hk, tagByte, physAddr_classic i k hk, hA]

theorem readUnitUltralight_ok {σ : Type} (d : Env σ) (store : σ → Nat → Nat)
    (h : ReadsStored d store 7) : UnitReadOK (readUnitUltralight d) store 7 := by
  intro i w
  unfold readUnitUltralight
  have hR := h.readPage_store (i * 4 + OFFSETDATA_ULTRALIGHT) w
  have hD := h.readPage_data (i * 4 + OFFSETDATA_ULTRALIGHT) w
  rcases hRe : d.pn532_mifareultralight_ReadPage (i * 4 + OFFSETDATA_ULTRALIGHT) w
    with ⟨_ | iData, w1⟩
  · rw [hRe] at hR
    exact ⟨hR, fun code hd => by simp at hd; omega, fun iData hd => by simp at hd⟩
  · rw [hRe] at hR hD
    refine ⟨hR, fun code hd => by simp at hd, fun iData2 hd k hk => ?_⟩
    simp only [Except.ok.injEq] at hd
    subst hd
    rw [hD iData rfl k hk, tagByte, physAddr_ultralight]
    congr 1
    simp only [PAGESIZE_ULTRALIGHT, OFFSETDATA_ULTRALIGHT]
    omega

/-! ### Rules for the loops -/

theorem forBreak_rule {α : Type} (body : Nat → α → α × Bool) (Inv : Nat → α → Prop)
    (Post : α → Prop) (n : Nat) :
    ∀ k0 s, Inv k0 s →
      (∀ k s, k0 ≤ k → k < k0 + n → Inv k s →
        ((body k s).2 = true → Inv (k + 1) (body k s).1) ∧
        ((body k s).2 = false → Post (body k s).1)) →
      (∀ s, Inv (k0 + n) s → Post s) → Post (forBreak body n k0 s) := by
  induction n with
  | zero => intro k0 s h0 _ hend; exact hend s h0
  | succ n ih =>
    intro k0 s h0 hstep hend
    have hs := hstep k0 s (le_refl _) (by omega) h0
    rw [forBreak]
    rcases hb : body k0 s with ⟨s1, _ | _⟩
    · rw [hb] at hs
      exact hs.2 rfl
    · rw [hb] at hs
      apply ih (k0 + 1) s1 (hs.1 rfl)
      · intro k s hk1 hk2 hI
        exact hstep k s (by omega) (by omega) hI
      · intro s hI
        apply hend
        rw [show k0 + (n + 1) = k0 + 1 + n by omega]
        exact hI

theorem unitLoop_rule {σ α : Type} (read : Nat → σ → Except Nat (List Nat) × σ)
    (copy : List Nat → Nat → α → α) (store : σ → Nat → Nat) (uidLength : Nat)
    (M : Nat → Nat) (hread : UnitReadOK read store uidLength)
    (Inv : Nat → α → Prop) (lo hi : Nat)
    (hInv : ∀ i s iData, lo ≤ i → i < hi → Inv i s →
      (∀ k, k < 16 → iData.getD k 0 = tagByte uidLength M (16 * i + k)) →
      Inv (i + 1) (copy iData i s))
    (n : Nat) :
    ∀ i s w, lo ≤ i → i + n ≤ hi → store w = M → Inv i s →
      store (unitLoop read copy n i s w).2.2 = M ∧
      (unitLoop read copy n i s w).1 ≠ some 0 ∧
      ∃ j, i ≤ j ∧ j ≤ i + n ∧ Inv j (unitLoop read copy n i s w).2.1 ∧
        ((unitLoop read copy n i s w).1 = none → j = i + n) := by
  induction n with
  | zero =>
    intro i s w _ _ hw hi
    exact ⟨hw, by simp [unitLoop], i, le_refl _, le_refl _, hi, fun _ => rfl⟩
  | succ n ih =>
    intro i s w hlo hhi hw hi
    rw [unitLoop]
    have hr := hread i w
    rcases hre : read i w with ⟨code | iData, w1⟩
    · rw [hre] at hr
      exact ⟨hr.1.trans hw, by simpa using hr.2.1 code rfl, i, le_refl _, by omega, hi,
        fun h => by simp at h⟩
    · rw [hre] at hr
      have hd := hr.2.2 iData rfl
      rw [hw] at hd
      obtain ⟨h1, h2, j, hj1, hj2, hj3, hj4⟩ :=
        ih (i + 1) (copy iData i s) w1 (by omega) (by omega) (hr.1.trans hw)
          (hInv i s iData hlo (by omega) hi hd)
      exact ⟨h1, h2, j, by omega, by omega, hj3, fun h => by rw [hj4 h]; omega⟩

/-! ### The copy loops -/

theorem loadInfoBytes_zero (iData : List Nat) (c : TCardInfo)
    (hlen : c.sRecipeInfo.length = 16) :
    loadInfoBytes iData 0 c =
      { c with sRecipeInfo := (List.range 16).map (fun k => iData.getD k 0) } := by
  unfold loadInfoBytes
  refine forBreak_rule _
    (fun k c' => ∃ l, c' = { c with sRecipeInfo := l } ∧ l.length = 16 ∧
      ∀ j, l.getD j 0 = if j < k then iData.getD j 0 else c.sRecipeInfo.getD j 0)
    (fun c' => c' = { c with sRecipeInfo := (List.range 16).map (fun k => iData.getD k 0) })
    _ _ _ ?_ ?_ ?_
  · exact ⟨c.sRecipeInfo, rfl, hlen, fun j => by simp⟩
  · rintro k s _ hk ⟨l, rfl, hl, hget⟩
    have hk' : k + 0 * PAGESIZE_CLASSIC < TRecipeInfo_Size := by
      simp only [PAGESIZE_CLASSIC, TRecipeInfo_Size] at hk ⊢; omega
    simp only [hk', if_true]
    refine ⟨fun _ => ⟨l.set k (iData.getD k 0), by simp [setInfoByte], by simpa using hl,
      fun j => ?_⟩, fun h => by simp at h⟩
    rw [getD_set_nat, hget]
    simp only [PAGESIZE_CLASSIC] at hk
    split_ifs <;> first | rfl | omega | (congr 1; omega)
  · rintro s ⟨l, rfl, hl, hget⟩
    congr 1
    apply list_ext_getD
    · simp [hl]
    · intro j hj
      rw [hget]
      have hj' : j < 16 := by omega
      rw [getD_range_map (fun k => iData.getD k 0) 16 j hj']
      simp [hj']

theorem loadInfoBytes_frame (iData : List Nat) (i : Nat) (c : TCardInfo) :
    ∃ l, loadInfoBytes iData i c = { c with sRecipeInfo := l } ∧
      l.length = c.sRecipeInfo.length := by
  unfold loadInfoBytes
  refine forBreak_rule _
    (fun _ c' => ∃ l, c' = { c with sRecipeInfo := l } ∧ l.length = c.sRecipeInfo.length)
    (fun c' => ∃ l, c' = { c with sRecipeInfo := l } ∧ l.length = c.sRecipeInfo.length)
    _ _ _ ?_ ?_ ?_
  · exact ⟨c.sRecipeInfo, rfl, rfl⟩
  · rintro k s _ _ ⟨l, rfl, hl⟩
    by_cases hk' : k + i * PAGESIZE_CLASSIC < TRecipeInfo_Size
    · simp only [hk', if_true]
      exact ⟨fun _ => ⟨l.set (k + i * PAGESIZE_CLASSIC) (iData.getD k 0),
        by simp [setInfoByte], by simpa using hl⟩, fun h => by simp at h⟩
    · simp only [hk', if_false]
      exact ⟨fun h => by simp at h, fun _ => ⟨l, rfl, hl⟩⟩
  · intro s h; exact h

theorem loadStepsBytes_spec (iData : List Nat) (i : Nat) (c : TCardInfo) (a : List Nat)
    (hi : 1 ≤ i) (hs : c.sRecipeStep = some a) :
    ∃ a2, loadStepsBytes iData i 1 0 c = { c with sRecipeStep := some a2 } ∧
      a2.length = a.length ∧
      ∀ q, a2.getD q 0 =
        if 16 * (i - 1) ≤ q ∧ q < 16 * (i - 1) + 16 ∧ q < 3 * RecipeSteps c ∧ q < a.length
        then iData.getD (q - 16 * (i - 1)) 0 else a.getD q 0 := by
  unfold loadStepsBytes
  refine forBreak_rule _
    (fun k c' => ∃ a2, c' = { c with sRecipeStep := some a2 } ∧ a2.length = a.length ∧
      ∀ q, a2.getD q 0 =
        if 16 * (i - 1) ≤ q ∧ q < 16 * (i - 1) + k ∧ q < 3 * RecipeSteps c ∧ q < a.length
        then iData.getD (q - 16 * (i - 1)) 0 else a.getD q 0)
    (fun c' => ∃ a2, c' = { c with sRecipeStep := some a2 } ∧ a2.length = a.length ∧
      ∀ q, a2.getD q 0 =
        if 16 * (i - 1) ≤ q ∧ q < 16 * (i - 1) + 16 ∧ q < 3 * RecipeSteps c ∧ q < a.length
        then iData.getD (q - 16 * (i - 1)) 0 else a.getD q 0)
    _ _ _ ?_ ?_ ?_
  · refine ⟨a, ?_, rfl, fun q => ?_⟩
    · cases c; simp_all
    · have : ¬ (16 * (i - 1) ≤ q ∧ q < 16 * (i - 1) + 0 ∧ q < 3 * RecipeSteps c ∧
          q < a.length) := by omega
      simp only [this, if_false]
  · rintro k s _ hk ⟨a2, rfl, hl, hget⟩
    have hR : RecipeSteps { c with sRecipeStep := some a2 } = RecipeSteps c := rfl
    simp only [hR, PAGESIZE_CLASSIC, TRecipeInfo_Size, TRecipeStep_Size] at hk ⊢
    by_cases hg : k + i * 16 < 16 + RecipeSteps c * 3
    · simp only [hg, if_true]
      by_cases h1 : i = 1
      · subst h1
        have hne : ¬ k + 0 = 16 := by omega
        simp only [hne, if_false, if_true]
        refine ⟨fun _ => ⟨a2.set (k + (1 - 1) * 16) (iData.getD (k + 0) 0),
          by simp [setStepByte], by simpa using hl, fun q => ?_⟩, fun h => by simp at h⟩
        rw [getD_set_nat, hget, hl]
        split_ifs <;> first | rfl | omega | (congr 1; omega)
      · simp only [h1, if_false]
        refine ⟨fun _ => ⟨a2.set (k + (i - 1) * 16 - 0) (iData.getD k 0),
          by simp [setStepByte], by simpa using hl, fun q => ?_⟩, fun h => by simp at h⟩
        rw [getD_set_nat, hget, hl]
        split_ifs <;> first | rfl | omega | (congr 1; omega)
    · simp only [hg, if_false]
      refine ⟨fun h => by simp at h, fun _ => ⟨a2, rfl, hl, fun q => ?_⟩⟩
      rw [hget]
      split_ifs <;> first | rfl | omega
  · rintro s ⟨a2, rfl, hl, hget⟩
    exact ⟨a2, rfl, hl, hget⟩

theorem loadStepBytes_spec (iData : List Nat) (i n P Posun konec cnt : Nat) (c : TCardInfo)
    (a : List Nat) (hs : c.sRecipeStep = some a) (ha : 3 * n + 3 ≤ a.length)
    (hP : 16 * P + Posun = 16 + 3 * n) (hPosun : Posun < 16) (hkonec : konec = 18 + 3 * n)
    (hi : P ≤ i) (hi2 : 16 * i ≤ konec) (hcnt : cnt = min 3 (16 * i - (16 + 3 * n))) :
    ∃ a2, loadStepBytes iData i P Posun konec n (c, cnt) =
        ({ c with sRecipeStep := some a2 }, min 3 (16 * (i + 1) - (16 + 3 * n))) ∧
      a2.length = a.length ∧
      ∀ q, a2.getD q 0 =
        if 3 * n + cnt ≤ q ∧ q < 3 * n + min 3 (16 * (i + 1) - (16 + 3 * n))
        then iData.getD (q + 16 - 16 * i) 0 else a.getD q 0 := by
  unfold loadStepBytes
  refine forBreak_rule _
    (fun k (s : TCardInfo × Nat) => s.2 = cnt + k ∧ cnt + k < 3 ∧
      (if i = P then Posun else 0) + k ≤ 16 ∧
      ∃ a2, s.1 = { c with sRecipeStep := some a2 } ∧ a2.length = a.length ∧
        ∀ q, a2.getD q 0 =
          if 3 * n + cnt ≤ q ∧ q < 3 * n + cnt + k
          then iData.getD (q + 16 - 16 * i) 0 else a.getD q 0)
    (fun s => ∃ a2, s = ({ c with sRecipeStep := some a2 },
        min 3 (16 * (i + 1) - (16 + 3 * n))) ∧
      a2.length = a.length ∧
      ∀ q, a2.getD q 0 =
        if 3 * n + cnt ≤ q ∧ q < 3 * n + min 3 (16 * (i + 1) - (16 + 3 * n))
        then iData.getD (q + 16 - 16 * i) 0 else a.getD q 0)
    _ _ _ ?_ ?_ ?_
  · refine ⟨rfl, by omega, by split <;> omega, a, ?_, rfl, fun q => ?_⟩
    · cases c; simp_all
    · have : ¬ (3 * n + cnt ≤ q ∧ q < 3 * n + cnt + 0) := by omega
      simp only [this, if_false]
  · rintro k ⟨c1, cnt1⟩ _ hk ⟨hc1, hlt, hoff, a2, hc, hl, hget⟩
    simp only at hc1 hc
    subst hc1 hc
    simp only [PAGESIZE_CLASSIC, TRecipeStep_Size] at hk ⊢
    have hg : k + i * 16 < konec + 1 := by split at hoff <;> omega
    simp only [hg, if_true]
    by_cases hiP : i = P
    · subst hiP
      simp only [if_true] at hoff ⊢
      by_cases h16 : k + Posun = 16
      · simp only [h16, if_true]
        refine ⟨fun h => by simp at h, fun _ => ⟨a2, ?_, hl, fun q => ?_⟩⟩
        · congr 1; omega
        · rw [hget]
          split_ifs <;> first | rfl | omega
      · simp only [h16, if_false]
        by_cases h3 : cnt + k + 1 = 3
        · simp only [h3, beq_self_eq_true, Bool.not_true]
          refine ⟨fun h => by simp at h, fun _ => ⟨a2.set (k + (i - i) * 16 + n * 3)
            (iData.getD (k + Posun) 0), ?_, by simpa using hl, fun q => ?_⟩⟩
          · simp only [setStepByte, Option.map_some', Prod.mk.injEq, true_and]
            omega
          · rw [getD_set_nat, hget, hl]
            split_ifs <;> first | rfl | omega | (congr 1; omega)
        · have hb : (cnt + k + 1 == 3) = false := by simpa using h3
          simp only [hb, Bool.not_false]
          refine ⟨fun _ => ⟨by omega, by omega, by omega, a2.set (k + (i - i) * 16 + n * 3)
            (iData.getD (k + Posun) 0), by simp [setStepByte], by simpa using hl,
            fun q => ?_⟩, fun h => by simp at h⟩
          rw [getD_set_nat, hget, hl]
          split_ifs <;> first | rfl | omega | (congr 1; omega)
    · simp only [hiP, if_false] at hoff ⊢
      by_cases h3 : cnt + k + 1 = 3
      · simp only [h3, beq_self_eq_true, Bool.not_true]
        refine ⟨fun h => by simp at h, fun _ => ⟨a2.set (k + (i - P) * 16 + n * 3 - Posun)
          (iData.getD k 0), ?_, by simpa using hl, fun q => ?_⟩⟩
        · simp only [setStepByte, Option.map_some', Prod.mk.injEq, true_and]
          omega
        · rw [getD_set_nat, hget, hl]
          split_ifs <;> first | rfl | omega | (congr 1; omega)
      · have hb : (cnt + k + 1 == 3) = false := by simpa using h3
        simp only [hb, Bool.not_false]
        refine ⟨fun _ => ⟨by omega, by omega, by omega, a2.set (k + (i - P) * 16 + n * 3 - Posun)
          (iData.getD k 0), by simp [setStepByte], by simpa using hl,
          fun q => ?_⟩, fun h => by simp at h⟩
        rw [getD_set_nat, hget, hl]
        split_ifs <;> first | rfl | omega | (congr 1; omega)
  · rintro ⟨c1, cnt1⟩ ⟨_, hlt, _⟩
    simp only [PAGESIZE_CLASSIC] at hlt
    omega

/-! ### Loading the header from a tag whose reads return the stored contents -/

theorem tagInfo_of_unit (uidLength : Nat) (M : Nat → Nat) (iData : List Nat)
    (h : ∀ k, k < 16 → iData.getD k 0 = tagByte uidLength M (16 * 0 + k)) :
    (List.range 16).map (fun k => iData.getD k 0) = tagInfo uidLength M := by
  unfold tagInfo
  apply List.map_congr_left
  intro k hk
  rw [h k (by simpa using hk)]
  simp

theorem tagInfo_length (uidLength : Nat) (M : Nat → Nat) :
    (tagInfo uidLength M).length = 16 := by
  simp [tagInfo]

theorem loadInfo_unitLoop_spec {σ : Type} (read : Nat → σ → Except Nat (List Nat) × σ)
    (store : σ → Nat → Nat) (uidLength : Nat) (hread : UnitReadOK read store uidLength)
    (c : TCardInfo) (w : σ) (hc : c.sRecipeInfo.length = 16) :
    store (unitLoop read loadInfoBytes 1 0 c w).2.2 = store w ∧
    (∃ l, l.length = 16 ∧ (unitLoop read loadInfoBytes 1 0 c w).2.1 = { c with sRecipeInfo := l }) ∧
    (unitLoop read loadInfoBytes 1 0 c w).1 ≠ some 0 ∧
    ((unitLoop read loadInfoBytes 1 0 c w).1 = none →
      (unitLoop read loadInfoBytes 1 0 c w).2.1 =
        { c with sRecipeInfo := tagInfo uidLength (store w) }) := by
  obtain ⟨h1, h2, j, _, _, hj3, hj4⟩ :=
    unitLoop_rule read loadInfoBytes store uidLength (store w) hread
    (fun i s => (i = 0 ∧ s = c) ∨
      (i = 1 ∧ s = { c with sRecipeInfo := tagInfo uidLength (store w) }))
    0 1
    (by
      rintro i s iData _ hi1 hinv hd
      have hi0 : i = 0 := by omega
      subst hi0
      rcases hinv with ⟨_, rfl⟩ | ⟨h0, _⟩
      · right
        refine ⟨rfl, ?_⟩
        rw [loadInfoBytes_zero iData s hc, tagInfo_of_unit uidLength (store w) iData hd]
      · omega)
    1 0 c w (le_refl _) (le_refl _) rfl (Or.inl ⟨rfl, rfl⟩)
  refine ⟨h1, ?_, h2, fun hn => ?_⟩
  · rcases hj3 with ⟨_, h⟩ | ⟨_, h⟩
    · exact ⟨c.sRecipeInfo, hc, by rw [h]⟩
    · exact ⟨_, tagInfo_length uidLength (store w), h⟩
  · have hj := hj4 hn
    rcases hj3 with ⟨h0, _⟩ | ⟨_, h⟩
    · omega
    · exact h

theorem NFC_LoadTRecipeInfoStructure_spec {σ : Type} (d : Env σ) (store : σ → Nat → Nat)
    (uidLength : Nat) (h : ReadsStored d store uidLength)
    (hlen : uidLength = 4 ∨ uidLength = 7) (c : TCardInfo) (w : σ)
    (hc : c.sRecipeInfo.length = 16) :
    store (NFC_LoadTRecipeInfoStructure d c w).2.2 = store w ∧
    (∃ l b, l.length = 16 ∧
      (NFC_LoadTRecipeInfoStructure d c w).2.1 =
        { c with sRecipeInfo := l, TRecipeInfoLoaded := b }) ∧
    ((NFC_LoadTRecipeInfoStructure d c w).1 = 0 →
      (NFC_LoadTRecipeInfoStructure d c w).2.1 =
        { c with sRecipeInfo := tagInfo uidLength (store w), TRecipeInfoLoaded := true }) := by
  unfold NFC_LoadTRecipeInfoStructure
  have hps := h.probe_store w
  have hpl := h.probe_len w
  rcases hp : d.pn532_readPassiveTargetID w with ⟨_ | ⟨iuid, iuidLength⟩, w1⟩
  · rw [hp] at hps
    exact ⟨hps, ⟨c.sRecipeInfo, c.TRecipeInfoLoaded, hc, rfl⟩, fun h2 => by simp at h2⟩
  · rw [hp] at hps hpl
    have hl := hpl iuid iuidLength rfl
    subst hl
    have h1 : (TRecipeInfo_Size - 1) / PAGESIZE_CLASSIC + 1 = 1 := rfl
    have h2 : (TRecipeInfo_Size - 1) / 16 + 1 = 1 := rfl
    dsimp only at hps ⊢
    rcases hlen with h4 | h7
    · subst h4
      have hu := loadInfo_unitLoop_spec (readUnitClassic d iuid 4) store 4
        (readUnitClassic_ok d store h iuid 4) c w1 hc
      simp only [if_true, h1, loadInfoClassic_eq]
      rcases hr : unitLoop (readUnitClassic d iuid 4) loadInfoBytes 1 0 c w1
        with ⟨_ | code, c2, w2⟩
      · rw [hr] at hu
        obtain ⟨hu1, ⟨l, hl, hu2⟩, _, hu3⟩ := hu
        simp only at hu1 hu2 hu3 ⊢
        refine ⟨by rw [hu1, hps], ⟨l, true, hl, by rw [hu2]⟩, fun _ => ?_⟩
        rw [hu3 trivial, hps]
      · rw [hr] at hu
        obtain ⟨hu1, ⟨l, hl, hu2⟩, hne, _⟩ := hu
        simp only at hu1 hu2 hne ⊢
        refine ⟨by rw [hu1, hps], ⟨l, c.TRecipeInfoLoaded, hl, by rw [hu2]⟩, fun h0 => ?_⟩
        exact absurd (by rw [h0]) hne
    · subst h7
      have hu := loadInfo_unitLoop_spec (readUnitUltralight d) store 7
        (readUnitUltralight_ok d store h) c w1 hc
      simp only [show (7 : Nat) ≠ 4 by decide, if_false, if_true, h2, loadInfoUltralight_eq]
      rcases hr : unitLoop (readUnitUltralight d) loadInfoBytes 1 0 c w1
        with ⟨_ | code, c2, w2⟩
      · rw [hr] at hu
        obtain ⟨hu1, ⟨l, hl, hu2⟩, _, hu3⟩ := hu
        simp only at hu1 hu2 hu3 ⊢
        refine ⟨by rw [hu1, hps], ⟨l, true, hl, by rw [hu2]⟩, fun _ => ?_⟩
        rw [hu3 trivial, hps]
      · rw [hr] at hu
        obtain ⟨hu1, ⟨l, hl, hu2⟩, hne, _⟩ := hu
        simp only at hu1 hu2 hne ⊢
        refine ⟨by rw [hu1, hps], ⟨l, c.TRecipeInfoLoaded, hl, by rw [hu2]⟩, fun h0 => ?_⟩
        exact absurd (by rw [h0]) hne

/-! ### Loading one step from a tag whose reads return the stored contents -/

theorem loadStep_unitLoop_spec {σ : Type} (read : Nat → σ → Except Nat (List Nat) × σ)
    (store : σ → Nat → Nat) (uidLength : Nat) (hread : UnitReadOK read store uidLength)
    (c : TCardInfo) (a : List Nat) (n P Posun konec : Nat) (w : σ)
    (hs : c.sRecipeStep = some a) (ha : 3 * n + 3 ≤ a.length)
    (hP : 16 * P + Posun = 16 + 3 * n) (hPosun : Posun < 16) (hkonec : konec = 18 + 3 * n) :
    store (unitLoop read (fun iData i s => loadStepBytes iData i P Posun konec n s)
      (konec / 16 + 1 - P) P (c, 0) w).2.2 = store w ∧
    (unitLoop read (fun iData i s => loadStepBytes iData i P Posun konec n s)
      (konec / 16 + 1 - P) P (c, 0) w).1 ≠ some 0 ∧
    ∃ a2, (unitLoop read (fun iData i s => loadStepBytes iData i P Posun konec n s)
        (konec / 16 + 1 - P) P (c, 0) w).2.1.1 = { c with sRecipeStep := some a2 } ∧
      a2.length = a.length ∧
      ((unitLoop read (fun iData i s => loadStepBytes iData i P Posun konec n s)
        (konec / 16 + 1 - P) P (c, 0) w).1 = none →
        ∀ j, j < 3 → a2.getD (3 * n + j) 0 = tagByte uidLength (store w) (16 + (3 * n + j))) := by
  obtain ⟨h1, h2, j, _, _, hj3, hj4⟩ :=
    unitLoop_rule read (fun iData i s => loadStepBytes iData i P Posun konec n s)
    store uidLength (store w) hread
    (fun i (s : TCardInfo × Nat) => s.2 = min 3 (16 * i - (16 + 3 * n)) ∧
      ∃ a2, s.1 = { c with sRecipeStep := some a2 } ∧ a2.length = a.length ∧
        ∀ q, 3 * n ≤ q → q < 3 * n + s.2 → a2.getD q 0 = tagByte uidLength (store w) (16 + q))
    P (konec / 16 + 1)
    (by
      rintro i ⟨c1, cnt⟩ iData hi1 hi2 ⟨hcnt, a2, hc1, hl, hget⟩ hd
      simp only at hcnt hc1 hget
      subst hc1
      obtain ⟨a3, h3, hl3, hget3⟩ := loadStepBytes_spec iData i n P Posun konec cnt
        { c with sRecipeStep := some a2 } a2 rfl (by omega) hP hPosun hkonec hi1 (by omega) hcnt
      beta_reduce
      rw [h3]
      refine ⟨rfl, a3, rfl, by omega, fun q hq1 hq2 => ?_⟩
      simp only at hq2
      rw [hget3]
      by_cases hq : 3 * n + cnt ≤ q
      · have hc : 3 * n + cnt ≤ q ∧ q < 3 * n + min 3 (16 * (i + 1) - (16 + 3 * n)) := ⟨hq, hq2⟩
        simp only [hc, and_self, if_true]
        rw [hd (q + 16 - 16 * i) (by omega)]
        congr 1
        omega
      · have hc : ¬ (3 * n + cnt ≤ q ∧ q < 3 * n + min 3 (16 * (i + 1) - (16 + 3 * n))) := by
          omega
        simp only [hc, if_false]
        exact hget q hq1 (by omega))
    (konec / 16 + 1 - P) P (c, 0) w (le_refl _) (by omega) rfl
    ⟨by simp only; omega, a, by cases c; simp_all, rfl, fun q hq1 hq2 => by
      simp only at hq2; omega⟩
  refine ⟨h1, h2, ?_⟩
  obtain ⟨hcnt, a2, hc1, hl, hget⟩ := hj3
  refine ⟨a2, hc1, hl, fun hn k hk => ?_⟩
  have hj := hj4 hn
  apply hget
  · omega
  · rw [hcnt, hj]
    omega

theorem NFC_LoadTRecipeStep_spec {σ : Type} (d : Env σ) (store : σ → Nat → Nat)
    (uidLength : Nat) (h : ReadsStored d store uidLength)
    (hlen : uidLength = 4 ∨ uidLength = 7) (c : TCardInfo) (a : List Nat) (n : Nat) (w : σ)
    (hs : c.sRecipeStep = some a) (ha : 3 * n + 3 ≤ a.length) :
    store (NFC_LoadTRecipeStep d c n w).2.2 = store w ∧
    ∃ a2 b, (NFC_LoadTRecipeStep d c n w).2.1 =
        { c with sRecipeStep := some a2, TRecipeStepLoaded := b } ∧
      a2.length = a.length ∧
      ((NFC_LoadTRecipeStep d c n w).1 = 0 →
        ∀ j, j < 3 → a2.getD (3 * n + j) 0 = tagByte uidLength (store w) (16 + (3 * n + j))) := by
  have hself : c = { c with sRecipeStep := some a, TRecipeStepLoaded := c.TRecipeStepLoaded } := by
    cases c; simp_all
  unfold NFC_LoadTRecipeStep
  split
  · exact ⟨rfl, a, c.TRecipeStepLoaded, hself, rfl, fun h0 => by simp at h0⟩
  split
  · exact ⟨rfl, a, c.TRecipeStepLoaded, hself, rfl, fun h0 => by simp at h0⟩
  have hps := h.probe_store w
  have hpl := h.probe_len w
  rcases hp : d.pn532_readPassiveTargetID w with ⟨_ | ⟨iuid, iuidLength⟩, w1⟩
  · rw [hp] at hps
    exact ⟨hps, a, c.TRecipeStepLoaded, hself, rfl, fun h0 => by simp at h0⟩
  · rw [hp] at hps hpl
    have hl := hpl iuid iuidLength rfl
    subst hl
    dsimp only at hps ⊢
    simp only [PAGESIZE_CLASSIC, TRecipeInfo_Size, TRecipeStep_Size]
    have e1 : 16 + n * 3 + 3 - 1 = 18 + 3 * n := by omega
    rcases hlen with h4 | h7
    · subst h4
      obtain ⟨hu1, hu2, a2, hu3, hu4, hu5⟩ :=
        loadStep_unitLoop_spec (readUnitClassic d iuid 4) store 4
          (readUnitClassic_ok d store h iuid 4) c a n ((16 + n * 3) / 16) ((16 + n * 3) % 16)
          (16 + n * 3 + 3 - 1) w1 hs ha (by omega) (by omega) e1
      simp only [if_true, loadStepClassic_eq]
      rcases hr : unitLoop (readUnitClassic d iuid 4)
        (fun iData i s => loadStepBytes iData i ((16 + n * 3) / 16) ((16 + n * 3) % 16)
          (16 + n * 3 + 3 - 1) n s)
        ((16 + n * 3 + 3 - 1) / 16 + 1 - (16 + n * 3) / 16) ((16 + n * 3) / 16) (c, 0) w1
        with ⟨_ | code, s2, w2⟩
      · rw [hr] at hu1 hu3 hu5
        simp only at hu1 hu3 hu5 ⊢
        refine ⟨by rw [hu1, hps], a2, true, by rw [hu3], hu4, fun _ => ?_⟩
        rw [← hps]
        exact hu5 trivial
      · rw [hr] at hu1 hu2 hu3
        simp only at hu1 hu2 hu3 ⊢
        refine ⟨by rw [hu1, hps], a2, c.TRecipeStepLoaded, by rw [hu3], hu4, fun h0 => ?_⟩
        exact absurd (by rw [h0]) hu2
    · subst h7
      obtain ⟨hu1, hu2, a2, hu3, hu4, hu5⟩ :=
        loadStep_unitLoop_spec (readUnitUltralight d) store 7
          (readUnitUltralight_ok d store h) c a n ((16 + n * 3) / 16) ((16 + n * 3) % 16)
          (16 + n * 3 + 3 - 1) w1 hs ha (by omega) (by omega) e1
      simp only [show (7 : Nat) ≠ 4 by decide, if_false, if_true, loadStepUltralight_eq]
      rcases hr : unitLoop (readUnitUltralight d)
        (fun iData i s => loadStepBytes iData i ((16 + n * 3) / 16) ((16 + n * 3) % 16)
          (16 + n * 3 + 3 - 1) n s)
        ((16 + n * 3 + 3 - 1) / 16 + 1 - (16 + n * 3) / 16) ((16 + n * 3) / 16) (c, 0) w1
        with ⟨_ | code, s2, w2⟩
      · rw [hr] at hu1 hu3 hu5
        simp only at hu1 hu3 hu5 ⊢
        refine ⟨by rw [hu1, hps], a2, true, by rw [hu3], hu4, fun _ => ?_⟩
        rw [← hps]
        exact hu5 trivial
      · rw [hr] at hu1 hu2 hu3
        simp only at hu1 hu2 hu3 ⊢
        refine ⟨by rw [hu1, hps], a2, c.TRecipeStepLoaded, by rw [hu3], hu4, fun h0 => ?_⟩
        exact absurd (by rw [h0]) hu2

/-! ### The write path changes the checksum field only -/

theorem sameButCheckSum_refl (c : TCardInfo) : SameButCheckSum c c :=
  ⟨rfl, rfl, rfl, rfl, rfl, rfl, rfl, fun _ _ _ => rfl⟩

theorem sameButCheckSum_trans {c1 c2 c3 : TCardInfo} (h12 : SameButCheckSum c1 c2)
    (h23 : SameButCheckSum c2 c3) : SameButCheckSum c1 c3 := by
  obtain ⟨a1, a2, a3, a4, a5, a6, a7, a8⟩ := h12
  obtain ⟨b1, b2, b3, b4, b5, b6, b7, b8⟩ := h23
  exact ⟨b1.trans a1, b2.trans a2, b3.trans a3, b4.trans a4, b5.trans a5, b6.trans a6,
    b7.trans a7, fun j h14 h15 => (b8 j h14 h15).trans (a8 j h14 h15)⟩

theorem sameButCheckSum_setCheckSum (c : TCardInfo) (v : Nat) :
    SameButCheckSum c (setCheckSum c v) := by
  refine ⟨rfl, rfl, rfl, rfl, rfl, rfl, by simp [setCheckSum, setInfoByte], fun j h14 h15 => ?_⟩
  simp only [setCheckSum, setInfoByte, infoByte, getD_set_nat]
  split_ifs <;> first | rfl | omega

theorem sameButCheckSum_recipeSteps {c c2 : TCardInfo} (h : SameButCheckSum c c2) :
    RecipeSteps c2 = RecipeSteps c :=
  h.2.2.2.2.2.2.2 7 (by decide) (by decide)

theorem retryOpt_frame {σ : Type} (stop : Nat → Bool)
    (f : TCardInfo → σ → Option (Nat × TCardInfo × σ))
    (hf : ∀ c w r, f c w = some r → SameButCheckSum c r.2.1) (n : Nat) :
    ∀ Error c w r, retryOpt stop f n Error c w = some r → SameButCheckSum c r.2.1 := by
  induction n with
  | zero =>
    intro Error c w r h
    simp only [retryOpt, Option.some.injEq] at h
    subst h
    exact sameButCheckSum_refl c
  | succ n ih =>
    intro Error c w r h
    rw [retryOpt] at h
    rcases hfc : f c w with _ | ⟨e1, c1, w1⟩
    · rw [hfc] at h; simp at h
    · rw [hfc] at h
      have h1 := hf c w _ hfc
      dsimp only at h
      split at h
      · simp only [Option.some.injEq] at h
        subst h
        exact h1
      · exact sameButCheckSum_trans h1 (ih _ _ _ _ h)

theorem NFC_WriteStructRange_frame {σ : Type} (d : Env σ) (depth : Nat) :
    ∀ c s e w r, NFC_WriteStructRange d depth c s e w = some r → SameButCheckSum c r.2.1 := by
  induction depth with
  | zero => intro c s e w r h; simp [NFC_WriteStructRange] at h
  | succ depth ih =>
    intro c s e w r h
    rw [NFC_WriteStructRange] at h
    split at h
    · simp only [Option.some.injEq] at h; subst h; exact sameButCheckSum_refl c
    split at h
    · simp only [Option.some.injEq] at h; subst h; exact sameButCheckSum_refl c
    dsimp only at h
    split at h
    · simp at h
    · rename_i c2 w2 heq
      simp only [Option.some.injEq] at h
      subst h
      dsimp only
      split at heq
      · split at heq
        · simp only [Option.map_eq_some'] at heq
          obtain ⟨r2, hr2, hr3⟩ := heq
          have := retryOpt_frame (fun Error => Error == 0 || Error == 1)
            (fun c w => NFC_WriteStructRange d depth c 0 0 w)
            (fun c w r h => ih c 0 0 w r h) MAXERRORREADING 0 _ _ _ hr2
          rw [hr3] at this
          exact sameButCheckSum_trans (sameButCheckSum_setCheckSum c _) this
        · simp only [Option.some.injEq, Prod.mk.injEq] at heq
          rw [← heq.1]
          exact sameButCheckSum_setCheckSum c _
      · simp only [Option.some.injEq, Prod.mk.injEq] at heq
        rw [← heq.1]
        exact sameButCheckSum_refl c

/-! ### Retry loops -/

theorem retry_stopped {σ : Type} (stop : Nat → Bool) (f : TCardInfo → σ → Nat × TCardInfo × σ)
    (after : TCardInfo → TCardInfo) (I : TCardInfo → σ → Prop)
    (hf : ∀ c w, I c w → I (f c w).2.1 (f c w).2.2)
    (hafter : ∀ c w, I c w → I (after c) w) (n : Nat) :
    ∀ Error c w, I c w → stop (retry stop f after (n + 1) Error c w).1 = true →
      ∃ c0 w0, I c0 w0 ∧ f c0 w0 = retry stop f after (n + 1) Error c w := by
  induction n with
  | zero =>
    intro Error c w hI hs
    rw [retry] at hs ⊢
    rcases hfc : f c w with ⟨e1, c1, w1⟩
    rw [hfc] at hs
    dsimp only at hs ⊢
    by_cases h1 : stop e1 = true
    · rw [if_pos h1]
      exact ⟨c, w, hI, hfc⟩
    · rw [if_neg h1] at hs
      simp only [retry] at hs
      exact absurd hs h1
  | succ n ih =>
    intro Error c w hI hs
    rw [retry] at hs ⊢
    have hI1 := hf c w hI
    rcases hfc : f c w with ⟨e1, c1, w1⟩
    rw [hfc] at hs hI1
    dsimp only at hs hI1 ⊢
    by_cases h1 : stop e1 = true
    · rw [if_pos h1]
      exact ⟨c, w, hI, hfc⟩
    · rw [if_neg h1] at hs ⊢
      exact ih e1 (after c1) w1 (hafter _ _ hI1) hs

/-! ### Verification against a tag whose reads return the stored contents -/

theorem checkStructs_spec {σ : Type} (d : Env σ) (store : σ → Nat → Nat) (uidLength : Nat)
    (h : ReadsStored d store uidLength) (hlen : uidLength = 4 ∨ uidLength = 7)
    (c : TCardInfo) (e : Nat) (n : Nat) :
    ∀ i x w, i + n = e + 1 → x.sRecipeInfo.length = 16 →
      (0 < e → ∃ a, x.sRecipeStep = some a ∧ a.length = 3 * e) →
      (checkStructs d c n i x w).1 ≠ some 0 ∧
      ((checkStructs d c n i x w).1 = none →
        store (checkStructs d c n i x w).2 = store w ∧
        ∀ k, i ≤ k → k ≤ e → structOnTag uidLength (store w) c k) := by
  induction n with
  | zero =>
    intro i x w hin _ _
    exact ⟨by simp [checkStructs], fun _ => ⟨rfl, fun k hk1 hk2 => by omega⟩⟩
  | succ n ih =>
    intro i x w hin hx16 hxa
    rw [checkStructs]
    by_cases hi0 : i = 0
    · subst hi0
      simp only [if_true]
      have hst := retry_stopped (fun Error => Error == 0) (NFC_LoadTRecipeInfoStructure d) id
        (fun x w2 => x.sRecipeInfo.length = 16 ∧
          (0 < e → ∃ a, x.sRecipeStep = some a ∧ a.length = 3 * e) ∧ store w2 = store w)
        (by
          rintro x0 w0 ⟨h1, h2, h3⟩
          obtain ⟨g1, ⟨l, b, hl, g2⟩, _⟩ :=
            NFC_LoadTRecipeInfoStructure_spec d store uidLength h hlen x0 w0 h1
          rw [g2]
          exact ⟨hl, h2, g1.trans h3⟩)
        (fun _ _ hI => hI) 4 0 x w ⟨hx16, hxa, rfl⟩
      rcases hR : retry (fun Error => Error == 0) (NFC_LoadTRecipeInfoStructure d) id
        MAXERRORREADING 0 x w with ⟨E, x1, w1⟩
      rw [hR] at hst
      rcases E with _ | E
      · obtain ⟨x0, w0, ⟨h1, h2, h3⟩, hf⟩ := hst (by rfl)
        obtain ⟨g1, _, g3⟩ := NFC_LoadTRecipeInfoStructure_spec d store uidLength h hlen x0 w0 h1
        rw [hf] at g1 g3
        have hx1 := g3 rfl
        simp only at g1 hx1
        dsimp only
        by_cases hany : (List.range TRecipeInfo_Size).any
            (fun j => infoByte c j != infoByte x1 j) = true
        · rw [if_pos hany]
          exact ⟨by simp, fun hn => by simp at hn⟩
        · rw [if_neg hany]
          obtain ⟨ih1, ih2⟩ := ih (0 + 1) x1 w1 (by omega)
            (by rw [hx1]; exact tagInfo_length _ _) (by rw [hx1]; exact h2)
          refine ⟨ih1, fun hn => ?_⟩
          obtain ⟨ih3, ih4⟩ := ih2 hn
          have hw1 : store w1 = store w := g1.trans h3
          refine ⟨ih3.trans hw1, fun k hk1 hk2 => ?_⟩
          by_cases hk0 : k = 0
          · subst hk0
            simp only [structOnTag, if_true]
            intro j hj
            simp only [List.any_eq_true, List.mem_range, not_exists, not_and,
              bne_iff_ne, ne_eq, not_not] at hany
            rw [hany j hj, hx1]
            simp only [infoByte, tagInfo]
            rw [getD_range_map _ _ _ hj, h3]
          · rw [← hw1]
            exact ih4 k (by omega) hk2
      · exact ⟨by simp, fun hn => by simp at hn⟩
    · simp only [hi0, if_false]
      have he : 0 < e := by omega
      have hst := retry_stopped (fun Error => Error == 0)
        (fun x w => NFC_LoadTRecipeStep d x (i - 1) w) id
        (fun x w2 => x.sRecipeInfo.length = 16 ∧
          (0 < e → ∃ a, x.sRecipeStep = some a ∧ a.length = 3 * e) ∧ store w2 = store w)
        (by
          rintro x0 w0 ⟨h1, h2, h3⟩
          obtain ⟨a, ha1, ha2⟩ := h2 he
          obtain ⟨g1, a2, b, g2, g3, _⟩ :=
            NFC_LoadTRecipeStep_spec d store uidLength h hlen x0 a (i - 1) w0 ha1 (by omega)
          dsimp only
          rw [g2]
          exact ⟨h1, fun _ => ⟨a2, rfl, by omega⟩, g1.trans h3⟩)
        (fun _ _ hI => hI) 4 0 x w ⟨hx16, hxa, rfl⟩
      rcases hR : retry (fun Error => Error == 0)
        (fun x w => NFC_LoadTRecipeStep d x (i - 1) w) id
        MAXERRORREADING 0 x w with ⟨E, x1, w1⟩
      rw [hR] at hst
      rcases E with _ | E
      · obtain ⟨x0, w0, ⟨h1, h2, h3⟩, hf⟩ := hst (by rfl)
        obtain ⟨a, ha1, ha2⟩ := h2 he
        obtain ⟨g1, a2, b, g2, g3, g4⟩ :=
          NFC_LoadTRecipeStep_spec d store uidLength h hlen x0 a (i - 1) w0 ha1 (by omega)
        dsimp only at hf
        rw [hf] at g1 g2 g4
        have hx1 := g4 rfl
        simp only at g1 g2
        dsimp only
        by_cases hany : (List.range TRecipeStep_Size).any
            (fun j => stepByte c (j + (i - 1) * TRecipeStep_Size)
              != stepByte x1 (j + (i - 1) * TRecipeStep_Size)) = true
        · rw [if_pos hany]
          exact ⟨by simp, fun hn => by simp at hn⟩
        · rw [if_neg hany]
          obtain ⟨ih1, ih2⟩ := ih (i + 1) x1 w1 (by omega)
            (by rw [g2]; exact h1) (fun _ => ⟨a2, by rw [g2], by omega⟩)
          refine ⟨ih1, fun hn => ?_⟩
          obtain ⟨ih3, ih4⟩ := ih2 hn
          have hw1 : store w1 = store w := g1.trans h3
          refine ⟨ih3.trans hw1, fun k hk1 hk2 => ?_⟩
          by_cases hki : k = i
          · subst hki
            simp only [structOnTag, hi0, if_false, TRecipeInfo_Size, TRecipeStep_Size]
            intro j hj
            simp only [List.any_eq_true, List.mem_range, not_exists, not_and,
              bne_iff_ne, ne_eq, not_not, TRecipeStep_Size] at hany
            have e1 : 3 * (k - 1) + j = j + (k - 1) * 3 := by omega
            rw [e1, hany j hj, g2, ← e1, ← h3]
            simp only [stepByte]
            exact (hx1 j hj).symm
          · rw [← hw1]
            exact ih4 k (by omega) hk2
      · exact ⟨by simp, fun hn => by simp at hn⟩

theorem NFC_CheckStructArrayIsSame_spec {σ : Type} (d : Env σ) (store : σ → Nat → Nat)
    (uidLength : Nat) (h : ReadsStored d store uidLength)
    (hlen : uidLength = 4 ∨ uidLength = 7) (c : TCardInfo) (s e : Nat) (w : σ)
    (hsteps : RecipeSteps c < 256) (h0 : (NFC_CheckStructArrayIsSame d c s e w).1 = 0) :
    store (NFC_CheckStructArrayIsSame d c s e w).2 = store w ∧
    ∀ k, s ≤ k → k ≤ e → structOnTag uidLength (store w) c k := by
  unfold NFC_CheckStructArrayIsSame at h0 ⊢
  split at h0
  · simp at h0
  rename_i hse
  simp only [hse, if_false]
  split at h0
  · simp at h0
  rename_i hrange
  simp only [hrange, if_false]
  dsimp only at h0 ⊢
  split at h0
  · simp at h0
  rename_i hloaded
  simp only [hloaded, if_false] at h0 ⊢
  have he256 : e < 256 := by omega
  have hx16 : (setRecipeSteps { NFC_InitTCardInfo (uninitCard d w) with
      TRecipeInfoLoaded := true } e).sRecipeInfo.length = 16 := by
    simp [setRecipeSteps, setInfoByte, NFC_InitTCardInfo, uninitCard]
  have hxe : RecipeSteps (setRecipeSteps { NFC_InitTCardInfo (uninitCard d w) with
      TRecipeInfoLoaded := true } e) = e :=
    RecipeSteps_setRecipeSteps _ e he256
      (by simp [NFC_InitTCardInfo, uninitCard])
  generalize hx : setRecipeSteps { NFC_InitTCardInfo (uninitCard d w) with
      TRecipeInfoLoaded := true } e = x at h0 hx16 hxe ⊢
  have hxl : x.TRecipeInfoLoaded = true := by rw [← hx]; rfl
  have hxc : x.TRecipeStepArrayCreated = false := by rw [← hx]; rfl
  have halloc : ∀ alloc : Nat × TCardInfo × σ,
      alloc = (if e > 0 then NFC_AllocTRecipeStepArray d x w else (0, x, w)) →
      alloc.1 = 0 → store alloc.2.2 = store w ∧ alloc.2.1.sRecipeInfo.length = 16 ∧
        (0 < e → ∃ a, alloc.2.1.sRecipeStep = some a ∧ a.length = 3 * e) := by
    intro alloc ha ha0
    by_cases he : e > 0
    · rw [if_pos he] at ha
      unfold NFC_AllocTRecipeStepArray at ha
      simp only [hxl, hxc, Bool.not_true, Bool.false_eq_true, if_false] at ha
      have hms := h.malloc_store (TRecipeStep_Size * RecipeSteps x) w
      rcases hm : d.malloc (TRecipeStep_Size * RecipeSteps x) w with ⟨_ | g, w1⟩
      · rw [hm] at ha
        rw [ha] at ha0
        simp at ha0
      · rw [hm] at ha hms
        rw [ha]
        exact ⟨hms, hx16, fun _ => ⟨_, rfl, by simp [hxe]⟩⟩
    · rw [if_neg he] at ha
      rw [ha]
      exact ⟨rfl, hx16, fun h => absurd h he⟩
  generalize hal : (if e > 0 then NFC_AllocTRecipeStepArray d x w else (0, x, w)) = alloc
    at h0 ⊢
  split at h0
  · simp at h0
  rename_i ha0
  simp only [ha0, if_false]
  obtain ⟨g1, g2, g3⟩ := halloc alloc hal.symm (by omega)
  obtain ⟨k1, k2⟩ := checkStructs_spec d store uidLength h hlen c e (e + 1 - s) s
    alloc.2.1 alloc.2.2 (by omega) g2 g3
  rcases hcs : checkStructs d c (e + 1 - s) s alloc.2.1 alloc.2.2 with ⟨_ | code, w1⟩
  · rw [hcs] at k2
    obtain ⟨k3, k4⟩ := k2 rfl
    simp only at k3 ⊢
    rw [g1] at k3 k4
    exact ⟨k3, k4⟩
  · rw [hcs] at h0 k1
    simp only at h0
    subst h0
    exact absurd rfl k1

theorem writeCheckRounds_spec {σ : Type} (d : Env σ) (store : σ → Nat → Nat)
    (uidLength : Nat) (h : ReadsStored d store uidLength)
    (hlen : uidLength = 4 ∨ uidLength = 7) (depth s e : Nat) (n : Nat) :
    ∀ c w r, RecipeSteps c < 256 → writeCheckRounds d depth s e n c w = some r → r.1 = 0 →
      SameButCheckSum c r.2.1 ∧
      ∀ k, s ≤ k → k ≤ e → structOnTag uidLength (store r.2.2) r.2.1 k := by
  induction n with
  | zero =>
    intro c w r _ hr h0
    simp only [writeCheckRounds, Option.some.injEq] at hr
    subst hr
    simp at h0
  | succ n ih =>
    intro c w r hsteps hr h0
    rw [writeCheckRounds] at hr
    have hfr := retryOpt_frame (fun Error => Error == 0)
      (fun c w => NFC_WriteStructRange d depth c s e w)
      (fun c w r h => NFC_WriteStructRange_frame d depth c s e w r h) MAXERRORREADING 0 c w
    rcases hw : retryOpt (fun Error => Error == 0)
      (fun c w => NFC_WriteStructRange d depth c s e w) MAXERRORREADING 0 c w
      with _ | ⟨E, c1, w1⟩
    · rw [hw] at hr; simp at hr
    rw [hw] at hr
    have hc1 : SameButCheckSum c c1 := hfr _ hw
    have hs1 : RecipeSteps c1 < 256 := by rw [sameButCheckSum_recipeSteps hc1]; exact hsteps
    rcases E with _ | _ | _ | _ | _ | E
    rotate_left
    · simp only [Option.some.injEq] at hr; subst hr; simp at h0
    · simp only [Option.some.injEq] at hr; subst hr; simp at h0
    · simp only [Option.some.injEq] at hr; subst hr; simp at h0
    · simp only [Option.some.injEq] at hr; subst hr; simp at h0
    · simp only [Option.some.injEq] at hr; subst hr; simp at h0
    dsimp only at hr
    have hst := retry_stopped (fun Error => decide (Error ≤ 1))
      (fun c w => ((NFC_CheckStructArrayIsSame d c s e w).1, c,
        (NFC_CheckStructArrayIsSame d c s e w).2)) id
      (fun x _ => x = c1) (fun _ _ hI => hI) (fun _ _ hI => hI) 4 0 c1 w1 rfl
    rcases hchk : retry (fun Error => decide (Error ≤ 1))
      (fun c w => ((NFC_CheckStructArrayIsSame d c s e w).1, c,
        (NFC_CheckStructArrayIsSame d c s e w).2)) id MAXERRORREADING 0 c1 w1
      with ⟨E2, c2, w2⟩
    rw [hchk] at hr hst
    rcases E2 with _ | _ | _ | _ | _ | _ | _ | E2
    · obtain ⟨c0, w0, hc0, hf⟩ := hst (by simp)
      subst hc0
      simp only [Prod.mk.injEq] at hf
      obtain ⟨hf1, hf2, hf3⟩ := hf
      subst hf2
      simp only [Option.some.injEq] at hr
      subst hr
      obtain ⟨g1, g2⟩ := NFC_CheckStructArrayIsSame_spec d store uidLength h hlen c0 s e w0
        hs1 hf1
      rw [hf3] at g1
      dsimp only
      rw [g1]
      exact ⟨hc1, g2⟩
    · obtain ⟨c0, w0, hc0, hf⟩ := hst (by simp)
      subst hc0
      simp only [Prod.mk.injEq] at hf
      obtain ⟨_, hf2, _⟩ := hf
      subst hf2
      obtain ⟨i1, i2⟩ := ih c0 w2 r hs1 hr h0
      exact ⟨sameButCheckSum_trans hc1 i1, i2⟩
    · simp only [Option.some.injEq] at hr; subst hr; simp at h0
    · simp only [Option.some.injEq] at hr; subst hr; simp at h0
    · simp only [Option.some.injEq] at hr; subst hr; simp at h0
    · simp only [Option.some.injEq] at hr; subst hr; simp at h0
    · simp only [Option.some.injEq] at hr; subst hr; simp at h0
    · simp only [Option.some.injEq] at hr; subst hr; simp at h0

/-! ### The ideal tag -/

theorem fetchBytes_getD (m : Nat → Nat) (a n k : Nat) (hk : k < n) :
    (fetchBytes m a n).getD k 0 = m (a + k) := by
  unfold fetchBytes
  exact getD_range_map (fun k => m (a + k)) n k hk

theorem idealTag_readsStored (uid : List Nat) (uidLength : Nat) (garbage : Nat → Nat) :
    ReadsStored (idealTag uid uidLength garbage) (fun m => m) uidLength where
  probe_len := by
    intro w iuid iuidLength h
    simp only [idealTag, Option.some.injEq, Prod.mk.injEq] at h
    exact h.2.symm
  probe_store := fun _ => rfl
  auth_store := fun _ _ _ _ => rfl
  malloc_store := fun _ _ => rfl
  readBlock_store := fun _ _ => rfl
  readPage_store := fun _ _ => rfl
  readBlock_data := by
    intro index w iData h k hk
    simp only [idealTag, Option.some.injEq] at h
    subst h
    exact fetchBytes_getD w _ 16 k hk
  readPage_data := by
    intro page w iData h k hk
    simp only [idealTag, Option.some.injEq] at h
    subst h
    exact fetchBytes_getD w _ 16 k hk

/-- C3: on a tag of supported geometry (UID length 4 or 7) whose reads return
the stored contents, whatever else its primitives do, whenever `NFC_WriteCheck`
over the structures `s..e` returns 0, the tag memory at return holds, for every
structure index `k` in `s..e` (0: header, `k ≥ 1`: step `k - 1`), at that
structure's logical location the bytes of the in-memory record at return; that
record is the caller's record up to its checksum field. -/
theorem C3_write_check_success_means_tag_holds_record {σ : Type} (d : Env σ)
    (store : σ → Nat → Nat) (uidLength depth : Nat) (c : TCardInfo) (s e : Nat) (w : σ)
    (r : Nat × TCardInfo × σ)
    (htag : ReadsStored d store uidLength) (hlen : uidLength = 4 ∨ uidLength = 7)
    (hsteps : RecipeSteps c < 256)
    (hr : NFC_WriteCheck d depth c s e w = some r) (h0 : r.1 = 0) :
    SameButCheckSum c r.2.1 ∧
    ∀ k, s ≤ k → k ≤ e → structOnTag uidLength (store r.2.2) r.2.1 k :=
  writeCheckRounds_spec d store uidLength htag hlen depth s e MAXERRORREADING c w r hsteps hr h0

theorem C3_write_check_success_means_tag_holds_record_witness :
    SameButCheckSum sampleCard sampleWriteCheck.2.1 ∧
    ∀ k, 0 ≤ k → k ≤ 3 → structOnTag 7 sampleWriteCheck.2.2 sampleWriteCheck.2.1 k :=
  C3_write_check_success_means_tag_holds_record (idealTag [4, 1, 2, 3, 4, 5, 6] 7 (fun _ => 170))
    (fun m => m) 7 2 sampleCard 0 3 blankTag sampleWriteCheck
    (idealTag_readsStored _ _ _) (Or.inr rfl) (by decide) (by rfl) (by decide)

/-! ### Writing to the ideal tag -/

theorem unitPayload_getD (c : TCardInfo) (U i k : Nat) (hk : k < U) :
    (unitPayload c U i).getD k 0 = payloadByte c (i * U + k) := by
  unfold unitPayload
  exact getD_range_map (fun k => payloadByte c (i * U + k)) U k hk

theorem tagByte_storeUnit_classic (m : Nat → Nat) (i : Nat) (data : List Nat) (p : Nat)
    (hi : i ≤ 190) (hp : p / 16 ≤ 190) :
    tagByte 4 (storeUnit m PAGESIZE_CLASSIC (NFC_GetMifareClassicIndex i) data) p =
      if p / 16 = i then data.getD (p % 16) 0 else tagByte 4 m p := by
  simp only [tagByte, storeUnit, physAddr, if_true, PAGESIZE_CLASSIC]
  generalize hx : NFC_GetMifareClassicIndex i = x
  generalize hy : NFC_GetMifareClassicIndex (p / 16) = y
  by_cases h : p / 16 = i
  · have hxy : y = x := by rw [← hx, ← hy, h]
    rw [if_pos h]
    split
    · have e : 16 * y + p % 16 - 16 * x = p % 16 := by omega
      rw [e]
    · omega
  · have hne : y ≠ x := by
      rw [← hx, ← hy]
      exact fun he => h (NFC_GetMifareClassicIndex_inj _ _ hp hi he)
    rw [if_neg h]
    split
    · omega
    · rfl

theorem tagByte_storeUnit_ultralight (m : Nat → Nat) (i : Nat) (data : List Nat) (p : Nat) :
    tagByte 7 (storeUnit m PAGESIZE_ULTRALIGHT (i + OFFSETDATA_ULTRALIGHT) data) p =
      if p / 4 = i then data.getD (p % 4) 0 else tagByte 7 m p := by
  simp only [tagByte, storeUnit, physAddr_ultralight, PAGESIZE_ULTRALIGHT,
    OFFSETDATA_ULTRALIGHT]
  by_cases h : p / 4 = i
  · rw [if_pos h]
    split
    · have e : p + 32 - 4 * (i + 8) = p % 4 := by omega
      rw [e]
    · omega
  · rw [if_neg h]
    split
    · omega
    · rfl

theorem writeUnitsClassic_ideal (uid : List Nat) (uidLength : Nat) (garbage : Nat → Nat)
    (c : TCardInfo) (iuid : List Nat) (iuidLength : Nat) (n : Nat) :
    ∀ i m, (n = 0 ∨ i + n ≤ 191) →
      (writeUnitsClassic (idealTag uid uidLength garbage) c iuid iuidLength n i m).1 = none ∧
      ∀ p, p < 3056 →
        tagByte 4 (writeUnitsClassic (idealTag uid uidLength garbage) c iuid iuidLength
          n i m).2 p =
          if 16 * i ≤ p ∧ p < 16 * (i + n) then payloadByte c p else tagByte 4 m p := by
  induction n with
  | zero =>
    intro i m _
    refine ⟨rfl, fun p _ => ?_⟩
    have h : ¬ (16 * i ≤ p ∧ p < 16 * (i + 0)) := by omega
    simp only [writeUnitsClassic, h, if_false]
  | succ n ih =>
    intro i m hin
    rw [writeUnitsClassic]
    simp only [idealTag]
    obtain ⟨h1, h2⟩ := ih (i + 1)
      (storeUnit m PAGESIZE_CLASSIC (NFC_GetMifareClassicIndex i)
        (unitPayload c PAGESIZE_CLASSIC i)) (by omega)
    simp only [idealTag] at h1 h2
    refine ⟨h1, fun p hp => ?_⟩
    rw [h2 p hp, tagByte_storeUnit_classic m i _ p (by omega) (by omega)]
    by_cases hpi : p / 16 = i
    · have e1 : ¬ (16 * (i + 1) ≤ p ∧ p < 16 * (i + 1 + n)) := by omega
      have e2 : 16 * i ≤ p ∧ p < 16 * (i + (n + 1)) := by omega
      simp only [e1, e2, hpi, and_self, if_true, if_false]
      rw [unitPayload_getD c 16 i (p % 16) (by omega)]
      congr 1
      omega
    · simp only [hpi, if_false]
      split_ifs <;> first | rfl | omega

theorem writeUnitsUltralight_ideal (uid : List Nat) (uidLength : Nat) (garbage : Nat → Nat)
    (c : TCardInfo) (n : Nat) :
    ∀ i m p,
      tagByte 7 (writeUnitsUltralight (idealTag uid uidLength garbage) c n i m) p =
        if 4 * i ≤ p ∧ p < 4 * (i + n) then payloadByte c p else tagByte 7 m p := by
  induction n with
  | zero =>
    intro i m p
    have h : ¬ (4 * i ≤ p ∧ p < 4 * (i + 0)) := by omega
    simp only [writeUnitsUltralight, h, if_false]
  | succ n ih =>
    intro i m p
    rw [writeUnitsUltralight]
    simp only [idealTag]
    have h2 := ih (i + 1)
      (storeUnit m PAGESIZE_ULTRALIGHT (i + OFFSETDATA_ULTRALIGHT)
        (unitPayload c PAGESIZE_ULTRALIGHT i)) p
    simp only [idealTag] at h2
    rw [h2, tagByte_storeUnit_ultralight m i _ p]
    by_cases hpi : p / 4 = i
    · have e1 : ¬ (4 * (i + 1) ≤ p ∧ p < 4 * (i + 1 + n)) := by omega
      have e2 : 4 * i ≤ p ∧ p < 4 * (i + (n + 1)) := by omega
      simp only [e1, e2, hpi, and_self, if_true, if_false]
      rw [unitPayload_getD c 4 i (p % 4) (by omega)]
      congr 1
      omega
    · simp only [hpi, if_false]
      split_ifs <;> first | rfl | omega

/-- On the ideal tag the transfer returns 0 and leaves the payload bytes of the
units touched on the tag, `U` being the unit size of the geometry. -/
theorem writeRangeUnits_ideal (uid : List Nat) (uidLength : Nat) (garbage : Nat → Nat)
    (c : TCardInfo) (zacatek konec : Nat) (m : Nat → Nat) (U : Nat)
    (hlen : (uidLength = 4 ∧ U = 16) ∨ (uidLength = 7 ∧ U = 4)) (hk : konec < 3056) :
    (writeRangeUnits (idealTag uid uidLength garbage) c zacatek konec m).1 = 0 ∧
    ∀ p, p < 3056 →
      tagByte uidLength (writeRangeUnits (idealTag uid uidLength garbage) c zacatek konec m).2 p =
        if U * (zacatek / U) ≤ p ∧ p < U * (zacatek / U + (konec / U + 1 - zacatek / U))
        then payloadByte c p else tagByte uidLength m p := by
  unfold writeRangeUnits
  rcases hlen with ⟨h4, hU⟩ | ⟨h7, hU⟩
  · subst h4 hU
    simp only [idealTag, if_true, PAGESIZE_CLASSIC]
    obtain ⟨h1, h2⟩ := writeUnitsClassic_ideal uid 4 garbage c uid 4
      (konec / 16 + 1 - zacatek / 16) (zacatek / 16) m (by omega)
    simp only [idealTag] at h1 h2
    rcases hw : writeUnitsClassic _ c uid 4 (konec / 16 + 1 - zacatek / 16) (zacatek / 16) m
      with ⟨_ | code, m2⟩
    · rw [hw] at h2
      exact ⟨rfl, h2⟩
    · rw [hw] at h1
      simp at h1
  · subst h7 hU
    simp only [idealTag, show (7 : Nat) ≠ 4 by decide, if_false, if_true, PAGESIZE_ULTRALIGHT]
    refine ⟨trivial, fun p _ => ?_⟩
    have h2 := writeUnitsUltralight_ideal uid 7 garbage c
      (konec / 4 + 1 - zacatek / 4) (zacatek / 4) m p
    simp only [idealTag] at h2
    exact h2

/-! ### Loading all steps from a tag whose reads return the stored contents -/

theorem tagSteps_length (uidLength : Nat) (M : Nat → Nat) (n : Nat) :
    (tagSteps uidLength M n).length = 3 * n := by
  simp [tagSteps]

theorem tagSteps_getD (uidLength : Nat) (M : Nat → Nat) (n q : Nat) (hq : q < 3 * n) :
    (tagSteps uidLength M n).getD q 0 = tagByte uidLength M (16 + q) := by
  unfold tagSteps
  exact getD_range_map (fun j => tagByte uidLength M (TRecipeInfo_Size + j)) _ q hq

theorem loadSteps_unitLoop_spec {σ : Type} (read : Nat → σ → Except Nat (List Nat) × σ)
    (store : σ → Nat → Nat) (uidLength : Nat) (hread : UnitReadOK read store uidLength)
    (c : TCardInfo) (a : List Nat) (konec : Nat) (w : σ)
    (hs : c.sRecipeStep = some a) (ha : a.length = 3 * RecipeSteps c)
    (hkonec : konec = 15 + 3 * RecipeSteps c) :
    store (unitLoop read (fun iData i c => loadStepsBytes iData i 1 0 c)
      (konec / 16 + 1 - 1) 1 c w).2.2 = store w ∧
    (unitLoop read (fun iData i c => loadStepsBytes iData i 1 0 c)
      (konec / 16 + 1 - 1) 1 c w).1 ≠ some 0 ∧
    ∃ a2, (unitLoop read (fun iData i c => loadStepsBytes iData i 1 0 c)
        (konec / 16 + 1 - 1) 1 c w).2.1 = { c with sRecipeStep := some a2 } ∧
      a2.length = a.length ∧
      ((unitLoop read (fun iData i c => loadStepsBytes iData i 1 0 c)
        (konec / 16 + 1 - 1) 1 c w).1 = none →
        a2 = tagSteps uidLength (store w) (RecipeSteps c)) := by
  obtain ⟨h1, h2, j, _, _, hj3, hj4⟩ :=
    unitLoop_rule read (fun iData i c => loadStepsBytes iData i 1 0 c)
    store uidLength (store w) hread
    (fun i s => ∃ a2, s = { c with sRecipeStep := some a2 } ∧ a2.length = a.length ∧
      ∀ q, a2.getD q 0 =
        if q < 16 * (i - 1) ∧ q < 3 * RecipeSteps c
        then tagByte uidLength (store w) (16 + q) else a.getD q 0)
    1 (konec / 16 + 1)
    (by
      rintro i s iData hi1 hi2 ⟨a2, rfl, hl, hget⟩ hd
      obtain ⟨a3, h3, hl3, hget3⟩ := loadStepsBytes_spec iData i
        { c with sRecipeStep := some a2 } a2 hi1 rfl
      beta_reduce
      rw [h3]
      refine ⟨a3, rfl, by omega, fun q => ?_⟩
      rw [hget3, hget]
      have hR : RecipeSteps { c with sRecipeStep := some a2 } = RecipeSteps c := rfl
      rw [hR]
      by_cases hq : 16 * (i - 1) ≤ q ∧ q < 16 * (i - 1) + 16 ∧ q < 3 * RecipeSteps c ∧
          q < a2.length
      · have hq2 : q < 16 * (i + 1 - 1) ∧ q < 3 * RecipeSteps c := by omega
        rw [if_pos hq, if_pos hq2, hd (q - 16 * (i - 1)) (by omega)]
        congr 1
        omega
      · rw [if_neg hq]
        split_ifs <;> first | rfl | omega)
    (konec / 16 + 1 - 1) 1 c w (le_refl _) (by omega) rfl
    ⟨a, by cases c; simp_all, rfl, fun q => by
      have : ¬ (q < 16 * (1 - 1) ∧ q < 3 * RecipeSteps c) := by omega
      rw [if_neg this]⟩
  refine ⟨h1, h2, ?_⟩
  obtain ⟨a2, hc1, hl, hget⟩ := hj3
  refine ⟨a2, hc1, hl, fun hn => ?_⟩
  have hj := hj4 hn
  apply list_ext_getD
  · rw [hl, ha, tagSteps_length]
  · intro q hq
    rw [hget, tagSteps_getD uidLength (store w) _ q (by omega)]
    have : q < 16 * (j - 1) ∧ q < 3 * RecipeSteps c := by omega
    rw [if_pos this]

theorem NFC_LoadTRecipeSteps_spec {σ : Type} (d : Env σ) (store : σ → Nat → Nat)
    (uidLength : Nat) (h : ReadsStored d store uidLength)
    (hlen : uidLength = 4 ∨ uidLength = 7) (c : TCardInfo) (a : List Nat) (w : σ)
    (hs : c.sRecipeStep = some a) (ha : a.length = 3 * RecipeSteps c) :
    store (NFC_LoadTRecipeSteps d c w).2.2 = store w ∧
    ((NFC_LoadTRecipeSteps d c w).1 = 0 →
      (NFC_LoadTRecipeSteps d c w).2.1 =
        { c with sRecipeStep := some (tagSteps uidLength (store w) (RecipeSteps c)),
                 TRecipeStepLoaded := true }) := by
  unfold NFC_LoadTRecipeSteps
  split
  · exact ⟨rfl, fun h0 => by simp at h0⟩
  have hps := h.probe_store w
  have hpl := h.probe_len w
  rcases hp : d.pn532_readPassiveTargetID w with ⟨_ | ⟨iuid, iuidLength⟩, w1⟩
  · rw [hp] at hps
    exact ⟨hps, fun h0 => by simp at h0⟩
  · rw [hp] at hps hpl
    have hl := hpl iuid iuidLength rfl
    subst hl
    dsimp only at hps ⊢
    simp only [PAGESIZE_CLASSIC, TRecipeInfo_Size, TRecipeStep_Size]
    have e1 : 16 + RecipeSteps c * 3 - 1 = 15 + 3 * RecipeSteps c := by omega
    have e2 : (16 : Nat) / 16 = 1 := rfl
    have e3 : (16 : Nat) % 16 = 0 := rfl
    rw [e2, e3]
    rcases hlen with h4 | h7
    · subst h4
      obtain ⟨hu1, hu2, a2, hu3, hu4, hu5⟩ :=
        loadSteps_unitLoop_spec (readUnitClassic d iuid 4) store 4
          (readUnitClassic_ok d store h iuid 4) c a (16 + RecipeSteps c * 3 - 1) w1 hs ha e1
      simp only [if_true, loadStepsClassic_eq]
      rcases hr : unitLoop (readUnitClassic d iuid 4)
        (fun iData i c => loadStepsBytes iData i 1 0 c)
        ((16 + RecipeSteps c * 3 - 1) / 16 + 1 - 1) 1 c w1 with ⟨_ | code, c2, w2⟩
      · rw [hr] at hu1 hu3 hu5
        simp only at hu1 hu3 hu5 ⊢
        refine ⟨by rw [hu1, hps], fun _ => ?_⟩
        rw [hu3, hu5 trivial, hps]
      · rw [hr] at hu1 hu2
        simp only at hu1 hu2 ⊢
        refine ⟨by rw [hu1, hps], fun h0 => ?_⟩
        exact absurd (by rw [h0]) hu2
    · subst h7
      obtain ⟨hu1, hu2, a2, hu3, hu4, hu5⟩ :=
        loadSteps_unitLoop_spec (readUnitUltralight d) store 7
          (readUnitUltralight_ok d store h) c a (16 + RecipeSteps c * 3 - 1) w1 hs ha e1
      simp only [show (7 : Nat) ≠ 4 by decide, if_false, if_true, loadStepsUltralight_eq]
      rcases hr : unitLoop (readUnitUltralight d)
        (fun iData i c => loadStepsBytes iData i 1 0 c)
        ((16 + RecipeSteps c * 3 - 1) / 16 + 1 - 1) 1 c w1 with ⟨_ | code, c2, w2⟩
      · rw [hr] at hu1 hu3 hu5
        simp only at hu1 hu3 hu5 ⊢
        refine ⟨by rw [hu1, hps], fun _ => ?_⟩
        rw [hu3, hu5 trivial, hps]
      · rw [hr] at hu1 hu2
        simp only at hu1 hu2 ⊢
        refine ⟨by rw [hu1, hps], fun h0 => ?_⟩
        exact absurd (by rw [h0]) hu2

/-! ### The checksum field -/

theorem checkSum_fold_lt (c : TCardInfo) (l : List Nat) :
    ∀ acc, acc < 65536 → l.foldl (checkSumStep c) acc < 65536 := by
  induction l with
  | nil => intro acc h; exact h
  | cons x l ih =>
    intro acc _
    rw [List.foldl_cons]
    apply ih
    unfold checkSumStep
    omega

theorem NFC_GetCheckSum_lt (c : TCardInfo) : NFC_GetCheckSum c < 65536 := by
  unfold NFC_GetCheckSum
  split
  · omega
  · exact checkSum_fold_lt c _ 0 (by omega)

theorem CheckSum_setCheckSum (c : TCardInfo) (v : Nat) (hv : v < 65536)
    (hlen : c.sRecipeInfo.length = 16) : CheckSum (setCheckSum c v) = v := by
  simp only [CheckSum, setCheckSum, setInfoByte, infoByte, getD_set_nat, List.length_set, hlen]
  simp
  omega

theorem NFC_GetCheckSum_congr (c c2 : TCardInfo) (h : SameButCheckSum c c2) :
    NFC_GetCheckSum c2 = NFC_GetCheckSum c := by
  obtain ⟨h1, _, _, _, _, _, _, h8⟩ := h
  have e3 := h8 3 (by decide) (by decide)
  have e4 := h8 4 (by decide) (by decide)
  have e5 := h8 5 (by decide) (by decide)
  have e6 := h8 6 (by decide) (by decide)
  have e7 := h8 7 (by decide) (by decide)
  have hstep : checkSumStep c2 = checkSumStep c := by
    funext acc i
    simp only [checkSumStep, stepByte, h1]
  simp only [NFC_GetCheckSum, NumOfDrinks, RecipeSteps, e3, e4, e5, e6, e7, hstep]

theorem sameButCheckSum_checkSumUpdated (c : TCardInfo) :
    SameButCheckSum c (checkSumUpdated c) := by
  unfold checkSumUpdated
  split
  · exact sameButCheckSum_setCheckSum c _
  · exact sameButCheckSum_refl c

theorem CheckSum_checkSumUpdated (c : TCardInfo) (hlen : c.sRecipeInfo.length = 16) :
    CheckSum (checkSumUpdated c) = NFC_GetCheckSum c := by
  unfold checkSumUpdated
  split
  · exact CheckSum_setCheckSum c _ (NFC_GetCheckSum_lt c) hlen
  · rename_i h
    simp only [ne_eq, not_not] at h
    exact h.symm

/-! ### The write path from structure 0 -/

theorem writeKonec_zero (e : Nat) (he : e < 1000000) : writeKonec 0 e = 15 + 3 * e := by
  unfold writeKonec
  simp only [TRecipeInfo_Size, TRecipeStep_Size, SIZE_T]
  split <;> omega

theorem writeKonec_pos (s e : Nat) (hs : 0 < s) (hse : s ≤ e) (he : e < 1000000) :
    writeKonec s e = 15 + 3 * e := by
  unfold writeKonec
  simp only [TRecipeInfo_Size, TRecipeStep_Size, SIZE_T]
  have h1 : (s + 4294967296 - 1) % 4294967296 = s - 1 := by omega
  rw [h1]
  have h2 : 3 * (e - s + 1) = 3 * e - 3 * s + 3 := by omega
  have h3 : (s - 1) * 3 = 3 * s - 3 := by omega
  rw [h2, h3]
  split <;> omega

theorem NFC_WriteStructRange_start_zero_eq {σ : Type} (d : Env σ) (depth : Nat)
    (c : TCardInfo) (e : Nat) (w : σ) (he : e ≤ RecipeSteps c) :
    NFC_WriteStructRange d (depth + 1) c 0 e w =
      some ((writeRangeUnits d (checkSumUpdated c) 0 (writeKonec 0 e) w).1, checkSumUpdated c,
        (writeRangeUnits d (checkSumUpdated c) 0 (writeKonec 0 e) w).2) := by
  have h1 : ¬ (0 > e) := by omega
  have h2 : ¬ (0 > RecipeSteps c ∨ e > RecipeSteps c) := by omega
  rw [NFC_WriteStructRange]
  rw [if_neg h1, if_neg h2]
  have hz : writeZacatek 0 = 0 := rfl
  by_cases hcs : NFC_GetCheckSum c ≠ CheckSum c
  · simp only [hcs, hz, checkSumUpdated, ne_eq, not_true_eq_false, not_false_eq_true,
      if_true, if_false]
  · simp only [hcs, hz, checkSumUpdated, if_false]

theorem retryOpt_first {σ : Type} (stop : Nat → Bool)
    (f : TCardInfo → σ → Option (Nat × TCardInfo × σ)) (n Error : Nat) (c : TCardInfo) (w : σ)
    (r : Nat × TCardInfo × σ) (hf : f c w = some r) (hs : stop r.1 = true) :
    retryOpt stop f (n + 1) Error c w = some r := by
  obtain ⟨e1, c1, w1⟩ := r
  simp only [retryOpt, hf]
  simp only at hs
  rw [if_pos hs]

theorem retry_first {σ : Type} (stop : Nat → Bool) (f : TCardInfo → σ → Nat × TCardInfo × σ)
    (after : TCardInfo → TCardInfo) (n Error : Nat) (c : TCardInfo) (w : σ)
    (hs : stop (f c w).1 = true) :
    retry stop f after (n + 1) Error c w = f c w := by
  rw [retry]
  rcases hf : f c w with ⟨e1, c1, w1⟩
  rw [hf] at hs
  simp only at hs ⊢
  rw [if_pos hs]

/-! ### Loading from the ideal tag -/

theorem unitLoop_none {σ α : Type} (read : Nat → σ → Except Nat (List Nat) × σ)
    (copy : List Nat → Nat → α → α)
    (hok : ∀ i w, ∃ iData w1, read i w = (Except.ok iData, w1)) (n : Nat) :
    ∀ i s w, (unitLoop read copy n i s w).1 = none := by
  induction n with
  | zero => intro i s w; rfl
  | succ n ih =>
    intro i s w
    obtain ⟨iData, w1, h⟩ := hok i w
    rw [unitLoop, h]
    exact ih _ _ _

theorem readUnitClassic_ideal (uid : List Nat) (uidLength : Nat) (garbage : Nat → Nat)
    (iuid : List Nat) (iuidLength : Nat) (i : Nat) (m : Nat → Nat) :
    ∃ iData w1, readUnitClassic (idealTag uid uidLength garbage) iuid iuidLength i m =
      (Except.ok iData, w1) :=
  ⟨_, _, rfl⟩

theorem readUnitUltralight_ideal (uid : List Nat) (uidLength : Nat) (garbage : Nat → Nat)
    (i : Nat) (m : Nat → Nat) :
    ∃ iData w1, readUnitUltralight (idealTag uid uidLength garbage) i m =
      (Except.ok iData, w1) :=
  ⟨_, _, rfl⟩

theorem idealTag_probe (uid : List Nat) (uidLength : Nat) (garbage : Nat → Nat)
    (m : Nat → Nat) :
    (idealTag uid uidLength garbage).pn532_readPassiveTargetID m = (some (uid, uidLength), m) :=
  rfl

theorem NFC_LoadTRecipeInfoStructure_ideal (uid : List Nat) (uidLength : Nat)
    (garbage : Nat → Nat) (hlen : uidLength = 4 ∨ uidLength = 7) (c : TCardInfo)
    (m : Nat → Nat) (hc : c.sRecipeInfo.length = 16) :
    NFC_LoadTRecipeInfoStructure (idealTag uid uidLength garbage) c m =
      (0, { c with sRecipeInfo := tagInfo uidLength m, TRecipeInfoLoaded := true }, m) := by
  have hcode : (NFC_LoadTRecipeInfoStructure (idealTag uid uidLength garbage) c m).1 = 0 := by
    unfold NFC_LoadTRecipeInfoStructure
    rw [idealTag_probe]
    dsimp only
    rcases hlen with h4 | h7
    · subst h4
      simp only [if_true, loadInfoClassic_eq]
      have hn := unitLoop_none (readUnitClassic (idealTag uid 4 garbage) uid 4) loadInfoBytes
        (readUnitClassic_ideal uid 4 garbage uid 4)
        ((TRecipeInfo_Size - 1) / PAGESIZE_CLASSIC + 1) 0 c m
      rcases hr : unitLoop (readUnitClassic (idealTag uid 4 garbage) uid 4) loadInfoBytes
        ((TRecipeInfo_Size - 1) / PAGESIZE_CLASSIC + 1) 0 c m with ⟨_ | code, c2, w2⟩
      · rfl
      · rw [hr] at hn; simp at hn
    · subst h7
      simp only [show (7 : Nat) ≠ 4 by decide, if_false, if_true, loadInfoUltralight_eq]
      have hn := unitLoop_none (readUnitUltralight (idealTag uid 7 garbage)) loadInfoBytes
        (readUnitUltralight_ideal uid 7 garbage)
        ((TRecipeInfo_Size - 1) / 16 + 1) 0 c m
      rcases hr : unitLoop (readUnitUltralight (idealTag uid 7 garbage)) loadInfoBytes
        ((TRecipeInfo_Size - 1) / 16 + 1) 0 c m with ⟨_ | code, c2, w2⟩
      · rfl
      · rw [hr] at hn; simp at hn
  obtain ⟨h1, _, h3⟩ := NFC_LoadTRecipeInfoStructure_spec (idealTag uid uidLength garbage)
    (fun m => m) uidLength (idealTag_readsStored uid uidLength garbage) hlen c m hc
  have h4 := h3 hcode
  rcases hr : NFC_LoadTRecipeInfoStructure (idealTag uid uidLength garbage) c m
    with ⟨code, c2, w2⟩
  rw [hr] at hcode h1 h4
  simp only at hcode h1 h4
  rw [hcode, h1, h4]

theorem NFC_LoadTRecipeSteps_ideal (uid : List Nat) (uidLength : Nat)
    (garbage : Nat → Nat) (hlen : uidLength = 4 ∨ uidLength = 7) (c : TCardInfo)
    (a : List Nat) (m : Nat → Nat) (hcr : c.TRecipeStepArrayCreated = true)
    (hs : c.sRecipeStep = some a) (ha : a.length = 3 * RecipeSteps c) :
    NFC_LoadTRecipeSteps (idealTag uid uidLength garbage) c m =
      (0, { c with sRecipeStep := some (tagSteps uidLength m (RecipeSteps c)),
                   TRecipeStepLoaded := true }, m) := by
  have hcode : (NFC_LoadTRecipeSteps (idealTag uid uidLength garbage) c m).1 = 0 := by
    unfold NFC_LoadTRecipeSteps
    rw [idealTag_probe]
    simp only [hcr, Bool.not_true, Bool.false_eq_true, if_false]
    rcases hlen with h4 | h7
    · subst h4
      simp only [if_true, loadStepsClassic_eq]
      generalize hP : TRecipeInfo_Size / PAGESIZE_CLASSIC = P
      generalize hPo : TRecipeInfo_Size % PAGESIZE_CLASSIC = Posun
      generalize hN : (TRecipeInfo_Size + RecipeSteps c * TRecipeStep_Size - 1) /
        PAGESIZE_CLASSIC + 1 - P = n
      have hn := unitLoop_none (readUnitClassic (idealTag uid 4 garbage) uid 4)
        (fun iData i c => loadStepsBytes iData i P Posun c)
        (readUnitClassic_ideal uid 4 garbage uid 4) n P c m
      rcases hr : unitLoop (readUnitClassic (idealTag uid 4 garbage) uid 4)
        (fun iData i c => loadStepsBytes iData i P Posun c) n P c m with ⟨_ | code, c2, w2⟩
      · rfl
      · rw [hr] at hn; simp at hn
    · subst h7
      simp only [show (7 : Nat) ≠ 4 by decide, if_false, if_true, loadStepsUltralight_eq]
      generalize hP : TRecipeInfo_Size / PAGESIZE_CLASSIC = P
      generalize hPo : TRecipeInfo_Size % PAGESIZE_CLASSIC = Posun
      generalize hN : (TRecipeInfo_Size + RecipeSteps c * TRecipeStep_Size - 1) /
        PAGESIZE_CLASSIC + 1 - P = n
      have hn := unitLoop_none (readUnitUltralight (idealTag uid 7 garbage))
        (fun iData i c => loadStepsBytes iData i P Posun c)
        (readUnitUltralight_ideal uid 7 garbage) n P c m
      rcases hr : unitLoop (readUnitUltralight (idealTag uid 7 garbage))
        (fun iData i c => loadStepsBytes iData i P Posun c) n P c m with ⟨_ | code, c2, w2⟩
      · rfl
      · rw [hr] at hn; simp at hn
  obtain ⟨h1, h3⟩ := NFC_LoadTRecipeSteps_spec (idealTag uid uidLength garbage)
    (fun m => m) uidLength (idealTag_readsStored uid uidLength garbage) hlen c a m hs ha
  have h4 := h3 hcode
  rcases hr : NFC_LoadTRecipeSteps (idealTag uid uidLength garbage) c m
    with ⟨code, c2, w2⟩
  rw [hr] at hcode h1 h4
  simp only at hcode h1 h4
  rw [hcode, h1, h4]

theorem tagInfo_eq_of (uidLength : Nat) (M : Nat → Nat) (c : TCardInfo)
    (hc : c.sRecipeInfo.length = 16) (h : ∀ j, j < 16 → tagByte uidLength M j = infoByte c j) :
    tagInfo uidLength M = c.sRecipeInfo := by
  apply list_ext_getD
  · rw [tagInfo_length, hc]
  · intro j hj
    rw [tagInfo_length] at hj
    have := h j hj
    simp only [infoByte] at this
    rw [← this]
    exact getD_range_map (tagByte uidLength M) 16 j hj

theorem tagSteps_eq_of (uidLength : Nat) (M : Nat → Nat) (b : List Nat) (n : Nat)
    (hb : b.length = 3 * n) (h : ∀ j, j < 3 * n → tagByte uidLength M (16 + j) = b.getD j 0) :
    tagSteps uidLength M n = b := by
  apply list_ext_getD
  · rw [tagSteps_length, hb]
  · intro j hj
    rw [tagSteps_length] at hj
    rw [tagSteps_getD uidLength M n j hj, h j hj]

/-! ### Round trip through the ideal tag -/

theorem NFC_WriteStructRange_ideal_zero (uid : List Nat) (uidLength : Nat)
    (garbage : Nat → Nat) (hlen : uidLength = 4 ∨ uidLength = 7) (depth : Nat)
    (c : TCardInfo) (e : Nat) (m : Nat → Nat) (he : e ≤ RecipeSteps c)
    (hN : RecipeSteps c < 256) :
    ∃ m1, NFC_WriteStructRange (idealTag uid uidLength garbage) (depth + 1) c 0 e m =
        some (0, checkSumUpdated c, m1) ∧
      ∀ p, p < 16 + 3 * e → tagByte uidLength m1 p = payloadByte (checkSumUpdated c) p := by
  rw [NFC_WriteStructRange_start_zero_eq _ depth c e m he, writeKonec_zero e (by omega)]
  rcases hlen with h4 | h7
  · obtain ⟨h1, h2⟩ := writeRangeUnits_ideal uid uidLength garbage (checkSumUpdated c) 0
      (15 + 3 * e) m 16 (Or.inl ⟨h4, rfl⟩) (by omega)
    refine ⟨_, by rw [h1], fun p hp => ?_⟩
    rw [h2 p (by omega)]
    have : 16 * (0 / 16) ≤ p ∧ p < 16 * (0 / 16 + ((15 + 3 * e) / 16 + 1 - 0 / 16)) := by omega
    rw [if_pos this]
  · obtain ⟨h1, h2⟩ := writeRangeUnits_ideal uid uidLength garbage (checkSumUpdated c) 0
      (15 + 3 * e) m 4 (Or.inr ⟨h7, rfl⟩) (by omega)
    refine ⟨_, by rw [h1], fun p hp => ?_⟩
    rw [h2 p (by omega)]
    have : 4 * (0 / 4) ≤ p ∧ p < 4 * (0 / 4 + ((15 + 3 * e) / 4 + 1 - 0 / 4)) := by omega
    rw [if_pos this]

theorem payloadByte_info (c : TCardInfo) (p : Nat) (hp : p < 16) :
    payloadByte c p = infoByte c p := by
  unfold payloadByte
  rw [if_pos hp]

theorem payloadByte_step (c : TCardInfo) (j : Nat) (hj : j < 3 * RecipeSteps c) :
    payloadByte c (16 + j) = stepByte c j := by
  unfold payloadByte
  have h1 : ¬ 16 + j < TRecipeInfo_Size := by simp only [TRecipeInfo_Size]; omega
  have h2 : 16 + j < TRecipeInfo_Size + RecipeSteps c * TRecipeStep_Size := by
    simp only [TRecipeInfo_Size, TRecipeStep_Size]; omega
  rw [if_neg h1, if_pos h2]
  congr 1
  simp only [TRecipeInfo_Size]
  omega

theorem NFC_LoadAllData_ideal (uid : List Nat) (uidLength : Nat) (garbage : Nat → Nat)
    (hlen : uidLength = 4 ∨ uidLength = 7) (dst : TCardInfo) (m : Nat → Nat)
    (hd16 : dst.sRecipeInfo.length = 16) :
    ∃ d1, NFC_LoadAllData (idealTag uid uidLength garbage) dst m = (0, d1, m) ∧
      d1.sRecipeInfo = tagInfo uidLength m ∧
      d1.sRecipeStep = some (tagSteps uidLength m ((tagInfo uidLength m).getD 7 0)) := by
  unfold NFC_LoadAllData
  generalize hc0 : (if dst.TRecipeStepArrayCreated = true then
    (NFC_DeAllocTRecipeStepArray dst).2 else dst) = c0
  have hc016 : c0.sRecipeInfo.length = 16 := by
    rw [← hc0]
    split
    · unfold NFC_DeAllocTRecipeStepArray
      split <;> exact hd16
    · exact hd16
  have hInit16 : (NFC_InitTCardInfo c0).sRecipeInfo.length = 16 := hc016
  have hH := NFC_LoadTRecipeInfoStructure_ideal uid uidLength garbage hlen
    (NFC_InitTCardInfo c0) m hInit16
  generalize hx1 : ({ NFC_InitTCardInfo c0 with
    sRecipeInfo := tagInfo uidLength m
    TRecipeInfoLoaded := true } : TCardInfo) = x1 at hH
  have hR1 : retry (fun Error => Error == 0)
      (fun c w => NFC_LoadTRecipeInfoStructure (idealTag uid uidLength garbage)
        (NFC_InitTCardInfo c) w) id MAXERRORREADING 0 c0 m = (0, x1, m) := by
    have h := retry_first (fun Error => Error == 0)
      (fun c w => NFC_LoadTRecipeInfoStructure (idealTag uid uidLength garbage)
        (NFC_InitTCardInfo c) w) id 4 0 c0 m (by beta_reduce; rw [hH]; rfl)
    beta_reduce at h
    rw [hH] at h
    exact h
  have hx1l : x1.TRecipeInfoLoaded = true := by rw [← hx1]
  have hx1c : x1.TRecipeStepArrayCreated = false := by rw [← hx1]; rfl
  have hx1i : x1.sRecipeInfo = tagInfo uidLength m := by rw [← hx1]
  have hA : NFC_AllocTRecipeStepArray (idealTag uid uidLength garbage) x1 m =
      (0, { x1 with
            sRecipeStep := some ((List.range (TRecipeStep_Size * RecipeSteps x1)).map garbage)
            TRecipeStepArrayCreated := true }, m) := by
    unfold NFC_AllocTRecipeStepArray
    simp only [hx1l, hx1c, Bool.not_true, Bool.false_eq_true, if_false]
    rfl
  generalize hx2 : ({ x1 with
    sRecipeStep := some ((List.range (TRecipeStep_Size * RecipeSteps x1)).map garbage)
    TRecipeStepArrayCreated := true } : TCardInfo) = x2 at hA
  have hR2 : retry (fun Error => Error == 0)
      (NFC_AllocTRecipeStepArray (idealTag uid uidLength garbage))
      (fun c => (NFC_DeAllocTRecipeStepArray c).2) MAXERRORREADING 0 x1 m = (0, x2, m) := by
    have h := retry_first (fun Error => Error == 0)
      (NFC_AllocTRecipeStepArray (idealTag uid uidLength garbage))
      (fun c => (NFC_DeAllocTRecipeStepArray c).2) 4 0 x1 m (by rw [hA]; rfl)
    rw [hA] at h
    exact h
  have hx2c : x2.TRecipeStepArrayCreated = true := by rw [← hx2]
  have hx2s : x2.sRecipeStep =
      some ((List.range (TRecipeStep_Size * RecipeSteps x1)).map garbage) := by rw [← hx2]
  have hx2i : x2.sRecipeInfo = tagInfo uidLength m := by rw [← hx2]; exact hx1i
  have hx2r : RecipeSteps x2 = RecipeSteps x1 := by rw [← hx2]; rfl
  have hS := NFC_LoadTRecipeSteps_ideal uid uidLength garbage hlen x2 _ m hx2c hx2s
    (by simp [hx2r])
  have hR3 : retry (fun Error => Error == 0)
      (NFC_LoadTRecipeSteps (idealTag uid uidLength garbage)) id MAXERRORREADING 0 x2 m =
      (0, { x2 with sRecipeStep := some (tagSteps uidLength m (RecipeSteps x2)),
                    TRecipeStepLoaded := true }, m) := by
    have h := retry_first (fun Error => Error == 0)
      (NFC_LoadTRecipeSteps (idealTag uid uidLength garbage)) id 4 0 x2 m (by rw [hS]; rfl)
    rw [hS] at h
    exact h
  dsimp only
  rw [hR1]
  dsimp only
  rw [hR2]
  dsimp only
  rw [hR3]
  refine ⟨_, rfl, hx2i, ?_⟩
  simp only [RecipeSteps, infoByte, hx2i]

/-- C2: for a record with a 16-byte header, `RecipeSteps` a byte, and a step
array `b` of `RecipeSteps` entries, on the ideal tag of either geometry (UID
length 4 or 7: present, every authentication, read, write and allocation
succeeding) with any initial contents, `NFC_WriteAllData` returns 0 and leaves
the record with its checksum field updated, and `NFC_LoadAllData` from the same
tag into any other record then returns 0 and yields a header equal to the
written record's header (checksum field as updated included) and a step array
equal to `b`. -/
theorem C2_write_all_load_all_round_trip (uid : List Nat) (uidLength : Nat)
    (garbage : Nat → Nat) (depth : Nat) (c dst : TCardInfo) (b : List Nat) (m : Nat → Nat)
    (hlen : uidLength = 4 ∨ uidLength = 7)
    (hc16 : c.sRecipeInfo.length = 16) (hN : RecipeSteps c < 256)
    (hs : c.sRecipeStep = some b) (hb : b.length = 3 * RecipeSteps c)
    (hd16 : dst.sRecipeInfo.length = 16) :
    ∃ c1 m1 d1,
      NFC_WriteAllData (idealTag uid uidLength garbage) (depth + 1) c m = some (0, c1, m1) ∧
      NFC_LoadAllData (idealTag uid uidLength garbage) dst m1 = (0, d1, m1) ∧
      c1 = checkSumUpdated c ∧ CheckSum c1 = NFC_GetCheckSum c ∧
      c1.sRecipeStep = some b ∧
      d1.sRecipeInfo = c1.sRecipeInfo ∧ d1.sRecipeStep = some b := by
  obtain ⟨m1, hw, htag⟩ := NFC_WriteStructRange_ideal_zero uid uidLength garbage hlen depth c
    (RecipeSteps c) m (le_refl _) hN
  obtain ⟨d1, hl, hd1, hd2⟩ := NFC_LoadAllData_ideal uid uidLength garbage hlen dst m1 hd16
  have hframe := sameButCheckSum_checkSumUpdated c
  have hc1s : (checkSumUpdated c).sRecipeStep = some b := by rw [hframe.1, hs]
  have hc1r : RecipeSteps (checkSumUpdated c) = RecipeSteps c :=
    sameButCheckSum_recipeSteps hframe
  have hc116 : (checkSumUpdated c).sRecipeInfo.length = 16 := by
    rw [hframe.2.2.2.2.2.2.1, hc16]
  have hinfo : tagInfo uidLength m1 = (checkSumUpdated c).sRecipeInfo :=
    tagInfo_eq_of uidLength m1 _ hc116 (fun j hj => by
      rw [htag j (by omega), payloadByte_info _ j hj])
  have hsteps : tagSteps uidLength m1 (RecipeSteps c) = b :=
    tagSteps_eq_of uidLength m1 b _ hb (fun j hj => by
      rw [htag (16 + j) (by omega), payloadByte_step _ j (by rw [hc1r]; exact hj)]
      simp only [stepByte, hc1s])
  have hWA : NFC_WriteAllData (idealTag uid uidLength garbage) (depth + 1) c m =
      some (0, checkSumUpdated c, m1) := by
    unfold NFC_WriteAllData
    rw [retryOpt_first (fun Error => Error == 0)
      (fun c w => NFC_WriteStructRange (idealTag uid uidLength garbage) (depth + 1) c 0
        (RecipeSteps c) w) 4 0 c m (0, checkSumUpdated c, m1) hw rfl]
  refine ⟨checkSumUpdated c, m1, d1, hWA, hl, rfl, CheckSum_checkSumUpdated c hc16, hc1s,
    by rw [hd1, hinfo], ?_⟩
  rw [hd2, hinfo]
  have : (checkSumUpdated c).sRecipeInfo.getD 7 0 = RecipeSteps c := hc1r
  rw [this, hsteps]

theorem C2_write_all_load_all_round_trip_witness :
    ∃ c1 m1 d1,
      NFC_WriteAllData (idealTag [1, 2, 3, 4] 4 (fun _ => 170)) 2 sampleCard blankTag
        = some (0, c1, m1) ∧
      NFC_LoadAllData (idealTag [1, 2, 3, 4] 4 (fun _ => 170)) emptyCard m1 = (0, d1, m1) ∧
      c1 = checkSumUpdated sampleCard ∧ CheckSum c1 = NFC_GetCheckSum sampleCard ∧
      c1.sRecipeStep = some [1, 2, 3, 4, 5, 6, 7, 8, 9] ∧
      d1.sRecipeInfo = c1.sRecipeInfo ∧ d1.sRecipeStep = some [1, 2, 3, 4, 5, 6, 7, 8, 9] :=
  C2_write_all_load_all_round_trip [1, 2, 3, 4] 4 (fun _ => 170) 1 sampleCard emptyCard
    [1, 2, 3, 4, 5, 6, 7, 8, 9] blankTag (Or.inl rfl) (by decide) (by decide) rfl (by decide)
    (by decide)

/-! ### The checksum on the tag after a write -/

theorem NFC_WriteStructRange_ideal_zero_full (uid : List Nat) (uidLength : Nat)
    (garbage : Nat → Nat) (U : Nat)
    (hlen : (uidLength = 4 ∧ U = 16) ∨ (uidLength = 7 ∧ U = 4)) (depth : Nat)
    (c : TCardInfo) (e : Nat) (m : Nat → Nat) (he : e ≤ RecipeSteps c)
    (hN : RecipeSteps c < 256) :
    ∃ m1, NFC_WriteStructRange (idealTag uid uidLength garbage) (depth + 1) c 0 e m =
        some (0, checkSumUpdated c, m1) ∧
      ∀ p, p < 3056 → tagByte uidLength m1 p =
        if p < U * ((15 + 3 * e) / U + 1) then payloadByte (checkSumUpdated c) p
        else tagByte uidLength m p := by
  rw [NFC_WriteStructRange_start_zero_eq _ depth c e m he, writeKonec_zero e (by omega)]
  obtain ⟨h1, h2⟩ := writeRangeUnits_ideal uid uidLength garbage (checkSumUpdated c) 0
    (15 + 3 * e) m U hlen (by omega)
  refine ⟨_, by rw [h1], fun p hp => ?_⟩
  rw [h2 p hp]
  have e0 : 0 / U = 0 := Nat.zero_div U
  rw [e0]
  simp only [Nat.mul_zero, Nat.zero_le, true_and, Nat.zero_add, Nat.sub_zero]

theorem NFC_WriteStructRange_nested_eq {σ : Type} (d : Env σ) (depth : Nat) (c : TCardInfo)
    (s e : Nat) (w : σ) (hs : 0 < s) (hse : s ≤ e) (he : e ≤ RecipeSteps c)
    (hstale : NFC_GetCheckSum c ≠ CheckSum c) (r : Nat × TCardInfo × σ)
    (hnested : retryOpt (fun Error => Error == 0 || Error == 1)
      (fun c w => NFC_WriteStructRange d (depth + 1) c 0 0 w) MAXERRORREADING 0
      (setCheckSum c (NFC_GetCheckSum c)) w = some r) :
    NFC_WriteStructRange d (depth + 2) c s e w =
      some ((writeRangeUnits d r.2.1 (writeZacatek s) (writeKonec s e) r.2.2).1, r.2.1,
        (writeRangeUnits d r.2.1 (writeZacatek s) (writeKonec s e) r.2.2).2) := by
  have h1 : ¬ (s > e) := by omega
  have h2 : ¬ (s > RecipeSteps c ∨ e > RecipeSteps c) := by omega
  have h3 : s ≠ 0 := by omega
  rw [NFC_WriteStructRange]
  rw [if_neg h1, if_neg h2]
  simp only [hstale, h3, ne_eq, not_false_eq_true, if_true, hnested, Option.map_some']

theorem NFC_GetCheckSum_ext (c c2 : TCardInfo) (hi : c2.sRecipeInfo = c.sRecipeInfo)
    (hs : c2.sRecipeStep = c.sRecipeStep) : NFC_GetCheckSum c2 = NFC_GetCheckSum c := by
  have hstep : checkSumStep c2 = checkSumStep c := by
    funext acc i
    simp only [checkSumStep, stepByte, hs]
  simp only [NFC_GetCheckSum, NumOfDrinks, RecipeSteps, infoByte, hi, hstep]

theorem checkSumUpdated_idem (c : TCardInfo) (hc16 : c.sRecipeInfo.length = 16) :
    checkSumUpdated (checkSumUpdated c) = checkSumUpdated c := by
  have h1 := CheckSum_checkSumUpdated c hc16
  have h2 := NFC_GetCheckSum_congr c _ (sameButCheckSum_checkSumUpdated c)
  have h3 : ¬ NFC_GetCheckSum (checkSumUpdated c) ≠ CheckSum (checkSumUpdated c) := by
    rw [h1, h2]; simp
  generalize checkSumUpdated c = x at h3 ⊢
  unfold checkSumUpdated
  rw [if_neg h3]

theorem tagRecord_consistent (uidLength : Nat) (m : Nat → Nat) (c : TCardInfo) (b : List Nat)
    (hs : c.sRecipeStep = some b)
    (hfresh : CheckSum c = NFC_GetCheckSum c)
    (hinfo : tagInfo uidLength m = c.sRecipeInfo)
    (hsteps : tagSteps uidLength m (RecipeSteps c) = b) :
    CheckSum (tagRecord uidLength m) = NFC_GetCheckSum (tagRecord uidLength m) := by
  have h1 : (tagRecord uidLength m).sRecipeInfo = c.sRecipeInfo := hinfo
  have h2 : (tagRecord uidLength m).sRecipeStep = c.sRecipeStep := by
    simp only [tagRecord, hinfo]
    rw [hs, ← hsteps]
    rfl
  rw [NFC_GetCheckSum_ext c _ h1 h2, ← hfresh]
  simp only [CheckSum, infoByte, h1]

/-- C10 (as amended): on the ideal tag of either geometry (UID length 4 or 7:
present, every authentication and write succeeding and storing its data), for
a record with a 16-byte header, `RecipeSteps` a byte and a step array `b` of
`RecipeSteps` entries, and `start ≤ end ≤ RecipeSteps`: when the header is part
of what is written (`start = 0`, or the checksum field in memory is stale at
the call) and the steps outside `start..end` are already on the tag,
`NFC_WriteStructRange` returns 0 and at return the checksum field of the
header stored on the tag equals `NFC_GetCheckSum` of the record stored on the
tag. -/
theorem C10_tag_checksum_matches_tag_steps (uid : List Nat) (uidLength : Nat)
    (garbage : Nat → Nat) (depth : Nat) (c : TCardInfo) (b : List Nat) (s e : Nat)
    (m : Nat → Nat)
    (hlen : uidLength = 4 ∨ uidLength = 7)
    (hc16 : c.sRecipeInfo.length = 16) (hN : RecipeSteps c < 256)
    (hs : c.sRecipeStep = some b) (hb : b.length = 3 * RecipeSteps c)
    (hse : s ≤ e) (he : e ≤ RecipeSteps c)
    (hheader : s = 0 ∨ NFC_GetCheckSum c ≠ CheckSum c)
    (hrest : ∀ j, j < 3 * RecipeSteps c → (j + 3 < 3 * s ∨ 3 * e ≤ j) →
      tagByte uidLength m (16 + j) = b.getD j 0) :
    ∃ m1, NFC_WriteStructRange (idealTag uid uidLength garbage) (depth + 2) c s e m =
        some (0, checkSumUpdated c, m1) ∧
      CheckSum (tagRecord uidLength m1) = NFC_GetCheckSum (tagRecord uidLength m1) := by
  have hU : ∃ U, ((uidLength = 4 ∧ U = 16) ∨ (uidLength = 7 ∧ U = 4)) ∧ (U = 16 ∨ U = 4) := by
    rcases hlen with h | h
    · exact ⟨16, Or.inl ⟨h, rfl⟩, Or.inl rfl⟩
    · exact ⟨4, Or.inr ⟨h, rfl⟩, Or.inr rfl⟩
  obtain ⟨U, hlenU, hU2⟩ := hU
  have hframe := sameButCheckSum_checkSumUpdated c
  have hc1s : (checkSumUpdated c).sRecipeStep = some b := by rw [hframe.1, hs]
  have hc1r : RecipeSteps (checkSumUpdated c) = RecipeSteps c :=
    sameButCheckSum_recipeSteps hframe
  have hc116 : (checkSumUpdated c).sRecipeInfo.length = 16 := by
    rw [hframe.2.2.2.2.2.2.1, hc16]
  have hfresh : CheckSum (checkSumUpdated c) = NFC_GetCheckSum (checkSumUpdated c) := by
    rw [CheckSum_checkSumUpdated c hc16, NFC_GetCheckSum_congr c _ hframe]
  have hfinal : ∀ m1 : Nat → Nat,
      (∀ p, p < 16 → tagByte uidLength m1 p = infoByte (checkSumUpdated c) p) →
      (∀ j, j < 3 * RecipeSteps c → tagByte uidLength m1 (16 + j) = b.getD j 0) →
      CheckSum (tagRecord uidLength m1) = NFC_GetCheckSum (tagRecord uidLength m1) := by
    intro m1 g1 g2
    exact tagRecord_consistent uidLength m1 (checkSumUpdated c) b hc1s hfresh
      (tagInfo_eq_of uidLength m1 _ hc116 g1)
      (by rw [hc1r]; exact tagSteps_eq_of uidLength m1 b _ hb g2)
  by_cases hs0 : s = 0
  · subst hs0
    obtain ⟨m1, hw, htag⟩ := NFC_WriteStructRange_ideal_zero_full uid uidLength garbage U hlenU
      (depth + 1) c e m he hN
    refine ⟨m1, hw, hfinal m1 (fun p hp => ?_) (fun j hj => ?_)⟩
    · rw [htag p (by omega)]
      have : p < U * ((15 + 3 * e) / U + 1) := by rcases hU2 with h | h <;> subst h <;> omega
      rw [if_pos this, payloadByte_info _ p hp]
    · rw [htag (16 + j) (by omega)]
      split
      · rw [payloadByte_step _ j (by rw [hc1r]; exact hj)]
        simp only [stepByte, hc1s]
      · rename_i hnot
        apply hrest j hj
        right
        rcases hU2 with h | h <;> subst h <;> omega
  · have hstale : NFC_GetCheckSum c ≠ CheckSum c := by
      rcases hheader with h | h
      · exact absurd h hs0
      · exact h
    have hcu : checkSumUpdated c = setCheckSum c (NFC_GetCheckSum c) := by
      unfold checkSumUpdated
      rw [if_pos hstale]
    obtain ⟨m0, hw0, htag0⟩ := NFC_WriteStructRange_ideal_zero_full uid uidLength garbage U
      hlenU depth (checkSumUpdated c) 0 m (Nat.zero_le _) (by rw [hc1r]; exact hN)
    rw [checkSumUpdated_idem c hc16] at hw0 htag0
    have hnested := retryOpt_first (fun Error => Error == 0 || Error == 1)
      (fun c w => NFC_WriteStructRange (idealTag uid uidLength garbage) (depth + 1) c 0 0 w)
      4 0 (checkSumUpdated c) m (0, checkSumUpdated c, m0) hw0 rfl
    rw [hcu] at hnested
    rw [NFC_WriteStructRange_nested_eq _ depth c s e m (by omega) hse he hstale _ hnested,
      ← hcu, writeKonec_pos s e (by omega) hse (by omega)]
    have hz : writeZacatek s = 16 + (s - 1) * 3 := by
      unfold writeZacatek
      rw [if_pos (by omega)]
    rw [hz]
    obtain ⟨h1, h2⟩ := writeRangeUnits_ideal uid uidLength garbage (checkSumUpdated c)
      (16 + (s - 1) * 3) (15 + 3 * e) m0 U hlenU (by omega)
    refine ⟨_, by rw [h1], hfinal _ (fun p hp => ?_) (fun j hj => ?_)⟩
    · rw [h2 p (by omega)]
      have hout : ¬ (U * ((16 + (s - 1) * 3) / U) ≤ p ∧
          p < U * ((16 + (s - 1) * 3) / U +
            ((15 + 3 * e) / U + 1 - (16 + (s - 1) * 3) / U))) := by
        rcases hU2 with h | h <;> subst h <;> omega
      rw [if_neg hout, htag0 p (by omega)]
      have : p < U * ((15 + 3 * 0) / U + 1) := by rcases hU2 with h | h <;> subst h <;> omega
      rw [if_pos this, payloadByte_info _ p hp]
    · rw [h2 (16 + j) (by omega)]
      split
      · rw [payloadByte_step _ j (by rw [hc1r]; exact hj)]
        simp only [stepByte, hc1s]
      · rename_i hnot
        rw [htag0 (16 + j) (by omega)]
        have : ¬ (16 + j < U * ((15 + 3 * 0) / U + 1)) := by
          rcases hU2 with h | h <;> subst h <;> omega
        rw [if_neg this]
        apply hrest j hj
        rcases hU2 with h | h <;> subst h <;> omega

theorem C10_tag_checksum_matches_tag_steps_witness :
    ∃ m1, NFC_WriteStructRange (idealTag [4, 1, 2, 3, 4, 5, 6] 7 (fun _ => 170)) 2 sampleCard
        1 3 zeroStepsTag = some (0, checkSumUpdated sampleCard, m1) ∧
      CheckSum (tagRecord 7 m1) = NFC_GetCheckSum (tagRecord 7 m1) :=
  C10_tag_checksum_matches_tag_steps [4, 1, 2, 3, 4, 5, 6] 7 (fun _ => 170) 0 sampleCard
    [1, 2, 3, 4, 5, 6, 7, 8, 9] 1 3 zeroStepsTag (Or.inr rfl) (by decide) (by decide) rfl
    (by decide) (by decide) (by decide) (Or.inr (by decide))
    (fun j hj hout => by
      have h9 : j < 9 := hj
      omega)

/-- C10 (as stated, refuted): the ideal Mifare Ultralight tag holds the sample
header with checksum field 0 and all-zero steps; the record in memory has the
steps 1..9 and its checksum field already current (109).
`NFC_WriteStructRange` over the structures 1..3 returns 0, every primitive
having succeeded, and leaves on the tag a header whose checksum field is 0
while `NFC_GetCheckSum` of the record stored on the tag is 109. -/
theorem C10_counterexample_header_not_rewritten :
    NFC_WriteStructRange (idealTag [4, 1, 2, 3, 4, 5, 6] 7 (fun _ => 170)) 2
      sampleCardCurrent 1 3 zeroStepsTag = some sampleStepsWrite ∧
    sampleStepsWrite.1 = 0 ∧
    CheckSum (tagRecord 7 sampleStepsWrite.2.2) = 0 ∧
    NFC_GetCheckSum (tagRecord 7 sampleStepsWrite.2.2) = 109 := by
  refine ⟨by rfl, by decide, by decide, by decide⟩

/-! ### Claims on the address translator and the step array store -/

/-- C13 (as amended): for every index `i ≤ 190` (every unit index the library
passes is at most 48) the block index returned by `NFC_GetMifareClassicIndex`
is at least 1: block 0 is skipped. -/
theorem C13_index_skips_block_zero (i : Nat) (h : i ≤ 190) :
    1 ≤ NFC_GetMifareClassicIndex i := by
  rw [NFC_GetMifareClassicIndex_closed i h]
  omega

theorem C13_index_skips_block_zero_witness : 1 ≤ NFC_GetMifareClassicIndex 190 :=
  C13_index_skips_block_zero 190 (by decide)

/-- C13 (as stated, refuted): for the index 191 the running block number is
257, so the 8-bit result of `NFC_GetMifareClassicIndex` is 0. -/
theorem C13_counterexample_index_wraps_to_zero : NFC_GetMifareClassicIndex 191 = 0 := by
  unfold NFC_GetMifareClassicIndex
  rw [show 1 + OFFSETDATA_CLASSIC = 2 from rfl, mifareClassicLoop_closed 191 (by omega)]
  rfl

/-- C16: `NFC_AllocTRecipeStepArray` returns 2 for a record whose header is not
loaded and 1 for a record whose header is loaded and whose array is already
created, in both cases handing back the record and the world unchanged; so
after a call that returned 0 on a loaded record, a second call returns 1 and
leaves the record of the first call, its array included, as it was. -/
theorem C16_allocate_rejects_unloaded_and_allocated {σ : Type} (d : Env σ) (c : TCardInfo)
    (w : σ) :
    (c.TRecipeInfoLoaded = false → NFC_AllocTRecipeStepArray d c w = (2, c, w)) ∧
    (c.TRecipeInfoLoaded = true → c.TRecipeStepArrayCreated = true →
      NFC_AllocTRecipeStepArray d c w = (1, c, w)) ∧
    (c.TRecipeInfoLoaded = true → (NFC_AllocTRecipeStepArray d c w).1 = 0 →
      ∀ w2, NFC_AllocTRecipeStepArray d (NFC_AllocTRecipeStepArray d c w).2.1 w2 =
        (1, (NFC_AllocTRecipeStepArray d c w).2.1, w2)) := by
  refine ⟨fun h => ?_, fun h1 h2 => ?_, fun h1 h0 w2 => ?_⟩
  · simp [NFC_AllocTRecipeStepArray, h]
  · simp [NFC_AllocTRecipeStepArray, h1, h2]
  · unfold NFC_AllocTRecipeStepArray at h0 ⊢
    simp only [h1, Bool.not_true, Bool.false_eq_true, if_false] at h0 ⊢
    by_cases hc : c.TRecipeStepArrayCreated = true
    · simp [hc] at h0
    · simp only [hc, if_false] at h0 ⊢
      rcases hm : d.malloc (TRecipeStep_Size * RecipeSteps c) w with ⟨_ | g, w1⟩
      · rw [hm] at h0; simp at h0
      · simp [h1]

theorem C16_allocate_rejects_unloaded_and_allocated_witness :
    NFC_AllocTRecipeStepArray heapOnly emptyCard () = (2, emptyCard, ()) ∧
    NFC_AllocTRecipeStepArray heapOnly sampleCard () = (1, sampleCard, ()) :=
  ⟨(C16_allocate_rejects_unloaded_and_allocated heapOnly emptyCard ()).1 rfl,
    (C16_allocate_rejects_unloaded_and_allocated heapOnly sampleCard ()).2.1 rfl rfl⟩

/-- C17: for every record whose step array is created and every index
`≥ RecipeSteps`, `NFC_LoadTRecipeStep` returns 5 and hands back the record and
the world unchanged, for every environment; run on the logging environment it
leaves the log of primitive calls as it was. -/
theorem C17_load_step_index_out_of_range {σ : Type} (d : Env σ) (c : TCardInfo) (n : Nat)
    (w : σ) (t : List Primitive) (hc : c.TRecipeStepArrayCreated = true)
    (hn : n ≥ RecipeSteps c) :
    NFC_LoadTRecipeStep d c n w = (5, c, w) ∧
    NFC_LoadTRecipeStep (traced d) c n (w, t) = (5, c, (w, t)) := by
  constructor <;> simp [NFC_LoadTRecipeStep, hc, hn]

theorem C17_load_step_index_out_of_range_witness :
    NFC_LoadTRecipeStep heapOnly sampleCard 3 () = (5, sampleCard, ()) ∧
    NFC_LoadTRecipeStep (traced heapOnly) sampleCard 3 ((), []) = (5, sampleCard, ((), [])) :=
  C17_load_step_index_out_of_range heapOnly sampleCard 3 () [] rfl (by decide)

/-- C18: for every record whose step array is not created, `NFC_LoadTRecipeSteps`
and `NFC_LoadTRecipeStep` (for any index) return 4 and hand back the record and
the world unchanged, for every environment; run on the logging environment
they leave the log of primitive calls as it was. -/
theorem C18_load_steps_without_array {σ : Type} (d : Env σ) (c : TCardInfo) (n : Nat)
    (w : σ) (t : List Primitive) (hc : c.TRecipeStepArrayCreated = false) :
    NFC_LoadTRecipeSteps d c w = (4, c, w) ∧
    NFC_LoadTRecipeStep d c n w = (4, c, w) ∧
    NFC_LoadTRecipeSteps (traced d) c (w, t) = (4, c, (w, t)) ∧
    NFC_LoadTRecipeStep (traced d) c n (w, t) = (4, c, (w, t)) := by
  refine ⟨?_, ?_, ?_, ?_⟩ <;> simp [NFC_LoadTRecipeSteps, NFC_LoadTRecipeStep, hc]

theorem C18_load_steps_without_array_witness :
    NFC_LoadTRecipeSteps heapOnly emptyCard () = (4, emptyCard, ()) ∧
    NFC_LoadTRecipeStep heapOnly emptyCard 0 () = (4, emptyCard, ()) ∧
    NFC_LoadTRecipeSteps (traced heapOnly) emptyCard ((), []) = (4, emptyCard, ((), [])) ∧
    NFC_LoadTRecipeStep (traced heapOnly) emptyCard 0 ((), []) = (4, emptyCard, ((), [])) :=
  C18_load_steps_without_array heapOnly emptyCard 0 () [] rfl

/-- C19 (as amended): for every record whose array is present, or whose two
array-related flags are already false, after `NFC_DeAllocTRecipeStepArray` the
step array is absent and `TRecipeStepArrayCreated` and `TRecipeStepLoaded` are
false, while the header, `TRecipeInfoLoaded`, the UID and the UID length are
unchanged. -/
theorem C19_release_clears_array_and_flags (c : TCardInfo)
    (h : c.sRecipeStep ≠ none ∨
      (c.TRecipeStepArrayCreated = false ∧ c.TRecipeStepLoaded = false)) :
    (NFC_DeAllocTRecipeStepArray c).2.sRecipeStep = none ∧
    (NFC_DeAllocTRecipeStepArray c).2.TRecipeStepArrayCreated = false ∧
    (NFC_DeAllocTRecipeStepArray c).2.TRecipeStepLoaded = false ∧
    (NFC_DeAllocTRecipeStepArray c).2.sRecipeInfo = c.sRecipeInfo ∧
    (NFC_DeAllocTRecipeStepArray c).2.TRecipeInfoLoaded = c.TRecipeInfoLoaded ∧
    (NFC_DeAllocTRecipeStepArray c).2.sUid = c.sUid ∧
    (NFC_DeAllocTRecipeStepArray c).2.sUidLength = c.sUidLength := by
  unfold NFC_DeAllocTRecipeStepArray
  rcases hs : c.sRecipeStep with _ | a
  · rcases h with h | ⟨h1, h2⟩
    · exact absurd hs h
    · exact ⟨hs, h1, h2, rfl, rfl, rfl, rfl⟩
  · exact ⟨rfl, rfl, rfl, rfl, rfl, rfl, rfl⟩

theorem C19_release_clears_array_and_flags_witness :
    (NFC_DeAllocTRecipeStepArray sampleCard).2.sRecipeStep = none ∧
    (NFC_DeAllocTRecipeStepArray sampleCard).2.TRecipeStepArrayCreated = false ∧
    (NFC_DeAllocTRecipeStepArray sampleCard).2.TRecipeStepLoaded = false ∧
    (NFC_DeAllocTRecipeStepArray sampleCard).2.sRecipeInfo = sampleCard.sRecipeInfo ∧
    (NFC_DeAllocTRecipeStepArray sampleCard).2.TRecipeInfoLoaded = sampleCard.TRecipeInfoLoaded ∧
    (NFC_DeAllocTRecipeStepArray sampleCard).2.sUid = sampleCard.sUid ∧
    (NFC_DeAllocTRecipeStepArray sampleCard).2.sUidLength = sampleCard.sUidLength :=
  C19_release_clears_array_and_flags sampleCard (Or.inl (by decide))

/-- C19 (as stated, refuted): on the sample record with its array pointer
`NULL` and both array-related flags still set, `NFC_DeAllocTRecipeStepArray`
returns 1 and leaves `TRecipeStepArrayCreated` and `TRecipeStepLoaded` true. -/
theorem C19_counterexample_flags_survive_null_array :
    (NFC_DeAllocTRecipeStepArray { sampleCard with sRecipeStep := none }).1 = 1 ∧
    (NFC_DeAllocTRecipeStepArray { sampleCard with sRecipeStep := none }).2.TRecipeStepArrayCreated
      = true ∧
    (NFC_DeAllocTRecipeStepArray { sampleCard with sRecipeStep := none }).2.TRecipeStepLoaded
      = true := by
  decide

/-- C20: for every record, `NFC_DeAllocTRecipeStepArray` applied twice leaves
the record that one application leaves, and on a record whose array is absent
it returns 1 and changes nothing. -/
theorem C20_release_idempotent (c : TCardInfo) :
    (NFC_DeAllocTRecipeStepArray (NFC_DeAllocTRecipeStepArray c).2).2 =
      (NFC_DeAllocTRecipeStepArray c).2 ∧
    (c.sRecipeStep = none → NFC_DeAllocTRecipeStepArray c = (1, c)) := by
  unfold NFC_DeAllocTRecipeStepArray
  rcases hs : c.sRecipeStep with _ | a
  · simp [hs]
  · simp

theorem C20_release_idempotent_witness :
    (NFC_DeAllocTRecipeStepArray (NFC_DeAllocTRecipeStepArray sampleCard).2).2 =
      (NFC_DeAllocTRecipeStepArray sampleCard).2 ∧
    NFC_DeAllocTRecipeStepArray emptyCard = (1, emptyCard) :=
  ⟨(C20_release_idempotent sampleCard).1, (C20_release_idempotent emptyCard).2 rfl⟩

/-! ### The lifecycle of a record -/

theorem lifecycle_of_shape {c x : TCardInfo} (h : shape x = shape c) (hL : Lifecycle c) :
    Lifecycle x := by
  simp only [shape, Prod.mk.injEq] at h
  obtain ⟨h1, _, h3, h4, h5, h6⟩ := h
  unfold Lifecycle at hL ⊢
  rw [h1, h3, h4, h5, h6]
  exact hL

theorem arraySized_of_shape {c x : TCardInfo} (h : shape x = shape c) (hS : ArraySized c) :
    ArraySized x := by
  simp only [shape, Prod.mk.injEq] at h
  obtain ⟨_, h2, _, _, _, h6⟩ := h
  unfold ArraySized at hS ⊢
  rw [h2, h6]
  exact hS

theorem shape_setStepByte (c : TCardInfo) (j v : Nat) : shape (setStepByte c j v) = shape c := by
  unfold shape setStepByte RecipeSteps infoByte
  cases c.sRecipeStep <;> simp

theorem shape_foldl_setStepByte (g : TCardInfo → Nat → Nat) (l : List Nat) :
    ∀ c, shape (l.foldl (fun c i => setStepByte c i (g c i)) c) = shape c := by
  induction l with
  | nil => intro c; rfl
  | cons a l ih => intro c; rw [List.foldl_cons, ih, shape_setStepByte]

theorem shape_zeroSteps (c : TCardInfo) (n : Nat) : shape (zeroSteps c n) = shape c :=
  shape_foldl_setStepByte (fun _ _ => 0) _ c

theorem shape_copySteps (src : Nat → Nat) (c : TCardInfo) (n : Nat) :
    shape (copySteps src c n) = shape c :=
  shape_foldl_setStepByte (fun _ i => src i) _ c

theorem shape_of_sameButCheckSum {c x : TCardInfo} (h : SameButCheckSum c x) :
    shape x = shape c := by
  obtain ⟨a1, _, _, a4, a5, a6, a7, a8⟩ := h
  simp only [shape, RecipeSteps, a1, a4, a5, a6, a7, a8 7 (by decide) (by decide)]

theorem shape_setCheckSum (c : TCardInfo) (v : Nat) : shape (setCheckSum c v) = shape c :=
  shape_of_sameButCheckSum (sameButCheckSum_setCheckSum c v)

theorem forBreak_inv {α : Type} (body : Nat → α → α × Bool) (P : α → Prop)
    (hb : ∀ k s, P s → P (body k s).1) (n : Nat) :
    ∀ k s, P s → P (forBreak body n k s) := by
  induction n with
  | zero => intro k s h; exact h
  | succ n ih =>
    intro k s h
    rw [forBreak]
    have h1 := hb k s h
    rcases hbk : body k s with ⟨s1, _ | _⟩
    · rw [hbk] at h1; exact h1
    · rw [hbk] at h1; exact ih _ _ h1

theorem unitLoop_inv {σ α : Type} (read : Nat → σ → Except Nat (List Nat) × σ)
    (copy : List Nat → Nat → α → α) (P : α → Prop)
    (hc : ∀ iData i s, P s → P (copy iData i s)) (n : Nat) :
    ∀ i s w, P s → P (unitLoop read copy n i s w).2.1 := by
  induction n with
  | zero => intro i s w h; exact h
  | succ n ih =>
    intro i s w h
    rw [unitLoop]
    rcases read i w with ⟨_ | iData, w1⟩
    · exact h
    · exact ih _ _ _ (hc _ _ _ h)

theorem loadInfoBytes_inv (P : TCardInfo → Prop)
    (hP : ∀ c j v, P c → P (setInfoByte c j v)) (iData : List Nat) (i : Nat) (c : TCardInfo)
    (h : P c) : P (loadInfoBytes iData i c) := by
  unfold loadInfoBytes
  refine forBreak_inv _ P (fun k s hs => ?_) _ _ _ h
  dsimp only
  split
  · exact hP _ _ _ hs
  · exact hs

theorem loadStepsBytes_inv (P : TCardInfo → Prop)
    (hP : ∀ c j v, P c → P (setStepByte c j v)) (iData : List Nat) (i PrvniBunka Posun : Nat)
    (c : TCardInfo) (h : P c) : P (loadStepsBytes iData i PrvniBunka Posun c) := by
  unfold loadStepsBytes
  refine forBreak_inv _ P (fun k s hs => ?_) _ _ _ h
  dsimp only
  split_ifs
  · exact hs
  · exact hP _ _ _ hs
  · exact hP _ _ _ hs
  · exact hs

theorem loadStepBytes_inv (P : TCardInfo → Prop)
    (hP : ∀ c j v, P c → P (setStepByte c j v)) (iData : List Nat)
    (i PrvniBunka Posun konec NumOfStructure : Nat) (s : TCardInfo × Nat) (h : P s.1) :
    P (loadStepBytes iData i PrvniBunka Posun konec NumOfStructure s).1 := by
  unfold loadStepBytes
  refine forBreak_inv _ (fun (s : TCardInfo × Nat) => P s.1) (fun k s hs => ?_) _ _ _ h
  dsimp only
  split_ifs
  · exact hs
  · exact hP _ _ _ hs
  · exact hP _ _ _ hs
  · exact hs

theorem NFC_LoadTRecipeInfoStructure_inv {σ : Type} (d : Env σ) (P : TCardInfo → Prop)
    (hP : ∀ c j v, P c → P (setInfoByte c j v))
    (hL : ∀ c, P c → P { c with TRecipeInfoLoaded := true }) (c : TCardInfo) (w : σ)
    (h : P c) : P (NFC_LoadTRecipeInfoStructure d c w).2.1 := by
  unfold NFC_LoadTRecipeInfoStructure
  rcases d.pn532_readPassiveTargetID w with ⟨_ | ⟨iuid, iuidLength⟩, w1⟩
  · exact h
  dsimp only
  split_ifs
  · rw [loadInfoClassic_eq]
    have h1 := unitLoop_inv (readUnitClassic d iuid iuidLength) loadInfoBytes P
      (fun iData i s hs => loadInfoBytes_inv P hP iData i s hs)
      ((TRecipeInfo_Size - 1) / PAGESIZE_CLASSIC + 1) 0 c w1 h
    revert h1
    generalize unitLoop _ _ _ _ c w1 = r
    rcases r with ⟨_ | code, c2, w2⟩
    · exact fun h1 => hL _ h1
    · exact fun h1 => h1
  · rw [loadInfoUltralight_eq]
    have h1 := unitLoop_inv (readUnitUltralight d) loadInfoBytes P
      (fun iData i s hs => loadInfoBytes_inv P hP iData i s hs)
      ((TRecipeInfo_Size - 1) / 16 + 1) 0 c w1 h
    revert h1
    generalize unitLoop _ _ _ _ c w1 = r
    rcases r with ⟨_ | code, c2, w2⟩
    · exact fun h1 => hL _ h1
    · exact fun h1 => h1
  · exact hL _ h

theorem NFC_LoadTRecipeSteps_inv {σ : Type} (d : Env σ) (P : TCardInfo → Prop)
    (hP : ∀ c j v, P c → P (setStepByte c j v))
    (hL : ∀ c, P c → c.TRecipeStepArrayCreated = true → P { c with TRecipeStepLoaded := true })
    (c : TCardInfo) (w : σ) (h : P c) : P (NFC_LoadTRecipeSteps d c w).2.1 := by
  unfold NFC_LoadTRecipeSteps
  by_cases hc : c.TRecipeStepArrayCreated = true
  swap
  · simp only [hc]; exact h
  have hnc : (!c.TRecipeStepArrayCreated) = false := by simp [hc]
  rw [hnc]
  simp only [Bool.false_eq_true, if_false]
  have hQ : ∀ c j v, (P c ∧ c.TRecipeStepArrayCreated = true) →
      (P (setStepByte c j v) ∧ (setStepByte c j v).TRecipeStepArrayCreated = true) :=
    fun c j v hh => ⟨hP c j v hh.1, hh.2⟩
  rcases d.pn532_readPassiveTargetID w with ⟨_ | ⟨iuid, iuidLength⟩, w1⟩
  · exact h
  dsimp only
  split_ifs
  · rw [loadStepsClassic_eq]
    have h1 := unitLoop_inv (readUnitClassic d iuid iuidLength)
      (fun iData i c => loadStepsBytes iData i (TRecipeInfo_Size / PAGESIZE_CLASSIC)
        (TRecipeInfo_Size % PAGESIZE_CLASSIC) c)
      (fun c => P c ∧ c.TRecipeStepArrayCreated = true)
      (fun iData i s hs => loadStepsBytes_inv _ hQ iData i _ _ s hs)
      ((TRecipeInfo_Size + RecipeSteps c * TRecipeStep_Size - 1) / PAGESIZE_CLASSIC + 1
        - TRecipeInfo_Size / PAGESIZE_CLASSIC) (TRecipeInfo_Size / PAGESIZE_CLASSIC) c w1 ⟨h, hc⟩
    revert h1
    generalize unitLoop _ _ _ _ c w1 = r
    rcases r with ⟨_ | code, c2, w2⟩
    · exact fun h1 => hL _ h1.1 h1.2
    · exact fun h1 => h1.1
  · rw [loadStepsUltralight_eq]
    have h1 := unitLoop_inv (readUnitUltralight d)
      (fun iData i c => loadStepsBytes iData i (TRecipeInfo_Size / PAGESIZE_CLASSIC)
        (TRecipeInfo_Size % PAGESIZE_CLASSIC) c)
      (fun c => P c ∧ c.TRecipeStepArrayCreated = true)
      (fun iData i s hs => loadStepsBytes_inv _ hQ iData i _ _ s hs)
      ((TRecipeInfo_Size + RecipeSteps c * TRecipeStep_Size - 1) / PAGESIZE_CLASSIC + 1
        - TRecipeInfo_Size / PAGESIZE_CLASSIC) (TRecipeInfo_Size / PAGESIZE_CLASSIC) c w1 ⟨h, hc⟩
    revert h1
    generalize unitLoop _ _ _ _ c w1 = r
    rcases r with ⟨_ | code, c2, w2⟩
    · exact fun h1 => hL _ h1.1 h1.2
    · exact fun h1 => h1.1
  · exact hL _ h hc

theorem NFC_LoadTRecipeStep_inv {σ : Type} (d : Env σ) (P : TCardInfo → Prop)
    (hP : ∀ c j v, P c → P (setStepByte c j v))
    (hL : ∀ c, P c → c.TRecipeStepArrayCreated = true → P { c with TRecipeStepLoaded := true })
    (c : TCardInfo) (NumOfStructure : Nat) (w : σ) (h : P c) :
    P (NFC_LoadTRecipeStep d c NumOfStructure w).2.1 := by
  unfold NFC_LoadTRecipeStep
  by_cases hc : c.TRecipeStepArrayCreated = true
  swap
  · simp only [hc]; exact h
  have hnc : (!c.TRecipeStepArrayCreated) = false := by simp [hc]
  rw [hnc]
  simp only [Bool.false_eq_true, if_false]
  split
  · exact h
  have hQ : ∀ c j v, (P c ∧ c.TRecipeStepArrayCreated = true) →
      (P (setStepByte c j v) ∧ (setStepByte c j v).TRecipeStepArrayCreated = true) :=
    fun c j v hh => ⟨hP c j v hh.1, hh.2⟩
  rcases d.pn532_readPassiveTargetID w with ⟨_ | ⟨iuid, iuidLength⟩, w1⟩
  · exact h
  dsimp only
  split_ifs
  · rw [loadStepClassic_eq]
    have h1 := unitLoop_inv (readUnitClassic d iuid iuidLength)
      (fun iData i s => loadStepBytes iData i
        ((TRecipeInfo_Size + NumOfStructure * TRecipeStep_Size) / PAGESIZE_CLASSIC)
        ((TRecipeInfo_Size + NumOfStructure * TRecipeStep_Size) % PAGESIZE_CLASSIC)
        (TRecipeInfo_Size + NumOfStructure * TRecipeStep_Size + TRecipeStep_Size - 1)
        NumOfStructure s)
      (fun s => P s.1 ∧ s.1.TRecipeStepArrayCreated = true)
      (fun iData i s hs => loadStepBytes_inv _ hQ iData i _ _ _ _ s hs)
      ((TRecipeInfo_Size + NumOfStructure * TRecipeStep_Size + TRecipeStep_Size - 1)
          / PAGESIZE_CLASSIC + 1
        - (TRecipeInfo_Size + NumOfStructure * TRecipeStep_Size) / PAGESIZE_CLASSIC)
      ((TRecipeInfo_Size + NumOfStructure * TRecipeStep_Size) / PAGESIZE_CLASSIC) (c, 0) w1
      ⟨h, hc⟩
    revert h1
    generalize unitLoop _ _ _ _ (c, 0) w1 = r
    rcases r with ⟨_ | code, c2, w2⟩
    · exact fun h1 => hL _ h1.1 h1.2
    · exact fun h1 => h1.1
  · rw [loadStepUltralight_eq]
    have h1 := unitLoop_inv (readUnitUltralight d)
      (fun iData i s => loadStepBytes iData i
        ((TRecipeInfo_Size + NumOfStructure * TRecipeStep_Size) / PAGESIZE_CLASSIC)
        ((TRecipeInfo_Size + NumOfStructure * TRecipeStep_Size) % PAGESIZE_CLASSIC)
        (TRecipeInfo_Size + NumOfStructure * TRecipeStep_Size + TRecipeStep_Size - 1)
        NumOfStructure s)
      (fun s => P s.1 ∧ s.1.TRecipeStepArrayCreated = true)
      (fun iData i s hs => loadStepBytes_inv _ hQ iData i _ _ _ _ s hs)
      ((TRecipeInfo_Size + NumOfStructure * TRecipeStep_Size + TRecipeStep_Size - 1)
          / PAGESIZE_CLASSIC + 1
        - (TRecipeInfo_Size + NumOfStructure * TRecipeStep_Size) / PAGESIZE_CLASSIC)
      ((TRecipeInfo_Size + NumOfStructure * TRecipeStep_Size) / PAGESIZE_CLASSIC) (c, 0) w1
      ⟨h, hc⟩
    revert h1
    generalize unitLoop _ _ _ _ (c, 0) w1 = r
    rcases r with ⟨_ | code, c2, w2⟩
    · exact fun h1 => hL _ h1.1 h1.2
    · exact fun h1 => h1.1
  · exact hL _ h hc

theorem arraySized_of_none {c : TCardInfo} (h : c.sRecipeStep = none) : ArraySized c := by
  intro n hn
  rw [h] at hn
  simp at hn

theorem lifecycle_array_none {c : TCardInfo} (hL : Lifecycle c)
    (h : c.TRecipeStepArrayCreated = false) : c.sRecipeStep = none := by
  obtain ⟨_, _, _, h4⟩ := hL
  rcases hs : c.sRecipeStep with _ | a
  · rfl
  · rw [hs] at h4
    have := h4.2 (by simp)
    rw [h] at this
    exact absurd this (by decide)

theorem retry_inv {σ : Type} (stop : Nat → Bool) (f : TCardInfo → σ → Nat × TCardInfo × σ)
    (after : TCardInfo → TCardInfo) (I : TCardInfo → Prop)
    (hf : ∀ c w, I c → I (f c w).2.1) (hafter : ∀ c, I c → I (after c)) (n : Nat) :
    ∀ Error c w, I c → I (retry stop f after n Error c w).2.1 := by
  induction n with
  | zero => intro Error c w h; exact h
  | succ n ih =>
    intro Error c w h
    rw [retry]
    have h1 := hf c w h
    rcases hfc : f c w with ⟨e1, c1, w1⟩
    rw [hfc] at h1
    dsimp only
    split
    · exact h1
    · exact ih _ _ _ (hafter _ h1)

theorem alloc_pres {σ : Type} (d : Env σ) (c : TCardInfo) (w : σ) (hL : Lifecycle c) :
    Lifecycle (NFC_AllocTRecipeStepArray d c w).2.1 ∧
    (ArraySized c → ArraySized (NFC_AllocTRecipeStepArray d c w).2.1) ∧
    (NFC_AllocTRecipeStepArray d c w).2.1.sRecipeInfo = c.sRecipeInfo ∧
    ((NFC_AllocTRecipeStepArray d c w).1 = 0 →
      (NFC_AllocTRecipeStepArray d c w).2.1.TRecipeStepArrayCreated = true) := by
  unfold NFC_AllocTRecipeStepArray
  by_cases h1 : c.TRecipeInfoLoaded = true
  swap
  · rw [if_pos (by simp [h1])]
    exact ⟨hL, fun h => h, rfl, by simp⟩
  rw [if_neg (by simp [h1])]
  by_cases h2 : c.TRecipeStepArrayCreated = true
  · rw [if_pos h2]
    exact ⟨hL, fun h => h, rfl, by simp⟩
  rw [if_neg h2]
  obtain ⟨l1, l2, l3, l4⟩ := hL
  rcases d.malloc (TRecipeStep_Size * RecipeSteps c) w with ⟨_ | g, w1⟩
  · dsimp only
    refine ⟨⟨l1, l2, l3, ?_⟩, fun _ => arraySized_of_none rfl, rfl, by simp⟩
    simp [h2]
  · dsimp only
    refine ⟨⟨l1, fun _ => h1, fun _ => rfl, by simp⟩, fun _ => ?_, rfl, fun _ => rfl⟩
    intro n hn
    simp only [Option.map_some', List.length_map, List.length_range, Option.some.injEq] at hn
    rw [← hn]
    rfl

theorem dealloc_pres (c : TCardInfo) (hL : Lifecycle c) :
    Lifecycle (NFC_DeAllocTRecipeStepArray c).2 ∧
    ArraySized (NFC_DeAllocTRecipeStepArray c).2 ∧
    (NFC_DeAllocTRecipeStepArray c).2.sRecipeInfo = c.sRecipeInfo ∧
    (NFC_DeAllocTRecipeStepArray c).2.sRecipeStep = none ∧
    (NFC_DeAllocTRecipeStepArray c).2.TRecipeInfoLoaded = c.TRecipeInfoLoaded := by
  unfold NFC_DeAllocTRecipeStepArray
  obtain ⟨l1, l2, l3, l4⟩ := hL
  rcases hs : c.sRecipeStep with _ | a
  · exact ⟨⟨l1, l2, l3, l4⟩, arraySized_of_none hs, rfl, hs, rfl⟩
  · refine ⟨⟨l1, by simp, by simp, by simp⟩, arraySized_of_none rfl, rfl, rfl, rfl⟩

/-- The retry loops around `NFC_AllocTRecipeStepArray` (with or without a release
after a failed attempt) keep the lifecycle invariant and the header, leave an
array of the right size if any, and end with the array created when the last
code is 0. -/
theorem retry_alloc_pres {σ : Type} (d : Env σ) (after : TCardInfo → TCardInfo)
    (hafter : ∀ x, Lifecycle x → Lifecycle (after x) ∧ (ArraySized x → ArraySized (after x)) ∧
      (after x).sRecipeInfo = x.sRecipeInfo)
    (n : Nat) (c : TCardInfo) (w : σ) (hL : Lifecycle c) (hS : ArraySized c) :
    Lifecycle (retry (fun Error => Error == 0) (NFC_AllocTRecipeStepArray d) after
      (n + 1) 0 c w).2.1 ∧
    ArraySized (retry (fun Error => Error == 0) (NFC_AllocTRecipeStepArray d) after
      (n + 1) 0 c w).2.1 ∧
    (retry (fun Error => Error == 0) (NFC_AllocTRecipeStepArray d) after
      (n + 1) 0 c w).2.1.sRecipeInfo = c.sRecipeInfo ∧
    ((retry (fun Error => Error == 0) (NFC_AllocTRecipeStepArray d) after
      (n + 1) 0 c w).1 = 0 →
      (retry (fun Error => Error == 0) (NFC_AllocTRecipeStepArray d) after
        (n + 1) 0 c w).2.1.TRecipeStepArrayCreated = true) := by
  have h1 := retry_inv (fun Error => Error == 0) (NFC_AllocTRecipeStepArray d) after
    (fun x => Lifecycle x ∧ ArraySized x ∧ x.sRecipeInfo = c.sRecipeInfo)
    (fun x w hx => ⟨(alloc_pres d x w hx.1).1, (alloc_pres d x w hx.1).2.1 hx.2.1,
      (alloc_pres d x w hx.1).2.2.1.trans hx.2.2⟩)
    (fun x hx => ⟨(hafter x hx.1).1, (hafter x hx.1).2.1 hx.2.1,
      (hafter x hx.1).2.2.trans hx.2.2⟩)
    (n + 1) 0 c w ⟨hL, hS, rfl⟩
  refine ⟨h1.1, h1.2.1, h1.2.2, fun h0 => ?_⟩
  obtain ⟨c0, w0, hI, hf⟩ := retry_stopped (fun Error => Error == 0)
    (NFC_AllocTRecipeStepArray d) after (fun x _ => Lifecycle x)
    (fun x w hx => (alloc_pres d x w hx).1) (fun x _ hx => (hafter x hx).1) n 0 c w hL
    (by rw [h0]; rfl)
  rw [← hf] at h0 ⊢
  exact (alloc_pres d c0 w0 hI).2.2.2 h0

theorem after_id_pres (x : TCardInfo) (h : Lifecycle x) :
    Lifecycle (id x) ∧ (ArraySized x → ArraySized (id x)) ∧ (id x).sRecipeInfo = x.sRecipeInfo :=
  ⟨h, fun h => h, rfl⟩

theorem after_dealloc_pres (x : TCardInfo) (h : Lifecycle x) :
    Lifecycle (NFC_DeAllocTRecipeStepArray x).2 ∧
    (ArraySized x → ArraySized (NFC_DeAllocTRecipeStepArray x).2) ∧
    (NFC_DeAllocTRecipeStepArray x).2.sRecipeInfo = x.sRecipeInfo :=
  ⟨(dealloc_pres x h).1, fun _ => (dealloc_pres x h).2.1, (dealloc_pres x h).2.2.1⟩

theorem init_pres (c : TCardInfo) (h : c.sRecipeInfo.length = TRecipeInfo_Size) :
    Lifecycle (NFC_InitTCardInfo c) ∧ ArraySized (NFC_InitTCardInfo c) :=
  ⟨⟨h, by simp [NFC_InitTCardInfo], by simp [NFC_InitTCardInfo], by simp [NFC_InitTCardInfo]⟩,
    arraySized_of_none rfl⟩

theorem foldl_setInfoByte_inv (P : TCardInfo → Prop)
    (hP : ∀ c j v, P c → P (setInfoByte c j v)) (g : Nat → Nat) (l : List Nat) :
    ∀ c, P c → P (l.foldl (fun c i => setInfoByte c i (g i)) c) := by
  induction l with
  | nil => intro c h; exact h
  | cons a l ih => intro c h; rw [List.foldl_cons]; exact ih _ (hP _ _ _ h)

theorem create_pres {σ : Type} (d : Env σ) (c : TCardInfo) (aRecipeInfo : List Nat) (w : σ)
    (h : c.sRecipeInfo.length = TRecipeInfo_Size) :
    Lifecycle (NFC_CreateCardInfoFromRecipeInfo d c aRecipeInfo w).2.1 ∧
    ArraySized (NFC_CreateCardInfoFromRecipeInfo d c aRecipeInfo w).2.1 := by
  unfold NFC_CreateCardInfoFromRecipeInfo
  have h2 := foldl_setInfoByte_inv
    (fun x => x.sRecipeInfo.length = TRecipeInfo_Size ∧ x.sRecipeStep = none ∧
      x.TRecipeStepArrayCreated = false ∧ x.TRecipeStepLoaded = false)
    (fun x j v hx => ⟨by simp [setInfoByte, hx.1], hx.2.1, hx.2.2.1, hx.2.2.2⟩)
    (fun i => aRecipeInfo.getD i 0) (List.range TRecipeInfo_Size) (NFC_InitTCardInfo c)
    ⟨h, rfl, rfl, rfl⟩
  dsimp only at h2 ⊢
  generalize (List.range TRecipeInfo_Size).foldl
    (fun c i => setInfoByte c i (aRecipeInfo.getD i 0)) (NFC_InitTCardInfo c) = c2 at h2 ⊢
  obtain ⟨a1, a2, a3, a4⟩ := h2
  have hL3 : Lifecycle { c2 with TRecipeInfoLoaded := true } :=
    ⟨a1, fun _ => rfl, by simp [a4], by simp [a2, a3]⟩
  have hS3 : ArraySized { c2 with TRecipeInfoLoaded := true } := arraySized_of_none a2
  split
  · have hr := retry_alloc_pres d id after_id_pres 4 _ w hL3 hS3
    split
    · rename_i c4 w4 heq
      rw [show MAXERRORREADING = 4 + 1 from rfl] at heq
      rw [heq] at hr
      obtain ⟨r1, r2, _, r4⟩ := hr
      have hsh : shape { setCheckSum (zeroSteps c4 (TRecipeStep_Size * RecipeSteps c4)) 0 with
          TRecipeStepArrayCreated := true } = shape c4 := by
        have e1 := shape_setCheckSum (zeroSteps c4 (TRecipeStep_Size * RecipeSteps c4)) 0
        rw [shape_zeroSteps] at e1
        have e2 := r4 rfl
        simp only [shape, Prod.mk.injEq] at e1 ⊢
        dsimp only at e2
        refine ⟨e1.1, ?_, e1.2.2.1, e2.symm, e1.2.2.2.2.1, e1.2.2.2.2.2⟩
        exact e1.2.1
      exact ⟨lifecycle_of_shape hsh r1, arraySized_of_shape hsh r2⟩
    · rename_i c4 w4 heq
      rw [show MAXERRORREADING = 4 + 1 from rfl] at heq
      rw [heq] at hr
      exact ⟨hr.1, hr.2.1⟩
  · exact ⟨hL3, hS3⟩

theorem storeUid_loop (aUid : List Nat) (n : Nat) (hn : n ≤ 7) :
    ∀ c : TCardInfo, ∃ u,
      (List.range n).foldl (fun c i => storeUidByte c i (aUid.getD i 0)) c
        = { c with sUid := u } ∧ u.length = c.sUid.length := by
  induction n with
  | zero => intro c; exact ⟨c.sUid, rfl, rfl⟩
  | succ n ih =>
    intro c
    obtain ⟨u, h1, h2⟩ := ih (by omega) c
    rw [List.range_succ, List.foldl_append, h1]
    simp only [List.foldl_cons, List.foldl_nil, storeUidByte]
    rw [if_pos (by omega)]
    exact ⟨u.set n (aUid.getD n 0), rfl, by rw [List.length_set, h2]⟩

theorem saveUID_pres (c : TCardInfo) (aUid : List Nat) (aUidLength : Nat)
    (h : aUidLength ≤ 7) : shape (NFC_saveUID c aUid aUidLength).2 = shape c := by
  obtain ⟨u, h1, _⟩ := storeUid_loop aUid aUidLength h c
  unfold NFC_saveUID
  rw [h1]
  rfl

theorem loadInfo_pres {σ : Type} (d : Env σ) (c : TCardInfo) (w : σ) (hL : Lifecycle c) :
    Lifecycle (NFC_LoadTRecipeInfoStructure d c w).2.1 ∧
    (NFC_LoadTRecipeInfoStructure d c w).2.1.sRecipeStep = c.sRecipeStep := by
  have h := NFC_LoadTRecipeInfoStructure_inv d
    (fun x => Lifecycle x ∧ x.sRecipeStep = c.sRecipeStep)
    (fun x j v hx => ⟨⟨by simp only [setInfoByte, List.length_set]; exact hx.1.1,
      hx.1.2.1, hx.1.2.2.1, hx.1.2.2.2⟩, hx.2⟩)
    (fun x hx => ⟨⟨hx.1.1, fun _ => rfl, hx.1.2.2.1, hx.1.2.2.2⟩, hx.2⟩) c w ⟨hL, rfl⟩
  exact h

theorem loadSteps_pres {σ : Type} (d : Env σ) (c : TCardInfo) (w : σ) (hL : Lifecycle c) :
    Lifecycle (NFC_LoadTRecipeSteps d c w).2.1 ∧
    (ArraySized c → ArraySized (NFC_LoadTRecipeSteps d c w).2.1) := by
  have h := NFC_LoadTRecipeSteps_inv d
    (fun x => Lifecycle x ∧ (ArraySized c → ArraySized x))
    (fun x j v hx => ⟨lifecycle_of_shape (shape_setStepByte x j v) hx.1,
      fun hS => arraySized_of_shape (shape_setStepByte x j v) (hx.2 hS)⟩)
    (fun x hx hc => ⟨⟨hx.1.1, hx.1.2.1, fun _ => hc, hx.1.2.2.2⟩, hx.2⟩) c w
    ⟨hL, fun h => h⟩
  exact h

theorem loadStep_pres {σ : Type} (d : Env σ) (c : TCardInfo) (NumOfStructure : Nat) (w : σ)
    (hL : Lifecycle c) :
    Lifecycle (NFC_LoadTRecipeStep d c NumOfStructure w).2.1 ∧
    (ArraySized c → ArraySized (NFC_LoadTRecipeStep d c NumOfStructure w).2.1) := by
  have h := NFC_LoadTRecipeStep_inv d
    (fun x => Lifecycle x ∧ (ArraySized c → ArraySized x))
    (fun x j v hx => ⟨lifecycle_of_shape (shape_setStepByte x j v) hx.1,
      fun hS => arraySized_of_shape (shape_setStepByte x j v) (hx.2 hS)⟩)
    (fun x hx hc => ⟨⟨hx.1.1, hx.1.2.1, fun _ => hc, hx.1.2.2.2⟩, hx.2⟩) c NumOfStructure w
    ⟨hL, fun h => h⟩
  exact h

theorem lifecycle_setRecipeSteps_none {c : TCardInfo} (v : Nat) (hL : Lifecycle c)
    (h : c.TRecipeStepArrayCreated = false) :
    Lifecycle (setRecipeSteps c v) ∧ ArraySized (setRecipeSteps c v) := by
  have hn := lifecycle_array_none hL h
  obtain ⟨l1, l2, l3, l4⟩ := hL
  exact ⟨⟨by simp only [setRecipeSteps, setInfoByte, List.length_set]; exact l1, l2, l3, l4⟩,
    arraySized_of_none hn⟩

theorem changeSize_pres {σ : Type} (d : Env σ) (c : TCardInfo) (NewSize : Nat) (w : σ)
    (hn : NewSize < 256) (hL : Lifecycle c) :
    Lifecycle (NFC_ChangeRecipeStepsSize d c NewSize w).2.1 ∧
    (ArraySized c → ArraySized (NFC_ChangeRecipeStepsSize d c NewSize w).2.1) := by
  unfold NFC_ChangeRecipeStepsSize
  by_cases h1 : c.TRecipeInfoLoaded = false
  · rw [if_pos h1]; exact ⟨hL, fun h => h⟩
  rw [if_neg h1]
  by_cases h2 : NewSize = RecipeSteps c
  · rw [if_pos h2]; exact ⟨hL, fun h => h⟩
  rw [if_neg h2]
  by_cases h3 : c.TRecipeStepArrayCreated = true
  · rw [if_pos h3]
    rcases d.malloc (TRecipeStep_Size * NewSize) w with ⟨_ | g, w1⟩
    · exact ⟨hL, fun h => h⟩
    · dsimp only
      obtain ⟨_, _, q3, _, q5⟩ := dealloc_pres c hL
      generalize (NFC_DeAllocTRecipeStepArray c).2 = x at q3 q5 ⊢
      have hlen : x.sRecipeInfo.length = 16 := by rw [q3]; exact hL.1
      refine ⟨⟨?_, fun _ => ?_, fun _ => rfl, ?_⟩, fun _ => ?_⟩
      · simp only [setRecipeSteps, setInfoByte, List.length_set]; exact hlen
      · simp only [setRecipeSteps, setInfoByte]
        rw [q5]; simpa using h1
      · simp [setRecipeSteps, setInfoByte]
      · intro n hn2
        rw [RecipeSteps_setRecipeSteps _ _ hn (by exact hlen)]
        simp only [setRecipeSteps, setInfoByte, Option.map_some', Option.some.injEq,
          fillNoveRecepty_length, List.length_map, List.length_range] at hn2
        exact hn2.symm
  · rw [if_neg h3]
    have h3f : c.TRecipeStepArrayCreated = false := by simpa using h3
    obtain ⟨hL1, hS1⟩ := lifecycle_setRecipeSteps_none NewSize hL h3f
    have hr := retry_alloc_pres d (fun c => (NFC_DeAllocTRecipeStepArray c).2)
      after_dealloc_pres 4 _ w hL1 hS1
    dsimp only
    rw [show MAXERRORREADING = 4 + 1 from rfl]
    split
    · rename_i c2 w2 heq
      rw [heq] at hr
      have hsh := shape_zeroSteps c2 (TRecipeStep_Size * RecipeSteps c2)
      exact ⟨lifecycle_of_shape hsh hr.1, fun _ => arraySized_of_shape hsh hr.2.1⟩
    · rename_i heq
      rw [heq] at hr
      exact ⟨hr.1, fun _ => hr.2.1⟩
    · rename_i heq
      rw [heq] at hr
      exact ⟨hr.1, fun _ => hr.2.1⟩
    · rename_i heq
      rw [heq] at hr
      exact ⟨hr.1, fun _ => hr.2.1⟩

theorem addSteps_pres {σ : Type} (d : Env σ) (c : TCardInfo) (aRecipeStep : List Nat)
    (SizeOfRecipeSteps : Nat) (w : σ) (hL : Lifecycle c) :
    Lifecycle (NFC_AddRecipeStepsToCardInfo d c aRecipeStep SizeOfRecipeSteps w).2.1 ∧
    (ArraySized c →
      ArraySized (NFC_AddRecipeStepsToCardInfo d c aRecipeStep SizeOfRecipeSteps w).2.1) := by
  unfold NFC_AddRecipeStepsToCardInfo
  split
  · exact ⟨hL, fun h => h⟩
  split
  · exact ⟨hL, fun h => h⟩
  have hc1 : Lifecycle (if RecipeSteps c ≠ SizeOfRecipeSteps ∧ c.TRecipeStepArrayCreated = true
      then { (NFC_DeAllocTRecipeStepArray c).2 with TRecipeStepArrayCreated := false } else c) ∧
      (ArraySized c → ArraySized (if RecipeSteps c ≠ SizeOfRecipeSteps ∧
        c.TRecipeStepArrayCreated = true
      then { (NFC_DeAllocTRecipeStepArray c).2 with TRecipeStepArrayCreated := false }
      else c)) := by
    split
    · obtain ⟨⟨q1, q2, q3, q4⟩, _, _, q6, _⟩ := dealloc_pres c hL
      refine ⟨⟨q1, by simp, fun h => ?_, by simp [q6]⟩, fun _ => arraySized_of_none q6⟩
      have := q4.1 (q3 h)
      rw [q6] at this
      simp at this
    · exact ⟨hL, fun h => h⟩
  dsimp only
  generalize (if RecipeSteps c ≠ SizeOfRecipeSteps ∧ c.TRecipeStepArrayCreated = true
      then { (NFC_DeAllocTRecipeStepArray c).2 with TRecipeStepArrayCreated := false } else c)
    = c1 at hc1 ⊢
  obtain ⟨hL1, hS1⟩ := hc1
  split
  · rename_i hcr
    obtain ⟨hL2, hS2⟩ := lifecycle_setRecipeSteps_none SizeOfRecipeSteps hL1 hcr
    have hr := retry_alloc_pres d id after_id_pres 4 _ w hL2 hS2
    rw [show MAXERRORREADING = 4 + 1 from rfl]
    split
    · rename_i heq
      rw [heq] at hr
      obtain ⟨r1, r2, r3, r4⟩ := hr
      dsimp only at r1 r2 r3 r4 ⊢
      rename_i c2 w2
      have hsame : setRecipeSteps { c2 with TRecipeStepArrayCreated := true }
          SizeOfRecipeSteps = c2 := by
        have e4 := r4 rfl
        have e5 : (c2.sRecipeInfo.set 7 (SizeOfRecipeSteps % 256)) = c2.sRecipeInfo := by
          rw [r3]
          simp [setRecipeSteps, setInfoByte]
        cases c2
        simp only [setRecipeSteps, setInfoByte] at e4 e5 ⊢
        rw [e5, e4]
      rw [hsame]
      have hsh : shape (setCheckSum (copySteps (fun i => aRecipeStep.getD i 0) c2
          (TRecipeStep_Size * RecipeSteps c2))
          (NFC_GetCheckSum (copySteps (fun i => aRecipeStep.getD i 0) c2
            (TRecipeStep_Size * RecipeSteps c2)))) = shape c2 := by
        rw [shape_setCheckSum, shape_copySteps]
      exact ⟨lifecycle_of_shape hsh r1, fun _ => arraySized_of_shape hsh r2⟩
    · rename_i heq
      rw [heq] at hr
      exact ⟨hr.1, fun _ => hr.2.1⟩
  · have hsh : shape (setCheckSum (copySteps (fun i => aRecipeStep.getD i 0) c1
        (TRecipeStep_Size * RecipeSteps c1))
        (NFC_GetCheckSum (copySteps (fun i => aRecipeStep.getD i 0) c1
          (TRecipeStep_Size * RecipeSteps c1)))) = shape c1 := by
      rw [shape_setCheckSum, shape_copySteps]
    exact ⟨lifecycle_of_shape hsh hL1, fun h => arraySized_of_shape hsh (hS1 h)⟩

/-- The record `NFC_CopyTCardInfo` works on once an array the destination had
is released: no array, no array flags. -/
theorem released_pres (n1 : TCardInfo) (b : Bool)
    (hb : b = (n1.TRecipeStepArrayCreated || n1.sRecipeStep.isSome)) (hL : Lifecycle n1) :
    Lifecycle (if b then (NFC_DeAllocTRecipeStepArray n1).2 else n1) ∧
    (if b then (NFC_DeAllocTRecipeStepArray n1).2 else n1).sRecipeStep = none ∧
    (if b then (NFC_DeAllocTRecipeStepArray n1).2 else n1).TRecipeStepArrayCreated = false ∧
    (if b then (NFC_DeAllocTRecipeStepArray n1).2 else n1).sRecipeInfo = n1.sRecipeInfo := by
  obtain ⟨q1, _, q3, q4, _⟩ := dealloc_pres n1 hL
  subst hb
  split
  · refine ⟨q1, q4, ?_, q3⟩
    have := q1.2.2.2
    rw [q4] at this
    simpa using this
  · rename_i hcond
    simp only [Bool.or_eq_true, not_or, Bool.not_eq_true, Option.not_isSome,
      Option.isNone_iff_eq_none] at hcond
    exact ⟨hL, hcond.2, hcond.1, rfl⟩

theorem copy_pres {σ : Type} (d : Env σ) (aCardInfoOrigin aCardInfoNew : TCardInfo) (w : σ)
    (hO : Lifecycle aCardInfoOrigin) (hN : Lifecycle aCardInfoNew) :
    Lifecycle (NFC_CopyTCardInfo d aCardInfoOrigin aCardInfoNew w).2.1 ∧
    (ArraySized aCardInfoNew →
      ArraySized (NFC_CopyTCardInfo d aCardInfoOrigin aCardInfoNew w).2.1) := by
  unfold NFC_CopyTCardInfo
  split
  · exact ⟨hN, fun h => h⟩
  rename_i hload
  have hload1 : aCardInfoOrigin.TRecipeInfoLoaded = true := by simpa using hload
  have hL1 : Lifecycle { aCardInfoNew with
      sRecipeInfo := aCardInfoOrigin.sRecipeInfo
      sUidLength := aCardInfoOrigin.sUidLength
      sUid := (List.range aCardInfoOrigin.sUidLength).foldl
        (fun u i => u.set i (aCardInfoOrigin.sUid.getD i 0)) aCardInfoNew.sUid
      TRecipeInfoLoaded := aCardInfoOrigin.TRecipeInfoLoaded } :=
    ⟨hO.1, fun _ => hload1, hN.2.2.1, hN.2.2.2⟩
  dsimp only
  generalize hn1 : ({ aCardInfoNew with
      sRecipeInfo := aCardInfoOrigin.sRecipeInfo
      sUidLength := aCardInfoOrigin.sUidLength
      sUid := (List.range aCardInfoOrigin.sUidLength).foldl
        (fun u i => u.set i (aCardInfoOrigin.sUid.getD i 0)) aCardInfoNew.sUid
      TRecipeInfoLoaded := aCardInfoOrigin.TRecipeInfoLoaded } : TCardInfo) = n1 at hL1 ⊢
  obtain ⟨hL2, hn2, hc2, _⟩ := released_pres n1
    (aCardInfoNew.TRecipeStepArrayCreated || aCardInfoNew.sRecipeStep.isSome)
    (by rw [← hn1]) hL1
  generalize (if (aCardInfoNew.TRecipeStepArrayCreated || aCardInfoNew.sRecipeStep.isSome) = true
      then (NFC_DeAllocTRecipeStepArray n1).2 else n1) = n2 at hL2 hn2 hc2 ⊢
  split
  · rename_i hoc
    have hr := retry_alloc_pres d (fun c => (NFC_DeAllocTRecipeStepArray c).2)
      after_dealloc_pres 4 n2 w hL2 (arraySized_of_none hn2)
    rw [show MAXERRORREADING = 4 + 1 from rfl]
    split
    · rename_i n3 w3 heq
      rw [heq] at hr
      obtain ⟨r1, r2, _, r4⟩ := hr
      have hsh := shape_copySteps (stepByte aCardInfoOrigin) n3
        (TRecipeStep_Size * RecipeSteps n3)
      have r1b := lifecycle_of_shape hsh r1
      have r2b := arraySized_of_shape hsh r2
      have r4b : (copySteps (stepByte aCardInfoOrigin) n3
          (TRecipeStep_Size * RecipeSteps n3)).TRecipeStepArrayCreated = true := by
        simp only [shape, Prod.mk.injEq] at hsh
        rw [hsh.2.2.2.1]
        exact r4 rfl
      generalize copySteps (stepByte aCardInfoOrigin) n3
        (TRecipeStep_Size * RecipeSteps n3) = n4 at r1b r2b r4b ⊢
      dsimp only
      refine ⟨⟨r1b.1, fun _ => r1b.2.1 r4b, fun _ => hoc, ?_⟩, fun _ => r2b⟩
      dsimp only
      rw [hoc]
      exact ⟨fun _ => r1b.2.2.2.1 r4b, fun _ => rfl⟩
    · rename_i heq
      rw [heq] at hr
      exact ⟨hr.1, fun _ => hr.2.1⟩
    · rename_i heq
      rw [heq] at hr
      exact ⟨hr.1, fun _ => hr.2.1⟩
    · rename_i heq
      rw [heq] at hr
      exact ⟨hr.1, fun _ => hr.2.1⟩
  · rename_i hoc
    have hos : aCardInfoOrigin.TRecipeStepLoaded = false := by
      rcases hsl : aCardInfoOrigin.TRecipeStepLoaded with _ | _
      · rfl
      · exact absurd (hO.2.2.1 hsl) hoc
    dsimp only
    refine ⟨⟨hL2.1, ?_, ?_, ?_⟩, fun _ => arraySized_of_none rfl⟩
    · exact hL2.2.1
    · dsimp only; rw [hos]; simp
    · dsimp only; rw [hc2]; simp

theorem copySame_pres {σ : Type} (d : Env σ) (c : TCardInfo) (w : σ) (hL : Lifecycle c) :
    Lifecycle (NFC_CopyTCardInfo_same d c w).2.1 ∧
    (ArraySized c → ArraySized (NFC_CopyTCardInfo_same d c w).2.1) := by
  unfold NFC_CopyTCardInfo_same
  split
  · exact ⟨hL, fun h => h⟩
  have hL1 : Lifecycle { c with
      sUid := (List.range c.sUidLength).foldl (fun u i => u.set i (u.getD i 0)) c.sUid } := hL
  dsimp only
  generalize hn1 : ({ c with
      sUid := (List.range c.sUidLength).foldl (fun u i => u.set i (u.getD i 0)) c.sUid }
      : TCardInfo) = n1 at hL1 ⊢
  obtain ⟨hL2, hn2, hc2, _⟩ := released_pres n1
    (c.TRecipeStepArrayCreated || c.sRecipeStep.isSome) (by rw [← hn1]) hL1
  generalize (if (c.TRecipeStepArrayCreated || c.sRecipeStep.isSome) = true
      then (NFC_DeAllocTRecipeStepArray n1).2 else n1) = n2 at hL2 hn2 hc2 ⊢
  rw [if_neg (by rw [hc2]; simp)]
  dsimp only
  refine ⟨⟨hL2.1, hL2.2.1, hL2.2.2.1, ?_⟩, fun _ => arraySized_of_none rfl⟩
  dsimp only; rw [hc2]; simp

theorem loadAll_pres {σ : Type} (d : Env σ) (c : TCardInfo) (w : σ) (hL : Lifecycle c) :
    Lifecycle (NFC_LoadAllData d c w).2.1 ∧ ArraySized (NFC_LoadAllData d c w).2.1 := by
  unfold NFC_LoadAllData
  have h0 : Lifecycle (if c.TRecipeStepArrayCreated then (NFC_DeAllocTRecipeStepArray c).2
      else c) ∧ (if c.TRecipeStepArrayCreated then (NFC_DeAllocTRecipeStepArray c).2
      else c).sRecipeStep = none := by
    split
    · exact ⟨(dealloc_pres c hL).1, (dealloc_pres c hL).2.2.2.1⟩
    · rename_i hc
      exact ⟨hL, lifecycle_array_none hL (by simpa using hc)⟩
  dsimp only
  generalize (if c.TRecipeStepArrayCreated then (NFC_DeAllocTRecipeStepArray c).2 else c)
    = c0 at h0 ⊢
  have h1 := retry_inv (fun Error => Error == 0)
    (fun c w => NFC_LoadTRecipeInfoStructure d (NFC_InitTCardInfo c) w) id
    (fun x => Lifecycle x ∧ x.sRecipeStep = none)
    (fun x w hx => by
      have hi := init_pres x hx.1.1
      have hl := loadInfo_pres d (NFC_InitTCardInfo x) w hi.1
      exact ⟨hl.1, hl.2⟩)
    (fun x hx => hx) MAXERRORREADING 0 c0 w h0
  have key : ∀ (c1 : TCardInfo) (w1 : σ), Lifecycle c1 → c1.sRecipeStep = none →
      Lifecycle (match retry (fun Error => Error == 0) (NFC_AllocTRecipeStepArray d)
        (fun c => (NFC_DeAllocTRecipeStepArray c).2) MAXERRORREADING 0 c1 w1 with
      | (2, c2, w2) => (3, c2, w2)
      | (3, c2, w2) => (4, c2, w2)
      | (0, c2, w2) =>
        match retry (fun Error => Error == 0) (NFC_LoadTRecipeSteps d) id
            MAXERRORREADING 0 c2 w2 with
        | (0, c3, w3) => (0, c3, w3)
        | (2, c3, w3) => (1, c3, w3)
        | (3, c3, w3) => (2, c3, w3)
        | (4, c3, w3) => (5, c3, w3)
        | (_, c3, w3) => (20, c3, w3)
      | (_, c2, w2) => (20, c2, w2)).2.1 ∧
      ArraySized (match retry (fun Error => Error == 0) (NFC_AllocTRecipeStepArray d)
        (fun c => (NFC_DeAllocTRecipeStepArray c).2) MAXERRORREADING 0 c1 w1 with
      | (2, c2, w2) => (3, c2, w2)
      | (3, c2, w2) => (4, c2, w2)
      | (0, c2, w2) =>
        match retry (fun Error => Error == 0) (NFC_LoadTRecipeSteps d) id
            MAXERRORREADING 0 c2 w2 with
        | (0, c3, w3) => (0, c3, w3)
        | (2, c3, w3) => (1, c3, w3)
        | (3, c3, w3) => (2, c3, w3)
        | (4, c3, w3) => (5, c3, w3)
        | (_, c3, w3) => (20, c3, w3)
      | (_, c2, w2) => (20, c2, w2)).2.1 := by
    intro c1 w1 hL1 hn1
    have hr := retry_alloc_pres d (fun c => (NFC_DeAllocTRecipeStepArray c).2)
      after_dealloc_pres 4 c1 w1 hL1 (arraySized_of_none hn1)
    rw [show MAXERRORREADING = 4 + 1 from rfl]
    split
    · rename_i heq
      rw [heq] at hr
      exact ⟨hr.1, hr.2.1⟩
    · rename_i heq
      rw [heq] at hr
      exact ⟨hr.1, hr.2.1⟩
    · rename_i c2 w2 heq
      rw [heq] at hr
      have h3 := retry_inv (fun Error => Error == 0) (NFC_LoadTRecipeSteps d) id
        (fun x => Lifecycle x ∧ ArraySized x)
        (fun x w hx => ⟨(loadSteps_pres d x w hx.1).1, (loadSteps_pres d x w hx.1).2 hx.2⟩)
        (fun x hx => hx) (4 + 1) 0 c2 w2 ⟨hr.1, hr.2.1⟩
      split <;> (rename_i heq3; rw [heq3] at h3; exact h3)
    · rename_i heq
      rw [heq] at hr
      exact ⟨hr.1, hr.2.1⟩
  split
  · rename_i heq
    rw [heq] at h1
    exact ⟨h1.1, arraySized_of_none h1.2⟩
  · rename_i heq
    rw [heq] at h1
    exact ⟨h1.1, arraySized_of_none h1.2⟩
  · rename_i c1 w1 heq
    rw [heq] at h1
    exact key c1 w1 h1.1 h1.2
  · rename_i heq
    rw [heq] at h1
    exact ⟨h1.1, arraySized_of_none h1.2⟩

/-! ### The write operations change the checksum field only -/

theorem NFC_WriteStruct_frame {σ : Type} (d : Env σ) (depth : Nat) (c : TCardInfo) (s : Nat)
    (w : σ) (r : Nat × TCardInfo × σ) (h : NFC_WriteStruct d depth c s w = some r) :
    SameButCheckSum c r.2.1 := by
  unfold NFC_WriteStruct at h
  have hfr := retryOpt_frame (fun Error => Error == 0 || Error == 1)
    (fun c w => NFC_WriteStructRange d depth c s s w)
    (fun c w r h => NFC_WriteStructRange_frame d depth c s s w r h) MAXERRORREADING 0 c w
  split at h
  · simp at h
  all_goals
    rename_i heq
    simp only [Option.some.injEq] at h
    subst h
    have hx := hfr _ heq
    exact hx

theorem NFC_WriteAllData_frame {σ : Type} (d : Env σ) (depth : Nat) (c : TCardInfo)
    (w : σ) (r : Nat × TCardInfo × σ) (h : NFC_WriteAllData d depth c w = some r) :
    SameButCheckSum c r.2.1 := by
  unfold NFC_WriteAllData at h
  have hfr := retryOpt_frame (fun Error => Error == 0)
    (fun c w => NFC_WriteStructRange d depth c 0 (RecipeSteps c) w)
    (fun c w r h => NFC_WriteStructRange_frame d depth c 0 (RecipeSteps c) w r h)
    MAXERRORREADING 0 c w
  split at h
  · simp at h
  all_goals
    rename_i heq
    simp only [Option.some.injEq] at h
    subst h
    have hx := hfr _ heq
    exact hx

theorem writeCheckRounds_frame {σ : Type} (d : Env σ) (depth s e : Nat) (n : Nat) :
    ∀ c w r, writeCheckRounds d depth s e n c w = some r → SameButCheckSum c r.2.1 := by
  induction n with
  | zero =>
    intro c w r h
    simp only [writeCheckRounds, Option.some.injEq] at h
    subst h
    exact sameButCheckSum_refl c
  | succ n ih =>
    intro c w r h
    rw [writeCheckRounds] at h
    have hfr := retryOpt_frame (fun Error => Error == 0)
      (fun c w => NFC_WriteStructRange d depth c s e w)
      (fun c w r h => NFC_WriteStructRange_frame d depth c s e w r h) MAXERRORREADING 0 c w
    split at h
    · simp at h
    · rename_i c1 w1 heq
      have hc1 : SameButCheckSum c c1 := hfr _ heq
      have hchk := retry_inv (fun Error => decide (Error ≤ 1))
        (fun c w => ((NFC_CheckStructArrayIsSame d c s e w).1, c,
          (NFC_CheckStructArrayIsSame d c s e w).2)) id (fun x => x = c1)
        (fun _ _ hx => hx) (fun _ hx => hx) MAXERRORREADING 0 c1 w1 rfl
      split at h
      · rename_i heq2
        rw [heq2] at hchk
        simp only [Option.some.injEq] at h
        subst h
        dsimp only at hchk ⊢
        rw [hchk]; exact hc1
      · rename_i heq2
        rw [heq2] at hchk
        dsimp only at hchk
        rw [hchk] at h
        exact sameButCheckSum_trans hc1 (ih _ _ _ h)
      all_goals
        rename_i heq2
        rw [heq2] at hchk
        simp only [Option.some.injEq] at h
        subst h
        dsimp only at hchk ⊢
        rw [hchk]; exact hc1
    all_goals
      rename_i heq
      simp only [Option.some.injEq] at h
      subst h
      have hx := hfr _ heq
      exact hx

theorem NFC_WriteCheck_frame {σ : Type} (d : Env σ) (depth : Nat) (c : TCardInfo) (s e : Nat)
    (w : σ) (r : Nat × TCardInfo × σ) (h : NFC_WriteCheck d depth c s e w = some r) :
    SameButCheckSum c r.2.1 :=
  writeCheckRounds_frame d depth s e MAXERRORREADING c w r h

/-! ### What every reachable record satisfies -/

theorem reachable_lifecycle (guard : TCardInfo → Prop) (c : TCardInfo)
    (h : Reachable guard c) : Lifecycle c := by
  induction h with
  | init c h => exact (init_pres c h).1
  | create d w c aRecipeInfo h => exact (create_pres d c aRecipeInfo w h).1
  | saveUID c aUid aUidLength h _ ih =>
    exact lifecycle_of_shape (saveUID_pres c aUid aUidLength h) ih
  | loadInfo d w c _ _ ih => exact (loadInfo_pres d c w ih).1
  | alloc d w c _ ih => exact (alloc_pres d c w ih).1
  | dealloc c _ ih => exact (dealloc_pres c ih).1
  | loadSteps d w c _ ih => exact (loadSteps_pres d c w ih).1
  | loadStep d w c NumOfStructure _ ih => exact (loadStep_pres d c NumOfStructure w ih).1
  | loadAll d w c _ ih => exact (loadAll_pres d c w ih).1
  | changeSize d w c NewSize h _ ih => exact (changeSize_pres d c NewSize w h ih).1
  | addSteps d w c aRecipeStep SizeOfRecipeSteps _ ih =>
    exact (addSteps_pres d c aRecipeStep SizeOfRecipeSteps w ih).1
  | copy d w aCardInfoOrigin aCardInfoNew _ _ ihO ihN =>
    exact (copy_pres d aCardInfoOrigin aCardInfoNew w ihO ihN).1
  | copySame d w c _ ih => exact (copySame_pres d c w ih).1
  | writeStructRange d w c depth s e r _ hr ih =>
    exact lifecycle_of_shape
      (shape_of_sameButCheckSum (NFC_WriteStructRange_frame d depth c s e w r hr)) ih
  | writeStruct d w c depth s r _ hr ih =>
    exact lifecycle_of_shape
      (shape_of_sameButCheckSum (NFC_WriteStruct_frame d depth c s w r hr)) ih
  | writeAllData d w c depth r _ hr ih =>
    exact lifecycle_of_shape
      (shape_of_sameButCheckSum (NFC_WriteAllData_frame d depth c w r hr)) ih
  | writeCheck d w c depth s e r _ hr ih =>
    exact lifecycle_of_shape
      (shape_of_sameButCheckSum (NFC_WriteCheck_frame d depth c s e w r hr)) ih

/-- Every record that a sequence of the library's operations (create, save UID
of at most 7 bytes, header load, allocate, release, load of steps or of one
step, load all, resize, add steps, copy, writes; in any environment) produces
from a record set up by `NFC_InitTCardInfo` satisfies the lifecycle invariant:
`TRecipeStepArrayCreated` implies `TRecipeInfoLoaded`, and `TRecipeStepLoaded`
implies `TRecipeStepArrayCreated`. -/
theorem lifecycle_invariant_of_reachable (c : TCardInfo)
    (h : Reachable (fun _ => True) c) :
    (c.TRecipeStepArrayCreated = true → c.TRecipeInfoLoaded = true) ∧
    (c.TRecipeStepLoaded = true → c.TRecipeStepArrayCreated = true) :=
  ⟨(reachable_lifecycle _ c h).2.1, (reachable_lifecycle _ c h).2.2.1⟩

theorem lifecycle_invariant_of_reachable_example :
    resizedCard.TRecipeInfoLoaded = true ∧ resizedCard.TRecipeStepArrayCreated = true :=
  ⟨(lifecycle_invariant_of_reachable resizedCard
      (Reachable.changeSize heapOnly () _ 2 (by decide)
        (Reachable.create heapOnly () emptyCard sampleCard.sRecipeInfo rfl))).1 rfl,
    (lifecycle_invariant_of_reachable resizedCard
      (Reachable.changeSize heapOnly () _ 2 (by decide)
        (Reachable.create heapOnly () emptyCard sampleCard.sRecipeInfo rfl))).2 rfl⟩

/-- C15 (the code does not do this): `NFC_saveUID` stores `aUidLength` bytes into
the 7-byte `sUid` without a bound. On a record set up by `NFC_InitTCardInfo`,
with the 10-byte UID `1, 2, 3, 4, 5, 6, 7, 8, 0, 1` it returns true, and the
bytes 8 and 9 of the UID land on `TRecipeInfoLoaded` and
`TRecipeStepArrayCreated`: the record is left with `TRecipeStepArrayCreated` set,
`TRecipeInfoLoaded` clear and no array, so the lifecycle invariant that held
before the call does not hold after it. -/
theorem C15_long_uid_breaks_lifecycle_invariant :
    Reachable (fun _ => True) (NFC_InitTCardInfo emptyCard) ∧
    (NFC_InitTCardInfo emptyCard).TRecipeStepArrayCreated = false ∧
    (NFC_saveUID (NFC_InitTCardInfo emptyCard) [1, 2, 3, 4, 5, 6, 7, 8, 0, 1] 10).1 = true ∧
    longUidCard.TRecipeStepArrayCreated = true ∧
    longUidCard.TRecipeInfoLoaded = false ∧
    longUidCard.sRecipeStep = none ∧
    longUidCard.sUid = [1, 2, 3, 4, 5, 6, 7] ∧
    longUidCard.sUidLength = 10 :=
  ⟨Reachable.init emptyCard rfl, by rfl, by rfl, by rfl, by rfl, by rfl, by rfl, by rfl⟩

/-! ### Claims on copying, header load and unsupported tags -/

/-- C22: for every source record whose header is not loaded,
`NFC_CopyTCardInfo` returns 1 and hands back the destination and the world
unchanged (the source is only read), in every environment and without a call
of a primitive; the same holds when source and destination are one record. -/
theorem C22_copy_rejects_unloaded_source {σ : Type} (d : Env σ)
    (aCardInfoOrigin aCardInfoNew : TCardInfo) (w : σ) (t : List Primitive)
    (h : aCardInfoOrigin.TRecipeInfoLoaded = false) :
    NFC_CopyTCardInfo d aCardInfoOrigin aCardInfoNew w = (1, aCardInfoNew, w) ∧
    NFC_CopyTCardInfo (traced d) aCardInfoOrigin aCardInfoNew (w, t)
      = (1, aCardInfoNew, (w, t)) ∧
    NFC_CopyTCardInfo_same d aCardInfoOrigin w = (1, aCardInfoOrigin, w) := by
  refine ⟨?_, ?_, ?_⟩ <;> simp [NFC_CopyTCardInfo, NFC_CopyTCardInfo_same, h]

theorem C22_copy_rejects_unloaded_source_witness :
    NFC_CopyTCardInfo heapOnly emptyCard sampleCard () = (1, sampleCard, ()) ∧
    NFC_CopyTCardInfo (traced heapOnly) emptyCard sampleCard ((), [])
      = (1, sampleCard, ((), [])) ∧
    NFC_CopyTCardInfo_same heapOnly emptyCard () = (1, emptyCard, ()) :=
  C22_copy_rejects_unloaded_source heapOnly emptyCard sampleCard () [] rfl

/-- C26: for every record with header loaded, `NFC_ChangeRecipeStepsSize` with
`NewSize` equal to the current `RecipeSteps` returns 0 and hands back the record
and the world unchanged, in every environment and without a call of a
primitive. -/
theorem C26_resize_to_same_size_is_noop {σ : Type} (d : Env σ) (c : TCardInfo) (w : σ)
    (t : List Primitive) (h : c.TRecipeInfoLoaded = true) :
    NFC_ChangeRecipeStepsSize d c (RecipeSteps c) w = (0, c, w) ∧
    NFC_ChangeRecipeStepsSize (traced d) c (RecipeSteps c) (w, t) = (0, c, (w, t)) := by
  constructor <;> simp [NFC_ChangeRecipeStepsSize, h]

theorem C26_resize_to_same_size_is_noop_witness :
    NFC_ChangeRecipeStepsSize heapOnly sampleCard (RecipeSteps sampleCard) ()
      = (0, sampleCard, ()) ∧
    NFC_ChangeRecipeStepsSize (traced heapOnly) sampleCard (RecipeSteps sampleCard) ((), [])
      = (0, sampleCard, ((), [])) :=
  C26_resize_to_same_size_is_noop heapOnly sampleCard () [] rfl

/-- For a present tag whose UID length is neither 4 nor 7, the three load
operations make no call besides `pn532_readPassiveTargetID` (no
authentication, no read, as the log of the logging environment shows) and leave
header bytes, step bytes and UID as they were; they return 0 with
`TRecipeInfoLoaded` set (header load), respectively `TRecipeStepLoaded` set
(step loads, when the array is created and the index is below `RecipeSteps`),
the other flags unchanged. -/
theorem unsupported_uid_length_loads {σ : Type} (d : Env σ) (c : TCardInfo)
    (n : Nat) (w w1 : σ) (t : List Primitive) (iuid : List Nat) (iuidLength : Nat)
    (hp : d.pn532_readPassiveTargetID w = (some (iuid, iuidLength), w1))
    (h4 : iuidLength ≠ 4) (h7 : iuidLength ≠ 7) :
    NFC_LoadTRecipeInfoStructure (traced d) c (w, t) =
      (0, { c with TRecipeInfoLoaded := true }, (w1, t ++ [Primitive.readPassiveTargetID])) ∧
    (c.TRecipeStepArrayCreated = true →
      NFC_LoadTRecipeSteps (traced d) c (w, t) =
        (0, { c with TRecipeStepLoaded := true },
          (w1, t ++ [Primitive.readPassiveTargetID]))) ∧
    (c.TRecipeStepArrayCreated = true → n < RecipeSteps c →
      NFC_LoadTRecipeStep (traced d) c n (w, t) =
        (0, { c with TRecipeStepLoaded := true },
          (w1, t ++ [Primitive.readPassiveTargetID]))) := by
  refine ⟨?_, fun hc => ?_, fun hc hn => ?_⟩
  · simp [NFC_LoadTRecipeInfoStructure, traced, hp, h4, h7]
  · simp [NFC_LoadTRecipeSteps, traced, hp, h4, h7, hc]
  · have hn2 : ¬ n ≥ RecipeSteps c := by omega
    simp [NFC_LoadTRecipeStep, traced, hp, h4, h7, hc, hn2]

theorem unsupported_uid_length_loads_example :
    NFC_LoadTRecipeInfoStructure (traced unsupportedTag) sampleCard ((), []) =
      (0, { sampleCard with TRecipeInfoLoaded := true }, ((), [Primitive.readPassiveTargetID])) ∧
    NFC_LoadTRecipeSteps (traced unsupportedTag) sampleCard ((), []) =
      (0, { sampleCard with TRecipeStepLoaded := true },
        ((), [Primitive.readPassiveTargetID])) ∧
    NFC_LoadTRecipeStep (traced unsupportedTag) sampleCard 1 ((), []) =
      (0, { sampleCard with TRecipeStepLoaded := true },
        ((), [Primitive.readPassiveTargetID])) :=
  ⟨(unsupported_uid_length_loads unsupportedTag sampleCard 1 () () []
      [1, 2, 3, 4, 5, 0, 0] 5 rfl (by decide) (by decide)).1,
    (unsupported_uid_length_loads unsupportedTag sampleCard 1 () () []
      [1, 2, 3, 4, 5, 0, 0] 5 rfl (by decide) (by decide)).2.1 rfl,
    (unsupported_uid_length_loads unsupportedTag sampleCard 1 () () []
      [1, 2, 3, 4, 5, 0, 0] 5 rfl (by decide) (by decide)).2.2 rfl (by decide)⟩

/-- C24 (the code does not do this): on a present tag with UID length 5 the
load operations are not no-ops. `NFC_LoadTRecipeInfoStructure` applied to the
empty record reads nothing (the header bytes stay as they were) yet returns 0
and sets `TRecipeInfoLoaded`; `NFC_LoadTRecipeSteps` and `NFC_LoadTRecipeStep`
applied to the sample record with `TRecipeStepLoaded` cleared return 0 and set
it again, the step bytes as they were. -/
theorem C24_unsupported_tag_load_reports_success :
    (NFC_LoadTRecipeInfoStructure unsupportedTag emptyCard ()).1 = 0 ∧
    emptyCard.TRecipeInfoLoaded = false ∧
    (NFC_LoadTRecipeInfoStructure unsupportedTag emptyCard ()).2.1.TRecipeInfoLoaded = true ∧
    (NFC_LoadTRecipeInfoStructure unsupportedTag emptyCard ()).2.1.sRecipeInfo
      = emptyCard.sRecipeInfo ∧
    (NFC_LoadTRecipeSteps unsupportedTag { sampleCard with TRecipeStepLoaded := false } ()).1
      = 0 ∧
    (NFC_LoadTRecipeSteps unsupportedTag { sampleCard with TRecipeStepLoaded := false }
      ()).2.1 = sampleCard ∧
    (NFC_LoadTRecipeStep unsupportedTag { sampleCard with TRecipeStepLoaded := false } 1 ()).1
      = 0 ∧
    (NFC_LoadTRecipeStep unsupportedTag { sampleCard with TRecipeStepLoaded := false } 1
      ()).2.1 = sampleCard := by
  decide

/-! ### Header load -/

theorem NFC_LoadTRecipeInfoStructure_fail {σ : Type} (d : Env σ) (c : TCardInfo) (w : σ)
    (h : (NFC_LoadTRecipeInfoStructure d c w).1 ≠ 0) :
    (NFC_LoadTRecipeInfoStructure d c w).2.1 = c ∧
    ((NFC_LoadTRecipeInfoStructure d c w).1 = 2 ∨
      (NFC_LoadTRecipeInfoStructure d c w).1 = 3) := by
  revert h
  unfold NFC_LoadTRecipeInfoStructure
  rcases d.pn532_readPassiveTargetID w with ⟨_ | ⟨iuid, iuidLength⟩, w1⟩
  · exact fun _ => ⟨rfl, Or.inl rfl⟩
  dsimp only
  split_ifs
  · rw [show (TRecipeInfo_Size - 1) / PAGESIZE_CLASSIC + 1 = 0 + 1 from rfl]
    simp only [loadInfoClassic]
    rcases d.pn532_mifareclassic_AuthenticateBlock iuid iuidLength
      (NFC_GetMifareClassicIndex 0) w1 with ⟨_ | _, w2⟩
    · exact fun _ => ⟨rfl, Or.inr rfl⟩
    · dsimp only
      rcases d.pn532_mifareclassic_ReadDataBlock (NFC_GetMifareClassicIndex 0) w2
        with ⟨_ | iData, w3⟩
      · exact fun _ => ⟨rfl, Or.inl rfl⟩
      · exact fun h => absurd rfl h
  · rw [show (TRecipeInfo_Size - 1) / 16 + 1 = 0 + 1 from rfl]
    simp only [loadInfoUltralight]
    rcases d.pn532_mifareultralight_ReadPage (0 * 4 + OFFSETDATA_ULTRALIGHT) w1
      with ⟨_ | iData, w3⟩
    · exact fun _ => ⟨rfl, Or.inl rfl⟩
    · exact fun h => absurd rfl h
  · exact fun h => absurd rfl h

/-- C23: on a tag of UID length 4 or 7 whose reads hand back what is stored,
`NFC_LoadTRecipeInfoStructure` on a record with a 16-byte header returns 0, 2 or
3; when it returns 0 the record is the old one with the header replaced by the
16 bytes stored at the header's location (bytes 16..31, i.e. block 1, for length
4; bytes 32..47, i.e. pages 8..11, for length 7) and `TRecipeInfoLoaded` set; when
it returns 2 or 3 the record is unchanged. -/
theorem C23_header_load_result {σ : Type} (d : Env σ) (store : σ → Nat → Nat)
    (uidLength : Nat) (h : ReadsStored d store uidLength)
    (hlen : uidLength = 4 ∨ uidLength = 7) (c : TCardInfo) (w : σ)
    (hc : c.sRecipeInfo.length = 16) :
    ((NFC_LoadTRecipeInfoStructure d c w).1 = 0 →
      (NFC_LoadTRecipeInfoStructure d c w).2.1 =
        { c with
          sRecipeInfo := (List.range 16).map
            (fun j => store w ((if uidLength = 4 then 16 else 32) + j))
          TRecipeInfoLoaded := true }) ∧
    ((NFC_LoadTRecipeInfoStructure d c w).1 ≠ 0 →
      (NFC_LoadTRecipeInfoStructure d c w).2.1 = c ∧
      ((NFC_LoadTRecipeInfoStructure d c w).1 = 2 ∨
        (NFC_LoadTRecipeInfoStructure d c w).1 = 3)) := by
  refine ⟨fun h0 => ?_, NFC_LoadTRecipeInfoStructure_fail d c w⟩
  rw [(NFC_LoadTRecipeInfoStructure_spec d store uidLength h hlen c w hc).2.2 h0]
  have ht : tagInfo uidLength (store w) = (List.range 16).map
      (fun j => store w ((if uidLength = 4 then 16 else 32) + j)) := by
    unfold tagInfo
    apply List.map_congr_left
    intro j hj
    have hj16 : j < 16 := by simpa using hj
    rcases hlen with h4 | h7
    · subst h4
      have := physAddr_classic 0 j hj16
      simp only [Nat.mul_zero, Nat.zero_add] at this
      rw [tagByte, this, NFC_GetMifareClassicIndex_closed 0 (by omega)]
      simp
    · subst h7
      rw [tagByte, physAddr_ultralight]
      simp [Nat.add_comm]
  rw [ht]

theorem C23_header_load_result_witness :
    (NFC_LoadTRecipeInfoStructure (idealTag [4, 1, 2, 3, 4, 5, 6] 7 (fun _ => 170))
      emptyCard zeroStepsTag).2.1 =
      { emptyCard with
        sRecipeInfo := (List.range 16).map (fun j => zeroStepsTag (32 + j))
        TRecipeInfoLoaded := true } :=
  (C23_header_load_result (idealTag [4, 1, 2, 3, 4, 5, 6] 7 (fun _ => 170)) (fun m => m) 7
    (idealTag_readsStored _ 7 _) (Or.inr rfl) emptyCard zeroStepsTag rfl).1 rfl

/-! ### Filling a buffer byte by byte -/

theorem NFC_LoadTRecipeInfoStructure_log {σ : Type} (d : Env σ) (c : TCardInfo) (w : σ)
    (t : List Primitive) :
    ∃ l, (NFC_LoadTRecipeInfoStructure (traced d) c (w, t)).2.2.2 = t ++ l ∧
      ∀ p ∈ l, isHeaderLoadCall p = true := by
  unfold NFC_LoadTRecipeInfoStructure
  simp only [traced]
  rcases d.pn532_readPassiveTargetID w with ⟨_ | ⟨iuid, iuidLength⟩, w1⟩
  · exact ⟨[Primitive.readPassiveTargetID], rfl, by simp [isHeaderLoadCall]⟩
  dsimp only
  split_ifs
  · rw [show (TRecipeInfo_Size - 1) / PAGESIZE_CLASSIC + 1 = 0 + 1 from rfl]
    simp only [loadInfoClassic]
    rw [show NFC_GetMifareClassicIndex 0 = 1 from rfl]
    rcases d.pn532_mifareclassic_AuthenticateBlock iuid iuidLength 1 w1 with ⟨_ | _, w2⟩
    · exact ⟨[Primitive.readPassiveTargetID, Primitive.AuthenticateBlock 1], by simp,
        by simp [isHeaderLoadCall]⟩
    · dsimp only
      rcases d.pn532_mifareclassic_ReadDataBlock 1 w2 with ⟨_ | iData, w3⟩
      · exact ⟨[Primitive.readPassiveTargetID, Primitive.AuthenticateBlock 1,
          Primitive.ReadDataBlock 1], by simp, by simp [isHeaderLoadCall]⟩
      · exact ⟨[Primitive.readPassiveTargetID, Primitive.AuthenticateBlock 1,
          Primitive.ReadDataBlock 1], by simp, by simp [isHeaderLoadCall]⟩
  · rw [show (TRecipeInfo_Size - 1) / 16 + 1 = 0 + 1 from rfl]
    simp only [loadInfoUltralight]
    rw [show 0 * 4 + OFFSETDATA_ULTRALIGHT = 8 from rfl]
    rcases d.pn532_mifareultralight_ReadPage 8 w1 with ⟨_ | iData, w3⟩
    · exact ⟨[Primitive.readPassiveTargetID, Primitive.ReadPage 8], by simp,
        by simp [isHeaderLoadCall]⟩
    · exact ⟨[Primitive.readPassiveTargetID, Primitive.ReadPage 8], by simp,
        by simp [isHeaderLoadCall]⟩
  · exact ⟨[Primitive.readPassiveTargetID], rfl, by simp [isHeaderLoadCall]⟩

/-- A header retry loop of `NFC_LoadAllData` that ends with a non-zero code ends
with code 2 or 3 and a record as `NFC_InitTCardInfo` leaves it. -/
theorem headerRetry_failed {σ : Type} (d : Env σ) (n : Nat) :
    ∀ (c : TCardInfo) (w : σ),
      (retry (fun Error => Error == 0)
        (fun c w => NFC_LoadTRecipeInfoStructure d (NFC_InitTCardInfo c) w) id
        (n + 1) 0 c w).1 ≠ 0 →
      ((retry (fun Error => Error == 0)
          (fun c w => NFC_LoadTRecipeInfoStructure d (NFC_InitTCardInfo c) w) id
          (n + 1) 0 c w).1 = 2 ∨
        (retry (fun Error => Error == 0)
          (fun c w => NFC_LoadTRecipeInfoStructure d (NFC_InitTCardInfo c) w) id
          (n + 1) 0 c w).1 = 3) ∧
      ∃ x, (retry (fun Error => Error == 0)
          (fun c w => NFC_LoadTRecipeInfoStructure d (NFC_InitTCardInfo c) w) id
          (n + 1) 0 c w).2.1 = NFC_InitTCardInfo x := by
  induction n with
  | zero =>
    intro c w
    rw [retry]
    have hf := NFC_LoadTRecipeInfoStructure_fail d (NFC_InitTCardInfo c) w
    rcases hr : NFC_LoadTRecipeInfoStructure d (NFC_InitTCardInfo c) w with ⟨e1, c1, w1⟩
    rw [hr] at hf
    dsimp only at hf ⊢
    by_cases he : e1 = 0
    · subst he
      rw [if_pos (by decide)]
      exact fun h => absurd rfl h
    · rw [if_neg (by simpa using he)]
      simp only [retry]
      exact fun _ => ⟨(hf he).2, c, (hf he).1⟩
  | succ n ih =>
    intro c w
    rw [retry]
    rcases hr : NFC_LoadTRecipeInfoStructure d (NFC_InitTCardInfo c) w with ⟨e1, c1, w1⟩
    dsimp only
    by_cases he : e1 = 0
    · subst he
      rw [if_pos (by decide)]
      exact fun h => absurd rfl h
    · rw [if_neg (by simpa using he)]
      have e : retry (fun Error => Error == 0)
          (fun c w => NFC_LoadTRecipeInfoStructure d (NFC_InitTCardInfo c) w) id
          (n + 1) e1 (id c1) w1 = retry (fun Error => Error == 0)
          (fun c w => NFC_LoadTRecipeInfoStructure d (NFC_InitTCardInfo c) w) id
          (n + 1) 0 (id c1) w1 := by
        rw [retry, retry]
      rw [e]
      exact ih (id c1) w1

theorem headerRetry_log {σ : Type} (d : Env σ) (n : Nat) :
    ∀ (Error : Nat) (c : TCardInfo) (w : σ) (t : List Primitive),
      ∃ l, (retry (fun Error => Error == 0)
          (fun c w => NFC_LoadTRecipeInfoStructure (traced d) (NFC_InitTCardInfo c) w) id
          n Error c (w, t)).2.2.2 = t ++ l ∧
        ∀ p ∈ l, isHeaderLoadCall p = true := by
  induction n with
  | zero => intro Error c w t; exact ⟨[], by simp [retry], by simp⟩
  | succ n ih =>
    intro Error c w t
    rw [retry]
    obtain ⟨l1, h1, h2⟩ := NFC_LoadTRecipeInfoStructure_log d (NFC_InitTCardInfo c) w t
    rcases hr : NFC_LoadTRecipeInfoStructure (traced d) (NFC_InitTCardInfo c) (w, t)
      with ⟨e1, c1, w1, t1⟩
    rw [hr] at h1
    dsimp only at h1 ⊢
    subst h1
    split
    · exact ⟨l1, rfl, h2⟩
    · obtain ⟨l2, h3, h4⟩ := ih e1 (id c1) w1 (t ++ l1)
      refine ⟨l1 ++ l2, by rw [h3, List.append_assoc], ?_⟩
      intro p hp
      rcases List.mem_append.mp hp with hp | hp
      · exact h2 p hp
      · exact h4 p hp

/-- C25: when the header stage of `NFC_LoadAllData` ends with a non-zero code,
that is when `NFC_LoadTRecipeInfoStructure` failed on each of the 5 attempts,
the code is 2 (absent tag or failed read) or 3 (failed authentication) and
`NFC_LoadAllData` returns 1 respectively 2 with the record and the world of
that stage: the later stages are not run. The record then has no step array
and its three flags are false. In the logging environment, the log has grown
by calls of the header load only (probe, authentication and read of the
header's unit): no allocation, no read of a step. -/
theorem C25_load_all_aborts_after_header_failure {σ : Type} (d : Env σ) (c : TCardInfo)
    (w : σ) (t : List Primitive) :
    ((loadAllHeaderStage d c w).1 ≠ 0 →
      ((loadAllHeaderStage d c w).1 = 2 ∨ (loadAllHeaderStage d c w).1 = 3) ∧
      NFC_LoadAllData d c w =
        (if (loadAllHeaderStage d c w).1 = 2 then 1 else 2,
          (loadAllHeaderStage d c w).2.1, (loadAllHeaderStage d c w).2.2) ∧
      (NFC_LoadAllData d c w).2.1.sRecipeStep = none ∧
      (NFC_LoadAllData d c w).2.1.TRecipeInfoLoaded = false ∧
      (NFC_LoadAllData d c w).2.1.TRecipeStepArrayCreated = false ∧
      (NFC_LoadAllData d c w).2.1.TRecipeStepLoaded = false) ∧
    ((loadAllHeaderStage (traced d) c (w, t)).1 ≠ 0 →
      ∃ l, (NFC_LoadAllData (traced d) c (w, t)).2.2.2 = t ++ l ∧
        ∀ p ∈ l, isHeaderLoadCall p = true) := by
  have key : ∀ {τ : Type} (e : Env τ) (v : τ), (loadAllHeaderStage e c v).1 ≠ 0 →
      ((loadAllHeaderStage e c v).1 = 2 ∨ (loadAllHeaderStage e c v).1 = 3) ∧
      NFC_LoadAllData e c v =
        (if (loadAllHeaderStage e c v).1 = 2 then 1 else 2,
          (loadAllHeaderStage e c v).2.1, (loadAllHeaderStage e c v).2.2) ∧
      ∃ x, (loadAllHeaderStage e c v).2.1 = NFC_InitTCardInfo x := by
    intro τ e v hne
    have hf := headerRetry_failed e 4
      (if c.TRecipeStepArrayCreated then (NFC_DeAllocTRecipeStepArray c).2 else c) v hne
    refine ⟨hf.1, ?_, hf.2⟩
    unfold NFC_LoadAllData
    unfold loadAllHeaderStage at hf hne ⊢
    dsimp only
    rcases hr : retry (fun Error => Error == 0)
      (fun c w => NFC_LoadTRecipeInfoStructure e (NFC_InitTCardInfo c) w) id
      MAXERRORREADING 0
      (if c.TRecipeStepArrayCreated then (NFC_DeAllocTRecipeStepArray c).2 else c) v
      with ⟨e1, c1, v1⟩
    rw [show (4 : Nat) + 1 = MAXERRORREADING from rfl, hr] at hf
    dsimp only at hf
    rcases hf.1 with h2 | h3
    · subst h2; rfl
    · subst h3; rfl
  constructor
  · intro hne
    obtain ⟨h1, h2, x, hx⟩ := key d w hne
    refine ⟨h1, h2, ?_⟩
    rw [h2]
    dsimp only
    rw [hx]
    exact ⟨rfl, rfl, rfl, rfl⟩
  · intro hne
    obtain ⟨_, h2, _⟩ := key (traced d) (w, t) hne
    rw [h2]
    exact headerRetry_log d MAXERRORREADING 0 _ w t

theorem C25_load_all_aborts_after_header_failure_witness :
    NFC_LoadAllData heapOnly sampleCard () = (1, NFC_InitTCardInfo sampleCard, ()) ∧
    (NFC_LoadAllData heapOnly sampleCard ()).2.1.sRecipeStep = none ∧
    (NFC_LoadAllData heapOnly sampleCard ()).2.1.TRecipeInfoLoaded = false :=
  ⟨((C25_load_all_aborts_after_header_failure heapOnly sampleCard () []).1
      (by decide)).2.1,
    ((C25_load_all_aborts_after_header_failure heapOnly sampleCard () []).1
      (by decide)).2.2.1,
    ((C25_load_all_aborts_after_header_failure heapOnly sampleCard () []).1
      (by decide)).2.2.2.1⟩

/-! ### The calls of the write loops -/

theorem writeUnitsClassic_log {σ : Type} (d : Env σ) (c : TCardInfo) (iuid : List Nat)
    (iuidLength : Nat)
    (hauth : ∀ index v, (d.pn532_mifareclassic_AuthenticateBlock iuid iuidLength index v).1 = true)
    (n : Nat) :
    ∀ i w t, (writeUnitsClassic (traced d) c iuid iuidLength n i (w, t)).1 = none ∧
      (writeUnitsClassic (traced d) c iuid iuidLength n i (w, t)).2.2
        = t ++ classicWriteCalls c n i := by
  induction n with
  | zero => intro i w t; simp [writeUnitsClassic, classicWriteCalls]
  | succ n ih =>
    intro i w t
    rw [writeUnitsClassic]
    have ha := hauth (NFC_GetMifareClassicIndex i) w
    simp only [traced]
    rcases hr : d.pn532_mifareclassic_AuthenticateBlock iuid iuidLength
      (NFC_GetMifareClassicIndex i) w with ⟨b, w1⟩
    rw [hr] at ha
    dsimp only at ha
    subst ha
    dsimp only
    have := ih (i + 1) (d.pn532_mifareclassic_WriteDataBlock (NFC_GetMifareClassicIndex i)
      (unitPayload c PAGESIZE_CLASSIC i) w1).2
      (t ++ [Primitive.AuthenticateBlock (NFC_GetMifareClassicIndex i)] ++
        [Primitive.WriteDataBlock (NFC_GetMifareClassicIndex i)
          (unitPayload c PAGESIZE_CLASSIC i)])
    simp only [traced] at this
    refine ⟨this.1, ?_⟩
    rw [this.2]
    simp [classicWriteCalls]

theorem writeUnitsUltralight_log {σ : Type} (d : Env σ) (c : TCardInfo) (n : Nat) :
    ∀ i w t, (writeUnitsUltralight (traced d) c n i (w, t)).2
        = t ++ ultralightWriteCalls c n i := by
  induction n with
  | zero => intro i w t; simp [writeUnitsUltralight, ultralightWriteCalls]
  | succ n ih =>
    intro i w t
    rw [writeUnitsUltralight]
    simp only [traced]
    have := ih (i + 1) (d.pn532_mifareultralight_WritePage (i + OFFSETDATA_ULTRALIGHT)
      (unitPayload c PAGESIZE_ULTRALIGHT i) w).2
      (t ++ [Primitive.WritePage (i + OFFSETDATA_ULTRALIGHT) (unitPayload c PAGESIZE_ULTRALIGHT i)])
    simp only [traced] at this
    rw [this]
    simp [ultralightWriteCalls]

theorem writeCalls_append (t l : List Primitive) :
    writeCalls (t ++ l) = writeCalls t ++ writeCalls l := by
  simp [writeCalls]

theorem writeCalls_classic (c : TCardInfo) (n : Nat) :
    ∀ i, writeCalls (classicWriteCalls c n i) =
      (List.range' i n).map (fun j =>
        Primitive.WriteDataBlock (NFC_GetMifareClassicIndex j) (unitPayload c PAGESIZE_CLASSIC j))
    := by
  induction n with
  | zero => intro i; rfl
  | succ n ih =>
    intro i
    have := ih (i + 1)
    simp only [writeCalls] at this ⊢
    simp only [classicWriteCalls, List.range'_succ, List.map_cons, List.filter_cons]
    simp [this]

theorem writeCalls_ultralight (c : TCardInfo) (n : Nat) :
    ∀ i, writeCalls (ultralightWriteCalls c n i) =
      (List.range' i n).map (fun j =>
        Primitive.WritePage (j + OFFSETDATA_ULTRALIGHT) (unitPayload c PAGESIZE_ULTRALIGHT j)) := by
  induction n with
  | zero => intro i; rfl
  | succ n ih =>
    intro i
    have := ih (i + 1)
    simp only [writeCalls] at this ⊢
    simp only [ultralightWriteCalls, List.range'_succ, List.map_cons, List.filter_cons]
    simp [this]

/-- With the checksum field current and a valid range, `NFC_WriteStructRange`
is the transfer of the units alone. -/
theorem NFC_WriteStructRange_current {σ : Type} (d : Env σ) (depth : Nat) (c : TCardInfo)
    (s e : Nat) (w : σ) (hse : s ≤ e) (he : e ≤ RecipeSteps c)
    (hcs : NFC_GetCheckSum c = CheckSum c) :
    NFC_WriteStructRange d (depth + 1) c s e w =
      some ((writeRangeUnits d c (writeZacatek s) (writeKonec s e) w).1, c,
        (writeRangeUnits d c (writeZacatek s) (writeKonec s e) w).2) := by
  rw [NFC_WriteStructRange]
  rw [if_neg (by omega), if_neg (by omega)]
  dsimp only
  rw [if_neg (by simp [hcs])]

theorem writeZacatek_eq (s : Nat) :
    writeZacatek s = if s = 0 then 0 else 16 + 3 * (s - 1) := by
  unfold writeZacatek
  simp only [TRecipeInfo_Size, TRecipeStep_Size]
  split <;> split <;> omega

theorem writeKonec_eq (s e : Nat) (hse : s ≤ e) (he : e < 256) :
    writeKonec s e = if e = 0 then 15 else 16 + 3 * e - 1 := by
  rcases Nat.eq_zero_or_pos s with h0 | hpos
  · subst h0
    rw [writeKonec_zero e (by omega)]
    split <;> omega
  · rw [writeKonec_pos s e hpos hse (by omega)]
    split <;> omega

/-- C28: the buffer `NFC_WriteStructRange` passes to the write primitive for the
logical unit `i` of a geometry with unit size `U` (16: Mifare Classic, with
authentications succeeding; 4: Mifare Ultralight) is `unitPayload c U i`, as the
log of the logging environment shows; it has `U` bytes, and its byte `k < U` is
chosen by the position `p = i * U + k`: header byte `p` for `p < 16`, step-array
byte `p - 16` for `16 ≤ p < 16 + 3 * RecipeSteps`, and 0 otherwise. It depends on
the header and on the step-array bytes below `3 * RecipeSteps` only. -/
theorem C28_payload_chosen_by_position {σ : Type} (d : Env σ) (c : TCardInfo) :
    (∀ iuid iuidLength,
      (∀ index v,
        (d.pn532_mifareclassic_AuthenticateBlock iuid iuidLength index v).1 = true) →
      ∀ n i w t, (writeUnitsClassic (traced d) c iuid iuidLength n i (w, t)).2.2
        = t ++ classicWriteCalls c n i) ∧
    (∀ n i w t, (writeUnitsUltralight (traced d) c n i (w, t)).2
        = t ++ ultralightWriteCalls c n i) ∧
    (∀ U i, (unitPayload c U i).length = U) ∧
    (∀ U i k, k < U → (unitPayload c U i).getD k 0 =
      if i * U + k < 16 then c.sRecipeInfo.getD (i * U + k) 0
      else if i * U + k < 16 + 3 * RecipeSteps c then stepByte c (i * U + k - 16)
      else 0) ∧
    (∀ c2 U i, c2.sRecipeInfo = c.sRecipeInfo →
      (∀ q, q < 3 * RecipeSteps c → stepByte c2 q = stepByte c q) →
      unitPayload c2 U i = unitPayload c U i) := by
  refine ⟨fun iuid iuidLength hauth n i w t =>
      (writeUnitsClassic_log d c iuid iuidLength hauth n i w t).2,
    fun n i w t => writeUnitsUltralight_log d c n i w t, fun U i => by simp [unitPayload],
    fun U i k hk => ?_, fun c2 U i hi hq => ?_⟩
  · rw [unitPayload_getD c U i k hk]
    simp only [payloadByte, infoByte, TRecipeInfo_Size, TRecipeStep_Size]
    split
    · rfl
    · split
      · rw [if_pos (by omega)]
      · rw [if_neg (by omega)]
  · unfold unitPayload
    apply List.map_congr_left
    intro k _
    have hr : RecipeSteps c2 = RecipeSteps c := by simp only [RecipeSteps, infoByte, hi]
    simp only [payloadByte, infoByte, hi, hr, TRecipeInfo_Size, TRecipeStep_Size]
    split
    · rfl
    · split
      · exact hq _ (by omega)
      · rfl

theorem C28_payload_chosen_by_position_witness :
    (writeUnitsClassic (traced (idealTag [1, 2, 3, 4] 4 (fun _ => 170))) sampleCard
        [1, 2, 3, 4] 4 2 0 (blankTag, [])).2.2
      = [] ++ classicWriteCalls sampleCard 2 0 ∧
    (unitPayload sampleCard 16 1).getD 9 0 =
      if 1 * 16 + 9 < 16 then sampleCard.sRecipeInfo.getD (1 * 16 + 9) 0
      else if 1 * 16 + 9 < 16 + 3 * RecipeSteps sampleCard then
        stepByte sampleCard (1 * 16 + 9 - 16)
      else 0 :=
  ⟨(C28_payload_chosen_by_position (idealTag [1, 2, 3, 4] 4 (fun _ => 170)) sampleCard).1
      [1, 2, 3, 4] 4 (fun _ _ => rfl) 2 0 blankTag [],
    (C28_payload_chosen_by_position (idealTag [1, 2, 3, 4] 4 (fun _ => 170))
      sampleCard).2.2.2.1 16 1 9 (by decide)⟩

/-- C29: for `start ≤ end ≤ RecipeSteps` (a `uint8_t`), the tag present with UID
length 4 (authentications succeeding) or 7 and the checksum field current,
`NFC_WriteStructRange(start, end)` returns 0, leaves the record as it is, and
makes, after the probe, exactly the calls for the logical units
`z / U, z / U + 1, ..., k / U` in this order, each unit once, where
`z = 0` for `start = 0` and `16 + 3 * (start - 1)` otherwise, and `k = 15` for
`end = 0` and `16 + 3 * end - 1` otherwise (also for `start = 0 < end`); unit `i`
goes to block `NFC_GetMifareClassicIndex i` (`U = 16`) respectively page `i + 8`
(`U = 4`). -/
theorem C29_units_written_once_in_order {σ : Type} (d : Env σ) (depth : Nat)
    (c : TCardInfo) (s e : Nat) (w w1 : σ) (t : List Primitive) (iuid : List Nat)
    (iuidLength : Nat) (hse : s ≤ e) (he : e ≤ RecipeSteps c) (hrs : RecipeSteps c < 256)
    (hcs : NFC_GetCheckSum c = CheckSum c)
    (hp : d.pn532_readPassiveTargetID w = (some (iuid, iuidLength), w1))
    (hauth : ∀ index v,
      (d.pn532_mifareclassic_AuthenticateBlock iuid iuidLength index v).1 = true) :
    (iuidLength = 4 →
      (NFC_WriteStructRange (traced d) (depth + 1) c s e (w, t)).map
          (fun r => (r.1, r.2.1, r.2.2.2)) =
        some (0, c, t ++ Primitive.readPassiveTargetID ::
          classicWriteCalls c
            ((if e = 0 then 15 else 16 + 3 * e - 1) / 16 + 1
              - (if s = 0 then 0 else 16 + 3 * (s - 1)) / 16)
            ((if s = 0 then 0 else 16 + 3 * (s - 1)) / 16)) ∧
      writeCalls (classicWriteCalls c
            ((if e = 0 then 15 else 16 + 3 * e - 1) / 16 + 1
              - (if s = 0 then 0 else 16 + 3 * (s - 1)) / 16)
            ((if s = 0 then 0 else 16 + 3 * (s - 1)) / 16)) =
        (List.range' ((if s = 0 then 0 else 16 + 3 * (s - 1)) / 16)
            ((if e = 0 then 15 else 16 + 3 * e - 1) / 16 + 1
              - (if s = 0 then 0 else 16 + 3 * (s - 1)) / 16)).map
          (fun i => Primitive.WriteDataBlock (NFC_GetMifareClassicIndex i)
            (unitPayload c 16 i))) ∧
    (iuidLength = 7 →
      (NFC_WriteStructRange (traced d) (depth + 1) c s e (w, t)).map
          (fun r => (r.1, r.2.1, r.2.2.2)) =
        some (0, c, t ++ Primitive.readPassiveTargetID ::
          ultralightWriteCalls c
            ((if e = 0 then 15 else 16 + 3 * e - 1) / 4 + 1
              - (if s = 0 then 0 else 16 + 3 * (s - 1)) / 4)
            ((if s = 0 then 0 else 16 + 3 * (s - 1)) / 4)) ∧
      writeCalls (ultralightWriteCalls c
            ((if e = 0 then 15 else 16 + 3 * e - 1) / 4 + 1
              - (if s = 0 then 0 else 16 + 3 * (s - 1)) / 4)
            ((if s = 0 then 0 else 16 + 3 * (s - 1)) / 4)) =
        (List.range' ((if s = 0 then 0 else 16 + 3 * (s - 1)) / 4)
            ((if e = 0 then 15 else 16 + 3 * e - 1) / 4 + 1
              - (if s = 0 then 0 else 16 + 3 * (s - 1)) / 4)).map
          (fun i => Primitive.WritePage (i + 8) (unitPayload c 4 i))) := by
  have hcur := NFC_WriteStructRange_current (traced d) depth c s e (w, t) hse he hcs
  rw [writeZacatek_eq s, writeKonec_eq s e hse (by omega)] at hcur
  generalize (if s = 0 then 0 else 16 + 3 * (s - 1)) = z at hcur ⊢
  generalize (if e = 0 then 15 else 16 + 3 * e - 1) = k at hcur ⊢
  have hprobe : (traced d).pn532_readPassiveTargetID (w, t) =
      (some (iuid, iuidLength), w1, t ++ [Primitive.readPassiveTargetID]) := by
    simp only [traced, hp]
  constructor
  · intro h4
    subst h4
    refine ⟨?_, writeCalls_classic c _ _⟩
    rw [hcur]
    unfold writeRangeUnits
    rw [hprobe]
    dsimp only
    rw [if_pos rfl]
    obtain ⟨h1, h2⟩ := writeUnitsClassic_log d c iuid 4 hauth
      (k / PAGESIZE_CLASSIC + 1 - z / PAGESIZE_CLASSIC) (z / PAGESIZE_CLASSIC) w1
      (t ++ [Primitive.readPassiveTargetID])
    rcases hr : writeUnitsClassic (traced d) c iuid 4
      (k / PAGESIZE_CLASSIC + 1 - z / PAGESIZE_CLASSIC) (z / PAGESIZE_CLASSIC)
      (w1, t ++ [Primitive.readPassiveTargetID]) with ⟨code, w2, t2⟩
    rw [hr] at h1 h2
    dsimp only at h1 h2
    subst h1 h2
    simp
  · intro h7
    subst h7
    refine ⟨?_, writeCalls_ultralight c _ _⟩
    rw [hcur]
    unfold writeRangeUnits
    rw [hprobe]
    dsimp only
    rw [if_neg (by decide), if_pos rfl]
    have h2 := writeUnitsUltralight_log d c
      (k / PAGESIZE_ULTRALIGHT + 1 - z / PAGESIZE_ULTRALIGHT) (z / PAGESIZE_ULTRALIGHT) w1
      (t ++ [Primitive.readPassiveTargetID])
    simp only [Option.map_some', h2]
    simp

theorem C29_units_written_once_in_order_witness :
    (NFC_WriteStructRange (traced (idealTag [4, 1, 2, 3, 4, 5, 6] 7 (fun _ => 170))) 1
        sampleCardCurrent 0 3 (zeroStepsTag, [])).map (fun r => (r.1, r.2.1, r.2.2.2)) =
      some (0, sampleCardCurrent, [] ++ Primitive.readPassiveTargetID ::
        ultralightWriteCalls sampleCardCurrent 7 0) ∧
    writeCalls (ultralightWriteCalls sampleCardCurrent 7 0) =
      (List.range' 0 7).map
        (fun i => Primitive.WritePage (i + 8) (unitPayload sampleCardCurrent 4 i)) :=
  (C29_units_written_once_in_order (idealTag [4, 1, 2, 3, 4, 5, 6] 7 (fun _ => 170)) 0
    sampleCardCurrent 0 3 zeroStepsTag zeroStepsTag [] [4, 1, 2, 3, 4, 5, 6] 7 (by decide)
    (by decide) (by decide) (by decide) rfl (fun _ _ => rfl)).2 rfl

/-! ### Loading one step: what exactly is stored -/

theorem readUnitClassic_succeeds {σ : Type} (d : Env σ) (hok : ReadsSucceed d)
    (iuid : List Nat) (iuidLength : Nat) (i : Nat) (w : σ) :
    ∃ iData w1, readUnitClassic d iuid iuidLength i w = (Except.ok iData, w1) := by
  unfold readUnitClassic
  have ha := hok.auth iuid iuidLength (NFC_GetMifareClassicIndex i) w
  rcases hr : d.pn532_mifareclassic_AuthenticateBlock iuid iuidLength
    (NFC_GetMifareClassicIndex i) w with ⟨b, w1⟩
  rw [hr] at ha
  dsimp only at ha
  subst ha
  dsimp only
  have hb := hok.readBlock (NFC_GetMifareClassicIndex i) w1
  rcases hr2 : d.pn532_mifareclassic_ReadDataBlock (NFC_GetMifareClassicIndex i) w1
    with ⟨_ | iData, w2⟩
  · rw [hr2] at hb; exact absurd rfl hb
  · exact ⟨iData, w2, rfl⟩

theorem readUnitUltralight_succeeds {σ : Type} (d : Env σ) (hok : ReadsSucceed d)
    (i : Nat) (w : σ) :
    ∃ iData w1, readUnitUltralight d i w = (Except.ok iData, w1) := by
  unfold readUnitUltralight
  have hb := hok.readPage (i * 4 + OFFSETDATA_ULTRALIGHT) w
  rcases hr2 : d.pn532_mifareultralight_ReadPage (i * 4 + OFFSETDATA_ULTRALIGHT) w
    with ⟨_ | iData, w2⟩
  · rw [hr2] at hb; exact absurd rfl hb
  · exact ⟨iData, w2, rfl⟩

theorem loadStep_unitLoop_exact {σ : Type} (read : Nat → σ → Except Nat (List Nat) × σ)
    (store : σ → Nat → Nat) (uidLength : Nat) (hread : UnitReadOK read store uidLength)
    (c : TCardInfo) (a : List Nat) (n P Posun konec : Nat) (w : σ)
    (hs : c.sRecipeStep = some a) (ha : 3 * n + 3 ≤ a.length)
    (hP : 16 * P + Posun = 16 + 3 * n) (hPosun : Posun < 16) (hkonec : konec = 18 + 3 * n)
    (hnone : (unitLoop read (fun iData i s => loadStepBytes iData i P Posun konec n s)
      (konec / 16 + 1 - P) P (c, 0) w).1 = none) :
    ∃ a2, (unitLoop read (fun iData i s => loadStepBytes iData i P Posun konec n s)
        (konec / 16 + 1 - P) P (c, 0) w).2.1.1 = { c with sRecipeStep := some a2 } ∧
      a2.length = a.length ∧
      ∀ q, a2.getD q 0 =
        if 3 * n ≤ q ∧ q < 3 * n + 3 then tagByte uidLength (store w) (16 + q)
        else a.getD q 0 := by
  obtain ⟨_, _, j, _, _, hj3, hj4⟩ :=
    unitLoop_rule read (fun iData i s => loadStepBytes iData i P Posun konec n s)
    store uidLength (store w) hread
    (fun i (s : TCardInfo × Nat) => s.2 = min 3 (16 * i - (16 + 3 * n)) ∧
      ∃ a2, s.1 = { c with sRecipeStep := some a2 } ∧ a2.length = a.length ∧
        ∀ q, a2.getD q 0 =
          if 3 * n ≤ q ∧ q < 3 * n + s.2 then tagByte uidLength (store w) (16 + q)
          else a.getD q 0)
    P (konec / 16 + 1)
    (by
      rintro i ⟨c1, cnt⟩ iData hi1 hi2 ⟨hcnt, a2, hc1, hl, hget⟩ hd
      simp only at hcnt hc1 hget
      subst hc1
      obtain ⟨a3, h3, hl3, hget3⟩ := loadStepBytes_spec iData i n P Posun konec cnt
        { c with sRecipeStep := some a2 } a2 rfl (by omega) hP hPosun hkonec hi1 (by omega) hcnt
      beta_reduce
      rw [h3]
      refine ⟨rfl, a3, rfl, by omega, fun q => ?_⟩
      simp only
      rw [hget3]
      by_cases hq : 3 * n + cnt ≤ q ∧ q < 3 * n + min 3 (16 * (i + 1) - (16 + 3 * n))
      · rw [if_pos hq, if_pos (by omega)]
        rw [hd (q + 16 - 16 * i) (by omega)]
        congr 1
        omega
      · rw [if_neg hq, hget q]
        by_cases hq2 : 3 * n ≤ q ∧ q < 3 * n + cnt
        · rw [if_pos hq2, if_pos (by omega)]
        · rw [if_neg hq2, if_neg (by omega)])
    (konec / 16 + 1 - P) P (c, 0) w (le_refl _) (by omega) rfl
    ⟨by simp only; omega, a, by cases c; simp_all, rfl, fun q => by
      simp only
      rw [if_neg (by omega)]⟩
  obtain ⟨hcnt, a2, hc1, hl, hget⟩ := hj3
  refine ⟨a2, hc1, hl, fun q => ?_⟩
  have hj := hj4 hnone
  rw [hget q, hcnt, hj]
  have e : min 3 (16 * (P + (konec / 16 + 1 - P)) - (16 + 3 * n)) = 3 := by omega
  rw [e]

/-- The copy loop of `NFC_LoadTRecipeStep` reads the unit buffer below offset 16
only: two buffers that agree there give the same result. -/
theorem loadStepBytes_buffer (iData iData2 : List Nat)
    (h : ∀ k, k < 16 → iData.getD k 0 = iData2.getD k 0)
    (i PrvniBunka Posun konec NumOfStructure : Nat) (hPosun : Posun ≤ 16)
    (s : TCardInfo × Nat) :
    loadStepBytes iData i PrvniBunka Posun konec NumOfStructure s =
      loadStepBytes iData2 i PrvniBunka Posun konec NumOfStructure s := by
  unfold loadStepBytes
  have key : ∀ m k (s : TCardInfo × Nat), k + m ≤ 16 → (i = PrvniBunka → k + Posun ≤ 16) →
      forBreak (fun k (s : TCardInfo × Nat) =>
        if k + i * PAGESIZE_CLASSIC < konec + 1 then
          if i = PrvniBunka then
            if k + Posun = PAGESIZE_CLASSIC then (s, false)
            else
              let c := setStepByte s.1
                (k + (i - PrvniBunka) * PAGESIZE_CLASSIC + NumOfStructure * TRecipeStep_Size)
                (iData.getD (k + Posun) 0)
              ((c, s.2 + 1), !(s.2 + 1 == TRecipeStep_Size))
          else
            let c := setStepByte s.1
              (k + (i - PrvniBunka) * PAGESIZE_CLASSIC + NumOfStructure * TRecipeStep_Size
                - Posun)
              (iData.getD k 0)
            ((c, s.2 + 1), !(s.2 + 1 == TRecipeStep_Size))
        else (s, false)) m k s =
      forBreak (fun k (s : TCardInfo × Nat) =>
        if k + i * PAGESIZE_CLASSIC < konec + 1 then
          if i = PrvniBunka then
            if k + Posun = PAGESIZE_CLASSIC then (s, false)
            else
              let c := setStepByte s.1
                (k + (i - PrvniBunka) * PAGESIZE_CLASSIC + NumOfStructure * TRecipeStep_Size)
                (iData2.getD (k + Posun) 0)
              ((c, s.2 + 1), !(s.2 + 1 == TRecipeStep_Size))
          else
            let c := setStepByte s.1
              (k + (i - PrvniBunka) * PAGESIZE_CLASSIC + NumOfStructure * TRecipeStep_Size
                - Posun)
              (iData2.getD k 0)
            ((c, s.2 + 1), !(s.2 + 1 == TRecipeStep_Size))
        else (s, false)) m k s := by
    intro m
    induction m with
    | zero => intro k s _ _; rfl
    | succ m ih =>
      intro k s hk hP
      rw [forBreak, forBreak]
      dsimp only
      by_cases h1 : k + i * PAGESIZE_CLASSIC < konec + 1
      · rw [if_pos h1, if_pos h1]
        by_cases h2 : i = PrvniBunka
        · rw [if_pos h2, if_pos h2]
          by_cases h3 : k + Posun = PAGESIZE_CLASSIC
          · rw [if_pos h3, if_pos h3]
          · rw [if_neg h3, if_neg h3]
            have h4 : k + Posun < 16 := by
              have := hP h2
              simp only [PAGESIZE_CLASSIC] at h3
              omega
            rw [h (k + Posun) h4]
            split
            · exact ih (k + 1) _ (by omega) (fun _ => by omega)
            · rfl
        · rw [if_neg h2, if_neg h2]
          rw [h k (by omega)]
          split
          · exact ih (k + 1) _ (by omega) (fun hh => absurd hh h2)
          · rfl
      · rw [if_neg h1, if_neg h1]
  exact key PAGESIZE_CLASSIC 0 s (by simp) (fun _ => by omega)

theorem idealTag_readsSucceed (uid : List Nat) (uidLength : Nat) (garbage : Nat → Nat) :
    ReadsSucceed (idealTag uid uidLength garbage) where
  probe := fun _ => by simp [idealTag]
  auth := fun _ _ _ _ => rfl
  readBlock := fun _ _ => by simp [idealTag]
  readPage := fun _ _ => by simp [idealTag]

/-- On a tag of supported geometry whose reads succeed and hand back what is
stored, `NFC_LoadTRecipeStep` with a created array and an index below
`RecipeSteps` returns 0 and replaces exactly the three bytes of that step by the
tag's bytes. -/
theorem NFC_LoadTRecipeStep_exact {σ : Type} (d : Env σ) (store : σ → Nat → Nat)
    (uidLength : Nat) (h : ReadsStored d store uidLength) (hok : ReadsSucceed d)
    (hlen : uidLength = 4 ∨ uidLength = 7) (c : TCardInfo) (a : List Nat) (n : Nat) (w : σ)
    (hcr : c.TRecipeStepArrayCreated = true) (hs : c.sRecipeStep = some a)
    (ha : 3 * n + 3 ≤ a.length) (hn : n < RecipeSteps c) :
    (NFC_LoadTRecipeStep d c n w).1 = 0 ∧
    store (NFC_LoadTRecipeStep d c n w).2.2 = store w ∧
    ∃ a2, (NFC_LoadTRecipeStep d c n w).2.1 =
        { c with sRecipeStep := some a2, TRecipeStepLoaded := true } ∧
      a2.length = a.length ∧
      ∀ q, a2.getD q 0 =
        if 3 * n ≤ q ∧ q < 3 * n + 3 then tagByte uidLength (store w) (16 + q)
        else a.getD q 0 := by
  have hst := (NFC_LoadTRecipeStep_spec d store uidLength h hlen c a n w hs ha).1
  refine ⟨?_, hst, ?_⟩
  all_goals
    unfold NFC_LoadTRecipeStep
    rw [if_neg (by simp [hcr]), if_neg (by omega)]
    have hps := h.probe_store w
    have hpl := h.probe_len w
    have hpp := hok.probe w
    rcases hp : d.pn532_readPassiveTargetID w with ⟨_ | ⟨iuid, iuidLength⟩, w1⟩
    · rw [hp] at hpp; exact absurd rfl hpp
    rw [hp] at hps hpl
    have hl := hpl iuid iuidLength rfl
    subst hl
    dsimp only at hps ⊢
    simp only [PAGESIZE_CLASSIC, TRecipeInfo_Size, TRecipeStep_Size]
    have e1 : 16 + n * 3 + 3 - 1 = 18 + 3 * n := by omega
    rcases hlen with h4 | h7
    · subst h4
      simp only [if_true, loadStepClassic_eq]
      have hnone := unitLoop_none (readUnitClassic d iuid 4)
        (fun iData i s => loadStepBytes iData i ((16 + n * 3) / 16) ((16 + n * 3) % 16)
          (16 + n * 3 + 3 - 1) n s)
        (readUnitClassic_succeeds d hok iuid 4)
        ((16 + n * 3 + 3 - 1) / 16 + 1 - (16 + n * 3) / 16) ((16 + n * 3) / 16) (c, 0) w1
      have hex := loadStep_unitLoop_exact (readUnitClassic d iuid 4) store 4
        (readUnitClassic_ok d store h iuid 4) c a n ((16 + n * 3) / 16) ((16 + n * 3) % 16)
        (16 + n * 3 + 3 - 1) w1 hs ha (by omega) (by omega) e1 hnone
      rcases hr : unitLoop (readUnitClassic d iuid 4)
        (fun iData i s => loadStepBytes iData i ((16 + n * 3) / 16) ((16 + n * 3) % 16)
          (16 + n * 3 + 3 - 1) n s)
        ((16 + n * 3 + 3 - 1) / 16 + 1 - (16 + n * 3) / 16) ((16 + n * 3) / 16) (c, 0) w1
        with ⟨_ | code, s2, w2⟩
      · first
          | rfl
          | (rw [hr] at hex
             obtain ⟨a2, hx1, hx2, hx3⟩ := hex
             simp only at hx1 ⊢
             refine ⟨a2, by rw [hx1], hx2, ?_⟩
             rw [← hps]
             exact hx3)
      · rw [hr] at hnone; simp at hnone
    · subst h7
      simp only [show (7 : Nat) ≠ 4 by decide, if_false, if_true, loadStepUltralight_eq]
      have hnone := unitLoop_none (readUnitUltralight d)
        (fun iData i s => loadStepBytes iData i ((16 + n * 3) / 16) ((16 + n * 3) % 16)
          (16 + n * 3 + 3 - 1) n s)
        (readUnitUltralight_succeeds d hok)
        ((16 + n * 3 + 3 - 1) / 16 + 1 - (16 + n * 3) / 16) ((16 + n * 3) / 16) (c, 0) w1
      have hex := loadStep_unitLoop_exact (readUnitUltralight d) store 7
        (readUnitUltralight_ok d store h) c a n ((16 + n * 3) / 16) ((16 + n * 3) % 16)
        (16 + n * 3 + 3 - 1) w1 hs ha (by omega) (by omega) e1 hnone
      rcases hr : unitLoop (readUnitUltralight d)
        (fun iData i s => loadStepBytes iData i ((16 + n * 3) / 16) ((16 + n * 3) % 16)
          (16 + n * 3 + 3 - 1) n s)
        ((16 + n * 3 + 3 - 1) / 16 + 1 - (16 + n * 3) / 16) ((16 + n * 3) / 16) (c, 0) w1
        with ⟨_ | code, s2, w2⟩
      · first
          | rfl
          | (rw [hr] at hex
             obtain ⟨a2, hx1, hx2, hx3⟩ := hex
             simp only at hx1 ⊢
             refine ⟨a2, by rw [hx1], hx2, ?_⟩
             rw [← hps]
             exact hx3)
      · rw [hr] at hnone; simp at hnone

/-- C30: for every record with a created step array of `RecipeSteps` entries,
every `n < RecipeSteps` and a tag of UID length 4 or 7 on which probe,
authentications and reads succeed and reads hand back what is stored,
`NFC_LoadTRecipeStep(record, n)` returns 0 and leaves the record with
`TRecipeStepLoaded` set and a step array of the same length in which the bytes
`3n, 3n+1, 3n+2` are the tag's bytes at the logical offsets `16+3n, 16+3n+1,
16+3n+2` and every other byte is as before (also when the step straddles two
units); its copy loop reads the 16-byte unit buffer below offset 16 only. -/
theorem C30_load_one_step_exact {σ : Type} (d : Env σ) (store : σ → Nat → Nat)
    (uidLength : Nat) (h : ReadsStored d store uidLength) (hok : ReadsSucceed d)
    (hlen : uidLength = 4 ∨ uidLength = 7) (c : TCardInfo) (a : List Nat) (n : Nat) (w : σ)
    (hcr : c.TRecipeStepArrayCreated = true) (hs : c.sRecipeStep = some a)
    (ha : a.length = 3 * RecipeSteps c) (hn : n < RecipeSteps c) :
    (NFC_LoadTRecipeStep d c n w).1 = 0 ∧
    (∃ a2, (NFC_LoadTRecipeStep d c n w).2.1 =
        { c with sRecipeStep := some a2, TRecipeStepLoaded := true } ∧
      a2.length = a.length ∧
      ∀ q, a2.getD q 0 =
        if 3 * n ≤ q ∧ q < 3 * n + 3 then tagByte uidLength (store w) (16 + q)
        else a.getD q 0) ∧
    (∀ iData iData2 : List Nat, (∀ k, k < 16 → iData.getD k 0 = iData2.getD k 0) →
      ∀ i s, loadStepBytes iData i
          ((TRecipeInfo_Size + n * TRecipeStep_Size) / PAGESIZE_CLASSIC)
          ((TRecipeInfo_Size + n * TRecipeStep_Size) % PAGESIZE_CLASSIC)
          (TRecipeInfo_Size + n * TRecipeStep_Size + TRecipeStep_Size - 1) n s =
        loadStepBytes iData2 i
          ((TRecipeInfo_Size + n * TRecipeStep_Size) / PAGESIZE_CLASSIC)
          ((TRecipeInfo_Size + n * TRecipeStep_Size) % PAGESIZE_CLASSIC)
          (TRecipeInfo_Size + n * TRecipeStep_Size + TRecipeStep_Size - 1) n s) := by
  obtain ⟨h1, _, h3⟩ := NFC_LoadTRecipeStep_exact d store uidLength h hok hlen c a n w hcr hs
    (by omega) hn
  refine ⟨h1, h3, fun iData iData2 hb i s => ?_⟩
  exact loadStepBytes_buffer iData iData2 hb i _ _ _ n
    (by simp only [PAGESIZE_CLASSIC]; omega) s

theorem C30_load_one_step_exact_witness :
    (NFC_LoadTRecipeStep (idealTag [4, 1, 2, 3, 4, 5, 6] 7 (fun _ => 170)) sampleCard 2
      zeroStepsTag).1 = 0 :=
  (C30_load_one_step_exact (idealTag [4, 1, 2, 3, 4, 5, 6] 7 (fun _ => 170)) (fun m => m) 7
    (idealTag_readsStored _ 7 _) (idealTag_readsSucceed _ 7 _) (Or.inr rfl) sampleCard
    [1, 2, 3, 4, 5, 6, 7, 8, 9] 2 zeroStepsTag rfl rfl rfl (by decide)).1

/-! ### Verification on a tag whose reads succeed -/

theorem NFC_LoadTRecipeInfoStructure_ok {σ : Type} (d : Env σ) (store : σ → Nat → Nat)
    (uidLength : Nat) (h : ReadsStored d store uidLength) (hok : ReadsSucceed d)
    (hlen : uidLength = 4 ∨ uidLength = 7) (x : TCardInfo) (w : σ)
    (hx : x.sRecipeInfo.length = 16) :
    (NFC_LoadTRecipeInfoStructure d x w).1 = 0 ∧
    store (NFC_LoadTRecipeInfoStructure d x w).2.2 = store w ∧
    (NFC_LoadTRecipeInfoStructure d x w).2.1 =
      { x with sRecipeInfo := tagInfo uidLength (store w), TRecipeInfoLoaded := true } := by
  have hcode : (NFC_LoadTRecipeInfoStructure d x w).1 = 0 := by
    by_contra hne
    have hf := NFC_LoadTRecipeInfoStructure_fail d x w hne
    revert hne hf
    unfold NFC_LoadTRecipeInfoStructure
    have hpl := h.probe_len w
    have hpp := hok.probe w
    rcases hp : d.pn532_readPassiveTargetID w with ⟨_ | ⟨iuid, iuidLength⟩, w1⟩
    · rw [hp] at hpp; exact absurd rfl hpp
    rw [hp] at hpl
    have hl := hpl iuid iuidLength rfl
    subst hl
    dsimp only
    rcases hlen with h4 | h7
    · subst h4
      simp only [if_true, loadInfoClassic_eq]
      have hn := unitLoop_none (readUnitClassic d iuid 4) loadInfoBytes
        (readUnitClassic_succeeds d hok iuid 4)
        ((TRecipeInfo_Size - 1) / PAGESIZE_CLASSIC + 1) 0 x w1
      rcases hr : unitLoop (readUnitClassic d iuid 4) loadInfoBytes
        ((TRecipeInfo_Size - 1) / PAGESIZE_CLASSIC + 1) 0 x w1 with ⟨_ | code, c2, w2⟩
      · exact fun hne _ => hne rfl
      · rw [hr] at hn; simp at hn
    · subst h7
      simp only [show (7 : Nat) ≠ 4 by decide, if_false, if_true, loadInfoUltralight_eq]
      have hn := unitLoop_none (readUnitUltralight d) loadInfoBytes
        (readUnitUltralight_succeeds d hok)
        ((TRecipeInfo_Size - 1) / 16 + 1) 0 x w1
      rcases hr : unitLoop (readUnitUltralight d) loadInfoBytes
        ((TRecipeInfo_Size - 1) / 16 + 1) 0 x w1 with ⟨_ | code, c2, w2⟩
      · exact fun hne _ => hne rfl
      · rw [hr] at hn; simp at hn
  obtain ⟨h1, _, h3⟩ := NFC_LoadTRecipeInfoStructure_spec d store uidLength h hlen x w hx
  exact ⟨hcode, h1, h3 hcode⟩

theorem structOnTag_zero_iff (uidLength : Nat) (M : Nat → Nat) (c : TCardInfo) (x1 : TCardInfo)
    (hx1 : x1.sRecipeInfo = tagInfo uidLength M) :
    ((List.range TRecipeInfo_Size).any (fun j => infoByte c j != infoByte x1 j) = true) ↔
      ¬ structOnTag uidLength M c 0 := by
  simp only [structOnTag, if_true, List.any_eq_true, List.mem_range, bne_iff_ne, ne_eq,
    not_forall, TRecipeInfo_Size]
  constructor
  · rintro ⟨j, hj, hne⟩
    refine ⟨j, hj, fun heq => hne ?_⟩
    rw [← heq]
    simp only [infoByte, hx1, tagInfo]
    rw [getD_range_map _ _ _ hj]
  · rintro ⟨j, hj, hne⟩
    refine ⟨j, hj, fun heq => hne ?_⟩
    rw [heq]
    simp only [infoByte, hx1, tagInfo]
    rw [getD_range_map _ _ _ hj]

theorem structOnTag_step_iff (uidLength : Nat) (M : Nat → Nat) (c : TCardInfo) (x1 : TCardInfo)
    (i : Nat) (hi : i ≠ 0)
    (hx1 : ∀ j, j < 3 → stepByte x1 (3 * (i - 1) + j)
      = tagByte uidLength M (16 + (3 * (i - 1) + j))) :
    ((List.range TRecipeStep_Size).any
        (fun j => stepByte c (j + (i - 1) * TRecipeStep_Size)
          != stepByte x1 (j + (i - 1) * TRecipeStep_Size)) = true) ↔
      ¬ structOnTag uidLength M c i := by
  simp only [structOnTag, hi, if_false, List.any_eq_true, List.mem_range, bne_iff_ne, ne_eq,
    not_forall, TRecipeInfo_Size, TRecipeStep_Size]
  constructor
  · rintro ⟨j, hj, hne⟩
    refine ⟨j, hj, fun heq => hne ?_⟩
    have e1 : j + (i - 1) * 3 = 3 * (i - 1) + j := by omega
    rw [e1, ← heq, hx1 j hj]
  · rintro ⟨j, hj, hne⟩
    refine ⟨j, hj, fun heq => hne ?_⟩
    have e1 : j + (i - 1) * 3 = 3 * (i - 1) + j := by omega
    rw [e1] at heq
    rw [heq, hx1 j hj]

theorem checkStructs_full {σ : Type} (d : Env σ) (store : σ → Nat → Nat) (uidLength : Nat)
    (h : ReadsStored d store uidLength) (hok : ReadsSucceed d)
    (hlen : uidLength = 4 ∨ uidLength = 7) (c : TCardInfo) (e : Nat)
    (hec : e ≤ RecipeSteps c) (n : Nat) :
    ∀ i x w, i + n = e + 1 → x.sRecipeInfo.length = 16 →
      (0 < e → x.TRecipeStepArrayCreated = true ∧
        ∃ a, x.sRecipeStep = some a ∧ a.length = 3 * e) →
      (i ≠ 0 → e ≤ RecipeSteps x) →
      store (checkStructs d c n i x w).2 = store w ∧
      ((∀ k, i ≤ k → k ≤ e → structOnTag uidLength (store w) c k) →
        (checkStructs d c n i x w).1 = none) ∧
      ((∃ k, i ≤ k ∧ k ≤ e ∧ ¬ structOnTag uidLength (store w) c k) →
        (checkStructs d c n i x w).1 = some 1) := by
  induction n with
  | zero =>
    intro i x w hin _ _ _
    refine ⟨rfl, fun _ => rfl, ?_⟩
    rintro ⟨k, hk1, hk2, _⟩
    omega
  | succ n ih =>
    intro i x w hin hx16 hxa hxr
    rw [checkStructs]
    by_cases hi0 : i = 0
    · subst hi0
      rw [if_pos rfl]
      obtain ⟨g0, g1, g2⟩ := NFC_LoadTRecipeInfoStructure_ok d store uidLength h hok hlen x w hx16
      have hR := retry_first (fun Error => Error == 0) (NFC_LoadTRecipeInfoStructure d) id
        4 0 x w (by rw [g0]; rfl)
      rw [show MAXERRORREADING = 4 + 1 from rfl, hR]
      rcases hL : NFC_LoadTRecipeInfoStructure d x w with ⟨E, x1, w1⟩
      rw [hL] at g0 g1 g2
      dsimp only at g0 g1 g2
      subst g0
      dsimp only
      have hiff := structOnTag_zero_iff uidLength (store w) c x1 (by rw [g2])
      by_cases hany : (List.range TRecipeInfo_Size).any
          (fun j => infoByte c j != infoByte x1 j) = true
      · rw [if_pos hany]
        refine ⟨g1, fun hall => ?_, fun _ => rfl⟩
        exact absurd (hall 0 (le_refl _) (Nat.zero_le _)) (hiff.mp hany)
      · rw [if_neg hany]
        have h0 : structOnTag uidLength (store w) c 0 := by
          by_contra hne
          exact hany (hiff.mpr hne)
        have hrs : RecipeSteps x1 = RecipeSteps c := by
          simp only [structOnTag, if_true, TRecipeInfo_Size] at h0
          have := h0 7 (by omega)
          simp only [RecipeSteps, infoByte] at this ⊢
          rw [← this, g2]
          simp only [tagInfo]
          rw [getD_range_map _ _ _ (by decide)]
        obtain ⟨i1, i2, i3⟩ := ih (0 + 1) x1 w1 (by omega)
          (by rw [g2]; exact tagInfo_length _ _)
          (fun he => by rw [g2]; exact hxa he) (fun _ => by rw [hrs]; exact hec)
        rw [g1] at i2 i3
        refine ⟨i1.trans g1, fun hall => i2 (fun k hk1 hk2 => hall k (by omega) hk2), ?_⟩
        rintro ⟨k, hk1, hk2, hk3⟩
        by_cases hk0 : k = 0
        · subst hk0; exact absurd h0 hk3
        · exact i3 ⟨k, by omega, hk2, hk3⟩
    · rw [if_neg hi0]
      have he : 0 < e := by omega
      obtain ⟨hcr, a, ha1, ha2⟩ := hxa he
      obtain ⟨g0, g1, a2, g2, g3, g4⟩ := NFC_LoadTRecipeStep_exact d store uidLength h hok hlen
        x a (i - 1) w hcr ha1 (by omega) (by have := hxr hi0; omega)
      have hR := retry_first (fun Error => Error == 0)
        (fun x w => NFC_LoadTRecipeStep d x (i - 1) w) id 4 0 x w (by rw [g0]; rfl)
      rw [show MAXERRORREADING = 4 + 1 from rfl, hR]
      beta_reduce
      rcases hL : NFC_LoadTRecipeStep d x (i - 1) w with ⟨E, x1, w1⟩
      rw [hL] at g0 g1 g2
      dsimp only at g0 g1 g2
      subst g0
      dsimp only
      have hsb : ∀ j, j < 3 → stepByte x1 (3 * (i - 1) + j)
          = tagByte uidLength (store w) (16 + (3 * (i - 1) + j)) := by
        intro j hj
        rw [g2]
        simp only [stepByte]
        rw [g4, if_pos (by omega)]
      have hiff := structOnTag_step_iff uidLength (store w) c x1 i hi0 hsb
      by_cases hany : (List.range TRecipeStep_Size).any
          (fun j => stepByte c (j + (i - 1) * TRecipeStep_Size)
            != stepByte x1 (j + (i - 1) * TRecipeStep_Size)) = true
      · rw [if_pos hany]
        refine ⟨g1, fun hall => ?_, fun _ => rfl⟩
        exact absurd (hall i (le_refl _) (by omega)) (hiff.mp hany)
      · rw [if_neg hany]
        have h0 : structOnTag uidLength (store w) c i := by
          by_contra hne
          exact hany (hiff.mpr hne)
        have hrs : RecipeSteps x1 = RecipeSteps x := by rw [g2]; rfl
        obtain ⟨i1, i2, i3⟩ := ih (i + 1) x1 w1 (by omega)
          (by rw [g2]; exact hx16)
          (fun _ => by rw [g2]; exact ⟨hcr, a2, rfl, by omega⟩)
          (fun _ => by rw [hrs]; exact hxr hi0)
        rw [g1] at i2 i3
        refine ⟨i1.trans g1, fun hall => i2 (fun k hk1 hk2 => hall k (by omega) hk2), ?_⟩
        rintro ⟨k, hk1, hk2, hk3⟩
        by_cases hki : k = i
        · subst hki; exact absurd h0 hk3
        · exact i3 ⟨k, by omega, hk2, hk3⟩

theorem NFC_CheckStructArrayIsSame_full {σ : Type} (d : Env σ) (store : σ → Nat → Nat)
    (uidLength : Nat) (h : ReadsStored d store uidLength) (hok : ReadsSucceed d)
    (hmalloc : ∀ size w, (d.malloc size w).1 ≠ none)
    (hlen : uidLength = 4 ∨ uidLength = 7) (c : TCardInfo) (s e : Nat) (w : σ)
    (hse : s ≤ e) (he : e ≤ RecipeSteps c) (hsteps : RecipeSteps c < 256)
    (hl : c.TRecipeInfoLoaded = true) :
    store (NFC_CheckStructArrayIsSame d c s e w).2 = store w ∧
    ((∀ k, s ≤ k → k ≤ e → structOnTag uidLength (store w) c k) →
      (NFC_CheckStructArrayIsSame d c s e w).1 = 0) ∧
    ((∃ k, s ≤ k ∧ k ≤ e ∧ ¬ structOnTag uidLength (store w) c k) →
      (NFC_CheckStructArrayIsSame d c s e w).1 = 1) := by
  unfold NFC_CheckStructArrayIsSame
  rw [if_neg (by omega), if_neg (by omega)]
  dsimp only
  rw [if_neg (by simp [hl])]
  have he256 : e < 256 := by omega
  have hx16 : (setRecipeSteps { NFC_InitTCardInfo (uninitCard d w) with
      TRecipeInfoLoaded := true } e).sRecipeInfo.length = 16 := by
    simp [setRecipeSteps, setInfoByte, NFC_InitTCardInfo, uninitCard]
  have hxe : RecipeSteps (setRecipeSteps { NFC_InitTCardInfo (uninitCard d w) with
      TRecipeInfoLoaded := true } e) = e :=
    RecipeSteps_setRecipeSteps _ e he256
      (by simp [NFC_InitTCardInfo, uninitCard])
  generalize hx : setRecipeSteps { NFC_InitTCardInfo (uninitCard d w) with
      TRecipeInfoLoaded := true } e = x at hx16 hxe ⊢
  have hxl : x.TRecipeInfoLoaded = true := by rw [← hx]; rfl
  have hxc : x.TRecipeStepArrayCreated = false := by rw [← hx]; rfl
  have halloc : ∀ alloc : Nat × TCardInfo × σ,
      alloc = (if e > 0 then NFC_AllocTRecipeStepArray d x w else (0, x, w)) →
      alloc.1 = 0 ∧ store alloc.2.2 = store w ∧ alloc.2.1.sRecipeInfo.length = 16 ∧
        RecipeSteps alloc.2.1 = e ∧
        (0 < e → alloc.2.1.TRecipeStepArrayCreated = true ∧
          ∃ a, alloc.2.1.sRecipeStep = some a ∧ a.length = 3 * e) := by
    intro alloc ha
    by_cases he0 : e > 0
    · rw [if_pos he0] at ha
      unfold NFC_AllocTRecipeStepArray at ha
      simp only [hxl, hxc, Bool.not_true, Bool.false_eq_true, if_false] at ha
      have hms := h.malloc_store (TRecipeStep_Size * RecipeSteps x) w
      have hmm := hmalloc (TRecipeStep_Size * RecipeSteps x) w
      rcases hm : d.malloc (TRecipeStep_Size * RecipeSteps x) w with ⟨_ | g, w1⟩
      · rw [hm] at hmm; exact absurd rfl hmm
      · rw [hm] at ha hms
        rw [ha]
        exact ⟨rfl, hms, hx16, hxe, fun _ => ⟨rfl, _, rfl, by simp [hxe]⟩⟩
    · rw [if_neg he0] at ha
      rw [ha]
      exact ⟨rfl, rfl, hx16, hxe, fun h => absurd h he0⟩
  generalize hal : (if e > 0 then NFC_AllocTRecipeStepArray d x w else (0, x, w)) = alloc
  obtain ⟨g0, g1, g2, g3, g4⟩ := halloc alloc hal.symm
  rw [if_neg (by simp [g0])]
  obtain ⟨k1, k2, k3⟩ := checkStructs_full d store uidLength h hok hlen c e he (e + 1 - s) s
    alloc.2.1 alloc.2.2 (by omega) g2 g4 (fun _ => by rw [g3])
  rw [g1] at k1 k2 k3
  rcases hcs : checkStructs d c (e + 1 - s) s alloc.2.1 alloc.2.2 with ⟨_ | code, w1⟩
  · rw [hcs] at k1 k2 k3
    dsimp only at k1 k2 k3 ⊢
    refine ⟨k1, fun _ => rfl, fun hk => ?_⟩
    have := k3 hk
    simp at this
  · rw [hcs] at k1 k2 k3
    dsimp only at k1 k2 k3 ⊢
    refine ⟨k1, fun hall => ?_, fun hk => ?_⟩
    · have := k2 hall
      simp at this
    · have := k3 hk
      simp only [Option.some.injEq] at this
      exact this

/-! ### Write, verify, and load the steps again -/

theorem structOnTag_of_payload (uidLength : Nat) (M : Nat → Nat) (c1 : TCardInfo) (e : Nat)
    (he : e ≤ RecipeSteps c1)
    (hbytes : ∀ p, p < 16 + 3 * e → tagByte uidLength M p = payloadByte c1 p) :
    ∀ k, 0 ≤ k → k ≤ e → structOnTag uidLength M c1 k := by
  intro k _ hk
  unfold structOnTag
  split
  · intro j hj
    simp only [TRecipeInfo_Size] at hj
    rw [hbytes j (by omega), payloadByte_info c1 j hj]
  · rename_i hk0
    intro j hj
    simp only [TRecipeInfo_Size, TRecipeStep_Size] at hj ⊢
    rw [hbytes _ (by omega), payloadByte_step c1 _ (by omega)]

theorem NFC_WriteCheck_ideal_zero (uid : List Nat) (uidLength : Nat) (garbage : Nat → Nat)
    (hlen : uidLength = 4 ∨ uidLength = 7) (depth : Nat) (c : TCardInfo) (e : Nat)
    (m : Nat → Nat) (hN : RecipeSteps c < 256) (hl : c.TRecipeInfoLoaded = true)
    (he : e ≤ RecipeSteps c) :
    ∃ m1, NFC_WriteCheck (idealTag uid uidLength garbage) (depth + 1) c 0 e m =
        some (0, checkSumUpdated c, m1) ∧
      ∀ p, p < 16 + 3 * e → tagByte uidLength m1 p = payloadByte (checkSumUpdated c) p := by
  obtain ⟨m1, hw, hbytes⟩ :=
    NFC_WriteStructRange_ideal_zero uid uidLength garbage hlen depth c e m he hN
  refine ⟨m1, ?_, hbytes⟩
  have hsame := sameButCheckSum_checkSumUpdated c
  have hr1 : RecipeSteps (checkSumUpdated c) = RecipeSteps c := sameButCheckSum_recipeSteps hsame
  have hchk := NFC_CheckStructArrayIsSame_full (idealTag uid uidLength garbage) (fun m => m)
    uidLength (idealTag_readsStored uid uidLength garbage)
    (idealTag_readsSucceed uid uidLength garbage) (fun _ _ => by simp [idealTag]) hlen
    (checkSumUpdated c) 0 e m1 (Nat.zero_le _) (by rw [hr1]; exact he) (by rw [hr1]; exact hN)
    (by rw [hsame.2.2.2.1]; exact hl)
  obtain ⟨k1, k2, _⟩ := hchk
  have k0 := k2 (structOnTag_of_payload uidLength m1 (checkSumUpdated c) e
    (by rw [hr1]; exact he) hbytes)
  unfold NFC_WriteCheck
  rw [show MAXERRORREADING = 4 + 1 from rfl, writeCheckRounds]
  rw [retryOpt_first (fun Error => Error == 0)
    (fun c w => NFC_WriteStructRange (idealTag uid uidLength garbage) (depth + 1) c 0 e w)
    4 0 c m (0, checkSumUpdated c, m1) hw rfl]
  dsimp only
  rw [retry_first (fun Error => decide (Error ≤ 1))
    (fun c w =>
      ((NFC_CheckStructArrayIsSame (idealTag uid uidLength garbage) c 0 e w).1, c,
        (NFC_CheckStructArrayIsSame (idealTag uid uidLength garbage) c 0 e w).2))
    id 4 0 (checkSumUpdated c) m1 (by dsimp only; rw [k0]; rfl)]
  have k3 : (NFC_CheckStructArrayIsSame (idealTag uid uidLength garbage) (checkSumUpdated c)
      0 e m1).2 = m1 := k1
  rw [k0, k3]

/-- C12 (as amended): on an ideal tag (UID length 7, or 4) with any initial
contents, for a record with a 16-byte loaded header and a step array of
`RecipeSteps` entries and for `e ≤ RecipeSteps`: `NFC_WriteCheck(0, e)` returns 0,
and a subsequent `NFC_LoadTRecipeSteps` into an independent record with the same
header and a created array of `RecipeSteps` entries returns 0 and reproduces
the first `e` step entries; with `e = RecipeSteps` it reproduces the whole
array. -/
theorem C12_write_check_then_load_steps (uid : List Nat) (uidLength : Nat)
    (garbage : Nat → Nat) (hlen : uidLength = 4 ∨ uidLength = 7) (depth : Nat)
    (c dst : TCardInfo) (b a : List Nat) (e : Nat) (m : Nat → Nat)
    (hN : RecipeSteps c < 256) (hl : c.TRecipeInfoLoaded = true)
    (hs : c.sRecipeStep = some b) (hb : b.length = 3 * RecipeSteps c)
    (he : e ≤ RecipeSteps c)
    (hd1 : dst.sRecipeInfo = c.sRecipeInfo) (hd2 : dst.TRecipeStepArrayCreated = true)
    (hd3 : dst.sRecipeStep = some a) (hd4 : a.length = 3 * RecipeSteps c) :
    ∃ m1 a2, NFC_WriteCheck (idealTag uid uidLength garbage) (depth + 1) c 0 e m =
        some (0, checkSumUpdated c, m1) ∧
      NFC_LoadTRecipeSteps (idealTag uid uidLength garbage) dst m1 =
        (0, { dst with sRecipeStep := some a2, TRecipeStepLoaded := true }, m1) ∧
      a2.length = b.length ∧
      (∀ q, q < 3 * e → a2.getD q 0 = b.getD q 0) ∧
      (e = RecipeSteps c → a2 = b) := by
  obtain ⟨m1, hw, hbytes⟩ := NFC_WriteCheck_ideal_zero uid uidLength garbage hlen depth c e m
    hN hl he
  have hrd : RecipeSteps dst = RecipeSteps c := by simp only [RecipeSteps, infoByte, hd1]
  have hload := NFC_LoadTRecipeSteps_ideal uid uidLength garbage hlen dst a m1 hd2 hd3
    (by rw [hrd]; exact hd4)
  have hsame := sameButCheckSum_checkSumUpdated c
  have hr1 : RecipeSteps (checkSumUpdated c) = RecipeSteps c := sameButCheckSum_recipeSteps hsame
  have hq : ∀ q, q < 3 * e →
      (tagSteps uidLength m1 (RecipeSteps dst)).getD q 0 = b.getD q 0 := by
    intro q hq
    rw [tagSteps_getD uidLength m1 _ q (by rw [hrd]; omega), hbytes _ (by omega),
      payloadByte_step _ q (by rw [hr1]; omega)]
    simp only [stepByte, hsame.1, hs]
  refine ⟨m1, tagSteps uidLength m1 (RecipeSteps dst), hw, hload, ?_, hq, fun heq => ?_⟩
  · rw [tagSteps_length, hrd, hb]
  · apply list_ext_getD
    · rw [tagSteps_length, hrd, hb]
    · intro k hk
      rw [tagSteps_length, hrd] at hk
      exact hq k (by rw [heq]; exact hk)

theorem C12_write_check_then_load_steps_witness :
    ∃ m1 a2, NFC_WriteCheck (idealTag [4, 1, 2, 3, 4, 5, 6] 7 (fun _ => 170)) 2 sampleCard 0 3
        blankTag = some (0, checkSumUpdated sampleCard, m1) ∧
      NFC_LoadTRecipeSteps (idealTag [4, 1, 2, 3, 4, 5, 6] 7 (fun _ => 170)) sampleCardFresh m1 =
        (0, { sampleCardFresh with sRecipeStep := some a2, TRecipeStepLoaded := true }, m1) ∧
      a2.length = [1, 2, 3, 4, 5, 6, 7, 8, 9].length ∧
      (∀ q, q < 3 * 3 → a2.getD q 0 = [1, 2, 3, 4, 5, 6, 7, 8, 9].getD q 0) ∧
      (3 = RecipeSteps sampleCard → a2 = [1, 2, 3, 4, 5, 6, 7, 8, 9]) :=
  C12_write_check_then_load_steps [4, 1, 2, 3, 4, 5, 6] 7 (fun _ => 170) (Or.inr rfl) 1
    sampleCard sampleCardFresh [1, 2, 3, 4, 5, 6, 7, 8, 9]
    [170, 170, 170, 170, 170, 170, 170, 170, 170] 3 blankTag (by decide) rfl rfl rfl
    (by decide) rfl rfl rfl rfl

/-- C12 (as stated, refuted): on the ideal Mifare Ultralight tag that starts out
blank, `NFC_WriteCheck(0, 2)` on the sample record (3 steps, usage counter 10,
step bytes 1..9) returns 0, and `NFC_LoadTRecipeSteps` into an independent record
with the same header and a created three-entry array then returns 0 with the
steps `1, 2, 3`, `4, 5, 6` and `7, 8, 0`: the last byte of the third step was
never written. -/
theorem C12_counterexample_third_step_not_written :
    NFC_WriteCheck (idealTag [4, 1, 2, 3, 4, 5, 6] 7 (fun _ => 170)) 2 sampleCard 0 2
      blankTag = some sampleWriteCheckTwo ∧
    sampleWriteCheckTwo.1 = 0 ∧
    (NFC_LoadTRecipeSteps (idealTag [4, 1, 2, 3, 4, 5, 6] 7 (fun _ => 170)) sampleCardFresh
      sampleWriteCheckTwo.2.2).1 = 0 ∧
    (NFC_LoadTRecipeSteps (idealTag [4, 1, 2, 3, 4, 5, 6] 7 (fun _ => 170)) sampleCardFresh
      sampleWriteCheckTwo.2.2).2.1.sRecipeStep = some [1, 2, 3, 4, 5, 6, 7, 8, 0] ∧
    sampleCard.sRecipeStep = some [1, 2, 3, 4, 5, 6, 7, 8, 9] := by
  refine ⟨by rfl, by rfl, by rfl, by rfl, by rfl⟩

/-! ### A page that cannot be written -/

theorem pageStuck_keeps {σ : Type} (d : Env σ) (store : σ → Nat → Nat) (badPage : Nat)
    (hstuck : PageStuck d store badPage) (j : Nat) (hj : j < 4) (page : Nat) (data : List Nat)
    (w : σ) :
    store (d.pn532_mifareultralight_WritePage page data w).2 (4 * badPage + j)
      = store w (4 * badPage + j) := by
  by_cases hp : page = badPage
  · subst hp
    rw [hstuck.stores_nothing]
  · exact hstuck.others page data w j hp hj

theorem writeUnitsUltralight_keeps {σ : Type} (d : Env σ) (store : σ → Nat → Nat) (a : Nat)
    (hkeep : ∀ page data w, store (d.pn532_mifareultralight_WritePage page data w).2 a
      = store w a) (c : TCardInfo) (n : Nat) :
    ∀ i w, store (writeUnitsUltralight d c n i w) a = store w a := by
  induction n with
  | zero => intro i w; rfl
  | succ n ih =>
    intro i w
    rw [writeUnitsUltralight, ih, hkeep]

theorem writeRangeUnits_page_tag {σ : Type} (d : Env σ) (store : σ → Nat → Nat)
    (h : ReadsStored d store 7) (hok : ReadsSucceed d) (a : Nat)
    (hkeep : ∀ page data w, store (d.pn532_mifareultralight_WritePage page data w).2 a
      = store w a) (c : TCardInfo) (zacatek konec : Nat) (w : σ) :
    (writeRangeUnits d c zacatek konec w).1 = 0 ∧
    store (writeRangeUnits d c zacatek konec w).2 a = store w a := by
  have h1 := hok.probe w
  have h2 := h.probe_len w
  have h3 := h.probe_store w
  unfold writeRangeUnits
  revert h1 h2 h3
  rcases d.pn532_readPassiveTargetID w with ⟨_ | ⟨iuid, iuidLength⟩, w1⟩
  · intro h1; exact absurd rfl h1
  · intro _ h2 h3
    have h4 := h2 iuid iuidLength rfl
    subst h4
    dsimp only
    rw [if_neg (by decide), if_pos rfl]
    dsimp only at h3
    exact ⟨rfl, by rw [writeUnitsUltralight_keeps d store a hkeep, h3]⟩

theorem checkSumUpdated_of_current (c : TCardInfo) (hcs : NFC_GetCheckSum c = CheckSum c) :
    checkSumUpdated c = c := by
  unfold checkSumUpdated
  rw [if_neg (by simp [hcs])]

theorem checkSumUpdated_of_stale (c : TCardInfo) (hcs : NFC_GetCheckSum c ≠ CheckSum c) :
    checkSumUpdated c = setCheckSum c (NFC_GetCheckSum c) := by
  unfold checkSumUpdated
  rw [if_pos hcs]

theorem NFC_WriteStructRange_page_tag {σ : Type} (d : Env σ) (store : σ → Nat → Nat)
    (h : ReadsStored d store 7) (hok : ReadsSucceed d) (a : Nat)
    (hkeep : ∀ page data w, store (d.pn532_mifareultralight_WritePage page data w).2 a
      = store w a) (depth : Nat) (c : TCardInfo) (s e : Nat) (w : σ) (hse : s ≤ e)
    (he : e ≤ RecipeSteps c) (hc16 : c.sRecipeInfo.length = 16) :
    ∃ w1, NFC_WriteStructRange d (depth + 2) c s e w = some (0, checkSumUpdated c, w1) ∧
      store w1 a = store w a := by
  rcases Nat.eq_zero_or_pos s with hs0 | hpos
  · subst hs0
    rw [NFC_WriteStructRange_start_zero_eq d (depth + 1) c e w he]
    obtain ⟨g1, g2⟩ := writeRangeUnits_page_tag d store h hok a hkeep (checkSumUpdated c) 0
      (writeKonec 0 e) w
    exact ⟨_, by rw [g1], g2⟩
  · by_cases hcs : NFC_GetCheckSum c = CheckSum c
    · rw [NFC_WriteStructRange_current d (depth + 1) c s e w hse he hcs,
        checkSumUpdated_of_current c hcs]
      obtain ⟨g1, g2⟩ := writeRangeUnits_page_tag d store h hok a hkeep c (writeZacatek s)
        (writeKonec s e) w
      exact ⟨_, by rw [g1], g2⟩
    · have hcur : NFC_GetCheckSum (setCheckSum c (NFC_GetCheckSum c))
          = CheckSum (setCheckSum c (NFC_GetCheckSum c)) := by
        rw [CheckSum_setCheckSum c _ (NFC_GetCheckSum_lt c) hc16,
          NFC_GetCheckSum_congr c _ (sameButCheckSum_setCheckSum c _)]
      obtain ⟨g1, g2⟩ := writeRangeUnits_page_tag d store h hok a hkeep
        (setCheckSum c (NFC_GetCheckSum c)) (writeZacatek 0) (writeKonec 0 0) w
      have hnest := NFC_WriteStructRange_current d depth (setCheckSum c (NFC_GetCheckSum c))
        0 0 w (Nat.le_refl 0) (Nat.zero_le _) hcur
      rw [g1] at hnest
      have hretry := retryOpt_first (fun Error => Error == 0 || Error == 1)
        (fun c w => NFC_WriteStructRange d (depth + 1) c 0 0 w) 4 0
        (setCheckSum c (NFC_GetCheckSum c)) w _ hnest rfl
      rw [NFC_WriteStructRange_nested_eq d depth c s e w hpos hse he hcs _ hretry,
        checkSumUpdated_of_stale c hcs]
      dsimp only
      obtain ⟨g3, g4⟩ := writeRangeUnits_page_tag d store h hok a hkeep
        (setCheckSum c (NFC_GetCheckSum c)) (writeZacatek s) (writeKonec s e)
        (writeRangeUnits d (setCheckSum c (NFC_GetCheckSum c)) (writeZacatek 0)
          (writeKonec 0 0) w).2
      exact ⟨_, by rw [g3], by rw [g4, g2]⟩

theorem structOnTag_mismatch (M : Nat → Nat) (c : TCardInfo) (s e p : Nat) (hse : s ≤ e)
    (he : e ≤ RecipeSteps c) (hN : RecipeSteps c < 256) (hp1 : writeZacatek s ≤ p)
    (hp2 : p ≤ writeKonec s e) (hp4 : tagByte 7 M p ≠ payloadByte c p) :
    ∃ k, s ≤ k ∧ k ≤ e ∧ ¬ structOnTag 7 M c k := by
  rw [writeZacatek_eq] at hp1
  rw [writeKonec_eq s e hse (by omega)] at hp2
  by_cases hp : p < 16
  · have hs0 : s = 0 := by
      by_contra hne
      rw [if_neg hne] at hp1
      omega
    refine ⟨0, by omega, Nat.zero_le _, fun hon => ?_⟩
    unfold structOnTag at hon
    rw [if_pos rfl] at hon
    rw [payloadByte_info c p hp] at hp4
    exact hp4 (hon p hp)
  · have he0 : e ≠ 0 := by
      intro he0
      rw [if_pos he0] at hp2
      omega
    rw [if_neg he0] at hp2
    refine ⟨(p - 16) / 3 + 1, ?_, by omega, fun hon => ?_⟩
    · split at hp1 <;> omega
    · unfold structOnTag at hon
      rw [if_neg (by omega)] at hon
      have hj := hon ((p - 16) % 3) (Nat.mod_lt _ (by decide))
      simp only [TRecipeInfo_Size, TRecipeStep_Size, Nat.add_sub_cancel] at hj
      have hq : 3 * ((p - 16) / 3) + (p - 16) % 3 = p - 16 := Nat.div_add_mod _ _
      rw [hq, show 16 + (p - 16) = p by omega] at hj
      have hp5 : payloadByte c p = stepByte c (p - 16) := by
        have := payloadByte_step c (p - 16) (by omega)
        rwa [show 16 + (p - 16) = p by omega] at this
      exact hp4 (by rw [hj, hp5])

theorem writeCheckRounds_stuck_step {σ : Type} (d : Env σ) (store : σ → Nat → Nat)
    (h : ReadsStored d store 7) (hok : ReadsSucceed d)
    (hmalloc : ∀ size w, (d.malloc size w).1 ≠ none) (p : Nat)
    (hkeep : ∀ page data w,
      store (d.pn532_mifareultralight_WritePage page data w).2 (physAddr 7 p)
        = store w (physAddr 7 p))
    (depth : Nat) (s e : Nat) (hse : s ≤ e) (hp1 : writeZacatek s ≤ p)
    (hp2 : p ≤ writeKonec s e) (n : Nat) (x : TCardInfo) (w : σ)
    (he : e ≤ RecipeSteps x) (hN : RecipeSteps x < 256) (hl : x.TRecipeInfoLoaded = true)
    (hc16 : x.sRecipeInfo.length = 16)
    (hp4 : tagByte 7 (store w) p ≠ payloadByte (checkSumUpdated x) p) :
    ∃ w2, writeCheckRounds d (depth + 2) s e (n + 1) x w
        = writeCheckRounds d (depth + 2) s e n (checkSumUpdated x) w2 ∧
      tagByte 7 (store w2) p = tagByte 7 (store w) p := by
  obtain ⟨w1, hw1, hs1⟩ := NFC_WriteStructRange_page_tag d store h hok (physAddr 7 p) hkeep
    depth x s e w hse he hc16
  have hsame := sameButCheckSum_checkSumUpdated x
  have hr1 : RecipeSteps (checkSumUpdated x) = RecipeSteps x := sameButCheckSum_recipeSteps hsame
  obtain ⟨k1, _, k3⟩ := NFC_CheckStructArrayIsSame_full d store 7 h hok hmalloc (Or.inr rfl)
    (checkSumUpdated x) s e w1 hse (by rw [hr1]; exact he) (by rw [hr1]; exact hN)
    (by rw [hsame.2.2.2.1]; exact hl)
  have k0 := k3 (structOnTag_mismatch (store w1) (checkSumUpdated x) s e p hse
    (by rw [hr1]; exact he) (by rw [hr1]; exact hN) hp1 hp2
    (by unfold tagByte at hp4 ⊢; rw [hs1]; exact hp4))
  refine ⟨(NFC_CheckStructArrayIsSame d (checkSumUpdated x) s e w1).2, ?_, ?_⟩
  · rw [writeCheckRounds]
    rw [retryOpt_first (fun Error => Error == 0)
      (fun c w => NFC_WriteStructRange d (depth + 2) c s e w)
      4 0 x w (0, checkSumUpdated x, w1) hw1 rfl]
    dsimp only
    rw [retry_first (fun Error => decide (Error ≤ 1))
      (fun c w =>
        ((NFC_CheckStructArrayIsSame d c s e w).1, c, (NFC_CheckStructArrayIsSame d c s e w).2))
      id 4 0 (checkSumUpdated x) w1 (by dsimp only; rw [k0]; rfl)]
    rw [k0]
  · unfold tagByte
    rw [k1, hs1]

theorem writeCheckRounds_stuck {σ : Type} (d : Env σ) (store : σ → Nat → Nat)
    (h : ReadsStored d store 7) (hok : ReadsSucceed d)
    (hmalloc : ∀ size w, (d.malloc size w).1 ≠ none) (p : Nat)
    (hkeep : ∀ page data w,
      store (d.pn532_mifareultralight_WritePage page data w).2 (physAddr 7 p)
        = store w (physAddr 7 p))
    (depth : Nat) (s e : Nat) (hse : s ≤ e) (hp1 : writeZacatek s ≤ p)
    (hp2 : p ≤ writeKonec s e) (n : Nat) :
    ∀ (x : TCardInfo) (w : σ), e ≤ RecipeSteps x → RecipeSteps x < 256 →
      x.TRecipeInfoLoaded = true → x.sRecipeInfo.length = 16 →
      tagByte 7 (store w) p ≠ payloadByte (checkSumUpdated x) p →
      ∃ w2, writeCheckRounds d (depth + 2) s e (n + 1) x w = some (1, checkSumUpdated x, w2) := by
  induction n with
  | zero =>
    intro x w he hN hl hc16 hp4
    obtain ⟨w2, g1, _⟩ := writeCheckRounds_stuck_step d store h hok hmalloc p hkeep depth s e
      hse hp1 hp2 0 x w he hN hl hc16 hp4
    exact ⟨w2, by rw [g1, writeCheckRounds]⟩
  | succ n ih =>
    intro x w he hN hl hc16 hp4
    obtain ⟨w2, g1, g2⟩ := writeCheckRounds_stuck_step d store h hok hmalloc p hkeep depth s e
      hse hp1 hp2 (n + 1) x w he hN hl hc16 hp4
    have hsame := sameButCheckSum_checkSumUpdated x
    have hr1 : RecipeSteps (checkSumUpdated x) = RecipeSteps x :=
      sameButCheckSum_recipeSteps hsame
    have hidem := checkSumUpdated_idem x hc16
    obtain ⟨w3, g3⟩ := ih (checkSumUpdated x) w2 (by rw [hr1]; exact he)
      (by rw [hr1]; exact hN) (by rw [hsame.2.2.2.1]; exact hl)
      (by rw [hsame.2.2.2.2.2.2.1]; exact hc16) (by rw [hidem, g2]; exact hp4)
    rw [hidem] at g3
    exact ⟨w3, by rw [g1, g3]⟩

theorem stuckPageTag_readsStored (uid : List Nat) (garbage : Nat → Nat) (badPage : Nat) :
    ReadsStored (stuckPageTag uid 7 garbage badPage) (fun m => m) 7 :=
  ⟨(idealTag_readsStored uid 7 garbage).probe_len,
    (idealTag_readsStored uid 7 garbage).probe_store,
    (idealTag_readsStored uid 7 garbage).auth_store,
    (idealTag_readsStored uid 7 garbage).malloc_store,
    (idealTag_readsStored uid 7 garbage).readBlock_store,
    (idealTag_readsStored uid 7 garbage).readPage_store,
    (idealTag_readsStored uid 7 garbage).readBlock_data,
    (idealTag_readsStored uid 7 garbage).readPage_data⟩

theorem stuckPageTag_readsSucceed (uid : List Nat) (garbage : Nat → Nat) (badPage : Nat) :
    ReadsSucceed (stuckPageTag uid 7 garbage badPage) :=
  ⟨(idealTag_readsSucceed uid 7 garbage).probe, (idealTag_readsSucceed uid 7 garbage).auth,
    (idealTag_readsSucceed uid 7 garbage).readBlock,
    (idealTag_readsSucceed uid 7 garbage).readPage⟩

theorem stuckPageTag_pageStuck (uid : List Nat) (garbage : Nat → Nat) (badPage : Nat) :
    PageStuck (stuckPageTag uid 7 garbage badPage) (fun m => m) badPage where
  fails := by
    intro data w
    simp [stuckPageTag]
  stores_nothing := by
    intro data w
    simp [stuckPageTag]
  others := by
    intro page data w j hp hj
    simp only [stuckPageTag, if_neg hp, storeUnit, PAGESIZE_ULTRALIGHT] at hj ⊢
    rw [if_neg]
    intro hc
    rcases Nat.lt_or_gt_of_ne hp with hlt | hgt <;> omega

/-- C11: on a page-oriented tag (UID length 7) whose probe, reads and
allocations succeed and whose write primitive always reports failure and
stores nothing for the last page `writeKonec s e / 4 + 8` of the range, if some
byte of the range on that page differs on the tag from the byte the record
intends there, then `NFC_WriteCheck` over the valid range `s..e` runs through
all its rounds and returns 1, with the record's checksum field updated. -/
theorem C11_stuck_last_page_never_success {σ : Type} (d : Env σ) (store : σ → Nat → Nat)
    (h : ReadsStored d store 7) (hok : ReadsSucceed d)
    (hmalloc : ∀ size w, (d.malloc size w).1 ≠ none) (depth : Nat) (c : TCardInfo)
    (s e : Nat) (w : σ) (hse : s ≤ e) (he : e ≤ RecipeSteps c) (hN : RecipeSteps c < 256)
    (hl : c.TRecipeInfoLoaded = true) (hc16 : c.sRecipeInfo.length = 16)
    (hstuck : PageStuck d store (writeKonec s e / 4 + OFFSETDATA_ULTRALIGHT)) (p : Nat)
    (hp1 : writeZacatek s ≤ p) (hp2 : p ≤ writeKonec s e)
    (hp3 : p / 4 = writeKonec s e / 4)
    (hp4 : tagByte 7 (store w) p ≠ payloadByte (checkSumUpdated c) p) :
    ∃ w2, NFC_WriteCheck d (depth + 2) c s e w = some (1, checkSumUpdated c, w2) := by
  have haddr : physAddr 7 p = 4 * (writeKonec s e / 4 + OFFSETDATA_ULTRALIGHT) + p % 4 := by
    rw [physAddr_ultralight, ← hp3]
    simp only [OFFSETDATA_ULTRALIGHT]
    omega
  have hkeep : ∀ page data w,
      store (d.pn532_mifareultralight_WritePage page data w).2 (physAddr 7 p)
        = store w (physAddr 7 p) := by
    intro page data w
    rw [haddr]
    exact pageStuck_keeps d store _ hstuck (p % 4) (Nat.mod_lt _ (by decide)) page data w
  exact writeCheckRounds_stuck d store h hok hmalloc p hkeep depth s e hse hp1 hp2 4 c w he hN
    hl hc16 hp4

theorem C11_stuck_last_page_never_success_witness :
    ∃ w2, NFC_WriteCheck (stuckPageTag [4, 1, 2, 3, 4, 5, 6] 7 (fun _ => 170) 13) 2 sampleCard
      0 2 blankTag = some (1, checkSumUpdated sampleCard, w2) :=
  C11_stuck_last_page_never_success (stuckPageTag [4, 1, 2, 3, 4, 5, 6] 7 (fun _ => 170) 13)
    (fun m => m) (stuckPageTag_readsStored _ _ _) (stuckPageTag_readsSucceed _ _ _)
    (fun _ _ => by simp [stuckPageTag, idealTag]) 0 sampleCard 0 2 blankTag (by decide)
    (by decide) (by decide) rfl rfl (stuckPageTag_pageStuck _ _ _) 20 (by decide) (by decide)
    (by decide) (by decide)

/-! ### The record after a write -/

theorem retryOpt_fixed {σ : Type} (stop : Nat → Bool)
    (f : TCardInfo → σ → Option (Nat × TCardInfo × σ)) (c : TCardInfo) (P : Nat → Prop)
    (hf : ∀ w, ∃ code w1, f c w = some (code, c, w1) ∧ P code) (n : Nat) :
    ∀ Error w, P Error → ∃ code w1, retryOpt stop f n Error c w = some (code, c, w1) ∧ P code := by
  induction n with
  | zero => intro Error w hE; exact ⟨Error, w, rfl, hE⟩
  | succ n ih =>
    intro Error w _
    obtain ⟨code, w1, h1, h2⟩ := hf w
    rw [retryOpt, h1]
    dsimp only
    split
    · exact ⟨code, w1, rfl, h2⟩
    · exact ih code w1 h2

theorem NFC_GetCheckSum_setCheckSum (c : TCardInfo) (v : Nat) :
    NFC_GetCheckSum (setCheckSum c v) = NFC_GetCheckSum c :=
  NFC_GetCheckSum_congr c _ (sameButCheckSum_setCheckSum c v)

theorem NFC_WriteStructRange_valid_record {σ : Type} (d : Env σ) (depth : Nat) (c : TCardInfo)
    (s e : Nat) (w : σ) (hse : s ≤ e) (he : e ≤ RecipeSteps c)
    (hc16 : c.sRecipeInfo.length = 16) :
    ∃ code w1, NFC_WriteStructRange d (depth + 2) c s e w = some (code, checkSumUpdated c, w1) ∧
      (code = 0 ∨ code = 2 ∨ code = 3) := by
  rcases Nat.eq_zero_or_pos s with hs0 | hpos
  · subst hs0
    rw [NFC_WriteStructRange_start_zero_eq d (depth + 1) c e w he]
    exact ⟨_, _, rfl, writeRangeUnits_code d _ _ _ _⟩
  · by_cases hcs : NFC_GetCheckSum c = CheckSum c
    · rw [NFC_WriteStructRange_current d (depth + 1) c s e w hse he hcs,
        checkSumUpdated_of_current c hcs]
      exact ⟨_, _, rfl, writeRangeUnits_code d _ _ _ _⟩
    · have hcur : NFC_GetCheckSum (setCheckSum c (NFC_GetCheckSum c))
          = CheckSum (setCheckSum c (NFC_GetCheckSum c)) := by
        rw [CheckSum_setCheckSum c _ (NFC_GetCheckSum_lt c) hc16, NFC_GetCheckSum_setCheckSum]
      obtain ⟨code, w1, h1, _⟩ := retryOpt_fixed (fun Error => Error == 0 || Error == 1)
        (fun c w => NFC_WriteStructRange d (depth + 1) c 0 0 w)
        (setCheckSum c (NFC_GetCheckSum c)) (fun _ => True)
        (fun w => ⟨_, _, NFC_WriteStructRange_current d depth _ 0 0 w (Nat.le_refl 0)
          (Nat.zero_le _) hcur, trivial⟩) MAXERRORREADING 0 w trivial
      rw [NFC_WriteStructRange_nested_eq d depth c s e w hpos hse he hcs _ h1,
        checkSumUpdated_of_stale c hcs]
      exact ⟨_, _, rfl, writeRangeUnits_code d _ _ _ _⟩

theorem NFC_WriteStructRange_total {σ : Type} (d : Env σ) (depth : Nat) (c : TCardInfo)
    (s e : Nat) (w : σ) : ∃ r, NFC_WriteStructRange d (depth + 2) c s e w = some r := by
  by_cases h1 : s > e
  · exact ⟨_, NFC_WriteStructRange_inverted d (depth + 1) c s e w h1⟩
  · by_cases h2 : e > RecipeSteps c
    · exact ⟨_, NFC_WriteStructRange_out_of_range d (depth + 1) c s e w (by omega) h2⟩
    · obtain ⟨r, hr, _⟩ := NFC_WriteStructRange_valid_code d depth c s e w (by omega) (by omega)
      exact ⟨r, hr⟩

/-- C31: for every record (with its 16-byte header), every environment and
every range with `start ≤ end ≤ RecipeSteps`, `NFC_WriteStructRange` returns,
with result 0, 2 or 3, and the checksum field of the record it leaves equals
`NFC_GetCheckSum` of that record, which is `NFC_GetCheckSum` of the record
before the call. -/
theorem C31_checksum_field_current_after_write {σ : Type} (d : Env σ) (depth : Nat)
    (c : TCardInfo) (s e : Nat) (w : σ) (hse : s ≤ e) (he : e ≤ RecipeSteps c)
    (hc16 : c.sRecipeInfo.length = 16) :
    ∃ r, NFC_WriteStructRange d (depth + 2) c s e w = some r ∧
      (r.1 = 0 ∨ r.1 = 2 ∨ r.1 = 3) ∧
      CheckSum r.2.1 = NFC_GetCheckSum r.2.1 ∧
      NFC_GetCheckSum r.2.1 = NFC_GetCheckSum c := by
  obtain ⟨code, w1, h1, h2⟩ := NFC_WriteStructRange_valid_record d depth c s e w hse he hc16
  refine ⟨_, h1, h2, ?_, ?_⟩
  · dsimp only
    rw [CheckSum_checkSumUpdated c hc16,
      NFC_GetCheckSum_congr c _ (sameButCheckSum_checkSumUpdated c)]
  · exact NFC_GetCheckSum_congr c _ (sameButCheckSum_checkSumUpdated c)

theorem C31_checksum_field_current_after_write_witness :
    ∃ r, NFC_WriteStructRange (idealTag [4, 1, 2, 3, 4, 5, 6] 7 (fun _ => 170)) 2 sampleCard 1 3
        blankTag = some r ∧
      (r.1 = 0 ∨ r.1 = 2 ∨ r.1 = 3) ∧
      CheckSum r.2.1 = NFC_GetCheckSum r.2.1 ∧
      NFC_GetCheckSum r.2.1 = NFC_GetCheckSum sampleCard :=
  C31_checksum_field_current_after_write (idealTag [4, 1, 2, 3, 4, 5, 6] 7 (fun _ => 170)) 0
    sampleCard 1 3 blankTag (by decide) (by decide) rfl

/-! ### The address translation in closed form -/

/-- C34: for every index `i ≤ 190`, `NFC_GetMifareClassicIndex i` is
`i + 1 + (i + 1) / 3`; the block number before the conversion to the 8-bit
result is that same value, which is at most 254; and on that range the
translation is strictly increasing, so distinct logical units get distinct
blocks. -/
theorem C34_index_closed_form (i : Nat) (h : i ≤ 190) :
    NFC_GetMifareClassicIndex i = i + 1 + (i + 1) / 3 ∧
    (mifareClassicLoop i (1 + OFFSETDATA_CLASSIC) + SIZE_T - 1) % SIZE_T = i + 1 + (i + 1) / 3 ∧
    NFC_GetMifareClassicIndex i ≤ 254 ∧
    (∀ j, j ≤ 190 → i < j → NFC_GetMifareClassicIndex i < NFC_GetMifareClassicIndex j) ∧
    (∀ j, j ≤ 190 → i ≠ j → NFC_GetMifareClassicIndex i ≠ NFC_GetMifareClassicIndex j) := by
  have hc := NFC_GetMifareClassicIndex_closed i h
  refine ⟨hc, ?_, ?_, ?_, ?_⟩
  · rw [show 1 + OFFSETDATA_CLASSIC = 2 from rfl, mifareClassicLoop_closed i (by omega)]
    simp only [SIZE_T]
    omega
  · rw [hc]; omega
  · intro j hj hij
    rw [hc, NFC_GetMifareClassicIndex_closed j hj]
    omega
  · intro j hj hij heq
    exact hij (NFC_GetMifareClassicIndex_inj i j h hj heq)

theorem C34_index_closed_form_witness :
    NFC_GetMifareClassicIndex 190 = 190 + 1 + (190 + 1) / 3 ∧
    (mifareClassicLoop 190 (1 + OFFSETDATA_CLASSIC) + SIZE_T - 1) % SIZE_T
      = 190 + 1 + (190 + 1) / 3 ∧
    NFC_GetMifareClassicIndex 190 ≤ 254 ∧
    NFC_GetMifareClassicIndex 2 < NFC_GetMifareClassicIndex 3 ∧
    NFC_GetMifareClassicIndex 2 ≠ NFC_GetMifareClassicIndex 3 :=
  ⟨(C34_index_closed_form 190 (by decide)).1, (C34_index_closed_form 190 (by decide)).2.1,
    (C34_index_closed_form 190 (by decide)).2.2.1,
    (C34_index_closed_form 2 (by decide)).2.2.2.1 3 (by decide) (by decide),
    (C34_index_closed_form 2 (by decide)).2.2.2.2 3 (by decide) (by decide)⟩

/-! ### Termination of the write recursion -/

theorem retryOpt_logged {σ ε : Type} (stop : Nat → Bool) (mk : Nat → ε)
    (f : TCardInfo → σ → Option (Nat × TCardInfo × σ)) (P : Nat → Prop)
    (hP : ∀ c w r, f c w = some r → P r.1) (n : Nat) :
    ∀ Error c w l r, retryOpt stop f n Error c w = some r →
      ∃ codes : List Nat,
        retryOpt stop (loggedOpt mk f) n Error c (w, l)
          = some (r.1, r.2.1, r.2.2, l ++ codes.map mk) ∧
        codes.length ≤ n ∧ (0 < n → codes.getLast? = some r.1) ∧
        (∀ k, k + 1 < codes.length → stop (codes.getD k 0) = false) ∧
        (stop r.1 = false → codes.length = n) ∧ (∀ x, x ∈ codes → P x) := by
  induction n with
  | zero =>
    intro Error c w l r h
    simp only [retryOpt, Option.some.injEq] at h
    subst h
    exact ⟨[], by simp [retryOpt], Nat.le_refl 0, fun h => absurd h (by decide),
      fun k hk => absurd hk (by simp), fun _ => rfl, fun x hx => absurd hx (by simp)⟩
  | succ n ih =>
    intro Error c w l r h
    rw [retryOpt] at h
    rcases hf : f c w with _ | ⟨E1, c1, w1⟩
    · rw [hf] at h; simp at h
    rw [hf] at h
    dsimp only at h
    have hP1 : P E1 := hP c w _ hf
    have hlog : loggedOpt mk f c (w, l) = some (E1, c1, w1, l ++ [mk E1]) := by
      simp only [loggedOpt, hf]
    by_cases hs : stop E1 = true
    · rw [if_pos hs] at h
      simp only [Option.some.injEq] at h
      subst h
      refine ⟨[E1], ?_, by simp, fun _ => rfl, fun k hk => absurd hk (by simp),
        fun hn => ?_, fun x hx => ?_⟩
      · rw [retryOpt, hlog]
        dsimp only
        rw [if_pos hs]
        rfl
      · dsimp only at hn
        rw [hs] at hn
        exact absurd hn (by decide)
      · simp only [List.mem_singleton] at hx
        subst hx
        exact hP1
    · rw [if_neg hs] at h
      obtain ⟨codes, g1, g2, g3, g4, g5, g6⟩ := ih E1 c1 w1 (l ++ [mk E1]) r h
      refine ⟨E1 :: codes, ?_, by simp only [List.length_cons]; omega, fun _ => ?_,
        fun k hk => ?_, fun hn => ?_, fun x hx => ?_⟩
      · rw [retryOpt, hlog]
        dsimp only
        rw [if_neg hs, g1]
        simp
      · rcases Nat.eq_zero_or_pos n with hn0 | hnpos
        · subst hn0
          simp only [retryOpt, Option.some.injEq] at h
          subst h
          have hnil : codes = [] := List.length_eq_zero.mp (Nat.le_zero.mp g2)
          subst hnil
          rfl
        · have hl := g3 hnpos
          rcases codes with _ | ⟨x, xs⟩
          · simp at hl
          · rw [List.getLast?_cons_cons]
            exact hl
      · rcases k with _ | k
        · simpa using hs
        · simp only [List.length_cons] at hk
          simpa using g4 k (by omega)
      · simp only [List.length_cons]
        rw [g5 hn]
      · simp only [List.mem_cons] at hx
        rcases hx with hx | hx
        · subst hx; exact hP1
        · exact g6 x hx

theorem NFC_WriteStructRange_start_zero_depth {σ : Type} (d : Env σ) (depth : Nat)
    (c : TCardInfo) (e : Nat) (w : σ) :
    NFC_WriteStructRange d (depth + 1) c 0 e w = NFC_WriteStructRange d 1 c 0 e w := by
  simp only [NFC_WriteStructRange, ne_eq, not_true_eq_false, if_false]

theorem NFC_WriteStructRange_depth {σ : Type} (d : Env σ) (depth : Nat) (c : TCardInfo)
    (s e : Nat) (w : σ) :
    NFC_WriteStructRange d (depth + 2) c s e w = NFC_WriteStructRange d 2 c s e w := by
  have hA : (fun (c : TCardInfo) (w : σ) => NFC_WriteStructRange d (depth + 1) c 0 0 w)
      = (fun c w => NFC_WriteStructRange d 1 c 0 0 w) := by
    funext c w
    exact NFC_WriteStructRange_start_zero_depth d depth c 0 w
  rw [NFC_WriteStructRange, hA]
  rfl

theorem NFC_WriteStructRange_needs_depth {σ : Type} (d : Env σ) (c : TCardInfo) (s e : Nat)
    (w : σ) (hs : s ≠ 0) (hse : s ≤ e) (he : e ≤ RecipeSteps c)
    (hstale : NFC_GetCheckSum c ≠ CheckSum c) :
    NFC_WriteStructRange d 1 c s e w = none := by
  rw [NFC_WriteStructRange]
  rw [if_neg (by omega), if_neg (by omega)]
  simp only [hstale, hs, ne_eq, not_false_eq_true, if_true, retryOpt, NFC_WriteStructRange,
    Option.map_none']

theorem writeCheckRounds_total {σ : Type} (d : Env σ) (depth s e : Nat) (n : Nat) :
    ∀ c w, ∃ r, writeCheckRounds d (depth + 2) s e n c w = some r := by
  induction n with
  | zero => intro c w; exact ⟨_, rfl⟩
  | succ n ih =>
    intro c w
    rw [writeCheckRounds]
    obtain ⟨r, hr⟩ := retryOpt_isSome (fun Error => Error == 0)
      (fun c w => NFC_WriteStructRange d (depth + 2) c s e w)
      (fun c w => NFC_WriteStructRange_total d depth c s e w) MAXERRORREADING 0 c w
    rw [hr]
    split
    · rename_i heq; simp at heq
    · split
      · exact ⟨_, rfl⟩
      · exact ih _ _
      all_goals exact ⟨_, rfl⟩
    all_goals exact ⟨_, rfl⟩

theorem NFC_WriteStruct_total {σ : Type} (d : Env σ) (depth : Nat) (c : TCardInfo) (s : Nat)
    (w : σ) : ∃ r, NFC_WriteStruct d (depth + 2) c s w = some r := by
  unfold NFC_WriteStruct
  obtain ⟨r, hr⟩ := retryOpt_isSome (fun Error => Error == 0 || Error == 1)
    (fun c w => NFC_WriteStructRange d (depth + 2) c s s w)
    (fun c w => NFC_WriteStructRange_total d depth c s s w) MAXERRORREADING 0 c w
  rw [hr]
  split
  · rename_i heq; simp at heq
  all_goals exact ⟨_, rfl⟩

theorem NFC_WriteAllData_total {σ : Type} (d : Env σ) (depth : Nat) (c : TCardInfo)
    (w : σ) : ∃ r, NFC_WriteAllData d (depth + 1) c w = some r := by
  unfold NFC_WriteAllData
  obtain ⟨r, hr⟩ := retryOpt_isSome (fun Error => Error == 0)
    (fun c w => NFC_WriteStructRange d (depth + 1) c 0 (RecipeSteps c) w)
    (fun c w => NFC_WriteStructRange_start_zero d depth c (RecipeSteps c) w)
    MAXERRORREADING 0 c w
  rw [hr]
  split
  · rename_i heq; simp at heq
  all_goals exact ⟨_, rfl⟩

/-- C38: for every record, range and environment, `NFC_WriteStructRange`,
`NFC_WriteStruct`, `NFC_WriteAllData` and `NFC_WriteCheck` return, and the record
they leave is the given record except possibly for the two bytes of the
header's checksum field: the step array, the other header bytes, the UID, the
UID length and the three lifecycle flags are unchanged. -/
theorem C38_write_path_changes_checksum_only {σ : Type} (d : Env σ) (depth : Nat)
    (c : TCardInfo) (s e : Nat) (w : σ) :
    (∃ r, NFC_WriteStructRange d (depth + 2) c s e w = some r ∧ SameButCheckSum c r.2.1) ∧
    (∃ r, NFC_WriteStruct d (depth + 2) c s w = some r ∧ SameButCheckSum c r.2.1) ∧
    (∃ r, NFC_WriteAllData d (depth + 2) c w = some r ∧ SameButCheckSum c r.2.1) ∧
    (∃ r, NFC_WriteCheck d (depth + 2) c s e w = some r ∧ SameButCheckSum c r.2.1) := by
  obtain ⟨r1, h1⟩ := NFC_WriteStructRange_total d depth c s e w
  obtain ⟨r2, h2⟩ := NFC_WriteStruct_total d depth c s w
  obtain ⟨r3, h3⟩ := NFC_WriteAllData_total d (depth + 1) c w
  obtain ⟨r4, h4⟩ := writeCheckRounds_total d depth s e MAXERRORREADING c w
  exact ⟨⟨r1, h1, NFC_WriteStructRange_frame d _ c s e w r1 h1⟩,
    ⟨r2, h2, NFC_WriteStruct_frame d _ c s w r2 h2⟩,
    ⟨r3, h3, NFC_WriteAllData_frame d _ c w r3 h3⟩,
    ⟨r4, h4, NFC_WriteCheck_frame d _ c s e w r4 h4⟩⟩

/-- C39: the recursion of `NFC_WriteStructRange` through `NFC_WriteStruct` ends
for every input with nesting depth 2: a depth bound of 2 always gives a
result, and a larger bound gives the same one; a call with start 0 gives its
result with the bound 1, that is without a nested call; the nested
`NFC_WriteStruct(0)` makes at most 5 calls of `NFC_WriteStructRange(0, 0)`,
each within the bound 1; and a call with a valid range, start other than 0
and a stale checksum does make the nested call: the bound 1 is exhausted. -/
theorem C39_write_recursion_depth_two {σ : Type} (d : Env σ) (c : TCardInfo) (s e : Nat)
    (w : σ) :
    (∃ r, NFC_WriteStructRange d 2 c s e w = some r) ∧
    (∀ depth, NFC_WriteStructRange d (depth + 2) c s e w = NFC_WriteStructRange d 2 c s e w) ∧
    (∃ r, NFC_WriteStructRange d 1 c 0 e w = some r) ∧
    (∃ (r : Nat × TCardInfo × σ) (codes : List Nat) (R : Nat),
      retryOpt (fun Error => Error == 0 || Error == 1)
        (loggedOpt id (fun c w => NFC_WriteStructRange d 1 c 0 0 w)) MAXERRORREADING 0 c
        (w, []) = some (r.1, r.2.1, r.2.2, codes) ∧
      codes.length ≤ 5 ∧ NFC_WriteStruct d 1 c 0 w = some (R, r.2.1, r.2.2)) ∧
    (s ≠ 0 → s ≤ e → e ≤ RecipeSteps c → NFC_GetCheckSum c ≠ CheckSum c →
      NFC_WriteStructRange d 1 c s e w = none) := by
  refine ⟨NFC_WriteStructRange_total d 0 c s e w, fun depth => NFC_WriteStructRange_depth d depth
    c s e w, NFC_WriteStructRange_start_zero d 0 c e w, ?_,
    NFC_WriteStructRange_needs_depth d c s e w⟩
  obtain ⟨r, hr⟩ := retryOpt_isSome (fun Error => Error == 0 || Error == 1)
    (fun c w => NFC_WriteStructRange d 1 c 0 0 w)
    (fun c w => NFC_WriteStructRange_start_zero d 0 c 0 w) MAXERRORREADING 0 c w
  obtain ⟨codes, g1, g2, _⟩ := retryOpt_logged (fun Error => Error == 0 || Error == 1) id
    (fun c w => NFC_WriteStructRange d 1 c 0 0 w) (fun _ => True) (fun _ _ _ _ => trivial)
    MAXERRORREADING 0 c w [] r hr
  have hW : ∃ R, NFC_WriteStruct d 1 c 0 w = some (R, r.2.1, r.2.2) := by
    unfold NFC_WriteStruct
    rw [hr]
    obtain ⟨E, c1, w1⟩ := r
    split
    · rename_i heq; simp at heq
    all_goals
      rename_i heq
      simp only [Option.some.injEq, Prod.mk.injEq] at heq
      obtain ⟨_, q2, q3⟩ := heq
      subst q2 q3
      exact ⟨_, rfl⟩
  obtain ⟨R, hR⟩ := hW
  exact ⟨r, codes.map id, R, by simpa using g1, by simpa using g2, hR⟩

theorem C39_write_recursion_depth_two_witness :
    NFC_WriteStructRange heapOnly 1 sampleCard 1 3 () = none ∧
    ∃ r, NFC_WriteStructRange heapOnly 2 sampleCard 1 3 () = some r :=
  ⟨(C39_write_recursion_depth_two heapOnly sampleCard 1 3 ()).2.2.2.2 (by decide) (by decide)
      (by decide) (by decide),
    (C39_write_recursion_depth_two heapOnly sampleCard 1 3 ()).1⟩

/-! ### The attempts of `NFC_WriteAllData` -/

theorem getLast_getD (l : List Nat) (x : Nat) (h : l.getLast? = some x) :
    l ≠ [] ∧ l.getD (l.length - 1) 0 = x := by
  rcases l with _ | ⟨a, t⟩
  · simp at h
  · refine ⟨by simp, ?_⟩
    rw [List.getLast?_eq_getElem?] at h
    rw [List.getD_eq_getElem?_getD, h]
    rfl

theorem mem_getD (l : List Nat) (x : Nat) (h : x ∈ l) : ∃ k, k < l.length ∧ l.getD k 0 = x := by
  obtain ⟨k, hk, hx⟩ := List.getElem_of_mem h
  exact ⟨k, hk, by rw [List.getD_eq_getElem _ _ hk, hx]⟩

/-- C32: `NFC_WriteAllData` returns, and the result codes of the calls of
`NFC_WriteStructRange(0, RecipeSteps)` it makes, in order, are between 1 and 5
codes, each 0, 2 or 3, of which only the last can be 0; it returns 0 exactly
when one of those codes is 0, and otherwise it made 5 calls and returns the
code of the fifth, which is 2 or 3. -/
theorem C32_write_all_data_attempts {σ : Type} (d : Env σ) (depth : Nat) (c : TCardInfo)
    (w : σ) :
    ∃ (r : Nat × TCardInfo × σ) (codes : List Nat) (R : Nat),
      retryOpt (fun Error => Error == 0)
        (loggedOpt id (fun c w => NFC_WriteStructRange d (depth + 1) c 0 (RecipeSteps c) w))
        MAXERRORREADING 0 c (w, []) = some (r.1, r.2.1, r.2.2, codes) ∧
      NFC_WriteAllData d (depth + 1) c w = some (R, r.2.1, r.2.2) ∧
      1 ≤ codes.length ∧ codes.length ≤ 5 ∧
      (∀ k, k + 1 < codes.length → codes.getD k 0 ≠ 0) ∧
      codes.getLast? = some r.1 ∧
      (∀ x, x ∈ codes → x = 0 ∨ x = 2 ∨ x = 3) ∧
      (R = 0 ↔ 0 ∈ codes) ∧
      (R ≠ 0 → codes.length = 5 ∧ R = r.1 ∧ (R = 2 ∨ R = 3)) := by
  obtain ⟨r, hr⟩ := retryOpt_isSome (fun Error => Error == 0)
    (fun c w => NFC_WriteStructRange d (depth + 1) c 0 (RecipeSteps c) w)
    (fun c w => NFC_WriteStructRange_start_zero d depth c (RecipeSteps c) w)
    MAXERRORREADING 0 c w
  obtain ⟨codes, g1, g2, g3, g4, g5, g6⟩ := retryOpt_logged (fun Error => Error == 0) id
    (fun c w => NFC_WriteStructRange d (depth + 1) c 0 (RecipeSteps c) w)
    (fun x => x = 0 ∨ x = 2 ∨ x = 3)
    (fun c w r h => by
      simp only [NFC_WriteStructRange_start_zero_eq d depth c (RecipeSteps c) w (Nat.le_refl _),
        Option.some.injEq] at h
      subst h
      exact writeRangeUnits_code d _ _ _ _)
    MAXERRORREADING 0 c w [] r hr
  have hlast := g3 (by decide)
  obtain ⟨hne, hlastD⟩ := getLast_getD codes r.1 hlast
  have hmem : r.1 ∈ codes := by
    have hlt : codes.length - 1 < codes.length :=
      Nat.sub_lt (List.length_pos.mpr hne) (by decide)
    rw [← hlastD, List.getD_eq_getElem _ _ hlt]
    exact List.getElem_mem _
  have hcode := g6 r.1 hmem
  have hR : NFC_WriteAllData d (depth + 1) c w = some (r.1, r.2.1, r.2.2) := by
    unfold NFC_WriteAllData
    rw [hr]
    obtain ⟨E, c1, w1⟩ := r
    dsimp only at hcode ⊢
    rcases hcode with h | h | h <;> subst h <;> rfl
  have hpos : 1 ≤ codes.length := by
    rcases codes with _ | ⟨a, t⟩
    · exact absurd rfl hne
    · simp
  have hnz : ∀ k, k + 1 < codes.length → codes.getD k 0 ≠ 0 := by
    intro k hk h0
    have := g4 k hk
    rw [h0] at this
    exact absurd this (by decide)
  refine ⟨r, codes, r.1, by simpa using g1, hR, hpos, g2, hnz, hlast, g6, ⟨fun h0 => ?_,
    fun hin => ?_⟩, fun hne0 => ⟨g5 ?_, rfl, ?_⟩⟩
  · rw [← h0]; exact hmem
  · obtain ⟨k, hk, hx⟩ := mem_getD codes 0 hin
    by_cases hkl : k + 1 < codes.length
    · exact absurd hx (hnz k hkl)
    · have hk1 : k = codes.length - 1 := by omega
      rw [hk1, hlastD] at hx
      exact hx
  · simpa using hne0
  · rcases hcode with h | h | h
    · exact absurd h hne0
    · exact Or.inl h
    · exact Or.inr h

/-! ### The calls made by `NFC_WriteCheck` -/

theorem writeCheckRounds_eq_loop {σ : Type} (d : Env σ) (depth s e : Nat) (n : Nat) :
    ∀ c w, writeCheckRounds d depth s e n c w =
      writeCheckLoop (fun c w => NFC_WriteStructRange d depth c s e w)
        (fun c w => NFC_CheckStructArrayIsSame d c s e w) n c w := by
  induction n with
  | zero => intro c w; rfl
  | succ n ih =>
    intro c w
    rw [writeCheckRounds, writeCheckLoop]
    simp only [ih]

theorem retry_logged {σ ε : Type} (stop : Nat → Bool) (mk : Nat → ε)
    (f : TCardInfo → σ → Nat × σ) (n : Nat) :
    ∀ Error c w l, ∃ codes : List Nat,
      retry stop (fun c w => ((loggedCheck mk f c w).1, c, (loggedCheck mk f c w).2)) id n
          Error c (w, l) =
        ((retry stop (fun c w => ((f c w).1, c, (f c w).2)) id n Error c w).1,
          (retry stop (fun c w => ((f c w).1, c, (f c w).2)) id n Error c w).2.1,
          (retry stop (fun c w => ((f c w).1, c, (f c w).2)) id n Error c w).2.2,
          l ++ codes.map mk) ∧
      codes.length ≤ n := by
  induction n with
  | zero => intro Error c w l; exact ⟨[], by simp [retry], Nat.le_refl 0⟩
  | succ n ih =>
    intro Error c w l
    by_cases hs : stop (f c w).1 = true
    · refine ⟨[(f c w).1], ?_, by simp⟩
      simp only [retry, loggedCheck, hs, if_true, List.map_cons, List.map_nil]
    · obtain ⟨codes, g1, g2⟩ := ih (f c w).1 c (f c w).2 (l ++ [mk (f c w).1])
      refine ⟨(f c w).1 :: codes, ?_, by simp only [List.length_cons]; omega⟩
      rw [retry, retry]
      simp only [loggedCheck, hs, if_false, id]
      simp only [loggedCheck, id] at g1
      rw [g1]
      simp

theorem countP_write_map_write (codes : List Nat) :
    (codes.map WriteCheckCall.write).countP isWriteCall = codes.length := by
  induction codes with
  | nil => rfl
  | cons a t ih => simp [List.countP_cons, isWriteCall, ih]

theorem countP_check_map_write (codes : List Nat) :
    (codes.map WriteCheckCall.write).countP isCheckCall = 0 := by
  induction codes with
  | nil => rfl
  | cons a t ih => simp [List.countP_cons, isCheckCall, ih]

theorem countP_check_map_check (codes : List Nat) :
    (codes.map WriteCheckCall.check).countP isCheckCall = codes.length := by
  induction codes with
  | nil => rfl
  | cons a t ih => simp [List.countP_cons, isCheckCall, ih]

theorem countP_write_map_check (codes : List Nat) :
    (codes.map WriteCheckCall.check).countP isWriteCall = 0 := by
  induction codes with
  | nil => rfl
  | cons a t ih => simp [List.countP_cons, isWriteCall, ih]

theorem writeCheckLoop_logged {σ : Type} (write : TCardInfo → σ → Option (Nat × TCardInfo × σ))
    (check : TCardInfo → σ → Nat × σ) (n : Nat) :
    ∀ c w l r, writeCheckLoop write check n c w = some r →
      ∃ calls : List WriteCheckCall,
        writeCheckLoop (loggedOpt WriteCheckCall.write write)
          (loggedCheck WriteCheckCall.check check) n c (w, l)
            = some (r.1, r.2.1, r.2.2, l ++ calls) ∧
        calls.countP isWriteCall ≤ 5 * n ∧ calls.countP isCheckCall ≤ 5 * n := by
  induction n with
  | zero =>
    intro c w l r h
    simp only [writeCheckLoop, Option.some.injEq] at h
    subst h
    exact ⟨[], by simp [writeCheckLoop], by simp, by simp⟩
  | succ n ih =>
    intro c w l r h
    rw [writeCheckLoop] at h
    rcases hw : retryOpt (fun Error => Error == 0) write MAXERRORREADING 0 c w
      with _ | ⟨E, c1, w1⟩
    · rw [hw] at h; simp at h
    rw [hw] at h
    obtain ⟨codes, g1, g2, _⟩ := retryOpt_logged (fun Error => Error == 0)
      WriteCheckCall.write write (fun _ => True) (fun _ _ _ _ => trivial) MAXERRORREADING 0 c w
      l _ hw
    dsimp only at g1
    replace g2 : codes.length ≤ 5 := g2
    have hcw := countP_write_map_write codes
    have hcc := countP_check_map_write codes
    rw [writeCheckLoop, g1]
    rcases E with _ | _ | _ | _ | _ | E
    rotate_left
    · simp only [Option.some.injEq] at h; subst h
      exact ⟨_, rfl, by rw [hcw]; omega, by rw [hcc]; omega⟩
    · simp only [Option.some.injEq] at h; subst h
      exact ⟨_, rfl, by rw [hcw]; omega, by rw [hcc]; omega⟩
    · simp only [Option.some.injEq] at h; subst h
      exact ⟨_, rfl, by rw [hcw]; omega, by rw [hcc]; omega⟩
    · simp only [Option.some.injEq] at h; subst h
      exact ⟨_, rfl, by rw [hcw]; omega, by rw [hcc]; omega⟩
    · simp only [Option.some.injEq] at h; subst h
      exact ⟨_, rfl, by rw [hcw]; omega, by rw [hcc]; omega⟩
    dsimp only at h ⊢
    obtain ⟨codes2, k1, k2⟩ := retry_logged (fun Error => decide (Error ≤ 1))
      WriteCheckCall.check check MAXERRORREADING 0 c1 w1 (l ++ codes.map WriteCheckCall.write)
    replace k2 : codes2.length ≤ 5 := k2
    have hdw := countP_write_map_check codes2
    have hdc := countP_check_map_check codes2
    rw [k1]
    rcases hchk : retry (fun Error => decide (Error ≤ 1))
      (fun c w => ((check c w).1, c, (check c w).2)) id MAXERRORREADING 0 c1 w1
      with ⟨E2, c2, w2⟩
    rw [hchk] at h
    dsimp only
    rcases E2 with _ | _ | _ | _ | _ | _ | _ | E2
    · simp only [Option.some.injEq] at h; subst h
      exact ⟨codes.map WriteCheckCall.write ++ codes2.map WriteCheckCall.check,
        by simp, by rw [List.countP_append, hcw, hdw]; omega,
        by rw [List.countP_append, hcc, hdc]; omega⟩
    · obtain ⟨calls, i1, i2, i3⟩ := ih c2 w2
        (l ++ codes.map WriteCheckCall.write ++ codes2.map WriteCheckCall.check) r h
      refine ⟨codes.map WriteCheckCall.write ++ codes2.map WriteCheckCall.check ++ calls, ?_,
        ?_, ?_⟩
      · dsimp only
        rw [i1]
        simp
      · rw [List.countP_append, List.countP_append, hcw, hdw]; omega
      · rw [List.countP_append, List.countP_append, hcc, hdc]; omega
    all_goals
      simp only [Option.some.injEq] at h; subst h
      exact ⟨codes.map WriteCheckCall.write ++ codes2.map WriteCheckCall.check,
        by simp, by rw [List.countP_append, hcw, hdw]; omega,
        by rw [List.countP_append, hcc, hdc]; omega⟩

/-- C33: for every environment, record and range, `NFC_WriteCheck` returns, and
among the calls it makes itself there are at most 25 of `NFC_WriteStructRange`
and at most 25 of `NFC_CheckStructArrayIsSame`; and on the tag that answers only
every fifth probe and stores nothing, `NFC_WriteCheck(0, 0)` of the sample
record makes exactly 25 calls of `NFC_WriteStructRange`. -/
theorem C33_write_check_call_bounds :
    (∀ (σ : Type) (d : Env σ) (depth : Nat) (c : TCardInfo) (s e : Nat) (w : σ),
      ∃ (r : Nat × TCardInfo × σ) (calls : List WriteCheckCall),
        writeCheckLoop
          (loggedOpt WriteCheckCall.write (fun c w => NFC_WriteStructRange d (depth + 2) c s e w))
          (loggedCheck WriteCheckCall.check (fun c w => NFC_CheckStructArrayIsSame d c s e w))
          MAXERRORREADING c (w, []) = some (r.1, r.2.1, r.2.2, calls) ∧
        NFC_WriteCheck d (depth + 2) c s e w = some r ∧
        calls.countP isWriteCall ≤ 25 ∧ calls.countP isCheckCall ≤ 25) ∧
    (writeCheckLoop
      (loggedOpt WriteCheckCall.write (fun c w => NFC_WriteStructRange flakyTag 2 c 0 0 w))
      (loggedCheck WriteCheckCall.check (fun c w => NFC_CheckStructArrayIsSame flakyTag c 0 0 w))
      MAXERRORREADING sampleCard (0, [])).map (fun r => r.2.2.2.countP isWriteCall)
        = some 25 := by
  constructor
  · intro σ d depth c s e w
    obtain ⟨r, hr⟩ := writeCheckRounds_total d depth s e MAXERRORREADING c w
    have hr2 := hr
    rw [writeCheckRounds_eq_loop] at hr2
    obtain ⟨calls, g1, g2, g3⟩ := writeCheckLoop_logged _ _ MAXERRORREADING c w [] r hr2
    exact ⟨r, calls, by simpa using g1, hr, g2, g3⟩
  · decide

/-! ### The size of the checksum -/

theorem weights_sum_102 : (∑ i ∈ Finset.range 102, 255 * (i % 4 + 1)) = 64515 := by
  decide

theorem weights_sum_105 : (∑ i ∈ Finset.range 105, 255 * (i % 4 + 1)) = 66555 := by
  decide

theorem weighted_sum_le (f : Nat → Nat) (hf : ∀ j, f j ≤ 255) (N : Nat) (hN : N ≤ 102) :
    (∑ i ∈ Finset.range N, f i * (i % 4 + 1)) ≤ 64515 := by
  rw [← weights_sum_102]
  calc (∑ i ∈ Finset.range N, f i * (i % 4 + 1))
      ≤ ∑ i ∈ Finset.range N, 255 * (i % 4 + 1) :=
        Finset.sum_le_sum (fun i _ => Nat.mul_le_mul_right _ (hf i))
    _ ≤ ∑ i ∈ Finset.range 102, 255 * (i % 4 + 1) :=
        Finset.sum_le_sum_of_subset (Finset.range_subset.mpr hN)

theorem stepByte_sampleCard_le (j : Nat) : stepByte sampleCard j ≤ 255 := by
  show ([1, 2, 3, 4, 5, 6, 7, 8, 9] : List Nat).getD j 0 ≤ 255
  rcases Nat.lt_or_ge j 9 with h | h
  · interval_cases j <;> decide
  · rw [List.getD_eq_default _ _ h]
    decide

theorem stepByte_maxedCard (j : Nat) (hj : j < 105) : stepByte maxedCard j = 255 := by
  show (List.replicate 105 255).getD j 0 = 255
  rw [List.getD_eq_getElem _ _ (by rw [List.length_replicate]; exact hj)]
  exact List.getElem_replicate _ _

/-- C36: for a record with non-zero usage counter: with at most 34 steps and
step bytes of at most 255, the exact weighted sum of the step bytes is at most
65535 (indeed at most 64515) and `NFC_GetCheckSum` returns it; with 35 steps
whose bytes are all 0xFF the exact sum is 66555 and `NFC_GetCheckSum` returns
1019. -/
theorem C36_checksum_no_wrap_up_to_34_steps (c : TCardInfo) (hn : NumOfDrinks c ≠ 0) :
    (RecipeSteps c ≤ 34 → (∀ j, stepByte c j ≤ 255) →
      (∑ i ∈ Finset.range (TRecipeStep_Size * RecipeSteps c), stepByte c i * (i % 4 + 1))
        ≤ 65535 ∧
      NFC_GetCheckSum c =
        ∑ i ∈ Finset.range (TRecipeStep_Size * RecipeSteps c), stepByte c i * (i % 4 + 1)) ∧
    (RecipeSteps c = 35 → (∀ j, j < 105 → stepByte c j = 255) →
      (∑ i ∈ Finset.range (TRecipeStep_Size * RecipeSteps c), stepByte c i * (i % 4 + 1))
        = 66555 ∧
      NFC_GetCheckSum c = 1019) := by
  constructor
  · intro hs hb
    have hle := weighted_sum_le (stepByte c) hb (TRecipeStep_Size * RecipeSteps c)
      (by simp only [TRecipeStep_Size]; omega)
    refine ⟨by omega, ?_⟩
    rw [NFC_GetCheckSum_of_pos c hn]
    exact Nat.mod_eq_of_lt (by omega)
  · intro hs hb
    have hsum : (∑ i ∈ Finset.range (TRecipeStep_Size * RecipeSteps c),
        stepByte c i * (i % 4 + 1)) = 66555 := by
      rw [hs, show TRecipeStep_Size * 35 = 105 from rfl, ← weights_sum_105]
      exact Finset.sum_congr rfl (fun i hi => by rw [hb i (Finset.mem_range.mp hi)])
    refine ⟨hsum, ?_⟩
    rw [NFC_GetCheckSum_of_pos c hn, hsum]

theorem C36_checksum_no_wrap_up_to_34_steps_witness :
    ((∑ i ∈ Finset.range (TRecipeStep_Size * RecipeSteps sampleCard),
        stepByte sampleCard i * (i % 4 + 1)) ≤ 65535 ∧
      NFC_GetCheckSum sampleCard =
        ∑ i ∈ Finset.range (TRecipeStep_Size * RecipeSteps sampleCard),
          stepByte sampleCard i * (i % 4 + 1)) ∧
    ((∑ i ∈ Finset.range (TRecipeStep_Size * RecipeSteps maxedCard),
        stepByte maxedCard i * (i % 4 + 1)) = 66555 ∧
      NFC_GetCheckSum maxedCard = 1019) :=
  ⟨(C36_checksum_no_wrap_up_to_34_steps sampleCard (by decide)).1 (by decide)
      stepByte_sampleCard_le,
    (C36_checksum_no_wrap_up_to_34_steps maxedCard (by decide)).2 rfl stepByte_maxedCard⟩

/-! ### Growing the step array -/

theorem infoByte_setRecipeSteps (c : TCardInfo) (v j : Nat) (hj : j ≠ 7) :
    infoByte (setRecipeSteps c v) j = infoByte c j := by
  simp only [setRecipeSteps, setInfoByte, infoByte, getD_set_nat]
  rw [if_neg (by omega)]

theorem NumOfDrinks_setRecipeSteps (c : TCardInfo) (v : Nat) :
    NumOfDrinks (setRecipeSteps c v) = NumOfDrinks c := by
  simp only [NumOfDrinks, infoByte_setRecipeSteps c v 3 (by decide),
    infoByte_setRecipeSteps c v 4 (by decide), infoByte_setRecipeSteps c v 5 (by decide),
    infoByte_setRecipeSteps c v 6 (by decide)]

theorem sum_range_tail_zero (f : Nat → Nat) (M N : Nat) (h : M ≤ N)
    (hz : ∀ i, M ≤ i → i < N → f i = 0) :
    (∑ i ∈ Finset.range N, f i) = ∑ i ∈ Finset.range M, f i := by
  symm
  apply Finset.sum_subset (Finset.range_subset.mpr h)
  intro i hi hni
  simp only [Finset.mem_range] at hi hni
  exact hz i (by omega) hi

/-- C37: for a record with its header loaded and an allocated step array of
`m = RecipeSteps` entries, and a new size `n > m` (a `uint8_t`) for which
`malloc` succeeds, `NFC_ChangeRecipeStepsSize` returns 0 and `NFC_GetCheckSum` of
the record it leaves equals `NFC_GetCheckSum` of the record before. -/
theorem C37_growing_keeps_checksum {σ : Type} (d : Env σ) (c : TCardInfo)
    (b : List Nat) (n : Nat) (w w1 : σ) (g : Nat → Nat)
    (hloaded : c.TRecipeInfoLoaded = true) (hcreated : c.TRecipeStepArrayCreated = true)
    (hinfo : c.sRecipeInfo.length = 16)
    (hs : c.sRecipeStep = some b) (hb : b.length = 3 * RecipeSteps c)
    (hn : RecipeSteps c < n) (hn8 : n < 256)
    (hmalloc : d.malloc (TRecipeStep_Size * n) w = (some g, w1)) :
    (NFC_ChangeRecipeStepsSize d c n w).1 = 0 ∧
    RecipeSteps (NFC_ChangeRecipeStepsSize d c n w).2.1 = n ∧
    NFC_GetCheckSum (NFC_ChangeRecipeStepsSize d c n w).2.1 = NFC_GetCheckSum c := by
  have hne : n ≠ RecipeSteps c := by omega
  have hr : NFC_ChangeRecipeStepsSize d c n w =
      (0, setRecipeSteps
        { (NFC_DeAllocTRecipeStepArray c).2 with
          sRecipeStep := some (fillNoveRecepty c n ((List.range (TRecipeStep_Size * n)).map g))
          TRecipeStepArrayCreated := true
          TRecipeStepLoaded := true } n, w1) := by
    unfold NFC_ChangeRecipeStepsSize
    simp [hloaded, hcreated, hne, hmalloc]
  rw [hr]
  dsimp only
  generalize hx : ({ (NFC_DeAllocTRecipeStepArray c).2 with
      sRecipeStep := some (fillNoveRecepty c n ((List.range (TRecipeStep_Size * n)).map g))
      TRecipeStepArrayCreated := true
      TRecipeStepLoaded := true } : TCardInfo) = x
  have hxi : x.sRecipeInfo = c.sRecipeInfo := by
    rw [← hx]
    simp only [NFC_DeAllocTRecipeStepArray, hs]
  have hxs : x.sRecipeStep
      = some (fillNoveRecepty c n ((List.range (TRecipeStep_Size * n)).map g)) := by
    rw [← hx]
  have hRS : RecipeSteps (setRecipeSteps x n) = n :=
    RecipeSteps_setRecipeSteps x n hn8 (by rw [hxi]; exact hinfo)
  have hND : NumOfDrinks (setRecipeSteps x n) = NumOfDrinks c := by
    rw [NumOfDrinks_setRecipeSteps]
    simp only [NumOfDrinks, infoByte, hxi]
  have hlen0 : ((List.range (TRecipeStep_Size * n)).map g).length = 3 * n := by simp
  have hget := fillNoveRecepty_getD c n ((List.range (TRecipeStep_Size * n)).map g)
    (by omega)
  have hold : ∀ p, stepByte c p = b.getD p 0 := by intro p; simp [stepByte, hs]
  have hzero : ∀ p, 3 * RecipeSteps c ≤ p → stepByte c p = 0 := by
    intro p hp
    rw [hold, List.getD_eq_default _ _ (by omega)]
  have hnew : ∀ p, p < 3 * n → stepByte (setRecipeSteps x n) p = stepByte c p := by
    intro p hp
    have e1 : stepByte (setRecipeSteps x n) p
        = (fillNoveRecepty c n ((List.range (TRecipeStep_Size * n)).map g)).getD p 0 := by
      simp only [stepByte, setRecipeSteps, setInfoByte, hxs]
    rw [e1, hget, if_pos hp]
    split
    · rfl
    · rw [hzero p (by omega)]
  refine ⟨rfl, hRS, ?_⟩
  by_cases hd : NumOfDrinks c = 0
  · unfold NFC_GetCheckSum
    rw [if_pos hd, if_pos (by rw [hND]; exact hd)]
  · rw [NFC_GetCheckSum_of_pos c hd, NFC_GetCheckSum_of_pos _ (by rw [hND]; exact hd), hRS]
    congr 1
    simp only [TRecipeStep_Size]
    rw [Finset.sum_congr rfl (fun i hi => by rw [hnew i (Finset.mem_range.mp hi)])]
    exact sum_range_tail_zero (fun i => stepByte c i * (i % 4 + 1)) (3 * RecipeSteps c) (3 * n)
      (by omega) (fun i hi _ => by simp only [hzero i hi, Nat.zero_mul])

theorem C37_growing_keeps_checksum_witness :
    (NFC_ChangeRecipeStepsSize heapOnly sampleCard 5 ()).1 = 0 ∧
    RecipeSteps (NFC_ChangeRecipeStepsSize heapOnly sampleCard 5 ()).2.1 = 5 ∧
    NFC_GetCheckSum (NFC_ChangeRecipeStepsSize heapOnly sampleCard 5 ()).2.1
      = NFC_GetCheckSum sampleCard :=
  C37_growing_keeps_checksum heapOnly sampleCard [1, 2, 3, 4, 5, 6, 7, 8, 9] 5 () ()
    (fun _ => 170) rfl rfl rfl rfl (by decide) (by decide) (by decide) rfl

/-! ### Bounds of the physical indexes -/

theorem writeUnitsClassic_bounds {σ : Type} (d : Env σ) (I : σ → Prop)
    (hd : KeepsInBounds d I) (c : TCardInfo) (iuid : List Nat) (iuidLength : Nat) (n : Nat) :
    ∀ i w, (n = 0 ∨ i + n ≤ 49) → I w →
      I (writeUnitsClassic d c iuid iuidLength n i w).2 := by
  induction n with
  | zero => intro i w _ h; exact h
  | succ n ih =>
    intro i w hb h
    rw [writeUnitsClassic]
    have hi : i ≤ 48 := by omega
    have h1 := hd.auth iuid iuidLength i w hi h
    revert h1
    rcases d.pn532_mifareclassic_AuthenticateBlock iuid iuidLength
      (NFC_GetMifareClassicIndex i) w with ⟨_ | _, w1⟩
    · exact fun h1 => h1
    · exact fun h1 => ih _ _ (by omega) (hd.writeBlock i _ w1 hi h1)

theorem writeUnitsUltralight_bounds {σ : Type} (d : Env σ) (I : σ → Prop)
    (hd : KeepsInBounds d I) (c : TCardInfo) (n : Nat) :
    ∀ i w, (n = 0 ∨ i + n ≤ 196) → I w → I (writeUnitsUltralight d c n i w) := by
  induction n with
  | zero => intro i w _ h; exact h
  | succ n ih =>
    intro i w hb h
    rw [writeUnitsUltralight]
    exact ih _ _ (by omega)
      (hd.writePage _ _ w (by simp only [OFFSETDATA_ULTRALIGHT]; omega) h)

theorem writeRangeUnits_bounds {σ : Type} (d : Env σ) (I : σ → Prop)
    (hd : KeepsInBounds d I) (c : TCardInfo) (zacatek konec : Nat) (w : σ)
    (hk : konec ≤ 780) (h : I w) : I (writeRangeUnits d c zacatek konec w).2 := by
  unfold writeRangeUnits
  have h1 := hd.probe w h
  revert h1
  rcases d.pn532_readPassiveTargetID w with ⟨_ | ⟨iuid, iuidLength⟩, w1⟩
  · exact fun h1 => h1
  intro h1
  dsimp only at h1 ⊢
  split_ifs
  · have h2 := writeUnitsClassic_bounds d I hd c iuid iuidLength
      (konec / PAGESIZE_CLASSIC + 1 - zacatek / PAGESIZE_CLASSIC) (zacatek / PAGESIZE_CLASSIC)
      w1 (by simp only [PAGESIZE_CLASSIC]; omega) h1
    revert h2
    generalize writeUnitsClassic d c iuid iuidLength _ _ w1 = r
    rcases r with ⟨_ | code, w2⟩ <;> exact fun h2 => h2
  · exact writeUnitsUltralight_bounds d I hd c _ _ w1
      (by simp only [PAGESIZE_ULTRALIGHT]; omega) h1
  · exact h1

theorem retryOpt_inv {σ : Type} (stop : Nat → Bool)
    (f : TCardInfo → σ → Option (Nat × TCardInfo × σ)) (J : TCardInfo → σ → Prop)
    (hf : ∀ c w r, f c w = some r → J c w → J r.2.1 r.2.2) (n : Nat) :
    ∀ Error c w r, retryOpt stop f n Error c w = some r → J c w → J r.2.1 r.2.2 := by
  induction n with
  | zero =>
    intro Error c w r h hJ
    simp only [retryOpt, Option.some.injEq] at h
    subst h
    exact hJ
  | succ n ih =>
    intro Error c w r h hJ
    rw [retryOpt] at h
    rcases hfc : f c w with _ | ⟨e1, c1, w1⟩
    · rw [hfc] at h; simp at h
    · rw [hfc] at h
      have h1 := hf c w _ hfc hJ
      dsimp only at h
      split at h
      · simp only [Option.some.injEq] at h
        subst h
        exact h1
      · exact ih _ _ _ _ h h1

theorem NFC_WriteStructRange_bounds {σ : Type} (d : Env σ) (I : σ → Prop)
    (hd : KeepsInBounds d I) (depth : Nat) :
    ∀ c s e w r, NFC_WriteStructRange d depth c s e w = some r →
      (RecipeSteps c < 256 ∧ I w) → (RecipeSteps r.2.1 < 256 ∧ I r.2.2) := by
  induction depth with
  | zero => intro c s e w r h; simp [NFC_WriteStructRange] at h
  | succ depth ih =>
    intro c s e w r h hJ
    have hfr := NFC_WriteStructRange_frame d (depth + 1) c s e w r h
    have hrs : RecipeSteps r.2.1 < 256 := by
      rw [sameButCheckSum_recipeSteps hfr]; exact hJ.1
    refine ⟨hrs, ?_⟩
    rw [NFC_WriteStructRange] at h
    split at h
    · simp only [Option.some.injEq] at h; subst h; exact hJ.2
    rename_i hse
    split at h
    · simp only [Option.some.injEq] at h; subst h; exact hJ.2
    rename_i hrange
    have hk : writeKonec s e ≤ 780 := by
      rw [writeKonec_eq s e (by omega) (by omega)]
      split <;> omega
    dsimp only at h
    split at h
    · simp at h
    · rename_i c2 w2 heq
      simp only [Option.some.injEq] at h
      subst h
      dsimp only
      apply writeRangeUnits_bounds d I hd c2 _ _ w2 hk
      split at heq
      · split at heq
        · simp only [Option.map_eq_some'] at heq
          obtain ⟨r2, hr2, hr3⟩ := heq
          have hJ2 : RecipeSteps (setCheckSum c (NFC_GetCheckSum c)) < 256 ∧ I w := by
            refine ⟨?_, hJ.2⟩
            rw [sameButCheckSum_recipeSteps (sameButCheckSum_setCheckSum c _)]
            exact hJ.1
          have := retryOpt_inv (fun Error => Error == 0 || Error == 1)
            (fun c w => NFC_WriteStructRange d depth c 0 0 w)
            (fun c w => RecipeSteps c < 256 ∧ I w)
            (fun c w r h => ih c 0 0 w r h) MAXERRORREADING 0 _ _ _ hr2 hJ2
          rw [hr3] at this
          exact this.2
        · simp only [Option.some.injEq, Prod.mk.injEq] at heq
          rw [← heq.2]
          exact hJ.2
      · simp only [Option.some.injEq, Prod.mk.injEq] at heq
        rw [← heq.2]
        exact hJ.2

theorem unitLoop_bounds {σ α : Type} (read : Nat → σ → Except Nat (List Nat) × σ)
    (copy : List Nat → Nat → α → α) (I : σ → Prop) (n : Nat) :
    ∀ i s w, (∀ k w, i ≤ k → k < i + n → I w → I (read k w).2) → I w →
      I (unitLoop read copy n i s w).2.2 := by
  induction n with
  | zero => intro i s w _ h; exact h
  | succ n ih =>
    intro i s w hr h
    rw [unitLoop]
    have h1 := hr i w (Nat.le_refl i) (by omega) h
    revert h1
    rcases read i w with ⟨_ | iData, w1⟩
    · exact fun h1 => h1
    · exact fun h1 => ih _ _ _ (fun k w hk1 hk2 hw => hr k w (by omega) (by omega) hw) h1

theorem readUnitClassic_bounds {σ : Type} (d : Env σ) (I : σ → Prop) (hd : KeepsInBounds d I)
    (iuid : List Nat) (iuidLength : Nat) (i : Nat) (w : σ) (hi : i ≤ 48) (h : I w) :
    I (readUnitClassic d iuid iuidLength i w).2 := by
  unfold readUnitClassic
  have h1 := hd.auth iuid iuidLength i w hi h
  revert h1
  rcases d.pn532_mifareclassic_AuthenticateBlock iuid iuidLength
    (NFC_GetMifareClassicIndex i) w with ⟨_ | _, w1⟩
  · exact fun h1 => h1
  · intro h1
    dsimp only at h1 ⊢
    have h2 := hd.readBlock i w1 hi h1
    revert h2
    rcases d.pn532_mifareclassic_ReadDataBlock (NFC_GetMifareClassicIndex i) w1
      with ⟨_ | iData, w2⟩ <;> exact fun h2 => h2

theorem readUnitUltralight_bounds {σ : Type} (d : Env σ) (I : σ → Prop)
    (hd : KeepsInBounds d I) (i : Nat) (w : σ) (hi : i ≤ 48) (h : I w) :
    I (readUnitUltralight d i w).2 := by
  unfold readUnitUltralight
  have h1 := hd.readPage (i * 4 + OFFSETDATA_ULTRALIGHT) w
    (by simp only [OFFSETDATA_ULTRALIGHT]; omega) h
  revert h1
  rcases d.pn532_mifareultralight_ReadPage (i * 4 + OFFSETDATA_ULTRALIGHT) w
    with ⟨_ | iData, w1⟩ <;> exact fun h1 => h1

theorem NFC_LoadTRecipeInfoStructure_bounds {σ : Type} (d : Env σ) (I : σ → Prop)
    (hd : KeepsInBounds d I) (c : TCardInfo) (w : σ) (h : I w) :
    I (NFC_LoadTRecipeInfoStructure d c w).2.2 := by
  unfold NFC_LoadTRecipeInfoStructure
  have h1 := hd.probe w h
  revert h1
  rcases d.pn532_readPassiveTargetID w with ⟨_ | ⟨iuid, iuidLength⟩, w1⟩
  · exact fun h1 => h1
  intro h1
  dsimp only at h1 ⊢
  split_ifs
  · rw [loadInfoClassic_eq]
    have h2 := unitLoop_bounds (readUnitClassic d iuid iuidLength) loadInfoBytes I
      ((TRecipeInfo_Size - 1) / PAGESIZE_CLASSIC + 1) 0 c w1
      (fun k w _ hk hw => readUnitClassic_bounds d I hd iuid iuidLength k w
        (by simp only [TRecipeInfo_Size, PAGESIZE_CLASSIC] at hk; omega) hw) h1
    revert h2
    generalize unitLoop _ _ _ _ c w1 = r
    rcases r with ⟨_ | code, c2, w2⟩ <;> exact fun h2 => h2
  · rw [loadInfoUltralight_eq]
    have h2 := unitLoop_bounds (readUnitUltralight d) loadInfoBytes I
      ((TRecipeInfo_Size - 1) / 16 + 1) 0 c w1
      (fun k w _ hk hw => readUnitUltralight_bounds d I hd k w
        (by simp only [TRecipeInfo_Size] at hk; omega) hw) h1
    revert h2
    generalize unitLoop _ _ _ _ c w1 = r
    rcases r with ⟨_ | code, c2, w2⟩ <;> exact fun h2 => h2
  · exact h1

theorem NFC_LoadTRecipeSteps_bounds {σ : Type} (d : Env σ) (I : σ → Prop)
    (hd : KeepsInBounds d I) (c : TCardInfo) (w : σ) (hN : RecipeSteps c < 256) (h : I w) :
    I (NFC_LoadTRecipeSteps d c w).2.2 := by
  unfold NFC_LoadTRecipeSteps
  split
  · exact h
  have h1 := hd.probe w h
  revert h1
  rcases d.pn532_readPassiveTargetID w with ⟨_ | ⟨iuid, iuidLength⟩, w1⟩
  · exact fun h1 => h1
  intro h1
  dsimp only at h1 ⊢
  split_ifs
  · rw [loadStepsClassic_eq]
    have h2 := unitLoop_bounds (readUnitClassic d iuid iuidLength)
      (fun iData i c => loadStepsBytes iData i (TRecipeInfo_Size / PAGESIZE_CLASSIC)
        (TRecipeInfo_Size % PAGESIZE_CLASSIC) c) I
      ((TRecipeInfo_Size + RecipeSteps c * TRecipeStep_Size - 1) / PAGESIZE_CLASSIC + 1
        - TRecipeInfo_Size / PAGESIZE_CLASSIC) (TRecipeInfo_Size / PAGESIZE_CLASSIC) c w1
      (fun k w _ hk hw => readUnitClassic_bounds d I hd iuid iuidLength k w
        (by simp only [TRecipeInfo_Size, PAGESIZE_CLASSIC, TRecipeStep_Size] at hk; omega) hw) h1
    revert h2
    generalize unitLoop _ _ _ _ c w1 = r
    rcases r with ⟨_ | code, c2, w2⟩ <;> exact fun h2 => h2
  · rw [loadStepsUltralight_eq]
    have h2 := unitLoop_bounds (readUnitUltralight d)
      (fun iData i c => loadStepsBytes iData i (TRecipeInfo_Size / PAGESIZE_CLASSIC)
        (TRecipeInfo_Size % PAGESIZE_CLASSIC) c) I
      ((TRecipeInfo_Size + RecipeSteps c * TRecipeStep_Size - 1) / PAGESIZE_CLASSIC + 1
        - TRecipeInfo_Size / PAGESIZE_CLASSIC) (TRecipeInfo_Size / PAGESIZE_CLASSIC) c w1
      (fun k w _ hk hw => readUnitUltralight_bounds d I hd k w
        (by simp only [TRecipeInfo_Size, PAGESIZE_CLASSIC, TRecipeStep_Size] at hk; omega) hw) h1
    revert h2
    generalize unitLoop _ _ _ _ c w1 = r
    rcases r with ⟨_ | code, c2, w2⟩ <;> exact fun h2 => h2
  · exact h1

theorem NFC_LoadTRecipeStep_bounds {σ : Type} (d : Env σ) (I : σ → Prop)
    (hd : KeepsInBounds d I) (c : TCardInfo) (NumOfStructure : Nat) (w : σ)
    (hN : RecipeSteps c < 256) (h : I w) :
    I (NFC_LoadTRecipeStep d c NumOfStructure w).2.2 := by
  unfold NFC_LoadTRecipeStep
  split
  · exact h
  split
  · exact h
  rename_i hlt
  have h1 := hd.probe w h
  revert h1
  rcases d.pn532_readPassiveTargetID w with ⟨_ | ⟨iuid, iuidLength⟩, w1⟩
  · exact fun h1 => h1
  intro h1
  dsimp only at h1 ⊢
  split_ifs
  · rw [loadStepClassic_eq]
    have h2 := unitLoop_bounds (readUnitClassic d iuid iuidLength)
      (fun iData i s => loadStepBytes iData i
        ((TRecipeInfo_Size + NumOfStructure * TRecipeStep_Size) / PAGESIZE_CLASSIC)
        ((TRecipeInfo_Size + NumOfStructure * TRecipeStep_Size) % PAGESIZE_CLASSIC)
        (TRecipeInfo_Size + NumOfStructure * TRecipeStep_Size + TRecipeStep_Size - 1)
        NumOfStructure s) I
      ((TRecipeInfo_Size + NumOfStructure * TRecipeStep_Size + TRecipeStep_Size - 1)
          / PAGESIZE_CLASSIC + 1
        - (TRecipeInfo_Size + NumOfStructure * TRecipeStep_Size) / PAGESIZE_CLASSIC)
      ((TRecipeInfo_Size + NumOfStructure * TRecipeStep_Size) / PAGESIZE_CLASSIC) (c, 0) w1
      (fun k w _ hk hw => readUnitClassic_bounds d I hd iuid iuidLength k w
        (by simp only [TRecipeInfo_Size, PAGESIZE_CLASSIC, TRecipeStep_Size] at hk; omega) hw) h1
    revert h2
    generalize unitLoop _ _ _ _ (c, 0) w1 = r
    rcases r with ⟨_ | code, c2, w2⟩ <;> exact fun h2 => h2
  · rw [loadStepUltralight_eq]
    have h2 := unitLoop_bounds (readUnitUltralight d)
      (fun iData i s => loadStepBytes iData i
        ((TRecipeInfo_Size + NumOfStructure * TRecipeStep_Size) / PAGESIZE_CLASSIC)
        ((TRecipeInfo_Size + NumOfStructure * TRecipeStep_Size) % PAGESIZE_CLASSIC)
        (TRecipeInfo_Size + NumOfStructure * TRecipeStep_Size + TRecipeStep_Size - 1)
        NumOfStructure s) I
      ((TRecipeInfo_Size + NumOfStructure * TRecipeStep_Size + TRecipeStep_Size - 1)
          / PAGESIZE_CLASSIC + 1
        - (TRecipeInfo_Size + NumOfStructure * TRecipeStep_Size) / PAGESIZE_CLASSIC)
      ((TRecipeInfo_Size + NumOfStructure * TRecipeStep_Size) / PAGESIZE_CLASSIC) (c, 0) w1
      (fun k w _ hk hw => readUnitUltralight_bounds d I hd k w
        (by simp only [TRecipeInfo_Size, PAGESIZE_CLASSIC, TRecipeStep_Size] at hk; omega) hw) h1
    revert h2
    generalize unitLoop _ _ _ _ (c, 0) w1 = r
    rcases r with ⟨_ | code, c2, w2⟩ <;> exact fun h2 => h2
  · exact h1

theorem isUnitBlock_index (i : Nat) (hi : i ≤ 48) :
    isUnitBlock (NFC_GetMifareClassicIndex i) = true ∧ NFC_GetMifareClassicIndex i ≤ 65 := by
  constructor
  · unfold isUnitBlock
    rw [List.any_eq_true]
    exact ⟨i, List.mem_range.mpr (by omega), by simp⟩
  · rw [NFC_GetMifareClassicIndex_closed i (by omega)]
    omega

theorem traced_keepsInBounds {σ : Type} (d : Env σ) :
    KeepsInBounds (traced d) (fun w => ∀ p, p ∈ w.2 → callInBounds p = true) where
  probe := by
    intro w h p hp
    simp only [traced, List.mem_append, List.mem_singleton] at hp
    rcases hp with hp | hp
    · exact h p hp
    · subst hp; rfl
  auth := by
    intro iuid iuidLength i w hi h p hp
    simp only [traced, List.mem_append, List.mem_singleton] at hp
    rcases hp with hp | hp
    · exact h p hp
    · subst hp
      simp [callInBounds, isUnitBlock_index i hi]
  readBlock := by
    intro i w hi h p hp
    simp only [traced, List.mem_append, List.mem_singleton] at hp
    rcases hp with hp | hp
    · exact h p hp
    · subst hp
      simp [callInBounds, isUnitBlock_index i hi]
  writeBlock := by
    intro i data w hi h p hp
    simp only [traced, List.mem_append, List.mem_singleton] at hp
    rcases hp with hp | hp
    · exact h p hp
    · subst hp
      simp [callInBounds, isUnitBlock_index i hi]
  readPage := by
    intro page w hi h p hp
    simp only [traced, List.mem_append, List.mem_singleton] at hp
    rcases hp with hp | hp
    · exact h p hp
    · subst hp
      simp [callInBounds, hi]
  writePage := by
    intro page data w hi h p hp
    simp only [traced, List.mem_append, List.mem_singleton] at hp
    rcases hp with hp | hp
    · exact h p hp
    · subst hp
      simp [callInBounds, hi]

/-- C35: for every record with `RecipeSteps ≤ 255` and every environment: for
a valid range the last logical 16-byte unit of the write is at most 48 and
its last page at most 203; the block number of a unit of at most 48 is at
most 65 before its conversion to 8 bits, which leaves it as it is; and every
primitive call made by `NFC_WriteStructRange` (which returns),
`NFC_LoadTRecipeInfoStructure`, `NFC_LoadTRecipeSteps` and `NFC_LoadTRecipeStep`
addresses a block that is the translation of a unit of at most 48 and is at
most 65, or a page of at most 203. -/
theorem C35_physical_indexes_in_bounds {σ : Type} (d : Env σ) (c : TCardInfo) (w : σ)
    (hN : RecipeSteps c < 256) :
    (∀ s e, s ≤ e → e ≤ RecipeSteps c →
      writeKonec s e / PAGESIZE_CLASSIC ≤ 48 ∧
      writeKonec s e / PAGESIZE_ULTRALIGHT + OFFSETDATA_ULTRALIGHT ≤ 203) ∧
    (∀ i, i ≤ 48 →
      (mifareClassicLoop i (1 + OFFSETDATA_CLASSIC) + SIZE_T - 1) % SIZE_T ≤ 65 ∧
      NFC_GetMifareClassicIndex i
        = (mifareClassicLoop i (1 + OFFSETDATA_CLASSIC) + SIZE_T - 1) % SIZE_T) ∧
    (∀ depth s e, ∃ r, NFC_WriteStructRange (traced d) (depth + 2) c s e (w, []) = some r ∧
      ∀ p, p ∈ r.2.2.2 → callInBounds p = true) ∧
    (∀ p, p ∈ (NFC_LoadTRecipeInfoStructure (traced d) c (w, [])).2.2.2 →
      callInBounds p = true) ∧
    (∀ p, p ∈ (NFC_LoadTRecipeSteps (traced d) c (w, [])).2.2.2 → callInBounds p = true) ∧
    (∀ NumOfStructure p, p ∈ (NFC_LoadTRecipeStep (traced d) c NumOfStructure (w, [])).2.2.2 →
      callInBounds p = true) := by
  have h0 : ∀ p, p ∈ ((w, []) : σ × List Primitive).2 → callInBounds p = true :=
    fun p hp => absurd hp (by simp)
  refine ⟨fun s e hse he => ?_, fun i hi => ?_, fun depth s e => ?_, ?_, ?_, fun n => ?_⟩
  · rw [writeKonec_eq s e hse (by omega)]
    simp only [PAGESIZE_CLASSIC, PAGESIZE_ULTRALIGHT, OFFSETDATA_ULTRALIGHT]
    split <;> omega
  · have hb := (isUnitBlock_index i hi).2
    have hc := NFC_GetMifareClassicIndex_closed i (by omega)
    rw [show 1 + OFFSETDATA_CLASSIC = 2 from rfl, mifareClassicLoop_closed i (by omega)]
    rw [hc] at hb ⊢
    simp only [SIZE_T]
    omega
  · obtain ⟨r, hr⟩ := NFC_WriteStructRange_total (traced d) depth c s e (w, [])
    exact ⟨r, hr, (NFC_WriteStructRange_bounds (traced d) _ (traced_keepsInBounds d) _ c s e
      (w, []) r hr ⟨hN, h0⟩).2⟩
  · exact NFC_LoadTRecipeInfoStructure_bounds (traced d) _ (traced_keepsInBounds d) c (w, []) h0
  · exact NFC_LoadTRecipeSteps_bounds (traced d) _ (traced_keepsInBounds d) c (w, []) hN h0
  · exact NFC_LoadTRecipeStep_bounds (traced d) _ (traced_keepsInBounds d) c n (w, []) hN h0

theorem C35_physical_indexes_in_bounds_witness :
    (writeKonec 0 3 / PAGESIZE_CLASSIC ≤ 48 ∧
      writeKonec 0 3 / PAGESIZE_ULTRALIGHT + OFFSETDATA_ULTRALIGHT ≤ 203) ∧
    (∃ r, NFC_WriteStructRange (traced (idealTag [1, 2, 3, 4] 4 (fun _ => 170))) 2 sampleCard
        0 3 (blankTag, []) = some r ∧ ∀ p, p ∈ r.2.2.2 → callInBounds p = true) ∧
    (∀ p, p ∈ (NFC_LoadTRecipeSteps (traced (idealTag [1, 2, 3, 4] 4 (fun _ => 170)))
      sampleCard (blankTag, [])).2.2.2 → callInBounds p = true) :=
  ⟨(C35_physical_indexes_in_bounds (idealTag [1, 2, 3, 4] 4 (fun _ => 170)) sampleCard blankTag
      (by decide)).1 0 3 (by decide) (by decide),
    (C35_physical_indexes_in_bounds (idealTag [1, 2, 3, 4] 4 (fun _ => 170)) sampleCard blankTag
      (by decide)).2.2.1 0 0 3,
    (C35_physical_indexes_in_bounds (idealTag [1, 2, 3, 4] 4 (fun _ => 170)) sampleCard blankTag
      (by decide)).2.2.2.2.1⟩

/-! ### The UID length of a reachable record -/

theorem foldl_uidLength (f : TCardInfo → Nat → TCardInfo)
    (hf : ∀ c i, (f c i).sUidLength = c.sUidLength) (l : List Nat) :
    ∀ c, (l.foldl f c).sUidLength = c.sUidLength := by
  induction l with
  | nil => intro c; rfl
  | cons a t ih => intro c; rw [List.foldl_cons, ih, hf]

theorem zeroSteps_uidLength (c : TCardInfo) (n : Nat) :
    (zeroSteps c n).sUidLength = c.sUidLength := by
  unfold zeroSteps
  exact foldl_uidLength (fun c i => setStepByte c i 0) (fun _ _ => rfl) _ c

theorem copySteps_uidLength (src : Nat → Nat) (c : TCardInfo) (n : Nat) :
    (copySteps src c n).sUidLength = c.sUidLength := by
  unfold copySteps
  exact foldl_uidLength (fun c i => setStepByte c i (src i)) (fun _ _ => rfl) _ c

theorem alloc_uidLength {σ : Type} (d : Env σ) (c : TCardInfo) (w : σ) :
    (NFC_AllocTRecipeStepArray d c w).2.1.sUidLength = c.sUidLength := by
  unfold NFC_AllocTRecipeStepArray
  split_ifs
  · rfl
  · rfl
  · rcases d.malloc (TRecipeStep_Size * RecipeSteps c) w with ⟨_ | g, w1⟩ <;> rfl

theorem dealloc_uidLength (c : TCardInfo) :
    (NFC_DeAllocTRecipeStepArray c).2.sUidLength = c.sUidLength := by
  unfold NFC_DeAllocTRecipeStepArray
  split <;> rfl

theorem retry_alloc_uidLength {σ : Type} (d : Env σ) (after : TCardInfo → TCardInfo)
    (hafter : ∀ c, (after c).sUidLength = c.sUidLength) (n Error : Nat) (c : TCardInfo)
    (w : σ) (h : c.sUidLength ≤ 7) :
    (retry (fun Error => Error == 0) (NFC_AllocTRecipeStepArray d) after n Error c
      w).2.1.sUidLength ≤ 7 :=
  retry_inv (fun Error => Error == 0) (NFC_AllocTRecipeStepArray d) after
    (fun x => x.sUidLength ≤ 7)
    (fun x w hx => by
      show (NFC_AllocTRecipeStepArray d x w).2.1.sUidLength ≤ 7
      rw [alloc_uidLength]; exact hx)
    (fun x hx => by
      show (after x).sUidLength ≤ 7
      rw [hafter]; exact hx) n Error c w h

theorem loadInfo_uidLength {σ : Type} (d : Env σ) (c : TCardInfo) (w : σ)
    (h : c.sUidLength ≤ 7) : (NFC_LoadTRecipeInfoStructure d c w).2.1.sUidLength ≤ 7 :=
  NFC_LoadTRecipeInfoStructure_inv d (fun x => x.sUidLength ≤ 7) (fun _ _ _ hx => hx)
    (fun _ hx => hx) c w h

theorem loadSteps_uidLength {σ : Type} (d : Env σ) (c : TCardInfo) (w : σ)
    (h : c.sUidLength ≤ 7) : (NFC_LoadTRecipeSteps d c w).2.1.sUidLength ≤ 7 :=
  NFC_LoadTRecipeSteps_inv d (fun x => x.sUidLength ≤ 7) (fun _ _ _ hx => hx)
    (fun _ hx _ => hx) c w h

theorem loadStep_uidLength {σ : Type} (d : Env σ) (c : TCardInfo) (n : Nat) (w : σ)
    (h : c.sUidLength ≤ 7) : (NFC_LoadTRecipeStep d c n w).2.1.sUidLength ≤ 7 :=
  NFC_LoadTRecipeStep_inv d (fun x => x.sUidLength ≤ 7) (fun _ _ _ hx => hx)
    (fun _ hx _ => hx) c n w h

theorem changeSize_uidLength {σ : Type} (d : Env σ) (c : TCardInfo) (NewSize : Nat) (w : σ)
    (h : c.sUidLength ≤ 7) : (NFC_ChangeRecipeStepsSize d c NewSize w).2.1.sUidLength ≤ 7 := by
  unfold NFC_ChangeRecipeStepsSize
  split_ifs
  · exact h
  · exact h
  · rcases d.malloc (TRecipeStep_Size * NewSize) w with ⟨_ | g, w1⟩
    · exact h
    · show (NFC_DeAllocTRecipeStepArray c).2.sUidLength ≤ 7
      rw [dealloc_uidLength]; exact h
  · have hr := retry_alloc_uidLength d (fun c => (NFC_DeAllocTRecipeStepArray c).2)
      dealloc_uidLength MAXERRORREADING 0 (setRecipeSteps c NewSize) w h
    dsimp only
    split
    · rename_i c2 w2 heq
      rw [heq] at hr
      dsimp only
      rw [zeroSteps_uidLength]
      exact hr
    all_goals
      rename_i heq
      rw [heq] at hr
      exact hr

theorem addSteps_uidLength {σ : Type} (d : Env σ) (c : TCardInfo) (aRecipeStep : List Nat)
    (SizeOfRecipeSteps : Nat) (w : σ) (h : c.sUidLength ≤ 7) :
    (NFC_AddRecipeStepsToCardInfo d c aRecipeStep SizeOfRecipeSteps w).2.1.sUidLength ≤ 7 := by
  unfold NFC_AddRecipeStepsToCardInfo
  split
  · exact h
  split
  · exact h
  dsimp only
  have h1 : (if RecipeSteps c ≠ SizeOfRecipeSteps ∧ c.TRecipeStepArrayCreated = true then
      { (NFC_DeAllocTRecipeStepArray c).2 with TRecipeStepArrayCreated := false }
      else c).sUidLength ≤ 7 := by
    split
    · show (NFC_DeAllocTRecipeStepArray c).2.sUidLength ≤ 7
      rw [dealloc_uidLength]; exact h
    · exact h
  generalize (if RecipeSteps c ≠ SizeOfRecipeSteps ∧ c.TRecipeStepArrayCreated = true then
      { (NFC_DeAllocTRecipeStepArray c).2 with TRecipeStepArrayCreated := false }
      else c) = c1 at h1 ⊢
  split
  · have hr := retry_alloc_uidLength d id (fun _ => rfl) MAXERRORREADING 0
      (setRecipeSteps c1 SizeOfRecipeSteps) w h1
    split
    · rename_i c2 w2 heq
      rw [heq] at hr
      show (copySteps _ _ _).sUidLength ≤ 7
      rw [copySteps_uidLength]
      exact hr
    · rename_i heq
      rw [heq] at hr
      exact hr
  · show (copySteps _ _ _).sUidLength ≤ 7
    rw [copySteps_uidLength]
    exact h1

theorem create_uidLength {σ : Type} (d : Env σ) (c : TCardInfo) (aRecipeInfo : List Nat)
    (w : σ) : (NFC_CreateCardInfoFromRecipeInfo d c aRecipeInfo w).2.1.sUidLength ≤ 7 := by
  unfold NFC_CreateCardInfoFromRecipeInfo
  have h2 : ((List.range TRecipeInfo_Size).foldl
      (fun c i => setInfoByte c i (aRecipeInfo.getD i 0)) (NFC_InitTCardInfo c)).sUidLength
        ≤ 7 := by
    rw [foldl_uidLength (fun c i => setInfoByte c i (aRecipeInfo.getD i 0)) (fun _ _ => rfl)]
    exact Nat.le_refl 7
  dsimp only
  generalize (List.range TRecipeInfo_Size).foldl
    (fun c i => setInfoByte c i (aRecipeInfo.getD i 0)) (NFC_InitTCardInfo c) = c2 at h2 ⊢
  split
  · have hr := retry_alloc_uidLength d id (fun _ => rfl) MAXERRORREADING 0
      { c2 with TRecipeInfoLoaded := true } w h2
    split
    · rename_i c4 w4 heq
      rw [heq] at hr
      show (zeroSteps c4 _).sUidLength ≤ 7
      rw [zeroSteps_uidLength]
      exact hr
    · rename_i heq
      rw [heq] at hr
      exact hr
  · exact h2

theorem saveUID_uidLength (c : TCardInfo) (aUid : List Nat) (aUidLength : Nat)
    (h : aUidLength ≤ 7) : (NFC_saveUID c aUid aUidLength).2.sUidLength ≤ 7 := h

theorem copy_uidLength {σ : Type} (d : Env σ) (aCardInfoOrigin aCardInfoNew : TCardInfo)
    (w : σ) (hO : aCardInfoOrigin.sUidLength ≤ 7) (hN : aCardInfoNew.sUidLength ≤ 7) :
    (NFC_CopyTCardInfo d aCardInfoOrigin aCardInfoNew w).2.1.sUidLength ≤ 7 := by
  unfold NFC_CopyTCardInfo
  split
  · exact hN
  dsimp only
  generalize hn1 : ({ aCardInfoNew with
      sRecipeInfo := aCardInfoOrigin.sRecipeInfo
      sUidLength := aCardInfoOrigin.sUidLength
      sUid := (List.range aCardInfoOrigin.sUidLength).foldl
        (fun u i => u.set i (aCardInfoOrigin.sUid.getD i 0)) aCardInfoNew.sUid
      TRecipeInfoLoaded := aCardInfoOrigin.TRecipeInfoLoaded } : TCardInfo) = n1
  have h1 : n1.sUidLength ≤ 7 := by rw [← hn1]; exact hO
  have h2 : (if (aCardInfoNew.TRecipeStepArrayCreated || aCardInfoNew.sRecipeStep.isSome) = true then
      (NFC_DeAllocTRecipeStepArray n1).2 else n1).sUidLength ≤ 7 := by
    split
    · rw [dealloc_uidLength]; exact h1
    · exact h1
  generalize (if (aCardInfoNew.TRecipeStepArrayCreated || aCardInfoNew.sRecipeStep.isSome) = true then
      (NFC_DeAllocTRecipeStepArray n1).2 else n1) = n2 at h2 ⊢
  split
  · have hr := retry_alloc_uidLength d (fun c => (NFC_DeAllocTRecipeStepArray c).2)
      dealloc_uidLength MAXERRORREADING 0 n2 w h2
    split
    · rename_i n3 w3 heq
      rw [heq] at hr
      show (copySteps _ _ _).sUidLength ≤ 7
      rw [copySteps_uidLength]
      exact hr
    all_goals
      rename_i heq
      rw [heq] at hr
      exact hr
  · exact h2

theorem copySame_uidLength {σ : Type} (d : Env σ) (c : TCardInfo) (w : σ)
    (h : c.sUidLength ≤ 7) : (NFC_CopyTCardInfo_same d c w).2.1.sUidLength ≤ 7 := by
  unfold NFC_CopyTCardInfo_same
  split
  · exact h
  dsimp only
  generalize hn1 : ({ c with
      sUid := (List.range c.sUidLength).foldl (fun u i => u.set i (u.getD i 0)) c.sUid }
        : TCardInfo) = n1
  have h1 : n1.sUidLength ≤ 7 := by rw [← hn1]; exact h
  have h2 : (if (c.TRecipeStepArrayCreated || c.sRecipeStep.isSome) = true then
      (NFC_DeAllocTRecipeStepArray n1).2 else n1).sUidLength ≤ 7 := by
    split
    · rw [dealloc_uidLength]; exact h1
    · exact h1
  generalize (if (c.TRecipeStepArrayCreated || c.sRecipeStep.isSome) = true then
      (NFC_DeAllocTRecipeStepArray n1).2 else n1) = n2 at h2 ⊢
  split
  · have hr := retry_alloc_uidLength d (fun c => (NFC_DeAllocTRecipeStepArray c).2)
      dealloc_uidLength MAXERRORREADING 0 n2 w h2
    split
    · rename_i n3 w3 heq
      rw [heq] at hr
      dsimp only
      rw [foldl_uidLength (fun c i => setStepByte c i (stepByte c i)) (fun _ _ => rfl)]
      exact hr
    all_goals
      rename_i heq
      rw [heq] at hr
      exact hr
  · exact h2

theorem loadAll_uidLength {σ : Type} (d : Env σ) (c : TCardInfo) (w : σ)
    (h : c.sUidLength ≤ 7) : (NFC_LoadAllData d c w).2.1.sUidLength ≤ 7 := by
  unfold NFC_LoadAllData
  have h0 : (if c.TRecipeStepArrayCreated then (NFC_DeAllocTRecipeStepArray c).2
      else c).sUidLength ≤ 7 := by
    split
    · rw [dealloc_uidLength]; exact h
    · exact h
  dsimp only
  generalize (if c.TRecipeStepArrayCreated then (NFC_DeAllocTRecipeStepArray c).2 else c)
    = c0 at h0 ⊢
  have h1 := retry_inv (fun Error => Error == 0)
    (fun c w => NFC_LoadTRecipeInfoStructure d (NFC_InitTCardInfo c) w) id
    (fun x => x.sUidLength ≤ 7)
    (fun x w _ => loadInfo_uidLength d (NFC_InitTCardInfo x) w (Nat.le_refl 7))
    (fun x hx => hx) MAXERRORREADING 0 c0 w h0
  revert h1
  generalize retry (fun Error => Error == 0)
    (fun c w => NFC_LoadTRecipeInfoStructure d (NFC_InitTCardInfo c) w) id
    MAXERRORREADING 0 c0 w = r1
  intro h1
  split
  · exact h1
  · exact h1
  · rename_i c1 w1
    have h2 := retry_alloc_uidLength d (fun c => (NFC_DeAllocTRecipeStepArray c).2)
      dealloc_uidLength MAXERRORREADING 0 c1 w1 h1
    revert h2
    generalize retry (fun Error => Error == 0) (NFC_AllocTRecipeStepArray d)
      (fun c => (NFC_DeAllocTRecipeStepArray c).2) MAXERRORREADING 0 c1 w1 = r2
    intro h2
    split
    · exact h2
    · exact h2
    · rename_i c2 w2
      have h3 := retry_inv (fun Error => Error == 0) (NFC_LoadTRecipeSteps d) id
        (fun x => x.sUidLength ≤ 7) (fun x w hx => loadSteps_uidLength d x w hx)
        (fun x hx => hx) MAXERRORREADING 0 c2 w2 h2
      revert h3
      generalize retry (fun Error => Error == 0) (NFC_LoadTRecipeSteps d) id
        MAXERRORREADING 0 c2 w2 = r3
      intro h3
      split <;> exact h3
    · exact h2
  · exact h1

/-- Every reachable record has a UID length of at most 7, so the loop of
`NFC_CopyTCardInfo` over the first `sUidLength` UID bytes stays inside `sUid`. -/
theorem reachable_uidLength (guard : TCardInfo → Prop) (c : TCardInfo)
    (h : Reachable guard c) : c.sUidLength ≤ 7 := by
  induction h with
  | init c h => exact Nat.le_refl 7
  | create d w c aRecipeInfo h => exact create_uidLength d c aRecipeInfo w
  | saveUID c aUid aUidLength h _ _ => exact h
  | loadInfo d w c _ _ ih => exact loadInfo_uidLength d c w ih
  | alloc d w c _ ih => rw [alloc_uidLength]; exact ih
  | dealloc c _ ih => rw [dealloc_uidLength]; exact ih
  | loadSteps d w c _ ih => exact loadSteps_uidLength d c w ih
  | loadStep d w c NumOfStructure _ ih => exact loadStep_uidLength d c NumOfStructure w ih
  | loadAll d w c _ ih => exact loadAll_uidLength d c w ih
  | changeSize d w c NewSize h _ ih => exact changeSize_uidLength d c NewSize w ih
  | addSteps d w c aRecipeStep SizeOfRecipeSteps _ ih =>
    exact addSteps_uidLength d c aRecipeStep SizeOfRecipeSteps w ih
  | copy d w aCardInfoOrigin aCardInfoNew _ _ ihO ihN =>
    exact copy_uidLength d aCardInfoOrigin aCardInfoNew w ihO ihN
  | copySame d w c _ ih => exact copySame_uidLength d c w ih
  | writeStructRange d w c depth s e r _ hr ih =>
    rw [(NFC_WriteStructRange_frame d depth c s e w r hr).2.2.1]; exact ih
  | writeStruct d w c depth s r _ hr ih =>
    rw [(NFC_WriteStruct_frame d depth c s w r hr).2.2.1]; exact ih
  | writeAllData d w c depth r _ hr ih =>
    rw [(NFC_WriteAllData_frame d depth c w r hr).2.2.1]; exact ih
  | writeCheck d w c depth s e r _ hr ih =>
    rw [(NFC_WriteCheck_frame d depth c s e w r hr).2.2.1]; exact ih
